import Mathlib

/-!
# Ray-stream dispatch layer of embree (`bvh_intersector_stream_filters.cpp`)

A shallow embedding of the stream filters `RayStream::filterAOS`,
`RayStream::filterAOP`, `RayStream::filterSOA`, `RayStream::filterSOP`,
`RayStream::filterSOACoherent` and `RayStream::filterSOPCoherent`, together
with the SIMD helpers of `vfloat8_avx.h` they rely on, and of the class
`parallel_partition` (`parallel_partition.h`), with theorems about their
control flow, their engine calls and their effect on the caller's data.

Conventions of the embedding:

* a `float` is its 32-bit IEEE-754 pattern; comparisons are the ordered,
  non-signalling predicates (`_CMP_LT_OQ`, `_CMP_LE_OQ`, `_CMP_GE_OQ`) that
  `vfloat8_avx.h` uses, `min`/`max` are `_mm256_min_ps`/`_mm256_max_ps`;
* a SIMD register is a function from the lane index to the lane value, only
  lanes `k < VSIZEX` are meaningful;
* 32-bit integers are their bit patterns (`Nat` below `2^32`); `size_t`
  values are natural numbers (a stream of `N` rays lies in memory, so the loop
  counters cannot wrap), the casts `int(..)` to 32 bits are explicit; the
  counter of `filterAOS`, whose stream can hold any number of rays when the
  stride is 0, wraps at the number of `size_t` values of the target (`2^32` or
  `2^64`), and the index arithmetic of `parallel_partition` wraps at `2^64`;
* `parallel_partition<T,BLOCK_SIZE>` is embedded for `T = int` and one thread,
  with `BLOCK_SIZE` a parameter;
* the traversal engine is a parameter (`Scene`), every call to it is logged;
* loops with a stride carry a bound on the number of iterations (`fuel`), and
  the theorems show that a bound of `N` iterations is never hit;
* the code is the one compiled by default: the `#if 1` branches, without
  `EMBREE_IGNORE_INVALID_RAYS`.
-/

set_option autoImplicit false

namespace Embree

/-! ## Scalar floats -/

/-- A single-precision float, given by its 32-bit pattern. -/
structure float where
  bits : Nat
deriving DecidableEq, Repr

namespace float

/-- The 31 bits below the sign bit (exponent and mantissa). -/
def magnitude (a : float) : Nat := a.bits % 2147483648

/-- The sign bit. -/
def signBit (a : float) : Bool := a.bits / 2147483648 % 2 == 1

/-- NaN: exponent all ones and a non-zero mantissa. -/
def isNaN (a : float) : Bool := decide (2139095040 < a.magnitude)

/-- The position of a non-NaN float in the numeric order (both zeros at 0). -/
def key (a : float) : Int :=
  if a.signBit then -(a.magnitude : Int) else (a.magnitude : Int)

/-- The constant `zero` (+0.0f). -/
def zero : float := ⟨0⟩
/-- The constant `pos_inf`. -/
def pos_inf : float := ⟨2139095040⟩
/-- The constant `neg_inf`. -/
def neg_inf : float := ⟨4286578688⟩
/-- A quiet NaN. -/
def nan : float := ⟨2143289344⟩
/-- The value 1.0f. -/
def one : float := ⟨1065353216⟩

/-- One lane of `_mm256_cmp_ps(a, b, _CMP_LT_OQ)`. -/
def lt (a b : float) : Bool := !a.isNaN && !b.isNaN && decide (a.key < b.key)

/-- One lane of `_mm256_cmp_ps(a, b, _CMP_LE_OQ)`. -/
def le (a b : float) : Bool := !a.isNaN && !b.isNaN && decide (a.key ≤ b.key)

/-- One lane of `_mm256_cmp_ps(a, b, _CMP_GE_OQ)`. -/
def ge (a b : float) : Bool := !a.isNaN && !b.isNaN && decide (b.key ≤ a.key)

/-- One lane of `_mm256_cmp_ps(a, b, _CMP_GT_OQ)`. -/
def gt (a b : float) : Bool := !a.isNaN && !b.isNaN && decide (b.key < a.key)

/-- One lane of `_mm256_min_ps(a, b)`: `a < b ? a : b`, so the second operand
is returned when the operands are unordered or both zero. -/
def min (a b : float) : float := if lt a b then a else b

/-- One lane of `_mm256_max_ps(a, b)`: `a > b ? a : b`. -/
def max (a b : float) : float := if gt a b then a else b

end float

/-! ## SIMD registers -/

/-- A `vfloatx`: lane index to float. -/
abbrev vfloatx := Nat → float
/-- A `vboolx`: lane index to mask bit. -/
abbrev vboolx := Nat → Bool
/-- A `vintx`: lane index to 32-bit pattern. -/
abbrev vintx := Nat → Nat

/-- Target constants that the translation unit takes from headers: the
packet width `VSIZEX` and `sizeof(size_t)`. -/
structure Target where
  VSIZEX : Nat
  sizeof_size_t : Nat
deriving DecidableEq, Repr

/-- The AVX target on a 64-bit platform: 8 lanes, 8-byte `size_t`. -/
def avx64 : Target := ⟨8, 8⟩

/-- The SSE target on a 64-bit platform: 4 lanes. -/
def sse64 : Target := ⟨4, 8⟩

/-- Broadcast constructor `vfloatx(a)`. -/
def vfloatx.broadcast (a : float) : vfloatx := fun _ => a

/-- Vector `min(a, b)`. -/
def vmin (a b : vfloatx) : vfloatx := fun k => float.min (a k) (b k)
/-- Vector `max(a, b)`. -/
def vmax (a b : vfloatx) : vfloatx := fun k => float.max (a k) (b k)
/-- Vector `a < b`. -/
def vlt (a b : vfloatx) : vboolx := fun k => float.lt (a k) (b k)
/-- Vector `a <= b`. -/
def vle (a b : vfloatx) : vboolx := fun k => float.le (a k) (b k)
/-- Vector `a >= b`. -/
def vge (a b : vfloatx) : vboolx := fun k => float.ge (a k) (b k)
/-- Mask `a & b`. -/
def vand (a b : vboolx) : vboolx := fun k => a k && b k
/-- Reduction `all(m)` over the `VSIZEX` lanes. -/
def all (T : Target) (m : vboolx) : Bool := (List.range T.VSIZEX).all m
/-- Blend `select(m, t, f)` on masks. -/
def vselect (m t f : vboolx) : vboolx := fun k => if m k then t k else f k

/-! ## Rays and packets -/

/-- `RTC_INVALID_GEOMETRY_ID`, `((unsigned)-1)`. -/
def RTC_INVALID_GEOMETRY_ID : Nat := 4294967295

/-- Three floats. -/
structure Vec3f where
  x : float
  y : float
  z : float
deriving DecidableEq, Repr

/-- The scalar `Ray` record. -/
structure Ray where
  org : Vec3f
  dir : Vec3f
  tnear : float
  tfar : float
  time : float
  mask : Nat
  Ng : Vec3f
  u : float
  v : float
  geomID : Nat
  primID : Nat
  instID : Nat
deriving DecidableEq, Repr

/-- Three float registers. -/
structure Vec3vfx where
  x : vfloatx
  y : vfloatx
  z : vfloatx

/-- The packet `RayK<VSIZEX>`: one register per ray field. -/
structure RayK where
  org : Vec3vfx
  dir : Vec3vfx
  tnear : vfloatx
  tfar : vfloatx
  time : vfloatx
  mask : vintx
  Ng : Vec3vfx
  u : vfloatx
  v : vfloatx
  geomID : vintx
  primID : vintx
  instID : vintx

/-- Lane `k` of a packet, read as a scalar ray. -/
def RayK.lane (r : RayK) (k : Nat) : Ray :=
  { org := ⟨r.org.x k, r.org.y k, r.org.z k⟩
    dir := ⟨r.dir.x k, r.dir.y k, r.dir.z k⟩
    tnear := r.tnear k, tfar := r.tfar k, time := r.time k, mask := r.mask k
    Ng := ⟨r.Ng.x k, r.Ng.y k, r.Ng.z k⟩
    u := r.u k, v := r.v k
    geomID := r.geomID k, primID := r.primID k, instID := r.instID k }

/-- The packet whose every lane is the ray `a`. -/
def RayK.broadcast (a : Ray) : RayK :=
  { org := ⟨fun _ => a.org.x, fun _ => a.org.y, fun _ => a.org.z⟩
    dir := ⟨fun _ => a.dir.x, fun _ => a.dir.y, fun _ => a.dir.z⟩
    tnear := fun _ => a.tnear, tfar := fun _ => a.tfar, time := fun _ => a.time
    mask := fun _ => a.mask
    Ng := ⟨fun _ => a.Ng.x, fun _ => a.Ng.y, fun _ => a.Ng.z⟩
    u := fun _ => a.u, v := fun _ => a.v
    geomID := fun _ => a.geomID, primID := fun _ => a.primID, instID := fun _ => a.instID }

/-- Element assignment `v[k] = a` on a register. -/
def setLane {α : Type} (v : Nat → α) (k : Nat) (a : α) : Nat → α :=
  fun j => if j = k then a else v j

/-! ## The traversal engine and its context -/

/-- The part of `IntersectContext` the filters touch: the user's coherent flag
and the input-layout hint written by `setInputSOA`. -/
structure IntersectContext where
  coherent : Bool
  inputSOA : Option Nat
deriving DecidableEq, Repr

/-- Context update `context->setInputSOA(width)`. -/
def IntersectContext.setInputSOA (c : IntersectContext) (width : Nat) : IntersectContext :=
  { c with inputSOA := some width }

/-- The scene as seen by the filters: two capability flags and the
engine entry points; a single-packet call returns the packet it leaves behind,
a batched call takes the packets behind its pointer array and returns what it
leaves behind in each of them. -/
structure Scene where
  isRobust : Bool
  validIsecN : Bool
  intersect : vboolx → RayK → IntersectContext → RayK
  occluded : vboolx → RayK → IntersectContext → RayK
  intersectN : List RayK → Nat → IntersectContext → List RayK
  occludedN : List RayK → Nat → IntersectContext → List RayK

/-- One call of the traversal engine, as logged by the embedding. The batched
calls carry the packet pointers (as packet indices) and the lane count. -/
inductive EngineCall where
  | intersect (valid : vboolx) (ray : RayK) (context : IntersectContext)
  | occluded (valid : vboolx) (ray : RayK) (context : IntersectContext)
  | intersectN (rays_ptr : List Nat) (size : Nat) (context : IntersectContext)
  | occludedN (rays_ptr : List Nat) (size : Nat) (context : IntersectContext)

/-- Whether a logged call is a batched one. -/
def EngineCall.isBatched : EngineCall → Bool
  | .intersectN _ _ _ => true
  | .occludedN _ _ _ => true
  | _ => false

/-- The packet pointers of a batched call (none for a single-packet call). -/
def EngineCall.packets : EngineCall → List Nat
  | .intersectN p _ _ => p
  | .occludedN p _ _ => p
  | _ => []

/-- The lane count of a batched call (`VSIZEX`-wide single calls count 0 here). -/
def EngineCall.size : EngineCall → Nat
  | .intersectN _ n _ => n
  | .occludedN _ n _ => n
  | _ => 0

/-- The constant `MAX_RAYS_PER_OCTANT = 8*sizeof(size_t)`. -/
def MAX_RAYS_PER_OCTANT (T : Target) : Nat := 8 * T.sizeof_size_t

/-- The constant `MAX_COHERENT_RAY_PACKETS = MAX_RAYS_PER_OCTANT / VSIZEX`. -/
def MAX_COHERENT_RAY_PACKETS (T : Target) : Nat := MAX_RAYS_PER_OCTANT T / T.VSIZEX

/-- An engine that never finds anything: every call leaves the packets as they are. -/
def idleScene (isRobust validIsecN : Bool) : Scene :=
  { isRobust := isRobust, validIsecN := validIsecN
    intersect := fun _ r _ => r, occluded := fun _ r _ => r
    intersectN := fun rs _ _ => rs, occludedN := fun rs _ _ => rs }

/-! ## `RayStream::filterSOACoherent` -/

/-- The running bounds of the common-octant check. -/
structure OctantBounds where
  min_x : vfloatx
  max_x : vfloatx
  min_y : vfloatx
  max_y : vfloatx
  min_z : vfloatx
  max_z : vfloatx
  all_active : vboolx

/-- The initial values: `min_*(pos_inf)`, `max_*(neg_inf)`, `all_active(true)`. -/
def OctantBounds.init : OctantBounds :=
  { min_x := vfloatx.broadcast float.pos_inf, max_x := vfloatx.broadcast float.neg_inf
    min_y := vfloatx.broadcast float.pos_inf, max_y := vfloatx.broadcast float.neg_inf
    min_z := vfloatx.broadcast float.pos_inf, max_z := vfloatx.broadcast float.neg_inf
    all_active := fun _ => true }

/-- The body of the classification loop of `filterSOACoherent` for one packet. -/
def OctantBounds.addPacket (b : OctantBounds) (ray : RayK) : OctantBounds :=
  { min_x := vmin b.min_x ray.dir.x
    min_y := vmin b.min_y ray.dir.y
    min_z := vmin b.min_z ray.dir.z
    max_x := vmax b.max_x ray.dir.x
    max_y := vmax b.max_y ray.dir.y
    max_z := vmax b.max_z ray.dir.z
    all_active := vand b.all_active (vle ray.tnear ray.tfar) }

/-- The flag `commonOctant` computed from the bounds. -/
def OctantBounds.commonOctant (T : Target) (b : OctantBounds) : Bool :=
  (all T (vlt b.max_x (vfloatx.broadcast float.zero)) || all T (vge b.min_x (vfloatx.broadcast float.zero))) &&
  (all T (vlt b.max_y (vfloatx.broadcast float.zero)) || all T (vge b.min_y (vfloatx.broadcast float.zero))) &&
  (all T (vlt b.max_z (vfloatx.broadcast float.zero)) || all T (vge b.min_z (vfloatx.broadcast float.zero)))

/-- The classification loop `for (s = 0; s < streams; s++)` over the packets
`rayData + s*stream_offset`, the packet of stream `s` being `rayData s`
(packets of different streams do not overlap). -/
def classifySOA (rayData : Nat → RayK) (streams : Nat) : OctantBounds :=
  (List.range streams).foldl (fun b s => b.addPacket (rayData s)) OctantBounds.init

/-- The final value of `chunkFallback` in `filterSOACoherent`. -/
def chunkFallbackSOA (T : Target) (scene : Scene) (rayData : Nat → RayK) (streams : Nat) : Bool :=
  let chunkFallback := scene.isRobust || !scene.validIsecN
  if !chunkFallback then
    let b := classifySOA rayData streams
    chunkFallback || (!b.commonOctant T || !all T b.all_active)
  else chunkFallback

/-- What a run of an SOA filter leaves behind: the packets, the context, the
engine calls in call order, and the indices at which `rays_ptr` was written. -/
structure SOAResult where
  rayData : Nat → RayK
  context : IntersectContext
  calls : List EngineCall
  writes : List Nat

/-- One iteration of the chunk loop: a single-packet call on packet `s` with
the mask `ray.tnear <= ray.tfar`. -/
def chunkStepSOA (scene : Scene) (intersect : Bool) (st : SOAResult) (s : Nat) : SOAResult :=
  let ray := st.rayData s
  let valid := vle ray.tnear ray.tfar
  if intersect then
    { st with rayData := setLane st.rayData s (scene.intersect valid ray st.context)
              calls := st.calls ++ [EngineCall.intersect valid ray st.context] }
  else
    { st with rayData := setLane st.rayData s (scene.occluded valid ray st.context)
              calls := st.calls ++ [EngineCall.occluded valid ray st.context] }

/-- The chunk path of `filterSOACoherent` (also the fast path of `filterSOA`). -/
def chunkPathSOA (scene : Scene) (rayData : Nat → RayK) (streams : Nat)
    (context : IntersectContext) (intersect : Bool) : SOAResult :=
  (List.range streams).foldl (chunkStepSOA scene intersect) ⟨rayData, context, [], []⟩

/-- The accumulator of the coherent path of `filterSOACoherent`: the packets,
the local array `rays_ptr` (a pointer to packet `s` is the number `s`), the
counter `numStreams`, and the logs of engine calls and of the indices at which
`rays_ptr` was written. -/
structure BatchState where
  rayData : Nat → RayK
  rays_ptr : Nat → Nat
  numStreams : Nat
  calls : List EngineCall
  writes : List Nat

/-- Store the packets a batched call returns behind the pointers it was given. -/
def storePackets (rayData : Nat → RayK) : List Nat → List RayK → Nat → RayK
  | p :: ps, r :: rs => storePackets (setLane rayData p r) ps rs
  | _, _ => rayData

/-- The call `intersectN/occludedN((RTCRay**)rays_ptr, numStreams*VSIZEX, context)`. -/
def traceStream (T : Target) (scene : Scene) (context : IntersectContext) (intersect : Bool)
    (st : BatchState) : BatchState :=
  let ptrs := (List.range st.numStreams).map st.rays_ptr
  let size := st.numStreams * T.VSIZEX
  if intersect then
    { st with rayData := storePackets st.rayData ptrs (scene.intersectN (ptrs.map st.rayData) size context)
              calls := st.calls ++ [EngineCall.intersectN ptrs size context] }
  else
    { st with rayData := storePackets st.rayData ptrs (scene.occludedN (ptrs.map st.rayData) size context)
              calls := st.calls ++ [EngineCall.occludedN ptrs size context] }

/-- One iteration of the accumulation loop: `rays_ptr[numStreams++] = &ray`,
then a flush when `numStreams == MAX_COHERENT_RAY_PACKETS`. -/
def coherentStepSOA (T : Target) (scene : Scene) (context : IntersectContext) (intersect : Bool)
    (st : BatchState) (s : Nat) : BatchState :=
  let st1 : BatchState :=
    { st with rays_ptr := setLane st.rays_ptr st.numStreams s
              writes := st.writes ++ [st.numStreams]
              numStreams := st.numStreams + 1 }
  if st1.numStreams = MAX_COHERENT_RAY_PACKETS T then
    { traceStream T scene context intersect st1 with numStreams := 0 }
  else st1

/-- The accumulation loop of the coherent path over all `streams` packets. -/
def coherentLoopSOA (T : Target) (scene : Scene) (context : IntersectContext) (intersect : Bool)
    (rayData : Nat → RayK) (streams : Nat) : BatchState :=
  (List.range streams).foldl (coherentStepSOA T scene context intersect)
    ⟨rayData, fun _ => 0, 0, [], []⟩

/-- The coherent-batch path of `filterSOACoherent`: set the input layout to
SOA, accumulate, flush the remaining streams. -/
def coherentPathSOA (T : Target) (scene : Scene) (rayData : Nat → RayK) (streams : Nat)
    (context : IntersectContext) (intersect : Bool) : SOAResult :=
  let context1 := context.setInputSOA T.VSIZEX
  let st := coherentLoopSOA T scene context1 intersect rayData streams
  let st1 := if st.numStreams ≠ 0 then traceStream T scene context1 intersect st else st
  ⟨st1.rayData, context1, st1.calls, st1.writes⟩

/-- The function `RayStream::filterSOACoherent`. -/
def filterSOACoherent (T : Target) (scene : Scene) (rayData : Nat → RayK) (streams : Nat)
    (context : IntersectContext) (intersect : Bool) : SOAResult :=
  if chunkFallbackSOA T scene rayData streams then
    chunkPathSOA scene rayData streams context intersect
  else
    coherentPathSOA T scene rayData streams context intersect

/-! ## `RayStream::filterAOP` -/

/-- The scalar fields of a `Ray` record, one per assignable member. -/
inductive RayField where
  | org_x | org_y | org_z | dir_x | dir_y | dir_z
  | tnear | tfar | time | mask
  | Ng_x | Ng_y | Ng_z | u | v
  | geomID | primID | instID
deriving DecidableEq, Repr

/-- The record after the assignment `ray_k->field = bits`. -/
def Ray.store (r : Ray) (f : RayField) (bits : Nat) : Ray :=
  match f with
  | .org_x => { r with org := { r.org with x := ⟨bits⟩ } }
  | .org_y => { r with org := { r.org with y := ⟨bits⟩ } }
  | .org_z => { r with org := { r.org with z := ⟨bits⟩ } }
  | .dir_x => { r with dir := { r.dir with x := ⟨bits⟩ } }
  | .dir_y => { r with dir := { r.dir with y := ⟨bits⟩ } }
  | .dir_z => { r with dir := { r.dir with z := ⟨bits⟩ } }
  | .tnear => { r with tnear := ⟨bits⟩ }
  | .tfar => { r with tfar := ⟨bits⟩ }
  | .time => { r with time := ⟨bits⟩ }
  | .mask => { r with mask := bits }
  | .Ng_x => { r with Ng := { r.Ng with x := ⟨bits⟩ } }
  | .Ng_y => { r with Ng := { r.Ng with y := ⟨bits⟩ } }
  | .Ng_z => { r with Ng := { r.Ng with z := ⟨bits⟩ } }
  | .u => { r with u := ⟨bits⟩ }
  | .v => { r with v := ⟨bits⟩ }
  | .geomID => { r with geomID := bits }
  | .primID => { r with primID := bits }
  | .instID => { r with instID := bits }

/-- One assignment to a member of a caller's record: the field and the value. -/
structure Store where
  field : RayField
  bits : Nat
deriving DecidableEq, Repr

/-- The record after a sequence of assignments, in program order. -/
def Ray.storeAll (r : Ray) (ss : List Store) : Ray :=
  ss.foldl (fun r s => r.store s.field s.bits) r

/-- What a run of `filterAOP` leaves behind: the records behind the pointers
`rayN[idx]`, the engine calls, the indices `idx` dereferenced by the gather
loop and by the scatter loop, and every assignment to a record as the pair of
the record's index and the store, all in program order. -/
structure AOPState where
  rayN : Nat → Ray
  calls : List EngineCall
  gathers : List Nat
  scatters : List Nat
  stores : List (Nat × Store)

/-- The body of the gather loop for lane `k`: eleven fields of `*ray_k` are
copied into lane `k` of the packet. -/
def gatherLane (ray : RayK) (k : Nat) (ray_k : Ray) : RayK :=
  { ray with
    org := ⟨setLane ray.org.x k ray_k.org.x, setLane ray.org.y k ray_k.org.y,
            setLane ray.org.z k ray_k.org.z⟩
    dir := ⟨setLane ray.dir.x k ray_k.dir.x, setLane ray.dir.y k ray_k.dir.y,
            setLane ray.dir.z k ray_k.dir.z⟩
    tnear := setLane ray.tnear k ray_k.tnear
    tfar := setLane ray.tfar k ray_k.tfar
    time := setLane ray.time k ray_k.time
    mask := setLane ray.mask k ray_k.mask
    instID := setLane ray.instID k ray_k.instID }

/-- The gather loop `for (k = 0; k < n; k++)` reading `rayN[i + k]`, started on
the uninitialised packet `ray`; returns the packet and the indices read. -/
def gatherAOP (rayN : Nat → Ray) (i n : Nat) (ray : RayK) : RayK × List Nat :=
  (List.range n).foldl
    (fun acc k => (gatherLane acc.1 k (rayN (i + k)), acc.2 ++ [i + k])) (ray, [])

/-- The assignments of the scatter loop body for lane `k`: `geomID` always, the
other hit fields when `intersect` and the lane's `geomID` is a valid one. -/
def scatterStores (intersect : Bool) (ray : RayK) (k : Nat) : List Store :=
  ⟨RayField.geomID, ray.geomID k⟩ ::
    (if intersect && ray.geomID k != RTC_INVALID_GEOMETRY_ID then
      [⟨RayField.tfar, (ray.tfar k).bits⟩,
       ⟨RayField.Ng_x, (ray.Ng.x k).bits⟩,
       ⟨RayField.Ng_y, (ray.Ng.y k).bits⟩,
       ⟨RayField.Ng_z, (ray.Ng.z k).bits⟩,
       ⟨RayField.u, (ray.u k).bits⟩,
       ⟨RayField.v, (ray.v k).bits⟩,
       ⟨RayField.primID, ray.primID k⟩,
       ⟨RayField.instID, ray.instID k⟩]
    else [])

/-- The body of the scatter loop for lane `k` of the chunk starting at `i`. -/
def scatterLane (intersect : Bool) (ray : RayK) (i : Nat) (st : AOPState) (k : Nat) : AOPState :=
  let ss := scatterStores intersect ray k
  { st with rayN := setLane st.rayN (i + k) ((st.rayN (i + k)).storeAll ss)
            scatters := st.scatters ++ [i + k]
            stores := st.stores ++ ss.map (fun s => (i + k, s)) }

/-- The mask `vintx(step) < vintx(int(n))` for `n <= VSIZEX`. -/
def stepMask (n : Nat) : vboolx := fun k => decide (k < n)

/-- The packet handed to the engine for the chunk starting at `i`: the
gathered lanes on top of the uninitialised packet, `geomID` reset. -/
def packetAOP (T : Target) (rayN : Nat → Ray) (N i : Nat) (uninit : RayK) : RayK :=
  { (gatherAOP rayN i (min (N - i) T.VSIZEX) uninit).1 with
    geomID := fun _ => RTC_INVALID_GEOMETRY_ID }

/-- The mask handed to the engine for the chunk starting at `i`. -/
def validAOP (T : Target) (rayN : Nat → Ray) (N i : Nat) (uninit : RayK) : vboolx :=
  vand (stepMask (min (N - i) T.VSIZEX))
    (vle (packetAOP T rayN N i uninit).tnear (packetAOP T rayN N i uninit).tfar)

/-- One iteration of the chunk loop of `filterAOP`, for the chunk starting at
`i`; `uninit` is the content of the uninitialised local packet. -/
def chunkAOP (T : Target) (scene : Scene) (context : IntersectContext) (intersect : Bool)
    (N : Nat) (uninit : RayK) (i : Nat) (st : AOPState) : AOPState :=
  let n := min (N - i) T.VSIZEX
  let ray := packetAOP T st.rayN N i uninit
  let valid := validAOP T st.rayN N i uninit
  let st1 : AOPState :=
    { st with gathers := st.gathers ++ (gatherAOP st.rayN i n uninit).2
              calls := st.calls ++
                [if intersect then EngineCall.intersect valid ray context
                 else EngineCall.occluded valid ray context] }
  let ray1 := if intersect then scene.intersect valid ray context
              else scene.occluded valid ray context
  (List.range n).foldl (scatterLane intersect ray1 i) st1

/-- The loop `for (i = 0; i < N; i += VSIZEX)`, with a bound on the number of
iterations: `none` when the bound is hit before the loop condition fails. -/
def loopAOP (T : Target) (scene : Scene) (context : IntersectContext) (intersect : Bool)
    (N : Nat) (uninit : Nat → RayK) : Nat → Nat → AOPState → Option AOPState
  | 0, i, st => if i < N then none else some st
  | fuel + 1, i, st =>
    if i < N then
      loopAOP T scene context intersect N uninit fuel (i + T.VSIZEX)
        (chunkAOP T scene context intersect N (uninit i) i st)
    else some st

/-- The function `RayStream::filterAOP` on the records `rayN[0..N)`: record
`idx` is the one behind the pointer `rayN[idx]`, the pointers being pairwise
distinct; `uninit i` is what the uninitialised local packet holds in the chunk
starting at `i`. -/
def filterAOP (T : Target) (scene : Scene) (rayN : Nat → Ray) (N : Nat)
    (context : IntersectContext) (intersect : Bool) (uninit : Nat → RayK) (fuel : Nat) :
    Option AOPState :=
  loopAOP T scene context intersect N uninit fuel 0 ⟨rayN, [], [], [], []⟩

/-! ## `RayStream::filterSOPCoherent` -/

/-- The cast `int(n)` of a `size_t` (and the value of a 32-bit lane read as a
signed integer): the low 32 bits in two's complement. -/
def toInt32 (n : Nat) : Int :=
  if n % 4294967296 < 2147483648 then (n % 4294967296 : Nat) else (n % 4294967296 : Nat) - 4294967296

/-- The in-bounds mask `vintx(int(base)) + vintx(step) < vintx(int(N))`: a
32-bit addition and a signed 32-bit comparison per lane. -/
def inBounds (base N : Nat) : vboolx :=
  fun k => decide (toInt32 (base + k) < toInt32 N)

/-- The accessors of `RayStreamSOP` the filter calls, over the caller's stream
memory `σ`; they are declared in a header outside this translation unit and
are parameters of the embedding. -/
structure RayStreamSOP (σ : Type) where
  getDirByOffset : σ → vboolx → Nat → Vec3vfx
  isValidByOffset : σ → vboolx → Nat → vboolx
  getRayByOffset : σ → vboolx → Nat → RayK
  setHitByOffset : σ → vboolx → Nat → RayK → Bool → σ

/-- One packet conversion: the lane mask and the byte offset passed to the
accessor, and the slot `packetID` of the local arrays (slot 0 stands for the
single local packet of the chunk path). -/
structure PacketAccess where
  valid : vboolx
  offset : Nat
  packetID : Nat

/-- The state of `filterSOPCoherent`: the caller's stream, the local arrays
`rays` and `rays_ptr` (pointers as slot numbers), the logs of conversions
to SOA, engine calls and conversions back, and the object behind the pointer
`context`, which `setInputSOA` writes. -/
structure SOPState (σ : Type) where
  rayN : σ
  rays : Nat → RayK
  rays_ptr : Nat → Nat
  gathers : List PacketAccess
  calls : List EngineCall
  scatters : List PacketAccess
  context : IntersectContext

/-- The loop `for (x = start; x < stop; x += step) body`, with a bound on the
number of iterations: `none` when the bound is hit before the loop condition
fails or when the body fails. -/
def forStride {σ : Type} (stop step : Nat) (body : Nat → σ → Option σ) :
    Nat → Nat → σ → Option σ
  | 0, x, s => if x < stop then none else some s
  | fuel + 1, x, s =>
    if x < stop then (body x s).bind (forStride stop step body fuel (x + step)) else some s

/-- The body of the classification loop of `filterSOPCoherent` for the packet
starting at ray `i`. -/
def classifyStepSOP {σ : Type} (rs : RayStreamSOP σ) (rayN : σ) (N i : Nat)
    (b : OctantBounds) : OctantBounds :=
  let valid := inBounds i N
  let offset := 4 * i
  let dir := rs.getDirByOffset rayN valid offset
  let active := rs.isValidByOffset rayN valid offset
  { min_x := vmin b.min_x dir.x
    min_y := vmin b.min_y dir.y
    min_z := vmin b.min_z dir.z
    max_x := vmax b.max_x dir.x
    max_y := vmax b.max_y dir.y
    max_z := vmax b.max_z dir.z
    all_active := vselect valid (vand b.all_active active) b.all_active }

/-- The final value of `chunkFallback` in `filterSOPCoherent`. -/
def chunkFallbackSOP {σ : Type} (T : Target) (scene : Scene) (rs : RayStreamSOP σ) (rayN : σ)
    (N fuel : Nat) : Option Bool :=
  let chunkFallback := scene.isRobust || !scene.validIsecN
  if !chunkFallback then
    (forStride N T.VSIZEX (fun i b => some (classifyStepSOP rs rayN N i b)) fuel 0
      OctantBounds.init).map
      fun b => chunkFallback || (!b.commonOctant T || !all T b.all_active)
  else some chunkFallback

/-- One iteration of the chunk loop of `filterSOPCoherent` (and of
`filterSOP`), for the packet starting at ray `i`. -/
def chunkStepSOP {σ : Type} (scene : Scene) (rs : RayStreamSOP σ)
    (context : IntersectContext) (intersect : Bool) (N i : Nat) (st : SOPState σ) :
    SOPState σ :=
  let valid0 := inBounds i N
  let offset := 4 * i
  let ray := rs.getRayByOffset st.rayN valid0 offset
  let valid := vand valid0 (vle ray.tnear ray.tfar)
  if intersect then
    { st with rayN := rs.setHitByOffset st.rayN valid offset
                (scene.intersect valid ray context) intersect
              gathers := st.gathers ++ [⟨valid0, offset, 0⟩]
              calls := st.calls ++ [EngineCall.intersect valid ray context]
              scatters := st.scatters ++ [⟨valid, offset, 0⟩] }
  else
    { st with rayN := rs.setHitByOffset st.rayN valid offset
                (scene.occluded valid ray context) intersect
              gathers := st.gathers ++ [⟨valid0, offset, 0⟩]
              calls := st.calls ++ [EngineCall.occluded valid ray context]
              scatters := st.scatters ++ [⟨valid, offset, 0⟩] }

/-- The chunk path of `filterSOPCoherent`: `for (i = 0; i < N; i += VSIZEX)`. -/
def chunkPathSOP {σ : Type} (T : Target) (scene : Scene) (rs : RayStreamSOP σ) (rayN : σ)
    (N : Nat) (context : IntersectContext) (intersect : Bool) (uninit : Nat → RayK)
    (fuel : Nat) : Option (SOPState σ) :=
  forStride N T.VSIZEX (fun i s => some (chunkStepSOP scene rs context intersect N i s)) fuel 0
    ⟨rayN, uninit, fun _ => 0, [], [], [], context⟩

/-- The body of the loop "convert from SOP to SOA" for lane offset `j` of the
batch starting at ray `i` (`sizeof(float)` is 4). -/
def convertSOP {σ : Type} (T : Target) (rs : RayStreamSOP σ) (N i j : Nat)
    (st : SOPState σ) : SOPState σ :=
  let valid := inBounds (i + j) N
  let offset := 4 * (i + j)
  let packetID := j / T.VSIZEX
  { st with rays := setLane st.rays packetID (rs.getRayByOffset st.rayN valid offset)
            rays_ptr := setLane st.rays_ptr packetID packetID
            gathers := st.gathers ++ [⟨valid, offset, packetID⟩] }

/-- The call `intersectN/occludedN((RTCRay**)rays_ptr, size, context)`; the
engine sees the `ceil(size / VSIZEX)` packets behind the first pointers. -/
def traceSOP {σ : Type} (T : Target) (scene : Scene) (context : IntersectContext)
    (intersect : Bool) (size : Nat) (st : SOPState σ) : SOPState σ :=
  let ptrs := (List.range ((size + T.VSIZEX - 1) / T.VSIZEX)).map st.rays_ptr
  if intersect then
    { st with rays := storePackets st.rays ptrs (scene.intersectN (ptrs.map st.rays) size context)
              calls := st.calls ++ [EngineCall.intersectN ptrs size context] }
  else
    { st with rays := storePackets st.rays ptrs (scene.occludedN (ptrs.map st.rays) size context)
              calls := st.calls ++ [EngineCall.occludedN ptrs size context] }

/-- The body of the loop "convert from SOA to SOP" for lane offset `j`. -/
def scatterSOP {σ : Type} (T : Target) (rs : RayStreamSOP σ) (intersect : Bool) (N i j : Nat)
    (st : SOPState σ) : SOPState σ :=
  let valid := inBounds (i + j) N
  let offset := 4 * (i + j)
  let packetID := j / T.VSIZEX
  { st with rayN := rs.setHitByOffset st.rayN valid offset (st.rays packetID) intersect
            scatters := st.scatters ++ [⟨valid, offset, packetID⟩] }

/-- One iteration of the batch loop, for the batch starting at ray `i`:
convert, trace as stream, convert back. -/
def batchSOP {σ : Type} (T : Target) (scene : Scene) (rs : RayStreamSOP σ)
    (context : IntersectContext) (intersect : Bool) (N fuel i : Nat) (st : SOPState σ) :
    Option (SOPState σ) :=
  let size := min (N - i) (MAX_COHERENT_RAY_PACKETS T * T.VSIZEX)
  (forStride size T.VSIZEX (fun j s => some (convertSOP T rs N i j s)) fuel 0 st).bind
    fun st1 =>
      forStride size T.VSIZEX (fun j s => some (scatterSOP T rs intersect N i j s)) fuel 0
        (traceSOP T scene context intersect size st1)

/-- The coherent-batch path of `filterSOPCoherent`: set the input layout to
SOA (`context->setInputSOA(VSIZEX)`, the context every call of the loop is
given and that is left behind), then
`for (i = 0; i < N; i += MAX_COHERENT_RAY_PACKETS * VSIZEX)`. -/
def coherentPathSOP {σ : Type} (T : Target) (scene : Scene) (rs : RayStreamSOP σ) (rayN : σ)
    (N : Nat) (context : IntersectContext) (intersect : Bool) (uninit : Nat → RayK)
    (fuel : Nat) : Option (SOPState σ) :=
  forStride N (MAX_COHERENT_RAY_PACKETS T * T.VSIZEX)
    (batchSOP T scene rs (context.setInputSOA T.VSIZEX) intersect N fuel) fuel 0
    ⟨rayN, uninit, fun _ => 0, [], [], [], context.setInputSOA T.VSIZEX⟩

/-- The function `RayStream::filterSOPCoherent` on a stream of `N` rays;
`uninit` is the content of the uninitialised local array `rays`. -/
def filterSOPCoherent {σ : Type} (T : Target) (scene : Scene) (rs : RayStreamSOP σ) (rayN : σ)
    (N : Nat) (context : IntersectContext) (intersect : Bool) (uninit : Nat → RayK)
    (fuel : Nat) : Option (SOPState σ) :=
  (chunkFallbackSOP T scene rs rayN N fuel).bind fun chunkFallback =>
    if chunkFallback then chunkPathSOP T scene rs rayN N context intersect uninit fuel
    else coherentPathSOP T scene rs rayN N context intersect uninit fuel

/-! ## `RayStream::filterSOA` -/

/-- The context a logged engine call was given. -/
def EngineCall.context : EngineCall → IntersectContext
  | .intersect _ _ c => c
  | .occluded _ _ c => c
  | .intersectN _ _ c => c
  | .occludedN _ _ c => c

/-- The accessors of `RayPacketAOS` the slow path of `filterSOA` calls, over
the block of `N` rays of one stream (held as a packet of `N` lanes); the type
is declared outside this translation unit, so the accessors are parameters.
Arguments are in the order of the calls `getRayByIndex(ray,0,i)` and
`setHitByIndex(i,ray,0,intersect)`, after the block and its `N`. -/
structure RayPacketAOS where
  getRayByIndex : RayK → Nat → RayK → Nat → Nat → RayK
  setHitByIndex : RayK → Nat → Nat → RayK → Nat → Bool → RayK

/-- One iteration of the fast loop of `filterSOA`: a single-packet call on the
packet at `rayData + s*stream_offset` with the mask `ray.tnear <= ray.tfar`. -/
def fastStepSOA (scene : Scene) (intersect : Bool) (st : SOAResult) (s : Nat) : SOAResult :=
  let ray := st.rayData s
  let valid := vle ray.tnear ray.tfar
  if intersect then
    { st with rayData := setLane st.rayData s (scene.intersect valid ray st.context)
              calls := st.calls ++ [EngineCall.intersect valid ray st.context] }
  else
    { st with rayData := setLane st.rayData s (scene.occluded valid ray st.context)
              calls := st.calls ++ [EngineCall.occluded valid ray st.context] }

/-- The loop `for (s = 0; s < streams; s++)` of the fast path of `filterSOA`. -/
def fastPathSOA (scene : Scene) (rayData : Nat → RayK) (streams : Nat)
    (context : IntersectContext) (intersect : Bool) : SOAResult :=
  (List.range streams).foldl (fastStepSOA scene intersect) ⟨rayData, context, [], []⟩

/-- One iteration of the inner loop of the slow path of `filterSOA`, for ray
`i` of stream `s`; the second component is the local packet `ray`. -/
def slowStepSOA (scene : Scene) (acc : RayPacketAOS) (N : Nat) (intersect : Bool) (s : Nat)
    (st : SOAResult × RayK) (i : Nat) : SOAResult × RayK :=
  let ray0 : RayK :=
    { st.2 with tnear := vfloatx.broadcast float.zero, tfar := vfloatx.broadcast float.neg_inf }
  let ray := acc.getRayByIndex (st.1.rayData s) N ray0 0 i
  let valid := vle ray.tnear ray.tfar
  if intersect then
    let ray1 := scene.intersect valid ray st.1.context
    ({ st.1 with rayData := setLane st.1.rayData s
                   (acc.setHitByIndex (st.1.rayData s) N i ray1 0 true)
                 calls := st.1.calls ++ [EngineCall.intersect valid ray st.1.context] }, ray1)
  else
    let ray1 := scene.occluded valid ray st.1.context
    ({ st.1 with rayData := setLane st.1.rayData s
                   (acc.setHitByIndex (st.1.rayData s) N i ray1 0 false)
                 calls := st.1.calls ++ [EngineCall.occluded valid ray st.1.context] }, ray1)

/-- The slow path of `filterSOA`: for every stream `s` and every ray `i < N`
one engine call on a local packet; `uninit s` is the content of the
uninitialised local packet declared in iteration `s`. -/
def slowPathSOA (scene : Scene) (acc : RayPacketAOS) (rayData : Nat → RayK) (N streams : Nat)
    (context : IntersectContext) (intersect : Bool) (uninit : Nat → RayK) : SOAResult :=
  (List.range streams).foldl
    (fun st s => ((List.range N).foldl (slowStepSOA scene acc N intersect s) (st, uninit s)).1)
    ⟨rayData, context, [], []⟩

/-- The function `RayStream::filterSOA`. The stream `s` is the block
`rayData s` (blocks of different streams do not overlap), `address` is the
value of the pointer `rayData`, `sizeof(float)` is 4, and `coherentStreamPath`
says whether the code under
`#if defined(__AVX__) && ENABLE_COHERENT_STREAM_PATH == 1` is compiled. -/
def filterSOA (T : Target) (coherentStreamPath : Bool) (scene : Scene) (acc : RayPacketAOS)
    (address : Nat) (rayData : Nat → RayK) (N streams stream_offset : Nat)
    (context : IntersectContext) (intersect : Bool) (uninit : Nat → RayK) : SOAResult :=
  let rayDataAlignment := address % (T.VSIZEX * 4)
  let offsetAlignment := stream_offset % (T.VSIZEX * 4)
  if N = T.VSIZEX ∧ rayDataAlignment = 0 ∧ offsetAlignment = 0 then
    if coherentStreamPath && context.coherent then
      filterSOACoherent T scene rayData streams context intersect
    else
      fastPathSOA scene rayData streams context intersect
  else
    slowPathSOA scene acc rayData N streams context intersect uninit

/-! ## `RayStream::filterSOP` -/

/-- One iteration of the packet loop of `filterSOP`, for the packet starting
at ray `i`. -/
def packetStepSOP {σ : Type} (scene : Scene) (rs : RayStreamSOP σ)
    (context : IntersectContext) (intersect : Bool) (N i : Nat) (st : SOPState σ) :
    SOPState σ :=
  let valid0 := inBounds i N
  let offset := 4 * i
  let ray := rs.getRayByOffset st.rayN valid0 offset
  let valid := vand valid0 (vle ray.tnear ray.tfar)
  if intersect then
    { st with rayN := rs.setHitByOffset st.rayN valid offset
                (scene.intersect valid ray context) intersect
              gathers := st.gathers ++ [⟨valid0, offset, 0⟩]
              calls := st.calls ++ [EngineCall.intersect valid ray context]
              scatters := st.scatters ++ [⟨valid, offset, 0⟩] }
  else
    { st with rayN := rs.setHitByOffset st.rayN valid offset
                (scene.occluded valid ray context) intersect
              gathers := st.gathers ++ [⟨valid0, offset, 0⟩]
              calls := st.calls ++ [EngineCall.occluded valid ray context]
              scatters := st.scatters ++ [⟨valid, offset, 0⟩] }

/-- The function `RayStream::filterSOP`; `coherentStreamPath` says whether the
code under `#if defined(__AVX__) && ENABLE_COHERENT_STREAM_PATH == 1` is
compiled, `uninit` is the content of the local array of `filterSOPCoherent`. -/
def filterSOP {σ : Type} (T : Target) (coherentStreamPath : Bool) (scene : Scene)
    (rs : RayStreamSOP σ) (rayN : σ) (N : Nat) (context : IntersectContext) (intersect : Bool)
    (uninit : Nat → RayK) (fuel : Nat) : Option (SOPState σ) :=
  if coherentStreamPath && context.coherent then
    filterSOPCoherent T scene rs rayN N context intersect uninit fuel
  else
    forStride N T.VSIZEX (fun i s => some (packetStepSOP scene rs context intersect N i s)) fuel 0
      ⟨rayN, uninit, fun _ => 0, [], [], [], context⟩

/-! ## `RayStream::filterAOS` -/

/-- The accessors of `RayStreamAOS` the filter calls, over the caller's stream
memory `σ`; they are declared in a header outside this translation unit and
are parameters of the embedding. The offsets are a register of 32-bit lanes. -/
structure RayStreamAOS (σ : Type) where
  getRayByOffset : σ → vboolx → vintx → RayK
  setHitByOffset : σ → vboolx → vintx → RayK → Bool → σ

/-- One packet access of `filterAOS`: the lane mask and the register of byte
offsets passed to the accessor. -/
structure AccessAOS where
  valid : vboolx
  offset : vintx

/-- The state of `filterAOS`: the caller's stream and the logs of packet
reads, engine calls and packet writes. -/
structure AOSState (σ : Type) where
  rayN : σ
  gathers : List AccessAOS
  calls : List EngineCall
  scatters : List AccessAOS

/-- The number of values of a `size_t` on the target, at which its arithmetic
wraps: `2^32` where `sizeof(size_t)` is 4 (the 32-bit platforms), `2^64` where
it is 8. -/
def Target.sizeModulus (T : Target) : Nat :=
  if T.sizeof_size_t = 4 then 4294967296 else 18446744073709551616

/-- The loop `for (size_t x = start; x < stop; x += step) body` with the
counter wrapping at `wrap` as a `size_t` does, and a bound on the number of
iterations: `none` when the bound is hit before the loop condition fails or
when the body fails. -/
def forStrideSize {σ : Type} (wrap stop step : Nat) (body : Nat → σ → Option σ) :
    Nat → Nat → σ → Option σ
  | 0, x, s => if x < stop then none else some s
  | fuel + 1, x, s =>
    if x < stop then
      (body x s).bind (forStrideSize wrap stop step body fuel ((x + step) % wrap))
    else some s

/-- The register `vi * int(stride)` for the packet starting at ray `i`: the low
32 bits of the product in every lane. -/
def offsetAOS (stride i : Nat) : vintx :=
  fun k => ((i + k) % 4294967296 * (stride % 4294967296)) % 4294967296

/-- One iteration of the loop of `filterAOS`, for the packet starting at ray `i`. -/
def chunkStepAOS {σ : Type} (scene : Scene) (rs : RayStreamAOS σ)
    (context : IntersectContext) (intersect : Bool) (N stride i : Nat) (st : AOSState σ) :
    AOSState σ :=
  let valid0 := inBounds i N
  let offset := offsetAOS stride i
  let ray := rs.getRayByOffset st.rayN valid0 offset
  let valid := vand valid0 (vle ray.tnear ray.tfar)
  if intersect then
    { rayN := rs.setHitByOffset st.rayN valid offset (scene.intersect valid ray context) intersect
      gathers := st.gathers ++ [⟨valid0, offset⟩]
      calls := st.calls ++ [EngineCall.intersect valid ray context]
      scatters := st.scatters ++ [⟨valid, offset⟩] }
  else
    { rayN := rs.setHitByOffset st.rayN valid offset (scene.occluded valid ray context) intersect
      gathers := st.gathers ++ [⟨valid0, offset⟩]
      calls := st.calls ++ [EngineCall.occluded valid ray context]
      scatters := st.scatters ++ [⟨valid, offset⟩] }

/-- The function `RayStream::filterAOS` on a stream of `N` rays `stride` bytes
apart. With a stride of 0 every `N` is a stream that lies in memory, so the
loop counter is a `size_t` that wraps, at `2^32` or `2^64` as the target has
it. -/
def filterAOS {σ : Type} (T : Target) (scene : Scene) (rs : RayStreamAOS σ) (rayN : σ)
    (N stride : Nat) (context : IntersectContext) (intersect : Bool) (fuel : Nat) :
    Option (AOSState σ) :=
  forStrideSize T.sizeModulus N T.VSIZEX
    (fun i s => some (chunkStepAOS scene rs context intersect N stride i s)) fuel 0
    ⟨rayN, [], [], []⟩

/-! ## `parallel_partition` -/

/-- The class `parallel_partition<T,BLOCK_SIZE>` with `T = int`, run by one
thread: the atomic counter `blockID`, the fields `N`, `blocks`, and the array
behind the pointer `array`. The embedding also logs, in `accesses`, the indices
at which the array is read or written. -/
structure parallel_partition where
  blockID : Nat
  N : Nat
  blocks : Nat
  array : List Int
  accesses : List Nat
deriving DecidableEq, Repr

namespace parallel_partition

/-- The constant `SERIAL_THRESHOLD`. -/
def SERIAL_THRESHOLD : Nat := 16

/-- The enumerator `NEED_LEFT_BLOCK`. -/
def NEED_LEFT_BLOCK : Nat := 1

/-- The enumerator `NEED_RIGHT_BLOCK`. -/
def NEED_RIGHT_BLOCK : Nat := 2

/-- The constructor `parallel_partition(array, N)`. -/
def create (BLOCK_SIZE : Nat) (array : List Int) (N : Nat) : parallel_partition :=
  { blockID := 0, N := N, blocks := N / BLOCK_SIZE, array := array, accesses := [] }

/-- The test `(mode & NEED_LEFT_BLOCK) == NEED_LEFT_BLOCK` (bit 0 of `mode`). -/
def needLeftBlock (mode : Nat) : Bool := mode % 2 == 1

/-- The test `(mode & NEED_RIGHT_BLOCK) == NEED_RIGHT_BLOCK` (bit 1 of `mode`). -/
def needRightBlock (mode : Nat) : Bool := mode / 2 % 2 == 1

/-- The function `getBlockID`: the counter type is declared outside these
sources; its `add` is taken to be the atomic fetch-and-add, which returns the
value the counter had before. With `v` built from 0 the two `|=` are sums. -/
def getBlockID (p : parallel_partition) (mode : Nat) : parallel_partition × Nat :=
  let v := (if needLeftBlock mode then 1 else 0) + (if needRightBlock mode then 4294967296 else 0)
  ({ p with blockID := (p.blockID + v) % 18446744073709551616 }, p.blockID)

/-- The function `getLeftBlockIndex`: `id & 0xffffffff`. -/
def getLeftBlockIndex (id : Nat) : Nat := id % 4294967296

/-- The function `getRightBlockIndex`: `id >> 32`. -/
def getRightBlockIndex (id : Nat) : Nat := id / 4294967296

/-- The function `getLeftArrayIndex`, returning `(begin, end)`. -/
def getLeftArrayIndex (BLOCK_SIZE blockIndex : Nat) : Nat × Nat :=
  let begin_ := blockIndex * BLOCK_SIZE % 18446744073709551616
  (begin_, (begin_ + BLOCK_SIZE) % 18446744073709551616)

/-- The function `getRightArrayIndex`, returning `(begin, end)`; the
subtraction is one of `size_t`. -/
def getRightArrayIndex (BLOCK_SIZE : Nat) (p : parallel_partition) (blockIndex : Nat) : Nat × Nat :=
  let begin_ := (p.blocks + 18446744073709551616 - 1 - blockIndex) % 18446744073709551616
    * BLOCK_SIZE % 18446744073709551616
  (begin_, (begin_ + BLOCK_SIZE) % 18446744073709551616)

/-- The function `validBlockID`. -/
def validBlockID (p : parallel_partition) (id : Nat) : Bool :=
  let numLeftBlocks := getLeftBlockIndex id + 1
  let numRightBlocks := getRightBlockIndex id + 1
  decide (numLeftBlocks + numRightBlocks ≤ p.blocks)

/-- Log an access to `array[i]`. -/
def access (p : parallel_partition) (i : Nat) : parallel_partition :=
  { p with accesses := p.accesses ++ [i] }

/-- The element `array[i]` (0 outside the array, where the C++ read is undefined). -/
def at_ (p : parallel_partition) (i : Nat) : Int := p.array.getD i 0

/-- The call `std::swap(array[i], array[j])`. -/
def swap (p : parallel_partition) (i j : Nat) : parallel_partition :=
  { p with array := (p.array.set i (p.at_ j)).set j (p.at_ i)
           accesses := p.accesses ++ [i, j] }

/-- The loop `while (l <= r && *l < pivot) ++l` of `serialPartitioning`, the
pointers being array indices; returns the final `l`. -/
def scanLeft (pivot : Int) (r : Int) : Nat → parallel_partition → Nat → Option (parallel_partition × Nat)
  | 0, _, _ => none
  | fuel + 1, p, l =>
    if (l : Int) ≤ r then
      if p.at_ l < pivot then scanLeft pivot r fuel (p.access l) (l + 1)
      else some (p.access l, l)
    else some (p, l)

/-- The loop `while (l <= r && *r >= pivot) --r` of `serialPartitioning`;
returns the final `r`, which may be one below `l`. -/
def scanRight (pivot : Int) (l : Nat) : Nat → parallel_partition → Int → Option (parallel_partition × Int)
  | 0, _, _ => none
  | fuel + 1, p, r =>
    if (l : Int) ≤ r then
      if pivot ≤ p.at_ r.toNat then scanRight pivot l fuel (p.access r.toNat) (r - 1)
      else some (p.access r.toNat, r)
    else some (p, r)

/-- The loop `while(1)` of `serialPartitioning`; `inner` bounds the iterations
of each inner loop. Returns the final `l`. -/
def serialLoop (pivot : Int) (inner : Nat) :
    Nat → parallel_partition → Nat → Int → Option (parallel_partition × Nat)
  | 0, _, _, _ => none
  | fuel + 1, p, l, r =>
    (scanLeft pivot r inner p l).bind fun pl =>
      (scanRight pivot pl.2 inner pl.1 r).bind fun pr =>
        if pr.2 < (pl.2 : Int) then some (pr.1, pl.2)
        else serialLoop pivot inner fuel (pr.1.swap pl.2 pr.2.toNat) (pl.2 + 1) (pr.2 - 1)

/-- The function `serialPartitioning(begin, end, pivot)`: `l = array + begin`,
`r = array + end - 1`, result `l - array`. -/
def serialPartitioning (p : parallel_partition) (begin_ end_ : Nat) (pivot : Int) (fuel : Nat) :
    Option (parallel_partition × Nat) :=
  serialLoop pivot fuel fuel p begin_ ((end_ : Int) - 1)

/-- The loop `while(array[left_begin] < pivot) { left_begin++; if (left_begin >= left_end) break; }`
of `neutralizeBlocks`. -/
def skipLess (pivot : Int) (left_end : Nat) :
    Nat → parallel_partition → Nat → Option (parallel_partition × Nat)
  | 0, _, _ => none
  | fuel + 1, p, left_begin =>
    if p.at_ left_begin < pivot then
      if left_begin + 1 ≥ left_end then some (p.access left_begin, left_begin + 1)
      else skipLess pivot left_end fuel (p.access left_begin) (left_begin + 1)
    else some (p.access left_begin, left_begin)

/-- The loop `while(array[right_begin] >= pivot) { right_begin++; if (right_begin >= right_end) break; }`
of `neutralizeBlocks`. -/
def skipGreaterEq (pivot : Int) (right_end : Nat) :
    Nat → parallel_partition → Nat → Option (parallel_partition × Nat)
  | 0, _, _ => none
  | fuel + 1, p, right_begin =>
    if pivot ≤ p.at_ right_begin then
      if right_begin + 1 ≥ right_end then some (p.access right_begin, right_begin + 1)
      else skipGreaterEq pivot right_end fuel (p.access right_begin) (right_begin + 1)
    else some (p.access right_begin, right_begin)

/-- The outer loop of `neutralizeBlocks`; returns the final `left_begin` and
`right_begin`. -/
def neutralizeLoop (pivot : Int) (left_end right_end inner : Nat) :
    Nat → parallel_partition → Nat → Nat → Option (parallel_partition × Nat × Nat)
  | 0, _, _, _ => none
  | fuel + 1, p, left_begin, right_begin =>
    if left_begin < left_end ∧ right_begin < right_end then
      (skipLess pivot left_end inner p left_begin).bind fun pl =>
        (skipGreaterEq pivot right_end inner pl.1 right_begin).bind fun pr =>
          if pl.2 = left_end ∨ pr.2 = right_end then some (pr.1, pl.2, pr.2)
          else neutralizeLoop pivot left_end right_end inner fuel
            (pr.1.swap pl.2 pr.2) (pl.2 + 1) (pr.2 + 1)
    else some (p, left_begin, right_begin)

/-- The function `neutralizeBlocks`; returns the updated `left_begin` and
`right_begin` and the mode. -/
def neutralizeBlocks (p : parallel_partition) (left_begin left_end right_begin right_end : Nat)
    (pivot : Int) (fuel : Nat) : Option (parallel_partition × Nat × Nat × Nat) :=
  (neutralizeLoop pivot left_end right_end fuel fuel p left_begin right_begin).map fun r =>
    let mode := (if r.2.1 = left_end then NEED_LEFT_BLOCK else 0)
      + (if r.2.2 = right_end then NEED_RIGHT_BLOCK else 0)
    (r.1, r.2.1, r.2.2, mode)

/-- The function `checkLeft`: `true` when the loop ends without reaching
`FATAL`; a read outside the array counts as a failure. -/
def checkLeft (p : parallel_partition) (begin_ end_ : Nat) (pivot : Int) : Bool :=
  (List.range (end_ - begin_)).all fun j =>
    match p.array[begin_ + j]? with
    | some x => decide (x < pivot)
    | none => false

/-- The function `checkRight`: `true` when the loop ends without reaching
`FATAL`; a read outside the array counts as a failure. -/
def checkRight (p : parallel_partition) (begin_ end_ : Nat) (pivot : Int) : Bool :=
  (List.range (end_ - begin_)).all fun j =>
    match p.array[begin_ + j]? with
    | some x => decide (pivot ≤ x)
    | none => false

/-- The local variables of `parition` that describe the current blocks. -/
structure Blocks where
  left_begin : Nat
  left_end : Nat
  right_begin : Nat
  right_end : Nat
  maxLeftBlock : Nat
  maxRightBlock : Nat
deriving DecidableEq, Repr

/-- The loop `while(1)` of `parition`. -/
def blockLoop (BLOCK_SIZE : Nat) (pivot : Int) (inner : Nat) :
    Nat → parallel_partition → Nat → Blocks → Option (parallel_partition × Blocks)
  | 0, _, _, _ => none
  | fuel + 1, p, mode, b =>
    let pid := p.getBlockID mode
    if !pid.1.validBlockID pid.2 then some (pid.1, b)
    else
      let b1 : Blocks :=
        if needLeftBlock mode then
          let blockIndex := getLeftBlockIndex pid.2
          { b with left_begin := (getLeftArrayIndex BLOCK_SIZE blockIndex).1
                   left_end := (getLeftArrayIndex BLOCK_SIZE blockIndex).2
                   maxLeftBlock := blockIndex }
        else b
      let b2 : Blocks :=
        if needRightBlock mode then
          let blockIndex := getRightBlockIndex pid.2
          { b1 with right_begin := (getRightArrayIndex BLOCK_SIZE pid.1 blockIndex).1
                    right_end := (getRightArrayIndex BLOCK_SIZE pid.1 blockIndex).2
                    maxRightBlock := blockIndex }
        else b1
      (neutralizeBlocks pid.1 b2.left_begin b2.left_end b2.right_begin b2.right_end pivot inner).bind
        fun r => blockLoop BLOCK_SIZE pivot inner fuel r.1 r.2.2.2
          { b2 with left_begin := r.2.1, right_begin := r.2.2.1 }

/-- What a call of `parition` leaves behind: the object, the returned index,
and whether `checkLeft` and `checkRight` both ran through without `FATAL`. -/
structure Outcome where
  self : parallel_partition
  mid : Nat
  checked : Bool
deriving DecidableEq, Repr

/-- The block phase of `parition` for `N > SERIAL_THRESHOLD` up to and
including the call `serialPartitioning(left_begin,right_end,pivot)`; returns
the object, the final blocks and `local_mid`. -/
def blockPhase (BLOCK_SIZE : Nat) (p : parallel_partition) (pivot : Int) (fuel : Nat) :
    Option (parallel_partition × Blocks × Nat) :=
  let m := 18446744073709551615
  (blockLoop BLOCK_SIZE pivot fuel fuel p (NEED_LEFT_BLOCK + NEED_RIGHT_BLOCK) ⟨m, m, m, m, m, m⟩).bind
    fun pb =>
      (pb.1.serialPartitioning pb.2.left_begin pb.2.right_end pivot fuel).map fun r =>
        (r.1, pb.2, r.2)

/-- The function `parition(pivot)`. In the block branch the returned value is
declared as `const size_t mid = left_begin + mid;`: the initialiser reads the
variable being declared, whose value `indeterminate` is whatever its storage
held, and `local_mid` is only printed. -/
def parition (BLOCK_SIZE : Nat) (p : parallel_partition) (pivot : Int) (indeterminate : Nat)
    (fuel : Nat) : Option Outcome :=
  if p.N ≤ SERIAL_THRESHOLD then
    (p.serialPartitioning 0 p.N pivot fuel).map fun r =>
      ⟨r.1, r.2, r.1.checkLeft 0 r.2 pivot && r.1.checkRight r.2 r.1.N pivot⟩
  else
    (blockPhase BLOCK_SIZE p pivot fuel).map fun r =>
      let mid := (r.2.1.left_begin + indeterminate) % 18446744073709551616
      ⟨r.1, mid, r.1.checkLeft 0 mid pivot && r.1.checkRight mid r.1.N pivot⟩

end parallel_partition

/-! ## `SubdivMesh::HalfEdge` -/

/-- The class `SubdivMesh::HalfEdge`: the `unsigned int` fields, of which
`start_halfedge_id` is a bit-field of 30 bits and `local_halfedge_id` one of 2
bits. Pointers into the array `halfEdges` are indices. -/
structure HalfEdge where
  vtx_index : Nat
  start_halfedge_id : Nat
  local_halfedge_id : Nat
  opposite_index : Nat
deriving DecidableEq, Repr

namespace HalfEdge

/-- The method `next`, as the index of the element it points to; the sum of a
30-bit and a 2-bit value does not overflow. -/
def next (e : HalfEdge) : Nat := e.start_halfedge_id + ((e.local_halfedge_id + 1) % 4)

/-- The method `prev`, as the index of the element it points to. -/
def prev (e : HalfEdge) : Nat := e.start_halfedge_id + ((e.local_halfedge_id + 3) % 4)

/-- The method `getStartVertexIndex`. -/
def getStartVertexIndex (e : HalfEdge) : Nat := e.vtx_index

/-- The method `getEndVertexIndex`: `next(halfEdges)->vtx_index`. -/
def getEndVertexIndex (e : HalfEdge) (halfEdges : Nat → HalfEdge) : Nat :=
  (halfEdges e.next).vtx_index

end HalfEdge

/-! ## `vfloat8`: shuffles, transposes and reductions -/

/-- One lane of `_mm256_cmp_ps(a, b, _CMP_EQ_OQ)`. -/
def float.eq (a b : float) : Bool := !a.isNaN && !b.isNaN && decide (a.key = b.key)

/-- Vector `a == b`. -/
def veq (a b : vfloatx) : vboolx := fun k => float.eq (a k) (b k)

/-- Blend `select(m, t, f)` on floats. -/
def vselectf (m : vboolx) (t f : vfloatx) : vfloatx := fun k => if m k then t k else f k

/-- The function `unpacklo` (`_mm256_unpacklo_ps`): in each 128-bit half the
two low elements of `a` and `b`, interleaved. Lanes from 8 on do not exist. -/
def unpacklo (a b : vfloatx) : vfloatx :=
  fun k => if k % 2 = 0 then a (k / 4 * 4 + k % 4 / 2) else b (k / 4 * 4 + k % 4 / 2)

/-- The function `unpackhi` (`_mm256_unpackhi_ps`): in each 128-bit half the
two high elements of `a` and `b`, interleaved. -/
def unpackhi (a b : vfloatx) : vfloatx :=
  fun k => if k % 2 = 0 then a (k / 4 * 4 + 2 + k % 4 / 2) else b (k / 4 * 4 + 2 + k % 4 / 2)

/-- The function `shuffle<i0,i1,i2,i3>(a)` (`_mm256_permute_ps`): in each
128-bit half, element `j` is element `i_j` of that half. -/
def shuffle (i0 i1 i2 i3 : Nat) (a : vfloatx) : vfloatx :=
  fun k => a (k / 4 * 4 +
    (if k % 4 = 0 then i0 else if k % 4 = 1 then i1 else if k % 4 = 2 then i2 else i3))

/-- One 128-bit half chosen by a selector of `_mm256_permute2f128_ps`: 0 and 1
are the halves of `a`, 2 and 3 those of `b`. -/
def half128 (sel : Nat) (a b : vfloatx) (j : Nat) : float :=
  if sel = 0 then a j else if sel = 1 then a (4 + j) else if sel = 2 then b j else b (4 + j)

/-- The function `shuffle128<i0,i1>(a, b)` (`_mm256_permute2f128_ps` with the
immediate `(i1 << 4) | i0`). -/
def shuffle128 (i0 i1 : Nat) (a b : vfloatx) : vfloatx :=
  fun k => if k < 4 then half128 i0 a b k else half128 i1 a b (k - 4)

/-- The function `transpose` with four rows and four columns. -/
def transpose (r0 r1 r2 r3 : vfloatx) : vfloatx × vfloatx × vfloatx × vfloatx :=
  let l02 := unpacklo r0 r2
  let h02 := unpackhi r0 r2
  let l13 := unpacklo r1 r3
  let h13 := unpackhi r1 r3
  (unpacklo l02 l13, unpackhi l02 l13, unpacklo h02 h13, unpackhi h02 h13)

/-- The function `transpose` with four rows and three columns. -/
def transpose3 (r0 r1 r2 r3 : vfloatx) : vfloatx × vfloatx × vfloatx :=
  let l02 := unpacklo r0 r2
  let h02 := unpackhi r0 r2
  let l13 := unpacklo r1 r3
  let h13 := unpackhi r1 r3
  (unpacklo l02 l13, unpackhi l02 l13, unpacklo h02 h13)

/-- The function `transpose` with eight rows and eight columns; the result is
the list `c0, ..., c7`. -/
def transpose8 (r0 r1 r2 r3 r4 r5 r6 r7 : vfloatx) : List vfloatx :=
  let h := transpose r0 r1 r2 r3
  let g := transpose r4 r5 r6 r7
  [shuffle128 0 2 h.1 g.1, shuffle128 0 2 h.2.1 g.2.1, shuffle128 0 2 h.2.2.1 g.2.2.1,
   shuffle128 0 2 h.2.2.2 g.2.2.2,
   shuffle128 1 3 h.1 g.1, shuffle128 1 3 h.2.1 g.2.1, shuffle128 1 3 h.2.2.1 g.2.2.1,
   shuffle128 1 3 h.2.2.2 g.2.2.2]

/-- The function `vreduce_min2`. -/
def vreduce_min2 (v : vfloatx) : vfloatx := vmin v (shuffle 1 0 3 2 v)

/-- The function `vreduce_min4`. -/
def vreduce_min4 (v : vfloatx) : vfloatx :=
  let v1 := vreduce_min2 v
  vmin v1 (shuffle 2 3 0 1 v1)

/-- The function `vreduce_min`. -/
def vreduce_min (v : vfloatx) : vfloatx :=
  let v1 := vreduce_min4 v
  vmin v1 (shuffle128 1 0 v1 v1)

/-- The function `vreduce_max2`. -/
def vreduce_max2 (v : vfloatx) : vfloatx := vmax v (shuffle 1 0 3 2 v)

/-- The function `vreduce_max4`. -/
def vreduce_max4 (v : vfloatx) : vfloatx :=
  let v1 := vreduce_max2 v
  vmax v1 (shuffle 2 3 0 1 v1)

/-- The function `vreduce_max`. -/
def vreduce_max (v : vfloatx) : vfloatx :=
  let v1 := vreduce_max4 v
  vmax v1 (shuffle128 1 0 v1 v1)

/-- The helper `movemask` on an 8-lane mask (`_mm256_movemask_ps`; the helper
is declared outside these sources): bit `k` of the result is lane `k`. -/
def movemask (m : vboolx) : Nat :=
  (List.range 8).foldl (fun acc k => acc + if m k then 2 ^ k else 0) 0

/-- The helper `__bsf` (declared outside these sources; it wraps the
instruction `bsf`): the index of the lowest set bit. The result for 0 is
undefined and is 0 here. -/
def bsf (x : Nat) : Nat :=
  ((List.range 64).find? (fun k => x / 2 ^ k % 2 == 1)).getD 0

/-- The function `select_min(valid, v)`. -/
def select_min (valid : vboolx) (v : vfloatx) : Nat :=
  let a := vselectf valid v (vfloatx.broadcast float.pos_inf)
  bsf (movemask (vand valid (veq a (vreduce_min a))))

/-- The function `select_max(valid, v)`. -/
def select_max (valid : vboolx) (v : vfloatx) : Nat :=
  let a := vselectf valid v (vfloatx.broadcast float.neg_inf)
  bsf (movemask (vand valid (veq a (vreduce_max a))))

/-! ## Specification-side predicates and proof devices -/

/-- The condition the specification gives for the coherent-batch path of
`filterSOACoherent`: a non-robust scene whose accels all have a batched
intersector, every lane of every packet active, and on each axis the
direction components of all lanes of all packets all `< 0` or all `>= 0`. -/
def specCoherentSOA (T : Target) (scene : Scene) (rayData : Nat → RayK) (streams : Nat) : Prop :=
  scene.isRobust = false ∧ scene.validIsecN = true ∧
  (∀ s < streams, ∀ k < T.VSIZEX, float.le ((rayData s).tnear k) ((rayData s).tfar k) = true) ∧
  ((∀ s < streams, ∀ k < T.VSIZEX, float.lt ((rayData s).dir.x k) float.zero = true) ∨
   (∀ s < streams, ∀ k < T.VSIZEX, float.ge ((rayData s).dir.x k) float.zero = true)) ∧
  ((∀ s < streams, ∀ k < T.VSIZEX, float.lt ((rayData s).dir.y k) float.zero = true) ∨
   (∀ s < streams, ∀ k < T.VSIZEX, float.ge ((rayData s).dir.y k) float.zero = true)) ∧
  ((∀ s < streams, ∀ k < T.VSIZEX, float.lt ((rayData s).dir.z k) float.zero = true) ∨
   (∀ s < streams, ∀ k < T.VSIZEX, float.ge ((rayData s).dir.z k) float.zero = true))

/-- No direction component of the first `streams` packets is a NaN. -/
def dirNotNaN (T : Target) (rayData : Nat → RayK) (streams : Nat) : Prop :=
  ∀ s < streams, ∀ k < T.VSIZEX,
    ((rayData s).dir.x k).isNaN = false ∧ ((rayData s).dir.y k).isNaN = false ∧
    ((rayData s).dir.z k).isNaN = false

/-- Running `min` of one lane over the first `n` values, from `pos_inf`. -/
def minFold (d : Nat → float) (n : Nat) : float :=
  (List.range n).foldl (fun m s => float.min m (d s)) float.pos_inf

/-- Running `max` of one lane over the first `n` values, from `neg_inf`. -/
def maxFold (d : Nat → float) (n : Nat) : float :=
  (List.range n).foldl (fun m s => float.max m (d s)) float.neg_inf

/-- The packet the engine returns for the chunk of `filterAOP` starting at `i`,
computed from the records `rayN` as they are before the call. -/
def outAOP (T : Target) (scene : Scene) (rayN : Nat → Ray) (N : Nat)
    (context : IntersectContext) (intersect : Bool) (uninit : Nat → RayK) (i : Nat) : RayK :=
  if intersect then
    scene.intersect (validAOP T rayN N i (uninit i)) (packetAOP T rayN N i (uninit i)) context
  else
    scene.occluded (validAOP T rayN N i (uninit i)) (packetAOP T rayN N i (uninit i)) context

/-- The engine call of the chunk of `filterAOP` starting at `i`. -/
def callAOP (T : Target) (rayN : Nat → Ray) (N : Nat)
    (context : IntersectContext) (intersect : Bool) (uninit : Nat → RayK) (i : Nat) : EngineCall :=
  if intersect then
    EngineCall.intersect (validAOP T rayN N i (uninit i)) (packetAOP T rayN N i (uninit i)) context
  else
    EngineCall.occluded (validAOP T rayN N i (uninit i)) (packetAOP T rayN N i (uninit i)) context

/-- The assignments `filterAOP` makes to record `idx`: those of the scatter
loop for lane `idx % VSIZEX` of the chunk starting at `idx / VSIZEX * VSIZEX`. -/
def storesAOP (T : Target) (scene : Scene) (rayN : Nat → Ray) (N : Nat)
    (context : IntersectContext) (intersect : Bool) (uninit : Nat → RayK) (idx : Nat) :
    List Store :=
  scatterStores intersect
    (outAOP T scene rayN N context intersect uninit (idx / T.VSIZEX * T.VSIZEX)) (idx % T.VSIZEX)

/-- The mask and the packet of a single-packet engine call. -/
def EngineCall.single : EngineCall → Option (vboolx × RayK)
  | .intersect valid ray _ => some (valid, ray)
  | .occluded valid ray _ => some (valid, ray)
  | _ => none

/-- The engine leaves inactive lanes of a packet as they are. -/
def Scene.keepsInactive (scene : Scene) : Prop :=
  ∀ (valid : vboolx) (ray : RayK) (context : IntersectContext) (k : Nat), valid k = false →
    (scene.intersect valid ray context).lane k = ray.lane k ∧
    (scene.occluded valid ray context).lane k = ray.lane k

/-- The loop invariant of `filterAOP` after `c` chunks, `rayN` being the
records before the call: records from `c*VSIZEX` on and from `N` on are
untouched, the earlier ones have received exactly their stores, and the logs
list the chunks done so far. -/
def AOPInv (T : Target) (scene : Scene) (rayN : Nat → Ray) (N : Nat)
    (context : IntersectContext) (intersect : Bool) (uninit : Nat → RayK)
    (c : Nat) (st : AOPState) : Prop :=
  (∀ idx, (c * T.VSIZEX ≤ idx ∨ N ≤ idx) → st.rayN idx = rayN idx) ∧
  (∀ idx, idx < c * T.VSIZEX → idx < N →
    st.rayN idx = (rayN idx).storeAll (storesAOP T scene rayN N context intersect uninit idx)) ∧
  st.calls = (List.range c).map
    (fun c => callAOP T rayN N context intersect uninit (c * T.VSIZEX)) ∧
  st.gathers = List.range (min (c * T.VSIZEX) N) ∧
  st.scatters = List.range (min (c * T.VSIZEX) N) ∧
  (∀ p : Nat × Store, p ∈ st.stores ↔
    p.1 < c * T.VSIZEX ∧ p.1 < N ∧
      p.2 ∈ storesAOP T scene rayN N context intersect uninit p.1) ∧
  (c = 0 ∨ (c - 1) * T.VSIZEX < N)

/-- The engine call of the chunk path of the SOA filters for packet `s`,
computed from the packets `rayData` as they are before the call. -/
def callSOA (rayData : Nat → RayK) (context : IntersectContext) (intersect : Bool) (s : Nat) :
    EngineCall :=
  if intersect then
    EngineCall.intersect (vle (rayData s).tnear (rayData s).tfar) (rayData s) context
  else
    EngineCall.occluded (vle (rayData s).tnear (rayData s).tfar) (rayData s) context

/-- A ray with the given direction and interval, every other field zero
except `geomID`, which holds `RTC_INVALID_GEOMETRY_ID`. -/
def mkRay (dx dy dz tnear tfar : float) : Ray :=
  { org := ⟨float.zero, float.zero, float.zero⟩, dir := ⟨dx, dy, dz⟩
    tnear := tnear, tfar := tfar, time := float.zero, mask := 4294967295
    Ng := ⟨float.zero, float.zero, float.zero⟩, u := float.zero, v := float.zero
    geomID := RTC_INVALID_GEOMETRY_ID, primID := 0, instID := 0 }

/-- Two packets: every lane of the first has a NaN as x direction, the second
points along (1,1,1); all lanes have the interval [0,1]. -/
def nanThenPositive (s : Nat) : RayK :=
  if s = 0 then RayK.broadcast (mkRay float.nan float.one float.one float.zero float.one)
  else RayK.broadcast (mkRay float.one float.one float.one float.zero float.one)

/-- Packets whose every lane points along (1,1,1) with the interval [0,1]. -/
def positivePackets (_ : Nat) : RayK :=
  RayK.broadcast (mkRay float.one float.one float.one float.zero float.one)

/-- The context a caller starts with: no coherent flag, no layout hint. -/
def plainContext : IntersectContext := ⟨false, none⟩

/-- The engine's `occluded` call can only set the occlusion marker (`geomID`
0), only on active lanes, and never clears it: every lane's `geomID` is either
what it was or, on an active lane, 0. -/
def Scene.onlySetsMarker (scene : Scene) : Prop :=
  ∀ (valid : vboolx) (ray : RayK) (context : IntersectContext) (k : Nat),
    (scene.occluded valid ray context).geomID k = ray.geomID k ∨
    (valid k = true ∧ (scene.occluded valid ray context).geomID k = 0)

/-- A content for the uninitialised local packet: every lane looks like an
active ray with `geomID` 7. -/
def junkPacket : RayK :=
  RayK.broadcast { mkRay float.one float.one float.one float.zero float.one with geomID := 7 }

/-- An inactive ray (`tnear` = 1 > `tfar` = 0) carrying a hit with `geomID` 5. -/
def inactiveHit : Ray :=
  { mkRay float.one float.one float.one float.one float.zero with geomID := 5 }

/-- An active ray (interval [0,1]) already marked occluded (`geomID` 0). -/
def occludedRay : Ray :=
  { mkRay float.one float.one float.one float.zero float.one with geomID := 0 }

/-- An active ray (interval [0,1]) carrying an earlier hit with `geomID` 5. -/
def earlierHit : Ray :=
  { mkRay float.one float.one float.one float.zero float.one with geomID := 5 }

/-- The loop `for (x = start; x < stop; x += step)` unrolled: `n` iterations
of a body that always succeeds, at `start, start + step, ...`. -/
def strideFold {σ : Type} (f : Nat → σ → σ) (step start n : Nat) (s : σ) : σ :=
  (List.range n).foldl (fun s q => f (start + q * step) s) s

/-- An `RayStreamSOP` over a stream without content: reads return the packet
`junkPacket`, writes do nothing. -/
def blankSOP : RayStreamSOP Unit :=
  { getDirByOffset := fun _ _ _ => junkPacket.dir
    isValidByOffset := fun _ _ _ => vle junkPacket.tnear junkPacket.tfar
    getRayByOffset := fun _ _ _ => junkPacket, setHitByOffset := fun s _ _ _ _ => s }

/-- The conversion of packet number `q` of an SOP stream of `N` rays: the
in-bounds mask of its first ray `q*VSIZEX`, its byte offset, and its slot in
the local arrays. -/
def accessSOP (T : Target) (N q : Nat) : PacketAccess :=
  ⟨inBounds (q * T.VSIZEX) N, 4 * (q * T.VSIZEX), q % MAX_COHERENT_RAY_PACKETS T⟩

/-- One iteration of the batch loop of `filterSOPCoherent` with its inner
loops unrolled. -/
def batchFnSOP {σ : Type} (T : Target) (scene : Scene) (rs : RayStreamSOP σ)
    (context : IntersectContext) (intersect : Bool) (N i : Nat) (st : SOPState σ) :
    SOPState σ :=
  strideFold (scatterSOP T rs intersect N i) T.VSIZEX 0
    ((min (N - i) (MAX_COHERENT_RAY_PACKETS T * T.VSIZEX) - 0 + T.VSIZEX - 1) / T.VSIZEX)
    (traceSOP T scene context intersect (min (N - i) (MAX_COHERENT_RAY_PACKETS T * T.VSIZEX))
      (strideFold (convertSOP T rs N i) T.VSIZEX 0
        ((min (N - i) (MAX_COHERENT_RAY_PACKETS T * T.VSIZEX) - 0 + T.VSIZEX - 1) / T.VSIZEX)
        st))

/-- Three rays, the middle one inactive. -/
def threeRays (idx : Nat) : Ray :=
  if idx = 1 then inactiveHit else earlierHit

/-- An array of 18 elements for blocks of 4: four full blocks that alternate
small and large elements, and a tail of two small elements. -/
def tailInput : List Int :=
  [1, 20, 2, 21, 3, 22, 4, 23, 5, 24, 6, 25, 7, 26, 8, 27, 0, 0]

/-- What the call `parition(10)` leaves in the array of `tailInput`. -/
def tailOutput : List Int :=
  [1, 7, 2, 8, 3, 6, 4, 5, 23, 24, 22, 25, 20, 26, 21, 27, 0, 0]

/-- Accessors of `RayPacketAOS` over a block without content: reads leave the
local packet as it is, writes leave the block as it is. -/
def blankPacketAOS : RayPacketAOS :=
  { getRayByIndex := fun _ _ ray _ _ => ray, setHitByIndex := fun block _ _ _ _ _ => block }

/-- A context with the user's coherent flag set. -/
def coherentContext : IntersectContext := ⟨true, none⟩

/-- An `RayStreamAOS` over a stream without content: reads return the packet
`junkPacket`, writes do nothing. -/
def blankAOS : RayStreamAOS Unit :=
  { getRayByOffset := fun _ _ _ => junkPacket, setHitByOffset := fun s _ _ _ _ => s }

/-- Every ray of the SOP stream of `N` rays is active and has positive x, y
and z direction components: for every packet `q` of the stream the accessors
report so in every lane. -/
def positiveActiveSOP {σ : Type} (T : Target) (rs : RayStreamSOP σ) (rayN : σ) (N : Nat) : Prop :=
  ∀ q, q * T.VSIZEX < N → ∀ k, k < T.VSIZEX →
    (rs.isValidByOffset rayN (inBounds (q * T.VSIZEX) N) (4 * (q * T.VSIZEX))) k = true ∧
    float.gt ((rs.getDirByOffset rayN (inBounds (q * T.VSIZEX) N) (4 * (q * T.VSIZEX))).x k)
      float.zero = true ∧
    float.gt ((rs.getDirByOffset rayN (inBounds (q * T.VSIZEX) N) (4 * (q * T.VSIZEX))).y k)
      float.zero = true ∧
    float.gt ((rs.getDirByOffset rayN (inBounds (q * T.VSIZEX) N) (4 * (q * T.VSIZEX))).z k)
      float.zero = true

/-- The AVX target on a 32-bit platform: 8 lanes, `sizeof(size_t)` = 4. -/
def avx32 : Target := ⟨8, 4⟩

/-- Packets whose every lane is the inactive ray `inactiveHit`. -/
def inactivePackets (_ : Nat) : RayK := RayK.broadcast inactiveHit

/-- An `RayStreamSOP` over a stream of inactive rays: reads return the packet
of `inactivePackets`, no lane is reported valid, writes do nothing. -/
def inactiveSOP : RayStreamSOP Unit :=
  { getDirByOffset := fun _ _ _ => (inactivePackets 0).dir
    isValidByOffset := fun _ _ _ => vle (inactivePackets 0).tnear (inactivePackets 0).tfar
    getRayByOffset := fun _ _ _ => inactivePackets 0, setHitByOffset := fun s _ _ _ _ => s }

/-- The logs of a packet loop over an SOP stream of `N` rays agree packet by
packet: packet `j` is read with the in-bounds mask of its first ray
`j*VSIZEX` at byte offset `4*j*VSIZEX`, traced with that mask restricted to
the lanes with `tnear <= tfar`, and written back with the traced mask at the
same offset; so a lane that is written was read, in the same place. -/
def sameSlotSOP {σ : Type} (T : Target) (N : Nat) (st : SOPState σ) : Prop :=
  st.gathers.length = (N + T.VSIZEX - 1) / T.VSIZEX ∧
  st.calls.length = (N + T.VSIZEX - 1) / T.VSIZEX ∧
  st.scatters.length = (N + T.VSIZEX - 1) / T.VSIZEX ∧
  ∀ j, j < (N + T.VSIZEX - 1) / T.VSIZEX → ∃ valid ray,
    st.gathers[j]? = some ⟨inBounds (j * T.VSIZEX) N, 4 * (j * T.VSIZEX), 0⟩ ∧
    (st.calls[j]?).bind EngineCall.single = some (valid, ray) ∧
    st.scatters[j]? = some ⟨valid, 4 * (j * T.VSIZEX), 0⟩ ∧
    valid = vand (inBounds (j * T.VSIZEX) N) (vle ray.tnear ray.tfar) ∧
    ∀ k, valid k = true → inBounds (j * T.VSIZEX) N k = true

/-- The logs of the packet loop of `filterAOS` agree packet by packet: as
`sameSlotSOP`, with the register of offsets `vi * int(stride)`. -/
def sameSlotAOS {σ : Type} (T : Target) (N stride : Nat) (st : AOSState σ) : Prop :=
  st.gathers.length = (N + T.VSIZEX - 1) / T.VSIZEX ∧
  st.calls.length = (N + T.VSIZEX - 1) / T.VSIZEX ∧
  st.scatters.length = (N + T.VSIZEX - 1) / T.VSIZEX ∧
  ∀ j, j < (N + T.VSIZEX - 1) / T.VSIZEX → ∃ valid ray,
    st.gathers[j]? = some ⟨inBounds (j * T.VSIZEX) N, offsetAOS stride (j * T.VSIZEX)⟩ ∧
    (st.calls[j]?).bind EngineCall.single = some (valid, ray) ∧
    st.scatters[j]? = some ⟨valid, offsetAOS stride (j * T.VSIZEX)⟩ ∧
    valid = vand (inBounds (j * T.VSIZEX) N) (vle ray.tnear ray.tfar) ∧
    ∀ k, valid k = true → inBounds (j * T.VSIZEX) N k = true

/-- The logs of `filterAOS` agree packet by packet, wherever the loop counter
stood: packet number `j` was read at some ray index `i` with the in-bounds
mask and the offsets of `i`, traced with that mask restricted to the lanes
with `tnear <= tfar`, and written back with the traced mask at the same
offsets; so a lane that is written was read, in the same place. -/
def pairedAOS {σ : Type} (N stride : Nat) (st : AOSState σ) : Prop :=
  st.calls.length = st.gathers.length ∧ st.scatters.length = st.gathers.length ∧
  ∀ j, j < st.gathers.length → ∃ i valid ray,
    st.gathers[j]? = some ⟨inBounds i N, offsetAOS stride i⟩ ∧
    (st.calls[j]?).bind EngineCall.single = some (valid, ray) ∧
    st.scatters[j]? = some ⟨valid, offsetAOS stride i⟩ ∧
    valid = vand (inBounds i N) (vle ray.tnear ray.tfar) ∧
    ∀ k, valid k = true → inBounds i N k = true

/-- The packet a single-packet call on `ray` leaves behind. -/
def Scene.trace (scene : Scene) (intersect : Bool) (valid : vboolx) (ray : RayK)
    (context : IntersectContext) : RayK :=
  if intersect then scene.intersect valid ray context else scene.occluded valid ray context

/-- The engine's batched call on a list of packets has, on each packet, the
effect of its single-packet call with an all-active mask. -/
def Scene.batchedAsSingle (scene : Scene) : Prop :=
  ∀ (rays : List RayK) (size : Nat) (context : IntersectContext),
    scene.intersectN rays size context
      = rays.map (fun ray => scene.intersect (fun _ => true) ray context) ∧
    scene.occludedN rays size context
      = rays.map (fun ray => scene.occluded (fun _ => true) ray context)

/-- The engine's result does not depend on the input-layout hint. -/
def Scene.ignoresLayoutHint (scene : Scene) : Prop :=
  ∀ (valid : vboolx) (ray : RayK) (context : IntersectContext) (width : Nat),
    scene.intersect valid ray (context.setInputSOA width) = scene.intersect valid ray context ∧
    scene.occluded valid ray (context.setInputSOA width) = scene.occluded valid ray context

/-- The engine reads only the `VSIZEX` lanes of a mask that a register has. -/
def Scene.readsMaskLanes (T : Target) (scene : Scene) : Prop :=
  ∀ (valid valid' : vboolx) (ray : RayK) (context : IntersectContext),
    (∀ k, k < T.VSIZEX → valid k = valid' k) →
    scene.intersect valid ray context = scene.intersect valid' ray context ∧
    scene.occluded valid ray context = scene.occluded valid' ray context

/-- An engine that reports a hit with `geomID` 0 on every active lane, in
single-packet and in batched calls alike. -/
def hitScene (T : Target) : Scene :=
  { isRobust := false, validIsecN := true
    intersect := fun valid ray _ =>
      { ray with geomID := fun k => if k < T.VSIZEX ∧ valid k = true then 0 else ray.geomID k }
    occluded := fun valid ray _ =>
      { ray with geomID := fun k => if k < T.VSIZEX ∧ valid k = true then 0 else ray.geomID k }
    intersectN := fun rays _ _ => rays.map fun ray =>
      { ray with geomID := fun k =>
          if k < T.VSIZEX ∧ (fun _ => true) k = true then 0 else ray.geomID k }
    occludedN := fun rays _ _ => rays.map fun ray =>
      { ray with geomID := fun k =>
          if k < T.VSIZEX ∧ (fun _ => true) k = true then 0 else ray.geomID k } }

/-- Two quads of half-edges: the half-edge at index `idx` belongs to the quad
starting at `idx / 4 * 4` and starts at vertex `100 + idx`. -/
def quadEdges (idx : Nat) : HalfEdge :=
  { vtx_index := 100 + idx, start_halfedge_id := idx / 4 * 4, local_halfedge_id := idx % 4
    opposite_index := 4294967295 }

/-- Eight rows of a matrix whose entry in row `q` and column `k` is the float
with the bit pattern `10*q + k`. -/
def gridRows (q : Nat) : vfloatx := fun k => ⟨10 * q + k⟩

/-- The value `x` is one of the lanes `J` of `v` and is not above any of them. -/
def lowerIn (v : vfloatx) (J : List Nat) (x : float) : Prop :=
  (∃ j, j ∈ J ∧ x = v j) ∧ ∀ j, j ∈ J → float.le x (v j) = true

/-- The value `x` is one of the lanes `J` of `v` and is not below any of them. -/
def upperIn (v : vfloatx) (J : List Nat) (x : float) : Prop :=
  (∃ j, j ∈ J ∧ x = v j) ∧ ∀ j, j ∈ J → float.ge x (v j) = true

/-- The mask with the eight given lanes. -/
def maskOfBits (b0 b1 b2 b3 b4 b5 b6 b7 : Bool) : vboolx :=
  fun k => [b0, b1, b2, b3, b4, b5, b6, b7].getD k false

/-- Eight lanes given by their bit patterns. -/
def lanesOfBits (l : List Nat) : vfloatx := fun k => ⟨l.getD k 0⟩

/-- Eight lanes with the bit patterns 5, 3, 9, 4, 7, 4, 2, 6 (positive
floats, ordered as their patterns). -/
def sampleLanes : vfloatx := lanesOfBits [5, 3, 9, 4, 7, 4, 2, 6]

/-- The mask with every lane but 1 and 6. -/
def sampleMask : vboolx := maskOfBits true false true true true true false true


/-- The value -1.0f. -/
def float.minus_one : float := ⟨3212836864⟩

/-- The packet whose lane `k` is the ray `f k`. -/
def RayK.ofLanes (f : Nat → Ray) : RayK :=
  { org := ⟨fun k => (f k).org.x, fun k => (f k).org.y, fun k => (f k).org.z⟩
    dir := ⟨fun k => (f k).dir.x, fun k => (f k).dir.y, fun k => (f k).dir.z⟩
    tnear := fun k => (f k).tnear, tfar := fun k => (f k).tfar, time := fun k => (f k).time
    mask := fun k => (f k).mask
    Ng := ⟨fun k => (f k).Ng.x, fun k => (f k).Ng.y, fun k => (f k).Ng.z⟩
    u := fun k => (f k).u, v := fun k => (f k).v
    geomID := fun k => (f k).geomID, primID := fun k => (f k).primID
    instID := fun k => (f k).instID }

/-- Accessors of `RayStreamSOP` over a stream given ray by ray that read lane by
lane under the mask: a lane in the mask holds the ray of its index
`offset / 4 + k`, a lane outside the mask holds the ray `fill`; writes do
nothing. -/
def maskedSOP (fill : Ray) : RayStreamSOP (Nat → Ray) :=
  { getDirByOffset := fun rayN valid offset =>
      (RayK.ofLanes fun k => if valid k then rayN (offset / 4 + k) else fill).dir
    isValidByOffset := fun rayN valid offset =>
      vand valid (vle (RayK.ofLanes fun k => if valid k then rayN (offset / 4 + k) else fill).tnear
        (RayK.ofLanes fun k => if valid k then rayN (offset / 4 + k) else fill).tfar)
    getRayByOffset := fun rayN valid offset =>
      RayK.ofLanes fun k => if valid k then rayN (offset / 4 + k) else fill
    setHitByOffset := fun s _ _ _ _ => s }

/-- A stream whose every ray points along (-1,-1,-1) with the interval [0,1]. -/
def negativeRays (_ : Nat) : Ray :=
  mkRay float.minus_one float.minus_one float.minus_one float.zero float.one

/-- The ray a zero-filling masked load leaves in a lane outside the mask. -/
def zeroRay : Ray := mkRay float.zero float.zero float.zero float.zero float.zero

/-- Every ray of the stream is active: in each packet the lanes of ray indices
below `N` are reported valid. Lanes of indices from `N` on are not
constrained. -/
def allActiveSOP {σ : Type} (T : Target) (rs : RayStreamSOP σ) (rayN : σ) (N : Nat) : Prop :=
  ∀ q, q * T.VSIZEX < N → ∀ k, k < T.VSIZEX → q * T.VSIZEX + k < N →
    (rs.isValidByOffset rayN (inBounds (q * T.VSIZEX) N) (4 * (q * T.VSIZEX))) k = true

/-- All lanes of the register `sel dir` that the reads of the packets return,
those of indices from `N` on included, agree in sign: all negative or all
non-negative. -/
def sameSignSOP {σ : Type} (T : Target) (rs : RayStreamSOP σ) (rayN : σ) (N : Nat)
    (sel : Vec3vfx → vfloatx) : Prop :=
  (∀ q, q * T.VSIZEX < N → ∀ k, k < T.VSIZEX →
    float.lt (sel (rs.getDirByOffset rayN (inBounds (q * T.VSIZEX) N) (4 * (q * T.VSIZEX))) k)
      float.zero = true) ∨
  (∀ q, q * T.VSIZEX < N → ∀ k, k < T.VSIZEX →
    float.ge (sel (rs.getDirByOffset rayN (inBounds (q * T.VSIZEX) N) (4 * (q * T.VSIZEX))) k)
      float.zero = true)

/-- A stream whose every ray points along (1,1,1) with the interval [0,1]. -/
def positiveRays (_ : Nat) : Ray :=
  mkRay float.one float.one float.one float.zero float.one

/-- Element assignment on every field of a packet: lane `k` becomes the ray
`a`, the other lanes stay. -/
def RayK.setLaneRay (r : RayK) (k : Nat) (a : Ray) : RayK :=
  { org := ⟨setLane r.org.x k a.org.x, setLane r.org.y k a.org.y, setLane r.org.z k a.org.z⟩
    dir := ⟨setLane r.dir.x k a.dir.x, setLane r.dir.y k a.dir.y, setLane r.dir.z k a.dir.z⟩
    tnear := setLane r.tnear k a.tnear, tfar := setLane r.tfar k a.tfar
    time := setLane r.time k a.time, mask := setLane r.mask k a.mask
    Ng := ⟨setLane r.Ng.x k a.Ng.x, setLane r.Ng.y k a.Ng.y, setLane r.Ng.z k a.Ng.z⟩
    u := setLane r.u k a.u, v := setLane r.v k a.v
    geomID := setLane r.geomID k a.geomID, primID := setLane r.primID k a.primID
    instID := setLane r.instID k a.instID }

/-- Modelled from the spec: the write of a hit to a ray record, which the
accessors declared outside `src` perform. For an occlusion query only the
marker `geomID` is written; for an intersection query the full hit fields are
written; a lane whose `geomID` is still the sentinel leaves the record
untouched. -/
def writeHit (target source : Ray) (intersect : Bool) : Ray :=
  if source.geomID = RTC_INVALID_GEOMETRY_ID then target
  else if intersect then
    { target with tfar := source.tfar, Ng := source.Ng, u := source.u, v := source.v
                  geomID := source.geomID, primID := source.primID, instID := source.instID }
  else { target with geomID := source.geomID }

/-- Modelled from the spec: the accessors `RayPacketAOS::getRayByIndex` and
`RayPacketAOS::setHitByIndex`, whose class is declared outside `src`.
`getRayByIndex(ray, a, b)` copies ray `b` of the block into lane `a` of the
packet only; `setHitByIndex(i, ray, a, intersect)` writes the hit of lane `a`
of the packet back to exactly ray `i` of the block. -/
def packetAOS : RayPacketAOS :=
  { getRayByIndex := fun block _ ray a b => ray.setLaneRay a (block.lane b)
    setHitByIndex := fun block _ i ray a intersect =>
      block.setLaneRay i (writeHit (block.lane i) (ray.lane a) intersect) }

/-- What the slow path does for ray `i` of a block: the logged call `c` is a
single-packet call with the caller's context on a packet whose lanes other
than 0 are invalidated (`tnear` = 0, `tfar` = -inf) and masked out, whose lane
0 is ray `i` of the block and is in the mask iff that ray has
`tnear <= tfar`; and the ray `after` is ray `i` with the hit of lane 0 of the
traced packet written back. -/
def singleRayCall (scene : Scene) (context : IntersectContext) (intersect : Bool)
    (block : RayK) (i : Nat) (c : EngineCall) (after : Ray) : Prop :=
  ∃ valid ray,
    c = (if intersect then EngineCall.intersect valid ray context
         else EngineCall.occluded valid ray context) ∧
    (∀ k, k ≠ 0 → ray.tnear k = float.zero ∧ ray.tfar k = float.neg_inf ∧ valid k = false) ∧
    ray.lane 0 = block.lane i ∧
    valid 0 = float.le (block.tnear i) (block.tfar i) ∧
    after = writeHit (block.lane i)
      ((if intersect then scene.intersect valid ray context
        else scene.occluded valid ray context).lane 0) intersect

/-- The state of the slow path inside stream `s`, after rays `0 .. n-1`:
`rayData0` and `calls0` are the blocks and the log when the stream was
entered. -/
def slowInv (scene : Scene) (context : IntersectContext) (intersect : Bool) (s : Nat)
    (rayData0 : Nat → RayK) (calls0 : List EngineCall) (n : Nat) (st : SOAResult) : Prop :=
  st.context = context ∧
  st.calls.length = calls0.length + n ∧
  (∀ j, j < calls0.length → st.calls[j]? = calls0[j]?) ∧
  (∀ t, t ≠ s → st.rayData t = rayData0 t) ∧
  (∀ j, n ≤ j → (st.rayData s).lane j = (rayData0 s).lane j) ∧
  (∀ i, i < n → ∃ c, st.calls[calls0.length + i]? = some c ∧
    singleRayCall scene context intersect (rayData0 s) i c ((st.rayData s).lane i))

/-- The local packet of the slow path of `filterSOA` as it is passed to the
engine for ray `i` of the block `block`: all lanes of the packet `u` left by
the previous iteration are invalidated, then `getRayByIndex(ray,0,i)`. -/
def slowRay (acc : RayPacketAOS) (block : RayK) (N : Nat) (u : RayK) (i : Nat) : RayK :=
  acc.getRayByIndex block N
    { u with tnear := vfloatx.broadcast float.zero, tfar := vfloatx.broadcast float.neg_inf } 0 i

/-- The accesses logged between the states `p` and `q` all satisfy `P`. -/
def parallel_partition.accessesWithin (p q : parallel_partition) (P : Nat → Prop) : Prop :=
  ∃ added, q.accesses = p.accesses ++ added ∧ ∀ i ∈ added, P i
/-! # Theorems -/

/-! ## Floats -/

theorem float.isNaN_min {a b : float} (ha : a.isNaN = false) (hb : b.isNaN = false) :
    (float.min a b).isNaN = false := by
  unfold float.min; split <;> assumption

theorem float.isNaN_max {a b : float} (ha : a.isNaN = false) (hb : b.isNaN = false) :
    (float.max a b).isNaN = false := by
  unfold float.max; split <;> assumption

theorem float.ge_min {a b z : float} (ha : a.isNaN = false) (hb : b.isNaN = false) :
    float.ge (float.min a b) z = true ↔ float.ge a z = true ∧ float.ge b z = true := by
  unfold float.min
  by_cases hz : z.isNaN = true
  · simp [float.ge, hz]
  · simp only [Bool.not_eq_true] at hz
    by_cases h : float.lt a b = true
    · simp only [h, if_true]
      simp [float.lt, float.ge, ha, hb, hz] at h ⊢
      omega
    · simp only [h]
      simp [float.lt, float.ge, ha, hb, hz] at h ⊢
      omega

theorem float.lt_max {a b z : float} (ha : a.isNaN = false) (hb : b.isNaN = false) :
    float.lt (float.max a b) z = true ↔ float.lt a z = true ∧ float.lt b z = true := by
  unfold float.max
  by_cases hz : z.isNaN = true
  · simp [float.lt, hz]
  · simp only [Bool.not_eq_true] at hz
    by_cases h : float.gt a b = true
    · simp only [h, if_true]
      simp [float.lt, float.gt, ha, hb, hz] at h ⊢
      omega
    · simp only [h]
      simp [float.lt, float.gt, ha, hb, hz] at h ⊢
      omega

theorem minFold_succ (d : Nat → float) (n : Nat) :
    minFold d (n + 1) = float.min (minFold d n) (d n) := by
  simp [minFold, List.range_succ, List.foldl_append]

theorem maxFold_succ (d : Nat → float) (n : Nat) :
    maxFold d (n + 1) = float.max (maxFold d n) (d n) := by
  simp [maxFold, List.range_succ, List.foldl_append]

theorem minFold_spec (d : Nat → float) (n : Nat) (h : ∀ s < n, (d s).isNaN = false) :
    (minFold d n).isNaN = false ∧
    (float.ge (minFold d n) float.zero = true ↔ ∀ s < n, float.ge (d s) float.zero = true) := by
  induction n with
  | zero =>
    have e : minFold d 0 = float.pos_inf := rfl
    rw [e]; exact ⟨by decide, by simp; decide⟩
  | succ n ih =>
    have hn := h n (Nat.lt_succ_self n)
    obtain ⟨h1, h2⟩ := ih (fun s hs => h s (Nat.lt_succ_of_lt hs))
    rw [minFold_succ]
    refine ⟨float.isNaN_min h1 hn, ?_⟩
    rw [float.ge_min h1 hn, h2, Nat.forall_lt_succ]

theorem maxFold_spec (d : Nat → float) (n : Nat) (h : ∀ s < n, (d s).isNaN = false) :
    (maxFold d n).isNaN = false ∧
    (float.lt (maxFold d n) float.zero = true ↔ ∀ s < n, float.lt (d s) float.zero = true) := by
  induction n with
  | zero =>
    have e : maxFold d 0 = float.neg_inf := rfl
    rw [e]; exact ⟨by decide, by simp; decide⟩
  | succ n ih =>
    have hn := h n (Nat.lt_succ_self n)
    obtain ⟨h1, h2⟩ := ih (fun s hs => h s (Nat.lt_succ_of_lt hs))
    rw [maxFold_succ]
    refine ⟨float.isNaN_max h1 hn, ?_⟩
    rw [float.lt_max h1 hn, h2, Nat.forall_lt_succ]

theorem all_iff (T : Target) (m : vboolx) : all T m = true ↔ ∀ k < T.VSIZEX, m k = true := by
  simp [all, List.all_eq_true]

/-! ## The classifier of `filterSOACoherent` -/

theorem classifySOA_succ (rayData : Nat → RayK) (n : Nat) :
    classifySOA rayData (n + 1) = (classifySOA rayData n).addPacket (rayData n) := by
  simp [classifySOA, List.range_succ, List.foldl_append]

theorem classifySOA_min_x (rayData : Nat → RayK) (n k : Nat) :
    (classifySOA rayData n).min_x k = minFold (fun s => (rayData s).dir.x k) n := by
  induction n with
  | zero => rfl
  | succ n ih => rw [classifySOA_succ, minFold_succ, ← ih]; rfl

theorem classifySOA_min_y (rayData : Nat → RayK) (n k : Nat) :
    (classifySOA rayData n).min_y k = minFold (fun s => (rayData s).dir.y k) n := by
  induction n with
  | zero => rfl
  | succ n ih => rw [classifySOA_succ, minFold_succ, ← ih]; rfl

theorem classifySOA_min_z (rayData : Nat → RayK) (n k : Nat) :
    (classifySOA rayData n).min_z k = minFold (fun s => (rayData s).dir.z k) n := by
  induction n with
  | zero => rfl
  | succ n ih => rw [classifySOA_succ, minFold_succ, ← ih]; rfl

theorem classifySOA_max_x (rayData : Nat → RayK) (n k : Nat) :
    (classifySOA rayData n).max_x k = maxFold (fun s => (rayData s).dir.x k) n := by
  induction n with
  | zero => rfl
  | succ n ih => rw [classifySOA_succ, maxFold_succ, ← ih]; rfl

theorem classifySOA_max_y (rayData : Nat → RayK) (n k : Nat) :
    (classifySOA rayData n).max_y k = maxFold (fun s => (rayData s).dir.y k) n := by
  induction n with
  | zero => rfl
  | succ n ih => rw [classifySOA_succ, maxFold_succ, ← ih]; rfl

theorem classifySOA_max_z (rayData : Nat → RayK) (n k : Nat) :
    (classifySOA rayData n).max_z k = maxFold (fun s => (rayData s).dir.z k) n := by
  induction n with
  | zero => rfl
  | succ n ih => rw [classifySOA_succ, maxFold_succ, ← ih]; rfl

theorem classifySOA_all_active (rayData : Nat → RayK) (n k : Nat) :
    (classifySOA rayData n).all_active k = true ↔
      ∀ s < n, float.le ((rayData s).tnear k) ((rayData s).tfar k) = true := by
  induction n with
  | zero => simp [classifySOA, OctantBounds.init]
  | succ n ih =>
    rw [classifySOA_succ, Nat.forall_lt_succ, ← ih]
    simp [OctantBounds.addPacket, vand, vle]

theorem axis_lt (T : Target) (d : Nat → vfloatx) (n : Nat) (m : vfloatx)
    (h : ∀ s < n, ∀ k < T.VSIZEX, (d s k).isNaN = false)
    (hm : ∀ k, m k = maxFold (fun s => d s k) n) :
    all T (vlt m (vfloatx.broadcast float.zero)) = true ↔
      ∀ s < n, ∀ k < T.VSIZEX, float.lt (d s k) float.zero = true := by
  rw [all_iff]
  constructor
  · intro H s hs k hk
    have h1 := H k hk
    simp only [vlt, vfloatx.broadcast, hm] at h1
    exact (maxFold_spec (fun s => d s k) n (fun s hs => h s hs k hk)).2.1 h1 s hs
  · intro H k hk
    simp only [vlt, vfloatx.broadcast, hm]
    exact (maxFold_spec (fun s => d s k) n (fun s hs => h s hs k hk)).2.2 (fun s hs => H s hs k hk)

theorem axis_ge (T : Target) (d : Nat → vfloatx) (n : Nat) (m : vfloatx)
    (h : ∀ s < n, ∀ k < T.VSIZEX, (d s k).isNaN = false)
    (hm : ∀ k, m k = minFold (fun s => d s k) n) :
    all T (vge m (vfloatx.broadcast float.zero)) = true ↔
      ∀ s < n, ∀ k < T.VSIZEX, float.ge (d s k) float.zero = true := by
  rw [all_iff]
  constructor
  · intro H s hs k hk
    have h1 := H k hk
    simp only [vge, vfloatx.broadcast, hm] at h1
    exact (minFold_spec (fun s => d s k) n (fun s hs => h s hs k hk)).2.1 h1 s hs
  · intro H k hk
    simp only [vge, vfloatx.broadcast, hm]
    exact (minFold_spec (fun s => d s k) n (fun s hs => h s hs k hk)).2.2 (fun s hs => H s hs k hk)

theorem all_active_iff (T : Target) (rayData : Nat → RayK) (n : Nat) :
    all T (classifySOA rayData n).all_active = true ↔
      ∀ s < n, ∀ k < T.VSIZEX, float.le ((rayData s).tnear k) ((rayData s).tfar k) = true := by
  rw [all_iff]
  constructor
  · intro H s hs k hk
    exact (classifySOA_all_active rayData n k).1 (H k hk) s hs
  · intro H k hk
    exact (classifySOA_all_active rayData n k).2 (fun s hs => H s hs k hk)

theorem chunkFallbackSOA_iff (T : Target) (scene : Scene) (rayData : Nat → RayK) (streams : Nat)
    (h : dirNotNaN T rayData streams) :
    chunkFallbackSOA T scene rayData streams = false ↔ specCoherentSOA T scene rayData streams := by
  have hxl := axis_lt T (fun s => (rayData s).dir.x) streams (classifySOA rayData streams).max_x
    (fun s hs k hk => (h s hs k hk).1) (classifySOA_max_x rayData streams)
  have hxg := axis_ge T (fun s => (rayData s).dir.x) streams (classifySOA rayData streams).min_x
    (fun s hs k hk => (h s hs k hk).1) (classifySOA_min_x rayData streams)
  have hyl := axis_lt T (fun s => (rayData s).dir.y) streams (classifySOA rayData streams).max_y
    (fun s hs k hk => (h s hs k hk).2.1) (classifySOA_max_y rayData streams)
  have hyg := axis_ge T (fun s => (rayData s).dir.y) streams (classifySOA rayData streams).min_y
    (fun s hs k hk => (h s hs k hk).2.1) (classifySOA_min_y rayData streams)
  have hzl := axis_lt T (fun s => (rayData s).dir.z) streams (classifySOA rayData streams).max_z
    (fun s hs k hk => (h s hs k hk).2.2) (classifySOA_max_z rayData streams)
  have hzg := axis_ge T (fun s => (rayData s).dir.z) streams (classifySOA rayData streams).min_z
    (fun s hs k hk => (h s hs k hk).2.2) (classifySOA_min_z rayData streams)
  have ha := all_active_iff T rayData streams
  unfold specCoherentSOA
  rw [← hxl, ← hxg, ← hyl, ← hyg, ← hzl, ← hzg, ← ha]
  unfold chunkFallbackSOA OctantBounds.commonOctant
  dsimp only
  generalize all T (vlt (classifySOA rayData streams).max_x (vfloatx.broadcast float.zero)) = xl
  generalize all T (vge (classifySOA rayData streams).min_x (vfloatx.broadcast float.zero)) = xg
  generalize all T (vlt (classifySOA rayData streams).max_y (vfloatx.broadcast float.zero)) = yl
  generalize all T (vge (classifySOA rayData streams).min_y (vfloatx.broadcast float.zero)) = yg
  generalize all T (vlt (classifySOA rayData streams).max_z (vfloatx.broadcast float.zero)) = zl
  generalize all T (vge (classifySOA rayData streams).min_z (vfloatx.broadcast float.zero)) = zg
  generalize all T (classifySOA rayData streams).all_active = aa
  generalize scene.isRobust = r
  generalize scene.validIsecN = v
  cases r <;> cases v <;> cases aa <;> cases xl <;> cases xg <;> cases yl <;> cases yg <;>
    cases zl <;> cases zg <;> decide

/-! ## C1: path selection of `filterSOACoherent` -/

/-- C1, refuted as stated: with two packets on the AVX target, the first with
NaN x directions and the second pointing along (1,1,1), all lanes active, on a
non-robust scene with batched intersectors, `filterSOACoherent` takes the
coherent-batch path (`chunkFallback` is false and the only engine call is one
`intersectN` over both packets), although the x components are neither all
`< 0` nor all `>= 0`. -/
theorem filterSOACoherent_path_counterexample :
    chunkFallbackSOA avx64 (idleScene false true) nanThenPositive 2 = false ∧
    (filterSOACoherent avx64 (idleScene false true) nanThenPositive 2 plainContext true).calls
      = [EngineCall.intersectN [0, 1] 16 ⟨false, some 8⟩] ∧
    ¬ specCoherentSOA avx64 (idleScene false true) nanThenPositive 2 := by
  refine ⟨by decide, by rfl, ?_⟩
  intro h
  rcases h.2.2.2.1 with hx | hx
  · exact absurd (hx 0 (by decide) 0 (by decide)) (by decide)
  · exact absurd (hx 0 (by decide) 0 (by decide)) (by decide)

/-- C1 (amended): provided no direction component of the packets is a NaN,
`filterSOACoherent` takes the coherent-batch path (its `chunkFallback` flag is
false and it runs the batched loop) if and only if the scene is not robust,
all accels have a batched intersector, every lane of every one of the
`streams` packets has `tnear <= tfar`, and on each axis the direction
components of all lanes of all packets are all `< 0` or all `>= 0`; in every
other case it takes the chunk path. -/
theorem filterSOACoherent_path (T : Target) (scene : Scene) (rayData : Nat → RayK)
    (streams : Nat) (context : IntersectContext) (intersect : Bool)
    (h : dirNotNaN T rayData streams) :
    (chunkFallbackSOA T scene rayData streams = false ↔
      specCoherentSOA T scene rayData streams) ∧
    (specCoherentSOA T scene rayData streams →
      filterSOACoherent T scene rayData streams context intersect
        = coherentPathSOA T scene rayData streams context intersect) ∧
    (¬ specCoherentSOA T scene rayData streams →
      filterSOACoherent T scene rayData streams context intersect
        = chunkPathSOA scene rayData streams context intersect) := by
  have hiff := chunkFallbackSOA_iff T scene rayData streams h
  refine ⟨hiff, ?_, ?_⟩
  · intro hs
    have hf := hiff.2 hs
    simp [filterSOACoherent, hf]
  · intro hs
    have hf : chunkFallbackSOA T scene rayData streams = true := by
      cases hc : chunkFallbackSOA T scene rayData streams
      · exact absurd (hiff.1 hc) hs
      · rfl
    simp [filterSOACoherent, hf]

/-- C1 (amended), instance: three packets pointing along (1,1,1) on the AVX
target satisfy the hypothesis. -/
theorem filterSOACoherent_path_witness :
    dirNotNaN avx64 positivePackets 3 ∧
    ((chunkFallbackSOA avx64 (idleScene false true) positivePackets 3 = false ↔
      specCoherentSOA avx64 (idleScene false true) positivePackets 3) ∧
    (specCoherentSOA avx64 (idleScene false true) positivePackets 3 →
      filterSOACoherent avx64 (idleScene false true) positivePackets 3 plainContext true
        = coherentPathSOA avx64 (idleScene false true) positivePackets 3 plainContext true) ∧
    (¬ specCoherentSOA avx64 (idleScene false true) positivePackets 3 →
      filterSOACoherent avx64 (idleScene false true) positivePackets 3 plainContext true
        = chunkPathSOA (idleScene false true) positivePackets 3 plainContext true)) :=
  have e : float.one.isNaN = false := by decide
  have h : dirNotNaN avx64 positivePackets 3 := fun _ _ _ _ => ⟨e, e, e⟩
  ⟨h, filterSOACoherent_path avx64 (idleScene false true) positivePackets 3 plainContext true h⟩

/-! ## C2, C3: the accumulator of `filterSOACoherent` -/

theorem map_setLane_range (rp : Nat → Nat) (n s : Nat) :
    (List.range (n + 1)).map (setLane rp n s) = (List.range n).map rp ++ [s] := by
  rw [List.range_succ, List.map_append]
  congr 1
  · apply List.map_congr_left
    intro a ha
    have : a ≠ n := Nat.ne_of_lt (List.mem_range.1 ha)
    simp [setLane, this]
  · simp [setLane]

theorem traceStream_numStreams (T : Target) (scene : Scene) (context : IntersectContext)
    (intersect : Bool) (st : BatchState) :
    (traceStream T scene context intersect st).numStreams = st.numStreams := by
  unfold traceStream; cases intersect <;> rfl

theorem traceStream_writes (T : Target) (scene : Scene) (context : IntersectContext)
    (intersect : Bool) (st : BatchState) :
    (traceStream T scene context intersect st).writes = st.writes := by
  unfold traceStream; cases intersect <;> rfl

theorem traceStream_rays_ptr (T : Target) (scene : Scene) (context : IntersectContext)
    (intersect : Bool) (st : BatchState) :
    (traceStream T scene context intersect st).rays_ptr = st.rays_ptr := by
  unfold traceStream; cases intersect <;> rfl

theorem traceStream_calls (T : Target) (scene : Scene) (context : IntersectContext)
    (intersect : Bool) (st : BatchState) :
    ∃ c, (traceStream T scene context intersect st).calls = st.calls ++ [c] ∧
      c.isBatched = true ∧ c.packets = (List.range st.numStreams).map st.rays_ptr ∧
      c.size = st.numStreams * T.VSIZEX := by
  unfold traceStream
  cases intersect
  · exact ⟨_, rfl, rfl, rfl, rfl⟩
  · exact ⟨_, rfl, rfl, rfl, rfl⟩

theorem coherentLoopSOA_succ (T : Target) (scene : Scene) (context : IntersectContext)
    (intersect : Bool) (rayData : Nat → RayK) (s : Nat) :
    coherentLoopSOA T scene context intersect rayData (s + 1) =
      coherentStepSOA T scene context intersect
        (coherentLoopSOA T scene context intersect rayData s) s := by
  simp [coherentLoopSOA, List.range_succ, List.foldl_append]

/-- The loop invariant of the accumulation loop after `s` packets, with
`M = MAX_COHERENT_RAY_PACKETS`. -/
theorem coherentLoopSOA_inv (T : Target) (scene : Scene) (context : IntersectContext)
    (intersect : Bool) (rayData : Nat → RayK) (s : Nat)
    (hM : 0 < MAX_COHERENT_RAY_PACKETS T) :
    let st := coherentLoopSOA T scene context intersect rayData s
    st.numStreams < MAX_COHERENT_RAY_PACKETS T ∧
    s = st.calls.length * MAX_COHERENT_RAY_PACKETS T + st.numStreams ∧
    (∀ c ∈ st.calls, c.isBatched = true ∧
      c.packets.length = MAX_COHERENT_RAY_PACKETS T ∧
      c.size = MAX_COHERENT_RAY_PACKETS T * T.VSIZEX) ∧
    (st.calls.map EngineCall.packets).flatten ++ (List.range st.numStreams).map st.rays_ptr
      = List.range s ∧
    (∀ w ∈ st.writes, w < MAX_COHERENT_RAY_PACKETS T) := by
  induction s with
  | zero =>
    refine ⟨hM, ?_, ?_, ?_, ?_⟩ <;> simp [coherentLoopSOA]
  | succ s ih =>
    obtain ⟨h1, h2, h3, h4, h5⟩ := ih
    rw [coherentLoopSOA_succ]
    generalize coherentLoopSOA T scene context intersect rayData s = st at h1 h2 h3 h4 h5
    unfold coherentStepSOA
    dsimp only
    by_cases hfull : st.numStreams + 1 = MAX_COHERENT_RAY_PACKETS T
    · rw [if_pos hfull]
      obtain ⟨c, hc, hb, hp, hs⟩ := traceStream_calls T scene context intersect
        { st with rays_ptr := setLane st.rays_ptr st.numStreams s
                  writes := st.writes ++ [st.numStreams]
                  numStreams := st.numStreams + 1 }
      dsimp only at hc hp hs
      rw [map_setLane_range] at hp
      dsimp only
      rw [hc, traceStream_writes]
      refine ⟨hM, ?_, ?_, ?_, ?_⟩
      · simp only [List.length_append, List.length_singleton]
        rw [Nat.add_mul, Nat.one_mul]; omega
      · intro c' hc'
        rcases List.mem_append.1 hc' with hc' | hc'
        · exact h3 c' hc'
        · rw [List.mem_singleton] at hc'
          subst hc'
          refine ⟨hb, ?_, ?_⟩
          · rw [hp]; simp [hfull]
          · rw [hs, hfull]
      · simp only [List.map_append, List.flatten_append, List.map_cons, List.map_nil,
          List.flatten_cons, List.flatten_nil, List.range_zero, List.append_nil]
        rw [hp, ← List.append_assoc, h4, List.range_succ]
      · intro w hw
        rcases List.mem_append.1 hw with hw | hw
        · exact h5 w hw
        · rw [List.mem_singleton] at hw; omega
    · rw [if_neg hfull]
      dsimp only
      refine ⟨by omega, by omega, h3, ?_, ?_⟩
      · rw [map_setLane_range, ← List.append_assoc, h4, List.range_succ]
      · intro w hw
        rcases List.mem_append.1 hw with hw | hw
        · exact h5 w hw
        · rw [List.mem_singleton] at hw; omega

theorem ceil_div_aux (a M r : Nat) (hM : 0 < M) (hr : r < M) :
    (a * M + r + M - 1) / M = a + (if r = 0 then 0 else 1) := by
  by_cases h0 : r = 0
  · subst h0
    have e : a * M + 0 + M - 1 = (M - 1) + a * M := by omega
    rw [e, Nat.add_mul_div_right _ _ hM, Nat.div_eq_of_lt (by omega)]
    simp
  · have e : a * M + r + M - 1 = (r - 1) + (a + 1) * M := by
      rw [Nat.add_mul, Nat.one_mul]; omega
    rw [e, Nat.add_mul_div_right _ _ hM, Nat.div_eq_of_lt (by omega)]
    simp [h0]

theorem MAX_COHERENT_RAY_PACKETS_pos (T : Target) (hW : 0 < T.VSIZEX)
    (hcap : T.VSIZEX ≤ MAX_RAYS_PER_OCTANT T) : 0 < MAX_COHERENT_RAY_PACKETS T :=
  Nat.div_pos hcap hW

theorem coherentPathSOA_calls (T : Target) (scene : Scene) (rayData : Nat → RayK)
    (streams : Nat) (context : IntersectContext) (intersect : Bool)
    (hM : 0 < MAX_COHERENT_RAY_PACKETS T) :
    let calls := (coherentPathSOA T scene rayData streams context intersect).calls
    calls.length
      = (streams + MAX_COHERENT_RAY_PACKETS T - 1) / MAX_COHERENT_RAY_PACKETS T ∧
    (∀ c ∈ calls, c.isBatched = true ∧ c.size = c.packets.length * T.VSIZEX) ∧
    (∀ c ∈ calls.dropLast, c.packets.length = MAX_COHERENT_RAY_PACKETS T) ∧
    (∀ c ∈ calls.getLast?, 0 < c.packets.length ∧
      c.packets.length ≤ MAX_COHERENT_RAY_PACKETS T ∧
      c.packets.length = streams - (calls.length - 1) * MAX_COHERENT_RAY_PACKETS T) ∧
    (calls.map EngineCall.packets).flatten = List.range streams := by
  obtain ⟨h1, h2, h3, h4, -⟩ := coherentLoopSOA_inv T scene (context.setInputSOA T.VSIZEX)
    intersect rayData streams hM
  unfold coherentPathSOA
  dsimp only
  generalize coherentLoopSOA T scene (context.setInputSOA T.VSIZEX) intersect rayData streams
    = st at h1 h2 h3 h4
  have hceil := ceil_div_aux st.calls.length _ st.numStreams hM h1
  rw [← h2] at hceil
  by_cases h0 : st.numStreams = 0
  · simp only [h0, ne_eq, not_true_eq_false, if_false]
    rw [h0] at h2 h4 hceil
    simp only [List.range_zero, List.map_nil, List.append_nil, if_true, Nat.add_zero]
      at h2 h4 hceil
    refine ⟨hceil.symm, ?_, ?_, ?_, h4⟩
    · intro c hc
      obtain ⟨a, b, d⟩ := h3 c hc
      exact ⟨a, by rw [d, b]⟩
    · intro c hc
      exact (h3 c (List.mem_of_mem_dropLast hc)).2.1
    · intro c hc
      have hmem : c ∈ st.calls := List.mem_of_getLast?_eq_some hc
      have hlen : 0 < st.calls.length := List.length_pos_of_mem hmem
      have hp := (h3 c hmem).2.1
      refine ⟨by omega, by omega, ?_⟩
      obtain ⟨l, hl⟩ : ∃ l, st.calls.length = l + 1 := ⟨st.calls.length - 1, by omega⟩
      rw [hp, h2, hl, Nat.add_mul, Nat.one_mul]
      simp
  · simp only [ne_eq, h0, not_false_eq_true, if_true]
    obtain ⟨c, hc, hb, hp, hs⟩ := traceStream_calls T scene (context.setInputSOA T.VSIZEX)
      intersect st
    rw [hc]
    have hlenp : c.packets.length = st.numStreams := by rw [hp]; simp
    simp only [if_neg h0] at hceil
    refine ⟨by simp [hceil], ?_, ?_, ?_, ?_⟩
    · intro c' hc'
      rcases List.mem_append.1 hc' with hc' | hc'
      · obtain ⟨a, b, d⟩ := h3 c' hc'
        exact ⟨a, by rw [d, b]⟩
      · rw [List.mem_singleton] at hc'
        subst hc'
        exact ⟨hb, by rw [hs, hlenp]⟩
    · intro c' hc'
      rw [List.dropLast_concat] at hc'
      exact (h3 c' hc').2.1
    · intro c' hc'
      rw [List.getLast?_concat] at hc'
      cases hc'
      refine ⟨by omega, by omega, ?_⟩
      rw [hlenp]
      simp only [List.length_append, List.length_singleton, Nat.add_sub_cancel]
      omega
    · simp only [List.map_append, List.flatten_append, List.map_cons, List.map_nil,
        List.flatten_cons, List.flatten_nil, List.append_nil]
      rw [hp]; exact h4

/-- C2: on the coherent-batch path of `filterSOACoherent` (its `chunkFallback`
flag is false), for every number of packets `streams`, the engine is called
exactly `ceil(streams / MAX_COHERENT_RAY_PACKETS)` times and every call is a
batched one whose lane count is `VSIZEX` times its number of packets; every
call but the last carries exactly `MAX_COHERENT_RAY_PACKETS` packets, the last
carries the non-empty remainder, and the packet lists of all calls, joined in
call order, are the packets `0 .. streams-1` in stream order. -/
theorem filterSOACoherent_batches (T : Target) (scene : Scene) (rayData : Nat → RayK)
    (streams : Nat) (context : IntersectContext) (intersect : Bool)
    (hW : 0 < T.VSIZEX) (hcap : T.VSIZEX ≤ MAX_RAYS_PER_OCTANT T)
    (hpath : chunkFallbackSOA T scene rayData streams = false) :
    let calls := (filterSOACoherent T scene rayData streams context intersect).calls
    calls.length
      = (streams + MAX_COHERENT_RAY_PACKETS T - 1) / MAX_COHERENT_RAY_PACKETS T ∧
    (∀ c ∈ calls, c.isBatched = true ∧ c.size = c.packets.length * T.VSIZEX) ∧
    (∀ c ∈ calls.dropLast, c.packets.length = MAX_COHERENT_RAY_PACKETS T) ∧
    (∀ c ∈ calls.getLast?, 0 < c.packets.length ∧
      c.packets.length ≤ MAX_COHERENT_RAY_PACKETS T ∧
      c.packets.length = streams - (calls.length - 1) * MAX_COHERENT_RAY_PACKETS T) ∧
    (calls.map EngineCall.packets).flatten = List.range streams := by
  have e : filterSOACoherent T scene rayData streams context intersect
      = coherentPathSOA T scene rayData streams context intersect := by
    simp [filterSOACoherent, hpath]
  rw [e]
  exact coherentPathSOA_calls T scene rayData streams context intersect
    (MAX_COHERENT_RAY_PACKETS_pos T hW hcap)

/-- C2, instance: ten coherent packets on the AVX target (capacity 8 packets). -/
theorem filterSOACoherent_batches_witness :
    (0 < avx64.VSIZEX ∧ avx64.VSIZEX ≤ MAX_RAYS_PER_OCTANT avx64 ∧
      chunkFallbackSOA avx64 (idleScene false true) positivePackets 10 = false) ∧
    (let calls :=
      (filterSOACoherent avx64 (idleScene false true) positivePackets 10 plainContext false).calls
    calls.length
      = (10 + MAX_COHERENT_RAY_PACKETS avx64 - 1) / MAX_COHERENT_RAY_PACKETS avx64 ∧
    (∀ c ∈ calls, c.isBatched = true ∧ c.size = c.packets.length * avx64.VSIZEX) ∧
    (∀ c ∈ calls.dropLast, c.packets.length = MAX_COHERENT_RAY_PACKETS avx64) ∧
    (∀ c ∈ calls.getLast?, 0 < c.packets.length ∧
      c.packets.length ≤ MAX_COHERENT_RAY_PACKETS avx64 ∧
      c.packets.length = 10 - (calls.length - 1) * MAX_COHERENT_RAY_PACKETS avx64) ∧
    (calls.map EngineCall.packets).flatten = List.range 10) :=
  ⟨⟨by decide, by decide, by decide⟩,
    filterSOACoherent_batches avx64 (idleScene false true) positivePackets 10 plainContext false
      (by decide) (by decide) (by decide)⟩

/-! ## `filterAOP`: the gather and scatter loops -/

theorem gatherAOP_succ (rayN : Nat → Ray) (i n : Nat) (ray : RayK) :
    gatherAOP rayN i (n + 1) ray =
      (gatherLane (gatherAOP rayN i n ray).1 n (rayN (i + n)),
        (gatherAOP rayN i n ray).2 ++ [i + n]) := by
  simp [gatherAOP, List.range_succ, List.foldl_append]

theorem gatherAOP_snd (rayN : Nat → Ray) (i n : Nat) (ray : RayK) :
    (gatherAOP rayN i n ray).2 = (List.range n).map (i + ·) := by
  induction n with
  | zero => rfl
  | succ n ih => rw [gatherAOP_succ, List.range_succ, List.map_append, ← ih]; rfl

theorem gatherAOP_congr (rayN rayN' : Nat → Ray) (i n : Nat) (ray : RayK)
    (h : ∀ k < n, rayN (i + k) = rayN' (i + k)) :
    gatherAOP rayN i n ray = gatherAOP rayN' i n ray := by
  induction n with
  | zero => rfl
  | succ n ih =>
    rw [gatherAOP_succ, gatherAOP_succ, ih (fun k hk => h k (Nat.lt_succ_of_lt hk)),
      h n (Nat.lt_succ_self n)]

theorem gatherAOP_interval (rayN : Nat → Ray) (i n : Nat) (ray : RayK) (k : Nat) (hk : k < n) :
    (gatherAOP rayN i n ray).1.tnear k = (rayN (i + k)).tnear ∧
    (gatherAOP rayN i n ray).1.tfar k = (rayN (i + k)).tfar := by
  induction n with
  | zero => omega
  | succ n ih =>
    rw [gatherAOP_succ]
    by_cases hkn : k = n
    · subst hkn; simp [gatherLane, setLane]
    · have := ih (by omega)
      simp [gatherLane, setLane, hkn, this]

theorem scatterFold_succ (intersect : Bool) (ray : RayK) (i n : Nat) (st : AOPState) :
    (List.range (n + 1)).foldl (scatterLane intersect ray i) st =
      scatterLane intersect ray i ((List.range n).foldl (scatterLane intersect ray i) st) n := by
  simp [List.range_succ, List.foldl_append]

theorem scatterFold_spec (intersect : Bool) (ray : RayK) (i n : Nat) (st : AOPState) :
    let st1 := (List.range n).foldl (scatterLane intersect ray i) st
    (∀ idx, st1.rayN idx =
      if i ≤ idx ∧ idx < i + n then
        (st.rayN idx).storeAll (scatterStores intersect ray (idx - i))
      else st.rayN idx) ∧
    st1.calls = st.calls ∧ st1.gathers = st.gathers ∧
    st1.scatters = st.scatters ++ (List.range n).map (i + ·) ∧
    (∀ p, p ∈ st1.stores ↔ p ∈ st.stores ∨
      (i ≤ p.1 ∧ p.1 < i + n ∧ p.2 ∈ scatterStores intersect ray (p.1 - i))) := by
  induction n with
  | zero =>
    refine ⟨fun idx => ?_, rfl, rfl, by simp, fun p => ?_⟩
    · simp only [List.range_zero, List.foldl_nil]
      rw [if_neg (by omega)]
    · simp only [List.range_zero, List.foldl_nil, Nat.add_zero]
      constructor
      · exact Or.inl
      · rintro (h | h)
        · exact h
        · omega
  | succ n ih =>
    obtain ⟨h1, h2, h3, h4, h5⟩ := ih
    rw [scatterFold_succ]
    generalize (List.range n).foldl (scatterLane intersect ray i) st = s1 at h1 h2 h3 h4 h5
    refine ⟨fun idx => ?_, h2, h3, ?_, fun p => ?_⟩
    · simp only [scatterLane, setLane]
      by_cases he : idx = i + n
      · subst he
        rw [if_pos rfl, h1, if_neg (by omega), if_pos (by omega)]
        simp
      · rw [if_neg he, h1]
        by_cases hr : i ≤ idx ∧ idx < i + n
        · rw [if_pos hr, if_pos (by omega)]
        · rw [if_neg hr, if_neg (by omega)]
    · simp only [scatterLane]
      rw [h4, List.range_succ, List.map_append, List.append_assoc]; rfl
    · simp only [scatterLane, List.mem_append, h5, List.mem_map]
      constructor
      · rintro ((h | h) | ⟨s, hs, rfl⟩)
        · exact Or.inl h
        · exact Or.inr ⟨h.1, by omega, h.2.2⟩
        · refine Or.inr ⟨by simp, by simp, ?_⟩
          simpa using hs
      · rintro (h | ⟨ha, hb, hc⟩)
        · exact Or.inl (Or.inl h)
        · by_cases he : p.1 = i + n
          · refine Or.inr ⟨p.2, ?_, ?_⟩
            · rw [he] at hc; simpa using hc
            · rw [← he]
          · exact Or.inl (Or.inr ⟨ha, by omega, hc⟩)

theorem chunk_div (c W idx : Nat) (hW : 0 < W) (h1 : c * W ≤ idx) (h2 : idx < c * W + W) :
    idx / W * W = c * W ∧ idx % W = idx - c * W := by
  obtain ⟨r, hr⟩ : ∃ r, idx = r + c * W := ⟨idx - c * W, by omega⟩
  have hrW : r < W := by omega
  subst hr
  rw [Nat.add_mul_div_right _ _ hW, Nat.add_mul_mod_self_right, Nat.div_eq_of_lt hrW,
    Nat.mod_eq_of_lt hrW]
  simp

theorem packetAOP_congr (T : Target) (rayN rayN' : Nat → Ray) (N i : Nat) (u : RayK)
    (h : ∀ idx, i ≤ idx → rayN idx = rayN' idx) :
    packetAOP T rayN N i u = packetAOP T rayN' N i u := by
  unfold packetAOP
  rw [gatherAOP_congr rayN rayN' i _ u (fun k _ => h (i + k) (by omega))]

theorem validAOP_congr (T : Target) (rayN rayN' : Nat → Ray) (N i : Nat) (u : RayK)
    (h : ∀ idx, i ≤ idx → rayN idx = rayN' idx) :
    validAOP T rayN N i u = validAOP T rayN' N i u := by
  unfold validAOP
  rw [packetAOP_congr T rayN rayN' N i u h]

theorem chunkAOP_inv (T : Target) (scene : Scene) (rayN : Nat → Ray) (N : Nat)
    (context : IntersectContext) (intersect : Bool) (uninit : Nat → RayK)
    (c : Nat) (st : AOPState) (hW : 0 < T.VSIZEX)
    (hinv : AOPInv T scene rayN N context intersect uninit c st)
    (hlt : c * T.VSIZEX < N) :
    AOPInv T scene rayN N context intersect uninit (c + 1)
      (chunkAOP T scene context intersect N (uninit (c * T.VSIZEX)) (c * T.VSIZEX) st) := by
  obtain ⟨h1, h2, h3, h4, h5, h6, -⟩ := hinv
  have hsucc : (c + 1) * T.VSIZEX = c * T.VSIZEX + T.VSIZEX := by
    rw [Nat.add_mul, Nat.one_mul]
  have hpk := packetAOP_congr T st.rayN rayN N (c * T.VSIZEX) (uninit (c * T.VSIZEX))
    (fun idx hi => h1 idx (Or.inl hi))
  have hvl := validAOP_congr T st.rayN rayN N (c * T.VSIZEX) (uninit (c * T.VSIZEX))
    (fun idx hi => h1 idx (Or.inl hi))
  have hgt := gatherAOP_snd st.rayN (c * T.VSIZEX) (min (N - c * T.VSIZEX) T.VSIZEX)
    (uninit (c * T.VSIZEX))
  have hout : (if intersect then
        scene.intersect (validAOP T st.rayN N (c * T.VSIZEX) (uninit (c * T.VSIZEX)))
          (packetAOP T st.rayN N (c * T.VSIZEX) (uninit (c * T.VSIZEX))) context
      else
        scene.occluded (validAOP T st.rayN N (c * T.VSIZEX) (uninit (c * T.VSIZEX)))
          (packetAOP T st.rayN N (c * T.VSIZEX) (uninit (c * T.VSIZEX))) context)
      = outAOP T scene rayN N context intersect uninit (c * T.VSIZEX) := by
    rw [hpk, hvl]; rfl
  have hcall : (if intersect then
        EngineCall.intersect (validAOP T st.rayN N (c * T.VSIZEX) (uninit (c * T.VSIZEX)))
          (packetAOP T st.rayN N (c * T.VSIZEX) (uninit (c * T.VSIZEX))) context
      else
        EngineCall.occluded (validAOP T st.rayN N (c * T.VSIZEX) (uninit (c * T.VSIZEX)))
          (packetAOP T st.rayN N (c * T.VSIZEX) (uninit (c * T.VSIZEX))) context)
      = callAOP T rayN N context intersect uninit (c * T.VSIZEX) := by
    rw [hpk, hvl]; rfl
  unfold chunkAOP
  dsimp only
  rw [hout, hcall, hgt]
  obtain ⟨s1, s2, s3, s4, s5⟩ := scatterFold_spec intersect
    (outAOP T scene rayN N context intersect uninit (c * T.VSIZEX)) (c * T.VSIZEX)
    (min (N - c * T.VSIZEX) T.VSIZEX)
    { st with
      gathers := st.gathers ++ (List.range (min (N - c * T.VSIZEX) T.VSIZEX)).map
        (c * T.VSIZEX + ·)
      calls := st.calls ++ [callAOP T rayN N context intersect uninit (c * T.VSIZEX)] }
  dsimp only at s1 s2 s3 s4 s5
  have hn : c * T.VSIZEX + min (N - c * T.VSIZEX) T.VSIZEX
      = min ((c + 1) * T.VSIZEX) N := by
    rw [hsucc]; omega
  have hmin : min (c * T.VSIZEX) N = c * T.VSIZEX := by omega
  refine ⟨?_, ?_, ?_, ?_, ?_, ?_, ?_⟩
  · intro idx hidx
    rw [s1, if_neg (by omega)]
    exact h1 idx (by omega)
  · intro idx hi hN
    rw [s1]
    by_cases hr : c * T.VSIZEX ≤ idx
    · rw [if_pos ⟨hr, by omega⟩, h1 idx (Or.inl hr)]
      obtain ⟨e1, e2⟩ := chunk_div c T.VSIZEX idx hW hr (by omega)
      unfold storesAOP
      rw [e1, e2]
    · rw [if_neg (by omega)]
      exact h2 idx (by omega) hN
  · rw [s2, h3, List.range_succ, List.map_append]; rfl
  · rw [s3, h4, hmin, ← hn, List.range_add]
  · rw [s4, h5, hmin, ← hn, List.range_add]
  · intro p
    rw [s5, h6]
    constructor
    · rintro (⟨a, b, d⟩ | ⟨a, b, d⟩)
      · exact ⟨by omega, b, d⟩
      · obtain ⟨e1, e2⟩ := chunk_div c T.VSIZEX p.1 hW a (by omega)
        refine ⟨by omega, by omega, ?_⟩
        unfold storesAOP
        rw [e1, e2]; exact d
    · rintro ⟨a, b, d⟩
      by_cases hr : c * T.VSIZEX ≤ p.1
      · obtain ⟨e1, e2⟩ := chunk_div c T.VSIZEX p.1 hW hr (by omega)
        refine Or.inr ⟨hr, by omega, ?_⟩
        unfold storesAOP at d
        rw [e1, e2] at d; exact d
      · exact Or.inl ⟨by omega, b, d⟩
  · right
    simpa using hlt

theorem loopAOP_inv (T : Target) (scene : Scene) (rayN : Nat → Ray) (N : Nat)
    (context : IntersectContext) (intersect : Bool) (uninit : Nat → RayK)
    (hW : 0 < T.VSIZEX) (fuel : Nat) :
    ∀ (c : Nat) (st : AOPState), AOPInv T scene rayN N context intersect uninit c st →
      N ≤ c * T.VSIZEX + fuel →
      ∃ c1 st1, loopAOP T scene context intersect N uninit fuel (c * T.VSIZEX) st = some st1 ∧
        AOPInv T scene rayN N context intersect uninit c1 st1 ∧ N ≤ c1 * T.VSIZEX := by
  induction fuel with
  | zero =>
    intro c st hinv hN
    refine ⟨c, st, ?_, hinv, by omega⟩
    unfold loopAOP
    rw [if_neg (by omega)]
  | succ fuel ih =>
    intro c st hinv hN
    unfold loopAOP
    by_cases hlt : c * T.VSIZEX < N
    · rw [if_pos hlt]
      have hsucc : (c + 1) * T.VSIZEX = c * T.VSIZEX + T.VSIZEX := by
        rw [Nat.add_mul, Nat.one_mul]
      have hstep := chunkAOP_inv T scene rayN N context intersect uninit c st hW hinv hlt
      have := ih (c + 1) _ hstep (by omega)
      rw [hsucc] at this
      exact this
    · rw [if_neg hlt]
      exact ⟨c, st, rfl, hinv, by omega⟩

theorem ceil_eq_of_bounds (c N W : Nat) (hW : 0 < W) (h1 : N ≤ c * W)
    (h2 : c = 0 ∨ (c - 1) * W < N) : c = (N + W - 1) / W := by
  rcases h2 with h2 | h2
  · subst h2
    have hN : N = 0 := by omega
    subst hN
    rw [Nat.div_eq_of_lt (by omega)]
  · obtain ⟨d, hd⟩ : ∃ d, c = d + 1 := ⟨c - 1, by
      rcases Nat.eq_zero_or_pos c with h | h
      · subst h; simp at h2; omega
      · omega⟩
    subst hd
    simp only [Nat.add_sub_cancel] at h2
    rw [Nat.add_mul, Nat.one_mul] at h1
    have e : N + W - 1 = (N - 1 - d * W) + (d + 1) * W := by
      rw [Nat.add_mul, Nat.one_mul]; omega
    rw [e, Nat.add_mul_div_right _ _ hW, Nat.div_eq_of_lt (by omega)]
    simp

/-- What `filterAOP` computes, in closed form: it returns; records outside
`0..N-1` are untouched, record `idx` receives exactly the stores of its lane,
there is one engine call per chunk, and every index is gathered and scattered
once, in order. -/
theorem filterAOP_spec (T : Target) (scene : Scene) (rayN : Nat → Ray) (N : Nat)
    (context : IntersectContext) (intersect : Bool) (uninit : Nat → RayK) (fuel : Nat)
    (hW : 0 < T.VSIZEX) (hfuel : N ≤ fuel) :
    ∃ st, filterAOP T scene rayN N context intersect uninit fuel = some st ∧
      (∀ idx, N ≤ idx → st.rayN idx = rayN idx) ∧
      (∀ idx, idx < N → st.rayN idx =
        (rayN idx).storeAll (storesAOP T scene rayN N context intersect uninit idx)) ∧
      st.calls = (List.range ((N + T.VSIZEX - 1) / T.VSIZEX)).map
        (fun c => callAOP T rayN N context intersect uninit (c * T.VSIZEX)) ∧
      st.gathers = List.range N ∧ st.scatters = List.range N ∧
      (∀ p : Nat × Store, p ∈ st.stores ↔
        p.1 < N ∧ p.2 ∈ storesAOP T scene rayN N context intersect uninit p.1) := by
  have hinit : AOPInv T scene rayN N context intersect uninit 0 ⟨rayN, [], [], [], []⟩ := by
    refine ⟨fun _ _ => rfl, fun idx h => ?_, rfl, ?_, ?_, fun p => ?_, Or.inl rfl⟩
    · simp at h
    · simp
    · simp
    · simp
  obtain ⟨c1, st1, hrun, hinv, hdone⟩ :=
    loopAOP_inv T scene rayN N context intersect uninit hW fuel 0 _ hinit (by omega)
  rw [Nat.zero_mul] at hrun
  obtain ⟨h1, h2, h3, h4, h5, h6, h7⟩ := hinv
  have hc := ceil_eq_of_bounds c1 N T.VSIZEX hW hdone h7
  have hmin : min (c1 * T.VSIZEX) N = N := by omega
  refine ⟨st1, hrun, fun idx h => h1 idx (Or.inr h), fun idx h => h2 idx (by omega) h,
    ?_, ?_, ?_, fun p => ?_⟩
  · rw [h3, hc]
  · rw [h4, hmin]
  · rw [h5, hmin]
  · rw [h6]
    constructor
    · rintro ⟨_, b, d⟩; exact ⟨b, d⟩
    · rintro ⟨b, d⟩; exact ⟨by omega, b, d⟩

/-- The lane of record `idx` in its chunk: the gathered interval, the reset
`geomID` and the mask bit handed to the engine. -/
theorem laneAOP (T : Target) (rayN : Nat → Ray) (N : Nat) (uninit : Nat → RayK) (idx : Nat)
    (hW : 0 < T.VSIZEX) (hidx : idx < N) :
    idx / T.VSIZEX * T.VSIZEX + idx % T.VSIZEX = idx ∧
    idx % T.VSIZEX < min (N - idx / T.VSIZEX * T.VSIZEX) T.VSIZEX ∧
    (packetAOP T rayN N (idx / T.VSIZEX * T.VSIZEX)
      (uninit (idx / T.VSIZEX * T.VSIZEX))).tnear (idx % T.VSIZEX) = (rayN idx).tnear ∧
    (packetAOP T rayN N (idx / T.VSIZEX * T.VSIZEX)
      (uninit (idx / T.VSIZEX * T.VSIZEX))).tfar (idx % T.VSIZEX) = (rayN idx).tfar ∧
    (packetAOP T rayN N (idx / T.VSIZEX * T.VSIZEX)
      (uninit (idx / T.VSIZEX * T.VSIZEX))).geomID (idx % T.VSIZEX)
        = RTC_INVALID_GEOMETRY_ID ∧
    validAOP T rayN N (idx / T.VSIZEX * T.VSIZEX)
      (uninit (idx / T.VSIZEX * T.VSIZEX)) (idx % T.VSIZEX)
        = float.le (rayN idx).tnear (rayN idx).tfar := by
  have hsum : idx / T.VSIZEX * T.VSIZEX + idx % T.VSIZEX = idx := Nat.div_add_mod' idx T.VSIZEX
  have hmod : idx % T.VSIZEX < T.VSIZEX := Nat.mod_lt _ hW
  have hk : idx % T.VSIZEX < min (N - idx / T.VSIZEX * T.VSIZEX) T.VSIZEX := by omega
  obtain ⟨g1, g2⟩ := gatherAOP_interval rayN (idx / T.VSIZEX * T.VSIZEX) _
    (uninit (idx / T.VSIZEX * T.VSIZEX)) (idx % T.VSIZEX) hk
  rw [hsum] at g1 g2
  refine ⟨hsum, hk, g1, g2, rfl, ?_⟩
  unfold validAOP
  simp only [vand, vle, stepMask, hk, decide_True, Bool.true_and]
  show float.le ((packetAOP _ _ _ _ _).tnear _) ((packetAOP _ _ _ _ _).tfar _) = _
  unfold packetAOP
  dsimp only
  rw [g1, g2]


/-! ## C4: inactive rays in `filterAOP` -/

theorem idleScene_keepsInactive (r v : Bool) : (idleScene r v).keepsInactive :=
  fun _ _ _ _ _ => ⟨rfl, rfl⟩

theorem storeAll_geomID (r : Ray) (b : Nat) :
    r.storeAll [⟨RayField.geomID, b⟩] = { r with geomID := b } := rfl

theorem scatterStores_invalid (intersect : Bool) (ray : RayK) (k : Nat)
    (h : ray.geomID k = RTC_INVALID_GEOMETRY_ID) :
    scatterStores intersect ray k = [⟨RayField.geomID, RTC_INVALID_GEOMETRY_ID⟩] := by
  unfold scatterStores
  rw [h]
  simp

theorem scatterStores_occluded (ray : RayK) (k : Nat) :
    scatterStores false ray k = [⟨RayField.geomID, ray.geomID k⟩] := by
  simp [scatterStores]

/-- If the engine hands back lane `idx % VSIZEX` of the chunk of record `idx`
as it got it, `filterAOP` leaves the record with `geomID` reset and every
other field as before. -/
theorem filterAOP_unmodified_lane (T : Target) (scene : Scene) (rayN : Nat → Ray) (N : Nat)
    (context : IntersectContext) (intersect : Bool) (uninit : Nat → RayK) (fuel idx : Nat)
    (hW : 0 < T.VSIZEX) (hfuel : N ≤ fuel) (hidx : idx < N)
    (hlane : (outAOP T scene rayN N context intersect uninit
        (idx / T.VSIZEX * T.VSIZEX)).lane (idx % T.VSIZEX)
      = (packetAOP T rayN N (idx / T.VSIZEX * T.VSIZEX)
          (uninit (idx / T.VSIZEX * T.VSIZEX))).lane (idx % T.VSIZEX)) :
    ∃ st, filterAOP T scene rayN N context intersect uninit fuel = some st ∧
      st.rayN idx = { rayN idx with geomID := RTC_INVALID_GEOMETRY_ID } := by
  obtain ⟨st, hrun, -, h2, -⟩ :=
    filterAOP_spec T scene rayN N context intersect uninit fuel hW hfuel
  refine ⟨st, hrun, ?_⟩
  rw [h2 idx hidx]
  have hg : (outAOP T scene rayN N context intersect uninit
      (idx / T.VSIZEX * T.VSIZEX)).geomID (idx % T.VSIZEX) = RTC_INVALID_GEOMETRY_ID := by
    have := congrArg Ray.geomID hlane
    simpa [RayK.lane, packetAOP] using this
  unfold storesAOP
  rw [scatterStores_invalid _ _ _ hg, storeAll_geomID]

/-- C4, refuted as stated: one inactive ray (`tnear` = 1 > `tfar` = 0) with
`geomID` 5, an engine that changes nothing (so it only modifies active lanes),
intersection mode on the AVX target: after `filterAOP` the record's `geomID` is
`RTC_INVALID_GEOMETRY_ID`, not 5. -/
theorem filterAOP_mask_preservation_counterexample :
    (idleScene false true).keepsInactive ∧
    float.gt inactiveHit.tnear inactiveHit.tfar = true ∧
    inactiveHit.geomID = 5 ∧
    (filterAOP avx64 (idleScene false true) (fun _ => inactiveHit) 1 plainContext true
      (fun _ => junkPacket) 1).map (fun st => (st.rayN 0).geomID)
      = some RTC_INVALID_GEOMETRY_ID :=
  ⟨idleScene_keepsInactive false true, by decide, by decide, by decide⟩

/-- C4 (amended): for every stream and every ray in it that is not active
(`tnear <= tfar` fails, in particular `tnear > tfar`), after `filterAOP`
returns (intersect or occluded mode) the record has `geomID` equal to
`RTC_INVALID_GEOMETRY_ID` and every other field (`primID`, `instID`, `u`, `v`,
`Ng`, `tfar` and the input fields) exactly as before the call, for any engine
that only modifies active lanes. -/
theorem filterAOP_mask_preservation (T : Target) (scene : Scene) (rayN : Nat → Ray) (N : Nat)
    (context : IntersectContext) (intersect : Bool) (uninit : Nat → RayK) (fuel idx : Nat)
    (hW : 0 < T.VSIZEX) (hfuel : N ≤ fuel) (hidx : idx < N)
    (hengine : scene.keepsInactive)
    (hinactive : float.le (rayN idx).tnear (rayN idx).tfar = false) :
    ∃ st, filterAOP T scene rayN N context intersect uninit fuel = some st ∧
      st.rayN idx = { rayN idx with geomID := RTC_INVALID_GEOMETRY_ID } := by
  apply filterAOP_unmodified_lane T scene rayN N context intersect uninit fuel idx hW hfuel hidx
  obtain ⟨-, -, -, -, -, hv⟩ := laneAOP T rayN N uninit idx hW hidx
  rw [hinactive] at hv
  unfold outAOP
  cases intersect
  · exact (hengine _ _ context _ hv).2
  · exact (hengine _ _ context _ hv).1

/-- C4 (amended), instance: the inactive middle ray of three on the AVX target. -/
theorem filterAOP_mask_preservation_witness :
    (0 < avx64.VSIZEX ∧ 3 ≤ 3 ∧ 1 < 3 ∧ (idleScene false true).keepsInactive ∧
      float.le (threeRays 1).tnear (threeRays 1).tfar = false) ∧
    ∃ st, filterAOP avx64 (idleScene false true) threeRays 3 plainContext true
        (fun _ => junkPacket) 3 = some st ∧
      st.rayN 1 = { threeRays 1 with geomID := RTC_INVALID_GEOMETRY_ID } :=
  ⟨⟨by decide, by decide, by decide, idleScene_keepsInactive false true, by decide⟩,
    filterAOP_mask_preservation avx64 (idleScene false true) threeRays 3 plainContext true
      (fun _ => junkPacket) 3 1 (by decide) (by decide) (by decide)
      (idleScene_keepsInactive false true) (by decide)⟩

/-! ## C5: the occlusion marker in `filterAOP` -/

theorem idleScene_onlySetsMarker (r v : Bool) : (idleScene r v).onlySetsMarker :=
  fun _ _ _ _ => Or.inl rfl

/-- C5, refuted as stated: one active ray already marked occluded (`geomID` 0),
an engine whose `occluded` call changes nothing (it never clears a marker and
sets none), occlusion mode on the AVX target: after `filterAOP` the record's
`geomID` is `RTC_INVALID_GEOMETRY_ID`, the marker is gone. -/
theorem filterAOP_occlusion_marker_counterexample :
    (idleScene false true).onlySetsMarker ∧ (idleScene false true).keepsInactive ∧
    occludedRay.geomID = 0 ∧
    (filterAOP avx64 (idleScene false true) (fun _ => occludedRay) 1 plainContext false
      (fun _ => junkPacket) 1).map (fun st => (st.rayN 0).geomID)
      = some RTC_INVALID_GEOMETRY_ID :=
  ⟨idleScene_onlySetsMarker false true, idleScene_keepsInactive false true,
    by decide, by decide⟩

/-- C5 (amended): an occlusion dispatch through `filterAOP` does not look at
the `geomID` a record holds: the lane handed to the engine has `geomID` reset
to `RTC_INVALID_GEOMETRY_ID`, and after the call the record's `geomID` is what
the engine's `occluded` call left in that lane, every other field being as
before. For every engine whose `occluded` call can only set the marker, on
active lanes, and never clears it, a record (marked occluded before the call or
not) has `geomID` 0 after it if and only if the engine sets the marker on its
lane in this call, which takes an active lane; otherwise its `geomID` is
`RTC_INVALID_GEOMETRY_ID`. -/
theorem filterAOP_occlusion_marker (T : Target) (scene : Scene) (rayN : Nat → Ray) (N : Nat)
    (context : IntersectContext) (uninit : Nat → RayK) (fuel idx : Nat)
    (hW : 0 < T.VSIZEX) (hfuel : N ≤ fuel) (hidx : idx < N) :
    ∃ st, filterAOP T scene rayN N context false uninit fuel = some st ∧
      (packetAOP T rayN N (idx / T.VSIZEX * T.VSIZEX)
        (uninit (idx / T.VSIZEX * T.VSIZEX))).geomID (idx % T.VSIZEX)
          = RTC_INVALID_GEOMETRY_ID ∧
      st.rayN idx = { rayN idx with
        geomID := (scene.occluded
          (validAOP T rayN N (idx / T.VSIZEX * T.VSIZEX) (uninit (idx / T.VSIZEX * T.VSIZEX)))
          (packetAOP T rayN N (idx / T.VSIZEX * T.VSIZEX) (uninit (idx / T.VSIZEX * T.VSIZEX)))
          context).geomID (idx % T.VSIZEX) } ∧
      (scene.onlySetsMarker →
        ((st.rayN idx).geomID = 0 ↔
          (scene.occluded
            (validAOP T rayN N (idx / T.VSIZEX * T.VSIZEX) (uninit (idx / T.VSIZEX * T.VSIZEX)))
            (packetAOP T rayN N (idx / T.VSIZEX * T.VSIZEX) (uninit (idx / T.VSIZEX * T.VSIZEX)))
            context).geomID (idx % T.VSIZEX) = 0) ∧
        ((st.rayN idx).geomID = 0 →
          validAOP T rayN N (idx / T.VSIZEX * T.VSIZEX) (uninit (idx / T.VSIZEX * T.VSIZEX))
            (idx % T.VSIZEX) = true) ∧
        ((st.rayN idx).geomID ≠ 0 → (st.rayN idx).geomID = RTC_INVALID_GEOMETRY_ID)) := by
  obtain ⟨st, hrun, -, h2, -⟩ :=
    filterAOP_spec T scene rayN N context false uninit fuel hW hfuel
  have hst : st.rayN idx = { rayN idx with
      geomID := (scene.occluded
        (validAOP T rayN N (idx / T.VSIZEX * T.VSIZEX) (uninit (idx / T.VSIZEX * T.VSIZEX)))
        (packetAOP T rayN N (idx / T.VSIZEX * T.VSIZEX) (uninit (idx / T.VSIZEX * T.VSIZEX)))
        context).geomID (idx % T.VSIZEX) } := by
    rw [h2 idx hidx]
    unfold storesAOP
    rw [scatterStores_occluded, storeAll_geomID]
    rfl
  have hreset : (packetAOP T rayN N (idx / T.VSIZEX * T.VSIZEX)
      (uninit (idx / T.VSIZEX * T.VSIZEX))).geomID (idx % T.VSIZEX)
        = RTC_INVALID_GEOMETRY_ID := rfl
  have hgeom : (st.rayN idx).geomID = (scene.occluded
      (validAOP T rayN N (idx / T.VSIZEX * T.VSIZEX) (uninit (idx / T.VSIZEX * T.VSIZEX)))
      (packetAOP T rayN N (idx / T.VSIZEX * T.VSIZEX) (uninit (idx / T.VSIZEX * T.VSIZEX)))
      context).geomID (idx % T.VSIZEX) := by rw [hst]
  refine ⟨st, hrun, hreset, hst, fun hengine => ?_⟩
  have hcases := hengine
    (validAOP T rayN N (idx / T.VSIZEX * T.VSIZEX) (uninit (idx / T.VSIZEX * T.VSIZEX)))
    (packetAOP T rayN N (idx / T.VSIZEX * T.VSIZEX) (uninit (idx / T.VSIZEX * T.VSIZEX)))
    context (idx % T.VSIZEX)
  rw [hreset, ← hgeom] at hcases
  have hsentinel : RTC_INVALID_GEOMETRY_ID ≠ 0 := by decide
  refine ⟨by rw [hgeom], fun h0 => ?_, fun hne => ?_⟩
  · rcases hcases with h | h
    · rw [h0] at h
      exact absurd h.symm hsentinel
    · exact h.1
  · rcases hcases with h | h
    · exact h
    · exact absurd h.2 hne

theorem hitScene_onlySetsMarker (T : Target) : (hitScene T).onlySetsMarker := by
  intro valid ray context k
  show (if k < T.VSIZEX ∧ valid k = true then 0 else ray.geomID k) = ray.geomID k ∨
    (valid k = true ∧ (if k < T.VSIZEX ∧ valid k = true then 0 else ray.geomID k) = 0)
  by_cases h : k < T.VSIZEX ∧ valid k = true
  · rw [if_pos h]
    exact Or.inr ⟨h.2, rfl⟩
  · rw [if_neg h]
    exact Or.inl rfl

/-- C5 (amended), instance: the occluded ray alone on the AVX target, with an
engine that marks every active lane. -/
theorem filterAOP_occlusion_marker_witness :
    (0 < avx64.VSIZEX ∧ 1 ≤ 1 ∧ 0 < 1 ∧ (hitScene avx64).onlySetsMarker) ∧
    ∃ st, filterAOP avx64 (hitScene avx64) (fun _ => occludedRay) 1 plainContext false
        (fun _ => junkPacket) 1 = some st ∧
      (packetAOP avx64 (fun _ => occludedRay) 1 (0 / avx64.VSIZEX * avx64.VSIZEX)
        (junkPacket)).geomID (0 % avx64.VSIZEX) = RTC_INVALID_GEOMETRY_ID ∧
      st.rayN 0 = { occludedRay with
        geomID := ((hitScene avx64).occluded
          (validAOP avx64 (fun _ => occludedRay) 1 (0 / avx64.VSIZEX * avx64.VSIZEX) junkPacket)
          (packetAOP avx64 (fun _ => occludedRay) 1 (0 / avx64.VSIZEX * avx64.VSIZEX) junkPacket)
          plainContext).geomID (0 % avx64.VSIZEX) } ∧
      ((hitScene avx64).onlySetsMarker →
        ((st.rayN 0).geomID = 0 ↔
          ((hitScene avx64).occluded
            (validAOP avx64 (fun _ => occludedRay) 1 (0 / avx64.VSIZEX * avx64.VSIZEX) junkPacket)
            (packetAOP avx64 (fun _ => occludedRay) 1 (0 / avx64.VSIZEX * avx64.VSIZEX) junkPacket)
            plainContext).geomID (0 % avx64.VSIZEX) = 0) ∧
        ((st.rayN 0).geomID = 0 →
          validAOP avx64 (fun _ => occludedRay) 1 (0 / avx64.VSIZEX * avx64.VSIZEX) junkPacket
            (0 % avx64.VSIZEX) = true) ∧
        ((st.rayN 0).geomID ≠ 0 → (st.rayN 0).geomID = RTC_INVALID_GEOMETRY_ID)) :=
  ⟨⟨by decide, by decide, by decide, hitScene_onlySetsMarker avx64⟩,
    filterAOP_occlusion_marker avx64 (hitScene avx64) (fun _ => occludedRay) 1 plainContext
      (fun _ => junkPacket) 1 0 (by decide) (by decide) (by decide)⟩


/-! ## C6: rays already marked occluded -/

theorem chunkPathSOA_succ (scene : Scene) (rayData : Nat → RayK) (n : Nat)
    (context : IntersectContext) (intersect : Bool) :
    chunkPathSOA scene rayData (n + 1) context intersect =
      chunkStepSOA scene intersect (chunkPathSOA scene rayData n context intersect) n := by
  simp [chunkPathSOA, List.range_succ, List.foldl_append]

/-- The chunk loop over packets in closed form: later packets are untouched,
the context is passed on unchanged, and call `s` is the single-packet call on
packet `s` with the mask `tnear <= tfar`. -/
theorem chunkPathSOA_spec (scene : Scene) (rayData : Nat → RayK) (n : Nat)
    (context : IntersectContext) (intersect : Bool) :
    (∀ s, n ≤ s → (chunkPathSOA scene rayData n context intersect).rayData s = rayData s) ∧
    (chunkPathSOA scene rayData n context intersect).context = context ∧
    (chunkPathSOA scene rayData n context intersect).writes = [] ∧
    (chunkPathSOA scene rayData n context intersect).calls
      = (List.range n).map (callSOA rayData context intersect) := by
  induction n with
  | zero => exact ⟨fun _ _ => rfl, rfl, rfl, rfl⟩
  | succ n ih =>
    obtain ⟨h1, h2, h3, h4⟩ := ih
    rw [chunkPathSOA_succ]
    generalize chunkPathSOA scene rayData n context intersect = st at h1 h2 h3 h4
    have hn := h1 n (Nat.le_refl n)
    unfold chunkStepSOA
    cases intersect
    · refine ⟨fun s hs => ?_, h2, h3, ?_⟩
      · simp only [Bool.false_eq_true, if_false, setLane]
        rw [if_neg (by omega)]
        exact h1 s (by omega)
      · simp only [Bool.false_eq_true, if_false]
        rw [h4, hn, h2, List.range_succ, List.map_append]
        rfl
    · refine ⟨fun s hs => ?_, h2, h3, ?_⟩
      · simp only [if_true, setLane]
        rw [if_neg (by omega)]
        exact h1 s (by omega)
      · simp only [if_true]
        rw [h4, hn, h2, List.range_succ, List.map_append]
        rfl

theorem le_ceil_mul (N W : Nat) (hW : 0 < W) : N ≤ (N + W - 1) / W * W := by
  have h1 := Nat.div_add_mod (N + W - 1) W
  have h2 := Nat.mod_lt (N + W - 1) hW
  rw [Nat.mul_comm] at h1
  omega

theorem chunk_lt_ceil (N W idx : Nat) (hW : 0 < W) (hidx : idx < N) :
    idx / W < (N + W - 1) / W := by
  rw [Nat.div_lt_iff_lt_mul hW]
  have := le_ceil_mul N W hW
  omega

theorem getElem?_map_range {α : Type} (f : Nat → α) (n c : Nat) (h : c < n) :
    ((List.range n).map f)[c]? = some (f c) := by
  rw [List.getElem?_map, List.getElem?_range h]
  rfl

/-- C6, refuted as stated: one active ray already marked occluded (`geomID`
0), occlusion mode on the AVX target: `filterAOP` issues one `occluded` call
and lane 0, which holds that ray, is set in its active mask. -/
theorem occluded_ray_skipped_counterexample :
    occludedRay.geomID = 0 ∧
    (filterAOP avx64 (idleScene false true) (fun _ => occludedRay) 1 plainContext false
      (fun _ => junkPacket) 1).map
        (fun st => st.calls.map (fun c => c.single.map (fun p => p.1 0)))
      = some [some true] :=
  ⟨by decide, by decide⟩

/-- C6 (amended): in an occlusion query a ray already marked occluded is not
skipped. In the `occluded` call `filterAOP` issues for the chunk of ray `idx`,
the lane of that ray is set in the active mask if and only if `tnear <= tfar`,
whatever its `geomID`; and on the chunk path of `filterSOACoherent` (the
packet path of `filterSOA`) the call for packet `s` has the mask
`tnear <= tfar` of that packet, whatever its `geomID` lanes. -/
theorem occluded_ray_not_skipped (T : Target) (scene : Scene) (rayN : Nat → Ray) (N : Nat)
    (context : IntersectContext) (uninit : Nat → RayK) (fuel idx : Nat)
    (rayData : Nat → RayK) (streams : Nat)
    (hW : 0 < T.VSIZEX) (hfuel : N ≤ fuel) (hidx : idx < N) :
    (∃ st, filterAOP T scene rayN N context false uninit fuel = some st ∧
      ∃ valid ray, st.calls[idx / T.VSIZEX]? = some (EngineCall.occluded valid ray context) ∧
        valid (idx % T.VSIZEX) = float.le (rayN idx).tnear (rayN idx).tfar) ∧
    (∀ s, s < streams →
      (chunkPathSOA scene rayData streams context false).calls[s]?
        = some (EngineCall.occluded (vle (rayData s).tnear (rayData s).tfar)
            (rayData s) context)) := by
  constructor
  · obtain ⟨st, hrun, -, -, h3, -⟩ :=
      filterAOP_spec T scene rayN N context false uninit fuel hW hfuel
    refine ⟨st, hrun,
      validAOP T rayN N (idx / T.VSIZEX * T.VSIZEX) (uninit (idx / T.VSIZEX * T.VSIZEX)),
      packetAOP T rayN N (idx / T.VSIZEX * T.VSIZEX) (uninit (idx / T.VSIZEX * T.VSIZEX)),
      ?_, (laneAOP T rayN N uninit idx hW hidx).2.2.2.2.2⟩
    rw [h3, getElem?_map_range _ _ _ (chunk_lt_ceil N T.VSIZEX idx hW hidx)]
    rfl
  · intro s hs
    rw [(chunkPathSOA_spec scene rayData streams context false).2.2.2,
      getElem?_map_range _ _ _ hs]
    rfl

/-- C6 (amended), instance: the occluded ray alone, and three coherent packets. -/
theorem occluded_ray_not_skipped_witness :
    (0 < avx64.VSIZEX ∧ 1 ≤ 1 ∧ 0 < 1) ∧
    ((∃ st, filterAOP avx64 (idleScene false true) (fun _ => occludedRay) 1 plainContext false
        (fun _ => junkPacket) 1 = some st ∧
      ∃ valid ray, st.calls[0 / avx64.VSIZEX]?
          = some (EngineCall.occluded valid ray plainContext) ∧
        valid (0 % avx64.VSIZEX) = float.le occludedRay.tnear occludedRay.tfar) ∧
    (∀ s, s < 3 →
      (chunkPathSOA (idleScene false true) positivePackets 3 plainContext false).calls[s]?
        = some (EngineCall.occluded (vle (positivePackets s).tnear (positivePackets s).tfar)
            (positivePackets s) plainContext))) :=
  ⟨⟨by decide, by decide, by decide⟩,
    occluded_ray_not_skipped avx64 (idleScene false true) (fun _ => occludedRay) 1 plainContext
      (fun _ => junkPacket) 1 0 positivePackets 3 (by decide) (by decide) (by decide)⟩


/-! ## C7: the scatter rule of `filterAOP` -/

/-- C8, refuted as stated: one active ray carrying an earlier hit with
`geomID` 5, an engine that finds nothing and hands the lane back unmodified
(its `geomID` still the sentinel), intersection mode on the AVX target: after
`filterAOP` the record's `geomID` is `RTC_INVALID_GEOMETRY_ID`, not 5. -/
theorem filterAOP_round_trip_counterexample :
    float.le earlierHit.tnear earlierHit.tfar = true ∧ earlierHit.geomID = 5 ∧
    (outAOP avx64 (idleScene false true) (fun _ => earlierHit) 1 plainContext true
        (fun _ => junkPacket) 0).lane 0
      = (packetAOP avx64 (fun _ => earlierHit) 1 0 junkPacket).lane 0 ∧
    (packetAOP avx64 (fun _ => earlierHit) 1 0 junkPacket).geomID 0
      = RTC_INVALID_GEOMETRY_ID ∧
    (filterAOP avx64 (idleScene false true) (fun _ => earlierHit) 1 plainContext true
      (fun _ => junkPacket) 1).map (fun st => (st.rayN 0).geomID)
      = some RTC_INVALID_GEOMETRY_ID :=
  ⟨by decide, by decide, by decide, by decide, by decide⟩

/-- C8 (amended): for every stream and every ray `idx` of it, if the engine
leaves that lane of the packet unmodified (no hit found, `geomID` stays at the
sentinel), then after `filterAOP` in intersection mode every field of the
record other than `geomID` has exactly its value from before the call, and
`geomID` is `RTC_INVALID_GEOMETRY_ID`; the whole record is as before exactly
when its `geomID` was the sentinel before the call. -/
theorem filterAOP_round_trip (T : Target) (scene : Scene) (rayN : Nat → Ray) (N : Nat)
    (context : IntersectContext) (uninit : Nat → RayK) (fuel idx : Nat)
    (hW : 0 < T.VSIZEX) (hfuel : N ≤ fuel) (hidx : idx < N)
    (hlane : (scene.intersect
          (validAOP T rayN N (idx / T.VSIZEX * T.VSIZEX) (uninit (idx / T.VSIZEX * T.VSIZEX)))
          (packetAOP T rayN N (idx / T.VSIZEX * T.VSIZEX) (uninit (idx / T.VSIZEX * T.VSIZEX)))
          context).lane (idx % T.VSIZEX)
      = (packetAOP T rayN N (idx / T.VSIZEX * T.VSIZEX)
          (uninit (idx / T.VSIZEX * T.VSIZEX))).lane (idx % T.VSIZEX)) :
    ∃ st, filterAOP T scene rayN N context true uninit fuel = some st ∧
      st.rayN idx = { rayN idx with geomID := RTC_INVALID_GEOMETRY_ID } ∧
      (st.rayN idx = rayN idx ↔ (rayN idx).geomID = RTC_INVALID_GEOMETRY_ID) := by
  obtain ⟨st, hrun, hst⟩ :=
    filterAOP_unmodified_lane T scene rayN N context true uninit fuel idx hW hfuel hidx hlane
  refine ⟨st, hrun, hst, ?_⟩
  rw [hst]
  constructor
  · intro h
    have := congrArg Ray.geomID h
    exact this.symm
  · intro h
    rw [← h]

/-- C8 (amended), instance: the active first ray of three on the AVX target. -/
theorem filterAOP_round_trip_witness :
    (0 < avx64.VSIZEX ∧ 3 ≤ 3 ∧ 0 < 3 ∧
      ((idleScene false true).intersect
          (validAOP avx64 threeRays 3 (0 / avx64.VSIZEX * avx64.VSIZEX) junkPacket)
          (packetAOP avx64 threeRays 3 (0 / avx64.VSIZEX * avx64.VSIZEX) junkPacket)
          plainContext).lane (0 % avx64.VSIZEX)
        = (packetAOP avx64 threeRays 3 (0 / avx64.VSIZEX * avx64.VSIZEX)
            junkPacket).lane (0 % avx64.VSIZEX)) ∧
    ∃ st, filterAOP avx64 (idleScene false true) threeRays 3 plainContext true
        (fun _ => junkPacket) 3 = some st ∧
      st.rayN 0 = { threeRays 0 with geomID := RTC_INVALID_GEOMETRY_ID } ∧
      (st.rayN 0 = threeRays 0 ↔ (threeRays 0).geomID = RTC_INVALID_GEOMETRY_ID) :=
  ⟨⟨by decide, by decide, by decide, rfl⟩,
    filterAOP_round_trip avx64 (idleScene false true) threeRays 3 plainContext
      (fun _ => junkPacket) 3 0 (by decide) (by decide) (by decide) rfl⟩

/-! ## C9: chunks, masks and indices of `filterAOP` -/

/-- C9: for every `N`, `filterAOP` returns after exactly `ceil(N / VSIZEX)`
engine calls, all single-packet calls; in the call for chunk start
`i = c*VSIZEX`, lane `k` is active if and only if `k < min(N - i, VSIZEX)` and
the packet has `tnear[k] <= tfar[k]`, where for `k < min(N - i, VSIZEX)` the
packet's interval is that of record `i + k` (lanes from `min(N - i, VSIZEX)`
on are never active, whatever the uninitialised packet holds); the gather loop
and the scatter loop each visit the indices `0 .. N-1` once, in order, so every
index read or written is `< N`; every assignment goes to a record with index
`< N` and records from `N` on are untouched. -/
theorem filterAOP_chunks (T : Target) (scene : Scene) (rayN : Nat → Ray) (N : Nat)
    (context : IntersectContext) (intersect : Bool) (uninit : Nat → RayK) (fuel : Nat)
    (hW : 0 < T.VSIZEX) (hfuel : N ≤ fuel) :
    ∃ st, filterAOP T scene rayN N context intersect uninit fuel = some st ∧
      st.calls.length = (N + T.VSIZEX - 1) / T.VSIZEX ∧
      (∀ c, c < (N + T.VSIZEX - 1) / T.VSIZEX →
        ∃ call valid ray, st.calls[c]? = some call ∧ call.isBatched = false ∧
          call.single = some (valid, ray) ∧
          (∀ k, valid k = true ↔
            (k < min (N - c * T.VSIZEX) T.VSIZEX ∧
              float.le (ray.tnear k) (ray.tfar k) = true)) ∧
          (∀ k, k < min (N - c * T.VSIZEX) T.VSIZEX →
            ray.tnear k = (rayN (c * T.VSIZEX + k)).tnear ∧
            ray.tfar k = (rayN (c * T.VSIZEX + k)).tfar)) ∧
      st.gathers = List.range N ∧ st.scatters = List.range N ∧
      (∀ p ∈ st.stores, p.1 < N) ∧
      (∀ idx, N ≤ idx → st.rayN idx = rayN idx) := by
  obtain ⟨st, hrun, h1, -, h3, h4, h5, h6⟩ :=
    filterAOP_spec T scene rayN N context intersect uninit fuel hW hfuel
  refine ⟨st, hrun, by rw [h3]; simp, ?_, h4, h5, fun p hp => ((h6 p).1 hp).1, h1⟩
  intro c hc
  refine ⟨callAOP T rayN N context intersect uninit (c * T.VSIZEX),
    validAOP T rayN N (c * T.VSIZEX) (uninit (c * T.VSIZEX)),
    packetAOP T rayN N (c * T.VSIZEX) (uninit (c * T.VSIZEX)), ?_, ?_, ?_, ?_, ?_⟩
  · rw [h3, getElem?_map_range _ _ _ hc]
  · unfold callAOP; cases intersect <;> rfl
  · unfold callAOP; cases intersect <;> rfl
  · intro k
    unfold validAOP
    simp [vand, vle, stepMask]
  · intro k hk
    exact gatherAOP_interval rayN (c * T.VSIZEX) _ (uninit (c * T.VSIZEX)) k hk

/-- C9, instance: `N = 3` rays on the AVX target (`VSIZEX = 8`): one call. -/
theorem filterAOP_chunks_witness :
    (0 < avx64.VSIZEX ∧ 3 ≤ 3) ∧
    ∃ st, filterAOP avx64 (idleScene false true) threeRays 3 plainContext true
        (fun _ => junkPacket) 3 = some st ∧
      st.calls.length = (3 + avx64.VSIZEX - 1) / avx64.VSIZEX ∧
      (∀ c, c < (3 + avx64.VSIZEX - 1) / avx64.VSIZEX →
        ∃ call valid ray, st.calls[c]? = some call ∧ call.isBatched = false ∧
          call.single = some (valid, ray) ∧
          (∀ k, valid k = true ↔
            (k < min (3 - c * avx64.VSIZEX) avx64.VSIZEX ∧
              float.le (ray.tnear k) (ray.tfar k) = true)) ∧
          (∀ k, k < min (3 - c * avx64.VSIZEX) avx64.VSIZEX →
            ray.tnear k = (threeRays (c * avx64.VSIZEX + k)).tnear ∧
            ray.tfar k = (threeRays (c * avx64.VSIZEX + k)).tfar)) ∧
      st.gathers = List.range 3 ∧ st.scatters = List.range 3 ∧
      (∀ p ∈ st.stores, p.1 < 3) ∧
      (∀ idx, 3 ≤ idx → st.rayN idx = threeRays idx) :=
  ⟨⟨by decide, by decide⟩,
    filterAOP_chunks avx64 (idleScene false true) threeRays 3 plainContext true
      (fun _ => junkPacket) 3 (by decide) (by decide)⟩


/-! ## Strided loops -/

theorem strideFold_succ_left {σ : Type} (f : Nat → σ → σ) (step start n : Nat) (s : σ) :
    strideFold f step start (n + 1) s = strideFold f step (start + step) n (f start s) := by
  unfold strideFold
  rw [List.range_succ_eq_map, List.foldl_cons, List.foldl_map]
  simp only [Nat.zero_mul, Nat.add_zero]
  congr 1
  funext s q
  rw [Nat.succ_mul, Nat.add_assoc, Nat.add_comm step]

theorem strideFold_succ {σ : Type} (f : Nat → σ → σ) (step start n : Nat) (s : σ) :
    strideFold f step start (n + 1) s
      = f (start + n * step) (strideFold f step start n s) := by
  simp [strideFold, List.range_succ, List.foldl_append]

theorem stride_count (stop step x : Nat) (hstep : 0 < step) (hx : x < stop) :
    (stop - x + step - 1) / step = (stop - (x + step) + step - 1) / step + 1 := by
  have e1 : stop - x + step - 1 = (stop - x - 1) + step := by omega
  rw [e1, Nat.add_div_right _ hstep]
  congr 1
  by_cases h : step ≤ stop - x
  · have e2 : stop - (x + step) + step - 1 = stop - x - 1 := by omega
    rw [e2]
  · have e2 : stop - (x + step) + step - 1 = step - 1 := by omega
    rw [e2, Nat.div_eq_of_lt (by omega), Nat.div_eq_of_lt (by omega)]

/-- A strided loop whose body always succeeds returns, given enough fuel, the
fold of the body over `ceil((stop - start) / step)` iterations. -/
theorem forStride_eq {σ : Type} (stop step : Nat) (body : Nat → σ → Option σ)
    (f : Nat → σ → σ) (hstep : 0 < step)
    (hbody : ∀ x s, x < stop → body x s = some (f x s)) :
    ∀ (fuel x : Nat) (s : σ), stop ≤ x + fuel →
      forStride stop step body fuel x s
        = some (strideFold f step x ((stop - x + step - 1) / step) s) := by
  intro fuel
  induction fuel with
  | zero =>
    intro x s h
    unfold forStride
    rw [if_neg (by omega)]
    have e : stop - x + step - 1 = step - 1 := by omega
    rw [e, Nat.div_eq_of_lt (by omega)]
    rfl
  | succ fuel ih =>
    intro x s h
    unfold forStride
    by_cases hx : x < stop
    · rw [if_pos hx, hbody x s hx]
      show forStride stop step body fuel (x + step) (f x s) = _
      rw [ih (x + step) (f x s) (by omega), stride_count stop step x hstep hx,
        strideFold_succ_left]
    · rw [if_neg hx]
      have e : stop - x + step - 1 = step - 1 := by omega
      rw [e, Nat.div_eq_of_lt (by omega)]
      rfl


/-! ## `filterSOPCoherent`: one batch -/

theorem batchSOP_eq {σ : Type} (T : Target) (scene : Scene) (rs : RayStreamSOP σ)
    (context : IntersectContext) (intersect : Bool) (N fuel i : Nat) (st : SOPState σ)
    (hW : 0 < T.VSIZEX) (hfuel : N ≤ fuel) :
    batchSOP T scene rs context intersect N fuel i st
      = some (batchFnSOP T scene rs context intersect N i st) := by
  unfold batchSOP batchFnSOP
  dsimp only
  rw [forStride_eq _ T.VSIZEX _ (convertSOP T rs N i) hW (fun _ _ _ => rfl) fuel 0 st (by omega)]
  show forStride _ _ _ _ _ _ = _
  rw [forStride_eq _ T.VSIZEX _ (scatterSOP T rs intersect N i) hW (fun _ _ _ => rfl) fuel 0 _
    (by omega)]

theorem convertFold_spec {σ : Type} (T : Target) (rs : RayStreamSOP σ) (N i n : Nat)
    (st : SOPState σ) (hW : 0 < T.VSIZEX) :
    (strideFold (convertSOP T rs N i) T.VSIZEX 0 n st).gathers
      = st.gathers ++ (List.range n).map
          (fun q => (⟨inBounds (i + q * T.VSIZEX) N, 4 * (i + q * T.VSIZEX), q⟩ : PacketAccess)) ∧
    (strideFold (convertSOP T rs N i) T.VSIZEX 0 n st).calls = st.calls ∧
    (strideFold (convertSOP T rs N i) T.VSIZEX 0 n st).scatters = st.scatters ∧
    (∀ q, q < n → (strideFold (convertSOP T rs N i) T.VSIZEX 0 n st).rays_ptr q = q) := by
  induction n with
  | zero => exact ⟨by simp [strideFold], rfl, rfl, fun q h => by omega⟩
  | succ n ih =>
    obtain ⟨h1, h2, h3, h4⟩ := ih
    rw [strideFold_succ]
    generalize strideFold (convertSOP T rs N i) T.VSIZEX 0 n st = s1 at h1 h2 h3 h4
    have hdiv : (0 + n * T.VSIZEX) / T.VSIZEX = n := by
      rw [Nat.zero_add, Nat.mul_div_cancel _ hW]
    unfold convertSOP
    dsimp only
    rw [hdiv]
    refine ⟨?_, h2, h3, fun q hq => ?_⟩
    · rw [h1, List.range_succ, List.map_append, List.append_assoc]
      simp
    · simp only [setLane]
      by_cases e : q = n
      · rw [if_pos e, e]
      · rw [if_neg e]; exact h4 q (by omega)

theorem scatterFold_logs {σ : Type} (T : Target) (rs : RayStreamSOP σ) (intersect : Bool)
    (N i n : Nat) (st : SOPState σ) (hW : 0 < T.VSIZEX) :
    (strideFold (scatterSOP T rs intersect N i) T.VSIZEX 0 n st).scatters
      = st.scatters ++ (List.range n).map
          (fun q => (⟨inBounds (i + q * T.VSIZEX) N, 4 * (i + q * T.VSIZEX), q⟩ : PacketAccess)) ∧
    (strideFold (scatterSOP T rs intersect N i) T.VSIZEX 0 n st).calls = st.calls ∧
    (strideFold (scatterSOP T rs intersect N i) T.VSIZEX 0 n st).gathers = st.gathers := by
  induction n with
  | zero => exact ⟨by simp [strideFold], rfl, rfl⟩
  | succ n ih =>
    obtain ⟨h1, h2, h3⟩ := ih
    rw [strideFold_succ]
    generalize strideFold (scatterSOP T rs intersect N i) T.VSIZEX 0 n st = s1 at h1 h2 h3
    have hdiv : (0 + n * T.VSIZEX) / T.VSIZEX = n := by
      rw [Nat.zero_add, Nat.mul_div_cancel _ hW]
    unfold scatterSOP
    dsimp only
    rw [hdiv]
    refine ⟨?_, h2, h3⟩
    rw [h1, List.range_succ, List.map_append, List.append_assoc]
    simp

theorem traceSOP_logs {σ : Type} (T : Target) (scene : Scene) (context : IntersectContext)
    (intersect : Bool) (size : Nat) (st : SOPState σ) :
    (traceSOP T scene context intersect size st).gathers = st.gathers ∧
    (traceSOP T scene context intersect size st).scatters = st.scatters ∧
    ∃ c, (traceSOP T scene context intersect size st).calls = st.calls ++ [c] ∧
      c.isBatched = true ∧ c.size = size ∧
      c.packets = (List.range ((size + T.VSIZEX - 1) / T.VSIZEX)).map st.rays_ptr := by
  unfold traceSOP
  cases intersect
  · exact ⟨rfl, rfl, _, rfl, rfl, rfl, rfl⟩
  · exact ⟨rfl, rfl, _, rfl, rfl, rfl, rfl⟩

/-- The logs after one batch: the packets of the batch are converted, one
batched call is made over them, and they are converted back. -/
theorem batchFnSOP_logs {σ : Type} (T : Target) (scene : Scene) (rs : RayStreamSOP σ)
    (context : IntersectContext) (intersect : Bool) (N i : Nat) (st : SOPState σ)
    (hW : 0 < T.VSIZEX) :
    (batchFnSOP T scene rs context intersect N i st).gathers
      = st.gathers ++ (List.range
          ((min (N - i) (MAX_COHERENT_RAY_PACKETS T * T.VSIZEX) + T.VSIZEX - 1) / T.VSIZEX)).map
          (fun q => (⟨inBounds (i + q * T.VSIZEX) N, 4 * (i + q * T.VSIZEX), q⟩ : PacketAccess)) ∧
    (batchFnSOP T scene rs context intersect N i st).scatters
      = st.scatters ++ (List.range
          ((min (N - i) (MAX_COHERENT_RAY_PACKETS T * T.VSIZEX) + T.VSIZEX - 1) / T.VSIZEX)).map
          (fun q => (⟨inBounds (i + q * T.VSIZEX) N, 4 * (i + q * T.VSIZEX), q⟩ : PacketAccess)) ∧
    ∃ c, (batchFnSOP T scene rs context intersect N i st).calls = st.calls ++ [c] ∧
      c.isBatched = true ∧ c.size = min (N - i) (MAX_COHERENT_RAY_PACKETS T * T.VSIZEX) ∧
      c.packets = List.range
        ((min (N - i) (MAX_COHERENT_RAY_PACKETS T * T.VSIZEX) + T.VSIZEX - 1) / T.VSIZEX) := by
  unfold batchFnSOP
  simp only [Nat.sub_zero]
  obtain ⟨g1, g2, g3, g4⟩ := convertFold_spec T rs N i
    ((min (N - i) (MAX_COHERENT_RAY_PACKETS T * T.VSIZEX) + T.VSIZEX - 1) / T.VSIZEX) st hW
  generalize strideFold (convertSOP T rs N i) T.VSIZEX 0
    ((min (N - i) (MAX_COHERENT_RAY_PACKETS T * T.VSIZEX) + T.VSIZEX - 1) / T.VSIZEX) st
    = s1 at g1 g2 g3 g4
  obtain ⟨t1, t2, c, t3, t4, t5, t6⟩ := traceSOP_logs T scene context intersect
    (min (N - i) (MAX_COHERENT_RAY_PACKETS T * T.VSIZEX)) s1
  generalize traceSOP T scene context intersect
    (min (N - i) (MAX_COHERENT_RAY_PACKETS T * T.VSIZEX)) s1 = s2 at t1 t2 t3
  obtain ⟨f1, f2, f3⟩ := scatterFold_logs T rs intersect N i
    ((min (N - i) (MAX_COHERENT_RAY_PACKETS T * T.VSIZEX) + T.VSIZEX - 1) / T.VSIZEX) s2 hW
  refine ⟨by rw [f3, t1, g1], by rw [f1, t2, g3], c, by rw [f2, t3, g2], t4, t5, ?_⟩
  rw [t6]
  conv => rhs; rw [← List.map_id (List.range _)]
  apply List.map_congr_left
  intro q hq
  exact g4 q (List.mem_range.1 hq)

/-! ## `filterSOPCoherent`: the batch loop -/

theorem batch_count (A M W N : Nat) (hW : 0 < W) (hlt : A * W < N) :
    A + (min (N - A * W) (M * W) + W - 1) / W = min (A + M) ((N + W - 1) / W) ∧
    (min (N - A * W) (M * W) + W - 1) / W ≤ M := by
  by_cases h : M * W ≤ N - A * W
  · have e1 : min (N - A * W) (M * W) + W - 1 = (W - 1) + M * W := by omega
    have e2 : ((W - 1) + M * W) / W = M := by
      rw [Nat.add_mul_div_right _ _ hW, Nat.div_eq_of_lt (by omega)]; simp
    have e3 : A + M ≤ (N + W - 1) / W := by
      rw [Nat.le_div_iff_mul_le hW, Nat.add_mul]; omega
    rw [e1, e2]
    exact ⟨by omega, Nat.le_refl M⟩
  · have e1 : min (N - A * W) (M * W) = N - A * W := by omega
    have e2 : N + W - 1 = (N - A * W + W - 1) + A * W := by omega
    have e3 : (N + W - 1) / W = (N - A * W + W - 1) / W + A := by
      rw [e2, Nat.add_mul_div_right _ _ hW]
    have e4 : (N - A * W + W - 1) / W ≤ M := by
      apply Nat.le_of_lt_succ
      rw [Nat.div_lt_iff_lt_mul hW, Nat.succ_mul]
      omega
    rw [e1, e3]
    exact ⟨by omega, e4⟩

theorem mul_lt_ceil (A W N : Nat) (hW : 0 < W) (hlt : A * W < N) : A < (N + W - 1) / W := by
  have h := le_ceil_mul N W hW
  exact Nat.lt_of_mul_lt_mul_right (Nat.lt_of_lt_of_le hlt h)

theorem batch_accesses (T : Target) (N b n : Nat) (hn : n ≤ MAX_COHERENT_RAY_PACKETS T) :
    (List.range n).map (fun q => (⟨inBounds (0 + b * (MAX_COHERENT_RAY_PACKETS T * T.VSIZEX)
        + q * T.VSIZEX) N, 4 * (0 + b * (MAX_COHERENT_RAY_PACKETS T * T.VSIZEX) + q * T.VSIZEX),
        q⟩ : PacketAccess))
      = (List.range n).map (fun q => accessSOP T N (b * MAX_COHERENT_RAY_PACKETS T + q)) := by
  apply List.map_congr_left
  intro q hq
  have hq' : q < MAX_COHERENT_RAY_PACKETS T := Nat.lt_of_lt_of_le (List.mem_range.1 hq) hn
  have e1 : 0 + b * (MAX_COHERENT_RAY_PACKETS T * T.VSIZEX) + q * T.VSIZEX
      = (b * MAX_COHERENT_RAY_PACKETS T + q) * T.VSIZEX := by
    rw [Nat.zero_add, Nat.add_mul, Nat.mul_assoc]
  have e2 : (b * MAX_COHERENT_RAY_PACKETS T + q) % MAX_COHERENT_RAY_PACKETS T = q := by
    rw [Nat.add_comm, Nat.add_mul_mod_self_right, Nat.mod_eq_of_lt hq']
  unfold accessSOP
  rw [e1, e2]

/-- The loop invariant of the batch loop after `b` batches. -/
theorem coherentLoopSOP_inv {σ : Type} (T : Target) (scene : Scene) (rs : RayStreamSOP σ)
    (context : IntersectContext) (intersect : Bool) (N : Nat) (rayN : σ) (uninit : Nat → RayK)
    (hW : 0 < T.VSIZEX) (hM : 0 < MAX_COHERENT_RAY_PACKETS T) (b : Nat) :
    (b = 0 ∨ (b - 1) * (MAX_COHERENT_RAY_PACKETS T * T.VSIZEX) < N) →
    (strideFold (batchFnSOP T scene rs context intersect N)
        (MAX_COHERENT_RAY_PACKETS T * T.VSIZEX) 0 b ⟨rayN, uninit, fun _ => 0, [], [], [], context⟩).gathers
      = (List.range (min (b * MAX_COHERENT_RAY_PACKETS T)
          ((N + T.VSIZEX - 1) / T.VSIZEX))).map (accessSOP T N) ∧
    (strideFold (batchFnSOP T scene rs context intersect N)
        (MAX_COHERENT_RAY_PACKETS T * T.VSIZEX) 0 b ⟨rayN, uninit, fun _ => 0, [], [], [], context⟩).scatters
      = (List.range (min (b * MAX_COHERENT_RAY_PACKETS T)
          ((N + T.VSIZEX - 1) / T.VSIZEX))).map (accessSOP T N) ∧
    (strideFold (batchFnSOP T scene rs context intersect N)
        (MAX_COHERENT_RAY_PACKETS T * T.VSIZEX) 0 b
        ⟨rayN, uninit, fun _ => 0, [], [], [], context⟩).calls.length = b ∧
    ((strideFold (batchFnSOP T scene rs context intersect N)
        (MAX_COHERENT_RAY_PACKETS T * T.VSIZEX) 0 b
        ⟨rayN, uninit, fun _ => 0, [], [], [], context⟩).calls.map EngineCall.size).sum
      = min (b * (MAX_COHERENT_RAY_PACKETS T * T.VSIZEX)) N ∧
    ((strideFold (batchFnSOP T scene rs context intersect N)
        (MAX_COHERENT_RAY_PACKETS T * T.VSIZEX) 0 b
        ⟨rayN, uninit, fun _ => 0, [], [], [], context⟩).calls.map
          (fun c => c.packets.length)).sum
      = min (b * MAX_COHERENT_RAY_PACKETS T) ((N + T.VSIZEX - 1) / T.VSIZEX) ∧
    (∀ c ∈ (strideFold (batchFnSOP T scene rs context intersect N)
        (MAX_COHERENT_RAY_PACKETS T * T.VSIZEX) 0 b
        ⟨rayN, uninit, fun _ => 0, [], [], [], context⟩).calls,
      c.isBatched = true ∧ 0 < c.size ∧
      c.size ≤ MAX_COHERENT_RAY_PACKETS T * T.VSIZEX ∧
      c.packets = List.range ((c.size + T.VSIZEX - 1) / T.VSIZEX) ∧
      c.packets.length ≤ MAX_COHERENT_RAY_PACKETS T) := by
  induction b with
  | zero =>
    intro _
    refine ⟨by simp [strideFold], by simp [strideFold], rfl, by simp [strideFold],
      by simp [strideFold], ?_⟩
    intro c hc
    simp [strideFold] at hc
  | succ b ih =>
    intro hb
    simp only [Nat.add_sub_cancel] at hb
    have hlt : b * (MAX_COHERENT_RAY_PACKETS T * T.VSIZEX) < N := by
      rcases hb with hb | hb
      · omega
      · exact hb
    have hprev : b = 0 ∨ (b - 1) * (MAX_COHERENT_RAY_PACKETS T * T.VSIZEX) < N := by
      rcases Nat.eq_zero_or_pos b with h0 | h0
      · exact Or.inl h0
      · right
        exact Nat.lt_of_le_of_lt (Nat.mul_le_mul_right _ (Nat.sub_le b 1)) hlt
    obtain ⟨h1, h2, h3, h4, h4p, h5⟩ := ih hprev
    rw [strideFold_succ]
    generalize strideFold (batchFnSOP T scene rs context intersect N)
      (MAX_COHERENT_RAY_PACKETS T * T.VSIZEX) 0 b ⟨rayN, uninit, fun _ => 0, [], [], [], context⟩
      = st at h1 h2 h3 h4 h4p h5
    obtain ⟨g1, g2, c, g3, g4, g5, g6⟩ := batchFnSOP_logs T scene rs context intersect N
      (0 + b * (MAX_COHERENT_RAY_PACKETS T * T.VSIZEX)) st hW
    have hA : (b * MAX_COHERENT_RAY_PACKETS T) * T.VSIZEX < N := by
      rw [Nat.mul_assoc]; exact hlt
    have hi : 0 + b * (MAX_COHERENT_RAY_PACKETS T * T.VSIZEX)
        = (b * MAX_COHERENT_RAY_PACKETS T) * T.VSIZEX := by
      rw [Nat.zero_add, Nat.mul_assoc]
    obtain ⟨k1, k2⟩ := batch_count (b * MAX_COHERENT_RAY_PACKETS T)
      (MAX_COHERENT_RAY_PACKETS T) T.VSIZEX N hW hA
    rw [← hi] at k1 k2
    have hAlt := mul_lt_ceil (b * MAX_COHERENT_RAY_PACKETS T) T.VSIZEX N hW hA
    have hminA : min (b * MAX_COHERENT_RAY_PACKETS T) ((N + T.VSIZEX - 1) / T.VSIZEX)
        = b * MAX_COHERENT_RAY_PACKETS T := Nat.min_eq_left (Nat.le_of_lt hAlt)
    have hsucc : (b + 1) * MAX_COHERENT_RAY_PACKETS T
        = b * MAX_COHERENT_RAY_PACKETS T + MAX_COHERENT_RAY_PACKETS T := by
      rw [Nat.add_mul, Nat.one_mul]
    have hsuccK : (b + 1) * (MAX_COHERENT_RAY_PACKETS T * T.VSIZEX)
        = b * (MAX_COHERENT_RAY_PACKETS T * T.VSIZEX)
          + MAX_COHERENT_RAY_PACKETS T * T.VSIZEX := by
      rw [Nat.add_mul, Nat.one_mul]
    have hlist : (List.range (min (b * MAX_COHERENT_RAY_PACKETS T)
          ((N + T.VSIZEX - 1) / T.VSIZEX))).map (accessSOP T N)
        ++ (List.range ((min (N - (0 + b * (MAX_COHERENT_RAY_PACKETS T * T.VSIZEX)))
            (MAX_COHERENT_RAY_PACKETS T * T.VSIZEX) + T.VSIZEX - 1) / T.VSIZEX)).map
          (fun q => (⟨inBounds (0 + b * (MAX_COHERENT_RAY_PACKETS T * T.VSIZEX)
            + q * T.VSIZEX) N,
            4 * (0 + b * (MAX_COHERENT_RAY_PACKETS T * T.VSIZEX) + q * T.VSIZEX),
            q⟩ : PacketAccess))
        = (List.range (min ((b + 1) * MAX_COHERENT_RAY_PACKETS T)
          ((N + T.VSIZEX - 1) / T.VSIZEX))).map (accessSOP T N) := by
      rw [batch_accesses T N b _ k2, hminA, hsucc, ← k1, List.range_add, List.map_append,
        List.map_map]
      rfl
    refine ⟨by rw [g1, h1, hlist], by rw [g2, h2, hlist], by rw [g3]; simp [h3], ?_, ?_, ?_⟩
    · rw [g3, List.map_append, List.sum_append, h4]
      simp only [List.map_cons, List.map_nil, List.sum_cons, List.sum_nil, Nat.add_zero]
      rw [g5, hsuccK]
      omega
    · rw [g3, List.map_append, List.sum_append, h4p]
      simp only [List.map_cons, List.map_nil, List.sum_cons, List.sum_nil, Nat.add_zero]
      rw [g6, List.length_range, hminA, hsucc, ← k1]
    · intro c' hc'
      rw [g3] at hc'
      rcases List.mem_append.1 hc' with hc' | hc'
      · exact h5 c' hc'
      · rw [List.mem_singleton] at hc'
        subst hc'
        have hK : 0 < MAX_COHERENT_RAY_PACKETS T * T.VSIZEX := Nat.mul_pos hM hW
        refine ⟨g4, by rw [g5]; omega, by rw [g5]; omega, by rw [g6, g5], ?_⟩
        rw [g6, List.length_range]
        exact k2

theorem toInt32_small (n : Nat) (h : n < 2147483648) : toInt32 n = (n : Int) := by
  unfold toInt32
  have e : n % 4294967296 = n := Nat.mod_eq_of_lt (by omega)
  rw [e, if_pos h]

theorem lt_of_lt_ceil (q W N : Nat) (hW : 0 < W) (hq : q < (N + W - 1) / W) : q * W < N := by
  have h : q + 1 ≤ (N + W - 1) / W := hq
  rw [Nat.le_div_iff_mul_le hW, Nat.add_mul, Nat.one_mul] at h
  omega

/-- What the coherent-batch path of `filterSOPCoherent` does, in closed form:
it returns; packets `0 .. ceil(N/VSIZEX)-1` are converted to SOA once each, in
order, and converted back likewise; there are `ceil(N / (capacity*VSIZEX))`
batched calls, whose lane counts sum to `N` and whose packet counts sum to the
number of packets. -/
theorem coherentPathSOP_spec {σ : Type} (T : Target) (scene : Scene) (rs : RayStreamSOP σ)
    (rayN : σ) (N : Nat) (context : IntersectContext) (intersect : Bool)
    (uninit : Nat → RayK) (fuel : Nat)
    (hW : 0 < T.VSIZEX) (hM : 0 < MAX_COHERENT_RAY_PACKETS T) (hfuel : N ≤ fuel) :
    ∃ st, coherentPathSOP T scene rs rayN N context intersect uninit fuel = some st ∧
      st.gathers = (List.range ((N + T.VSIZEX - 1) / T.VSIZEX)).map (accessSOP T N) ∧
      st.scatters = (List.range ((N + T.VSIZEX - 1) / T.VSIZEX)).map (accessSOP T N) ∧
      st.calls.length = (N + MAX_COHERENT_RAY_PACKETS T * T.VSIZEX - 1)
        / (MAX_COHERENT_RAY_PACKETS T * T.VSIZEX) ∧
      (st.calls.map EngineCall.size).sum = N ∧
      (st.calls.map (fun c => c.packets.length)).sum = (N + T.VSIZEX - 1) / T.VSIZEX ∧
      (∀ c ∈ st.calls, c.isBatched = true ∧ 0 < c.size ∧
        c.size ≤ MAX_COHERENT_RAY_PACKETS T * T.VSIZEX ∧
        c.packets = List.range ((c.size + T.VSIZEX - 1) / T.VSIZEX) ∧
        c.packets.length ≤ MAX_COHERENT_RAY_PACKETS T) := by
  have hK : 0 < MAX_COHERENT_RAY_PACKETS T * T.VSIZEX := Nat.mul_pos hM hW
  have hrun := forStride_eq N (MAX_COHERENT_RAY_PACKETS T * T.VSIZEX)
    (batchSOP T scene rs (context.setInputSOA T.VSIZEX) intersect N fuel)
    (batchFnSOP T scene rs (context.setInputSOA T.VSIZEX) intersect N) hK
    (fun x s _ => batchSOP_eq T scene rs (context.setInputSOA T.VSIZEX) intersect N fuel x s
      hW hfuel)
    fuel 0 ⟨rayN, uninit, fun _ => 0, [], [], [], context.setInputSOA T.VSIZEX⟩ (by omega)
  rw [Nat.sub_zero] at hrun
  have hnb : (N + MAX_COHERENT_RAY_PACKETS T * T.VSIZEX - 1)
        / (MAX_COHERENT_RAY_PACKETS T * T.VSIZEX) = 0 ∨
      ((N + MAX_COHERENT_RAY_PACKETS T * T.VSIZEX - 1)
        / (MAX_COHERENT_RAY_PACKETS T * T.VSIZEX) - 1)
        * (MAX_COHERENT_RAY_PACKETS T * T.VSIZEX) < N := by
    rcases Nat.eq_zero_or_pos ((N + MAX_COHERENT_RAY_PACKETS T * T.VSIZEX - 1)
        / (MAX_COHERENT_RAY_PACKETS T * T.VSIZEX)) with h0 | h0
    · exact Or.inl h0
    · right
      apply lt_of_lt_ceil _ _ _ hK
      omega
  obtain ⟨h1, h2, h3, h4, h4p, h5⟩ := coherentLoopSOP_inv T scene rs
    (context.setInputSOA T.VSIZEX) intersect N rayN uninit hW hM _ hnb
  have hN := le_ceil_mul N (MAX_COHERENT_RAY_PACKETS T * T.VSIZEX) hK
  have hmin1 : min ((N + MAX_COHERENT_RAY_PACKETS T * T.VSIZEX - 1)
      / (MAX_COHERENT_RAY_PACKETS T * T.VSIZEX) * (MAX_COHERENT_RAY_PACKETS T * T.VSIZEX)) N
      = N := Nat.min_eq_right hN
  have hmin2 : min ((N + MAX_COHERENT_RAY_PACKETS T * T.VSIZEX - 1)
      / (MAX_COHERENT_RAY_PACKETS T * T.VSIZEX) * MAX_COHERENT_RAY_PACKETS T)
      ((N + T.VSIZEX - 1) / T.VSIZEX) = (N + T.VSIZEX - 1) / T.VSIZEX := by
    apply Nat.min_eq_right
    apply Nat.le_of_lt_succ
    rw [Nat.div_lt_iff_lt_mul hW, Nat.succ_mul]
    rw [← Nat.mul_assoc] at hN
    omega
  rw [hmin1] at h4
  rw [hmin2] at h1 h2 h4p
  exact ⟨_, hrun, h1, h2, h3, h4, h4p, h5⟩

/-- The batched calls of the batch loop, in order: call `b` is made on
`min (N - b*capacity*VSIZEX) (capacity*VSIZEX)` lanes, through the pointers to
the slots `0, 1, ...` of the packets converted in this batch, each once. -/
theorem coherentLoopSOP_calls {σ : Type} (T : Target) (scene : Scene) (rs : RayStreamSOP σ)
    (context : IntersectContext) (intersect : Bool) (N : Nat) (st0 : SOPState σ)
    (hW : 0 < T.VSIZEX) (b : Nat) :
    (strideFold (batchFnSOP T scene rs context intersect N)
        (MAX_COHERENT_RAY_PACKETS T * T.VSIZEX) 0 b st0).calls.map
        (fun c => (c.size, c.packets))
      = st0.calls.map (fun c => (c.size, c.packets)) ++ (List.range b).map (fun a =>
          (min (N - a * (MAX_COHERENT_RAY_PACKETS T * T.VSIZEX))
              (MAX_COHERENT_RAY_PACKETS T * T.VSIZEX),
            List.range ((min (N - a * (MAX_COHERENT_RAY_PACKETS T * T.VSIZEX))
              (MAX_COHERENT_RAY_PACKETS T * T.VSIZEX) + T.VSIZEX - 1) / T.VSIZEX))) := by
  induction b with
  | zero => simp [strideFold]
  | succ b ih =>
    rw [strideFold_succ, Nat.zero_add]
    obtain ⟨-, -, c, hc, -, t5, t6⟩ := batchFnSOP_logs T scene rs context intersect N
      (b * (MAX_COHERENT_RAY_PACKETS T * T.VSIZEX))
      (strideFold (batchFnSOP T scene rs context intersect N)
        (MAX_COHERENT_RAY_PACKETS T * T.VSIZEX) 0 b st0) hW
    rw [hc, List.map_append, ih, List.range_succ, List.map_append, List.append_assoc,
      List.map_singleton, List.map_singleton, t5, t6]

/-- The batched calls of the coherent-batch path of `filterSOPCoherent`, in
order, with their lane counts and pointer lists. -/
theorem coherentPathSOP_calls {σ : Type} (T : Target) (scene : Scene) (rs : RayStreamSOP σ)
    (rayN : σ) (N : Nat) (context : IntersectContext) (intersect : Bool)
    (uninit : Nat → RayK) (fuel : Nat)
    (hW : 0 < T.VSIZEX) (hM : 0 < MAX_COHERENT_RAY_PACKETS T) (hfuel : N ≤ fuel) :
    ∃ st, coherentPathSOP T scene rs rayN N context intersect uninit fuel = some st ∧
      st.calls.map (fun c => (c.size, c.packets))
        = (List.range ((N + MAX_COHERENT_RAY_PACKETS T * T.VSIZEX - 1)
            / (MAX_COHERENT_RAY_PACKETS T * T.VSIZEX))).map (fun a =>
          (min (N - a * (MAX_COHERENT_RAY_PACKETS T * T.VSIZEX))
              (MAX_COHERENT_RAY_PACKETS T * T.VSIZEX),
            List.range ((min (N - a * (MAX_COHERENT_RAY_PACKETS T * T.VSIZEX))
              (MAX_COHERENT_RAY_PACKETS T * T.VSIZEX) + T.VSIZEX - 1) / T.VSIZEX))) := by
  have hK : 0 < MAX_COHERENT_RAY_PACKETS T * T.VSIZEX := Nat.mul_pos hM hW
  have hrun := forStride_eq N (MAX_COHERENT_RAY_PACKETS T * T.VSIZEX)
    (batchSOP T scene rs (context.setInputSOA T.VSIZEX) intersect N fuel)
    (batchFnSOP T scene rs (context.setInputSOA T.VSIZEX) intersect N) hK
    (fun x s _ => batchSOP_eq T scene rs (context.setInputSOA T.VSIZEX) intersect N fuel x s
      hW hfuel)
    fuel 0 ⟨rayN, uninit, fun _ => 0, [], [], [], context.setInputSOA T.VSIZEX⟩ (by omega)
  rw [Nat.sub_zero] at hrun
  refine ⟨_, hrun, ?_⟩
  rw [coherentLoopSOP_calls T scene rs (context.setInputSOA T.VSIZEX) intersect N _ hW]
  simp

/-- Packet `q` of the stream belongs to batch `q / capacity`, which exists, and
its slot `q % capacity` is among the packets of that batch. -/
theorem packet_in_batch (M W N q : Nat) (hW : 0 < W) (hM : 0 < M)
    (hq : q < (N + W - 1) / W) :
    q / M < (N + M * W - 1) / (M * W) ∧
    q % M < (min (N - q / M * (M * W)) (M * W) + W - 1) / W := by
  have hK : 0 < M * W := Nat.mul_pos hM hW
  have hqW := lt_of_lt_ceil q W N hW hq
  have hdiv : q / M * M ≤ q := Nat.div_mul_le_self q M
  have hlt : q / M * M * W < N := Nat.lt_of_le_of_lt (Nat.mul_le_mul_right W hdiv) hqW
  have hlt' : q / M * (M * W) < N := by rw [← Nat.mul_assoc]; exact hlt
  refine ⟨mul_lt_ceil (q / M) (M * W) N hK hlt', ?_⟩
  have hb := (batch_count (q / M * M) M W N hW hlt).1
  rw [Nat.mul_assoc] at hb
  have hmod := Nat.mod_lt q hM
  have hdm : M * (q / M) + q % M = q := Nat.div_add_mod q M
  rw [Nat.mul_comm] at hdm
  generalize (min (N - q / M * (M * W)) (M * W) + W - 1) / W = n at hb ⊢
  omega

/-! ## `filterSOPCoherent`: classification and chunk path -/

theorem chunkFallbackSOP_returns {σ : Type} (T : Target) (scene : Scene)
    (rs : RayStreamSOP σ) (rayN : σ) (N fuel : Nat) (hW : 0 < T.VSIZEX) (hfuel : N ≤ fuel) :
    ∃ b, chunkFallbackSOP T scene rs rayN N fuel = some b := by
  unfold chunkFallbackSOP
  dsimp only
  split
  · rw [forStride_eq N T.VSIZEX _ (classifyStepSOP rs rayN N) hW (fun _ _ _ => rfl) fuel 0 _
      (by omega)]
    exact ⟨_, rfl⟩
  · exact ⟨_, rfl⟩

theorem chunkFold_logs {σ : Type} (T : Target) (scene : Scene) (rs : RayStreamSOP σ)
    (context : IntersectContext) (intersect : Bool) (N n : Nat) (st : SOPState σ)
    (hg : ∀ g ∈ st.gathers, g.packetID = 0) (hs : ∀ g ∈ st.scatters, g.packetID = 0)
    (hc : ∀ c ∈ st.calls, c.isBatched = false) :
    (∀ g ∈ (strideFold (chunkStepSOP scene rs context intersect N) T.VSIZEX 0 n st).gathers,
      g.packetID = 0) ∧
    (∀ g ∈ (strideFold (chunkStepSOP scene rs context intersect N) T.VSIZEX 0 n st).scatters,
      g.packetID = 0) ∧
    (∀ c ∈ (strideFold (chunkStepSOP scene rs context intersect N) T.VSIZEX 0 n st).calls,
      c.isBatched = false) := by
  induction n with
  | zero => exact ⟨hg, hs, hc⟩
  | succ n ih =>
    obtain ⟨h1, h2, h3⟩ := ih
    rw [strideFold_succ]
    generalize strideFold (chunkStepSOP scene rs context intersect N) T.VSIZEX 0 n st = s1
      at h1 h2 h3
    unfold chunkStepSOP
    cases intersect
    · refine ⟨fun g h => ?_, fun g h => ?_, fun c h => ?_⟩
      · rcases List.mem_append.1 h with h | h
        · exact h1 g h
        · rw [List.mem_singleton.1 h]
      · rcases List.mem_append.1 h with h | h
        · exact h2 g h
        · rw [List.mem_singleton.1 h]
      · rcases List.mem_append.1 h with h | h
        · exact h3 c h
        · rw [List.mem_singleton.1 h]; rfl
    · refine ⟨fun g h => ?_, fun g h => ?_, fun c h => ?_⟩
      · rcases List.mem_append.1 h with h | h
        · exact h1 g h
        · rw [List.mem_singleton.1 h]
      · rcases List.mem_append.1 h with h | h
        · exact h2 g h
        · rw [List.mem_singleton.1 h]
      · rcases List.mem_append.1 h with h | h
        · exact h3 c h
        · rw [List.mem_singleton.1 h]; rfl

/-- The chunk path of `filterSOPCoherent` returns, uses only the single local
packet and makes only single-packet calls. -/
theorem chunkPathSOP_logs {σ : Type} (T : Target) (scene : Scene) (rs : RayStreamSOP σ)
    (rayN : σ) (N : Nat) (context : IntersectContext) (intersect : Bool)
    (uninit : Nat → RayK) (fuel : Nat) (hW : 0 < T.VSIZEX) (hfuel : N ≤ fuel) :
    ∃ st, chunkPathSOP T scene rs rayN N context intersect uninit fuel = some st ∧
      (∀ g ∈ st.gathers, g.packetID = 0) ∧ (∀ g ∈ st.scatters, g.packetID = 0) ∧
      (∀ c ∈ st.calls, c.isBatched = false) := by
  unfold chunkPathSOP
  rw [forStride_eq N T.VSIZEX _ (chunkStepSOP scene rs context intersect N) hW
    (fun _ _ _ => rfl) fuel 0 _ (by omega)]
  exact ⟨_, rfl, chunkFold_logs T scene rs context intersect N _ _
    (fun g h => absurd h (List.not_mem_nil g)) (fun g h => absurd h (List.not_mem_nil g))
    (fun c h => absurd h (List.not_mem_nil c))⟩

theorem notBatched_size (c : EngineCall) (h : c.isBatched = false) :
    c.packets.length = 0 ∧ c.size = 0 := by
  cases c <;> first | exact ⟨rfl, rfl⟩ | exact absurd h (by simp [EngineCall.isBatched])

/-- On the stream `blankSOP`, whose every ray is active and points along
(1,1,1), the classification loop leaves every lane's minimum `>= 0` and every
lane active. -/
theorem classifyFold_blank (T : Target) (N n : Nat) :
    (∀ k, float.ge ((strideFold (classifyStepSOP blankSOP () N) T.VSIZEX 0 n
        OctantBounds.init).min_x k) float.zero = true) ∧
    (∀ k, float.ge ((strideFold (classifyStepSOP blankSOP () N) T.VSIZEX 0 n
        OctantBounds.init).min_y k) float.zero = true) ∧
    (∀ k, float.ge ((strideFold (classifyStepSOP blankSOP () N) T.VSIZEX 0 n
        OctantBounds.init).min_z k) float.zero = true) ∧
    (∀ k, (strideFold (classifyStepSOP blankSOP () N) T.VSIZEX 0 n
        OctantBounds.init).all_active k = true) := by
  have hone : float.ge float.one float.zero = true := by decide
  have hact : float.le float.zero float.one = true := by decide
  have hmin : ∀ a : float, float.ge a float.zero = true →
      float.ge (float.min a float.one) float.zero = true := by
    intro a ha
    unfold float.min
    split
    · exact ha
    · exact hone
  induction n with
  | zero =>
    have hinf : float.ge float.pos_inf float.zero = true := by decide
    exact ⟨fun _ => hinf, fun _ => hinf, fun _ => hinf, fun _ => rfl⟩
  | succ n ih =>
    obtain ⟨h1, h2, h3, h4⟩ := ih
    rw [strideFold_succ]
    generalize strideFold (classifyStepSOP blankSOP () N) T.VSIZEX 0 n OctantBounds.init = b
      at h1 h2 h3 h4
    refine ⟨fun k => hmin _ (h1 k), fun k => hmin _ (h2 k), fun k => hmin _ (h3 k), fun k => ?_⟩
    show vselect _ (vand b.all_active (vle junkPacket.tnear junkPacket.tfar)) b.all_active k = true
    have hv : vle junkPacket.tnear junkPacket.tfar k = true := hact
    unfold vselect vand
    rw [h4 k, hv]
    simp

/-- On `blankSOP` with a non-robust scene that has batched intersectors, the
classifier of `filterSOPCoherent` selects the coherent-batch path. -/
theorem chunkFallbackSOP_blank (T : Target) (N fuel : Nat) (hW : 0 < T.VSIZEX)
    (hfuel : N ≤ fuel) :
    chunkFallbackSOP T (idleScene false true) blankSOP () N fuel = some false := by
  unfold chunkFallbackSOP
  dsimp only
  rw [if_pos (by rfl),
    forStride_eq N T.VSIZEX _ (classifyStepSOP blankSOP () N) hW (fun _ _ _ => rfl) fuel 0 _
      (by omega)]
  obtain ⟨h1, h2, h3, h4⟩ := classifyFold_blank T N ((N - 0 + T.VSIZEX - 1) / T.VSIZEX)
  generalize strideFold (classifyStepSOP blankSOP () N) T.VSIZEX 0
    ((N - 0 + T.VSIZEX - 1) / T.VSIZEX) OctantBounds.init = b at h1 h2 h3 h4
  have a1 : all T (vge b.min_x (vfloatx.broadcast float.zero)) = true :=
    (all_iff T _).2 (fun k _ => h1 k)
  have a2 : all T (vge b.min_y (vfloatx.broadcast float.zero)) = true :=
    (all_iff T _).2 (fun k _ => h2 k)
  have a3 : all T (vge b.min_z (vfloatx.broadcast float.zero)) = true :=
    (all_iff T _).2 (fun k _ => h3 k)
  have a4 : all T b.all_active = true := (all_iff T _).2 (fun k _ => h4 k)
  simp [idleScene, OctantBounds.commonOctant, a1, a2, a3, a4]

/-! ## C3: the capacity of the coherent-batch accumulators -/

theorem coherentPathSOA_writes (T : Target) (scene : Scene) (rayData : Nat → RayK)
    (streams : Nat) (context : IntersectContext) (intersect : Bool)
    (hM : 0 < MAX_COHERENT_RAY_PACKETS T) :
    ∀ w ∈ (coherentPathSOA T scene rayData streams context intersect).writes,
      w < MAX_COHERENT_RAY_PACKETS T := by
  obtain ⟨-, -, -, -, h5⟩ := coherentLoopSOA_inv T scene (context.setInputSOA T.VSIZEX)
    intersect rayData streams hM
  unfold coherentPathSOA
  dsimp only
  split
  · rw [traceStream_writes]; exact h5
  · exact h5

theorem coherentPathSOA_sizes (T : Target) (scene : Scene) (rayData : Nat → RayK)
    (streams : Nat) (context : IntersectContext) (intersect : Bool)
    (hM : 0 < MAX_COHERENT_RAY_PACKETS T) :
    ∀ c ∈ (coherentPathSOA T scene rayData streams context intersect).calls,
      c.packets.length ≤ MAX_COHERENT_RAY_PACKETS T ∧
      c.size ≤ MAX_COHERENT_RAY_PACKETS T * T.VSIZEX := by
  obtain ⟨-, h2, h3, h4, -⟩ :=
    coherentPathSOA_calls T scene rayData streams context intersect hM
  intro c hc
  have hlen : c.packets.length ≤ MAX_COHERENT_RAY_PACKETS T := by
    cases hl : (coherentPathSOA T scene rayData streams context intersect).calls.getLast? with
    | none =>
      rw [List.getLast?_eq_none_iff] at hl
      rw [hl] at hc
      exact absurd hc (List.not_mem_nil c)
    | some a =>
      have hsplit := List.dropLast_append_getLast? a hl
      rw [← hsplit] at hc
      rcases List.mem_append.1 hc with hc | hc
      · exact Nat.le_of_eq (h3 c hc)
      · rw [List.mem_singleton] at hc
        subst hc
        exact (h4 c hl).2.1
  refine ⟨hlen, ?_⟩
  rw [(h2 c hc).2]
  exact Nat.mul_le_mul_right _ hlen

/-- C3: in both coherent-batch paths, for every input size, provided
`VSIZEX <= MAX_RAYS_PER_OCTANT`: in `filterSOACoherent` every write
`rays_ptr[numStreams]` has an index below `MAX_COHERENT_RAY_PACKETS`, and in
`filterSOPCoherent` (which returns) every write `rays[packetID]` /
`rays_ptr[packetID]` and every read `rays[packetID]` has `packetID` below
`MAX_COHERENT_RAY_PACKETS`, so no accumulator slot outside its array is ever
touched; no engine call carries more than
`MAX_COHERENT_RAY_PACKETS` packets, and the lane count passed to every batched
engine call is at most `MAX_RAYS_PER_OCTANT`. -/
theorem coherent_capacity {σ : Type} (T : Target) (scene : Scene) (rayData : Nat → RayK)
    (streams : Nat) (rs : RayStreamSOP σ) (rayN : σ) (N : Nat) (context : IntersectContext)
    (intersect : Bool) (uninit : Nat → RayK) (fuel : Nat)
    (hW : 0 < T.VSIZEX) (hcap : T.VSIZEX ≤ MAX_RAYS_PER_OCTANT T) (hfuel : N ≤ fuel) :
    ((∀ w ∈ (filterSOACoherent T scene rayData streams context intersect).writes,
        w < MAX_COHERENT_RAY_PACKETS T) ∧
      (∀ c ∈ (filterSOACoherent T scene rayData streams context intersect).calls,
        c.packets.length ≤ MAX_COHERENT_RAY_PACKETS T ∧
        c.size ≤ MAX_RAYS_PER_OCTANT T)) ∧
    (∃ st, filterSOPCoherent T scene rs rayN N context intersect uninit fuel = some st ∧
      (∀ g ∈ st.gathers, g.packetID < MAX_COHERENT_RAY_PACKETS T) ∧
      (∀ g ∈ st.scatters, g.packetID < MAX_COHERENT_RAY_PACKETS T) ∧
      (∀ c ∈ st.calls, c.packets.length ≤ MAX_COHERENT_RAY_PACKETS T ∧
        c.size ≤ MAX_RAYS_PER_OCTANT T)) := by
  have hM := MAX_COHERENT_RAY_PACKETS_pos T hW hcap
  have hMW : MAX_COHERENT_RAY_PACKETS T * T.VSIZEX ≤ MAX_RAYS_PER_OCTANT T :=
    Nat.div_mul_le_self _ _
  constructor
  · unfold filterSOACoherent
    split
    · obtain ⟨-, -, hw, hc⟩ := chunkPathSOA_spec scene rayData streams context intersect
      rw [hw, hc]
      refine ⟨fun w h => absurd h (List.not_mem_nil w), fun c h => ?_⟩
      obtain ⟨s, -, rfl⟩ := List.mem_map.1 h
      unfold callSOA
      cases intersect <;> exact ⟨Nat.zero_le _, Nat.zero_le _⟩
    · refine ⟨coherentPathSOA_writes T scene rayData streams context intersect hM,
        fun c h => ?_⟩
      obtain ⟨a, b⟩ := coherentPathSOA_sizes T scene rayData streams context intersect hM c h
      exact ⟨a, Nat.le_trans b hMW⟩
  · obtain ⟨b, hb⟩ := chunkFallbackSOP_returns T scene rs rayN N fuel hW hfuel
    unfold filterSOPCoherent
    rw [hb]
    cases b
    · obtain ⟨st, hrun, h1, h2, -, -, -, h5⟩ :=
        coherentPathSOP_spec T scene rs rayN N context intersect uninit fuel hW hM hfuel
      refine ⟨st, hrun, ?_, ?_, fun c hc => ?_⟩
      · intro g hg
        rw [h1] at hg
        obtain ⟨q, -, rfl⟩ := List.mem_map.1 hg
        exact Nat.mod_lt _ hM
      · intro g hg
        rw [h2] at hg
        obtain ⟨q, -, rfl⟩ := List.mem_map.1 hg
        exact Nat.mod_lt _ hM
      · obtain ⟨-, -, a, -, b⟩ := h5 c hc
        exact ⟨b, Nat.le_trans a hMW⟩
    · obtain ⟨st, hrun, h1, h2, h3⟩ :=
        chunkPathSOP_logs T scene rs rayN N context intersect uninit fuel hW hfuel
      refine ⟨st, hrun, fun g hg => ?_, fun g hg => ?_, fun c hc => ?_⟩
      · rw [h1 g hg]; exact hM
      · rw [h2 g hg]; exact hM
      · obtain ⟨a, b⟩ := notBatched_size c (h3 c hc)
        rw [a, b]; exact ⟨Nat.zero_le _, Nat.zero_le _⟩

/-- C3, instance: ten coherent packets and a stream of 70 rays on the AVX
target (capacity 8 packets, 64 lanes). -/
theorem coherent_capacity_witness :
    (0 < avx64.VSIZEX ∧ avx64.VSIZEX ≤ MAX_RAYS_PER_OCTANT avx64 ∧ 70 ≤ 70) ∧
    (((∀ w ∈ (filterSOACoherent avx64 (idleScene false true) positivePackets 10
          plainContext true).writes, w < MAX_COHERENT_RAY_PACKETS avx64) ∧
      (∀ c ∈ (filterSOACoherent avx64 (idleScene false true) positivePackets 10
          plainContext true).calls,
        c.packets.length ≤ MAX_COHERENT_RAY_PACKETS avx64 ∧
        c.size ≤ MAX_RAYS_PER_OCTANT avx64)) ∧
    (∃ st, filterSOPCoherent avx64 (idleScene false true) blankSOP () 70 plainContext true
        (fun _ => junkPacket) 70 = some st ∧
      (∀ g ∈ st.gathers, g.packetID < MAX_COHERENT_RAY_PACKETS avx64) ∧
      (∀ g ∈ st.scatters, g.packetID < MAX_COHERENT_RAY_PACKETS avx64) ∧
      (∀ c ∈ st.calls, c.packets.length ≤ MAX_COHERENT_RAY_PACKETS avx64 ∧
        c.size ≤ MAX_RAYS_PER_OCTANT avx64))) :=
  ⟨⟨by decide, by decide, by decide⟩,
    coherent_capacity avx64 (idleScene false true) positivePackets 10 blankSOP () 70
      plainContext true (fun _ => junkPacket) 70 (by decide) (by decide) (by decide)⟩

/-! ## C10: partial batches in `filterSOPCoherent` -/

/-- On `blankSOP`, `filterSOPCoherent` takes the coherent-batch path and the
first packet it converts is packet 0. -/
theorem filterSOPCoherent_blank_first (T : Target) (N fuel : Nat) (hW : 0 < T.VSIZEX)
    (hM : 0 < MAX_COHERENT_RAY_PACKETS T) (hN : 0 < N) (hfuel : N ≤ fuel) :
    chunkFallbackSOP T (idleScene false true) blankSOP () N fuel = some false ∧
    ∃ st, filterSOPCoherent T (idleScene false true) blankSOP () N plainContext true
        (fun _ => junkPacket) fuel = some st ∧
      accessSOP T N 0 ∈ st.gathers := by
  have hpath := chunkFallbackSOP_blank T N fuel hW hfuel
  obtain ⟨st, hrun, h1, -⟩ := coherentPathSOP_spec T (idleScene false true) blankSOP ()
    N plainContext true (fun _ => junkPacket) fuel hW hM hfuel
  refine ⟨hpath, st, ?_, ?_⟩
  · unfold filterSOPCoherent
    rw [hpath]
    exact hrun
  · rw [h1]
    refine List.mem_map.2 ⟨0, List.mem_range.2 ?_, rfl⟩
    exact Nat.lt_of_lt_of_le Nat.zero_lt_one
      ((Nat.le_div_iff_mul_le hW).2 (by omega))

/-- C10, refuted as stated: for `N = 2^31` active rays pointing along (1,1,1)
on the AVX target, `filterSOPCoherent` takes the coherent-batch path and
converts the packet of rays `0 .. 7` (byte offset 0) with an in-bounds mask
whose lane 0 is clear, although ray index `0 + 0 + 0` is below `N`: `int(N)`
is negative. -/
theorem filterSOPCoherent_partial_flush_counterexample :
    chunkFallbackSOP avx64 (idleScene false true) blankSOP () 2147483648 2147483648
      = some false ∧
    ∃ st, filterSOPCoherent avx64 (idleScene false true) blankSOP () 2147483648 plainContext
        true (fun _ => junkPacket) 2147483648 = some st ∧
      ∃ g ∈ st.gathers, g.offset = 0 ∧ g.valid 0 = false ∧ 0 + 0 + 0 < 2147483648 :=
  have h := filterSOPCoherent_blank_first avx64 2147483648 2147483648 (by decide) (by decide)
    (by decide) (Nat.le_refl _)
  ⟨h.1, h.2.elim fun st hst =>
    ⟨st, hst.1, accessSOP avx64 2147483648 0, hst.2, by decide, by decide, by decide⟩⟩

/-- C10 (amended): on the coherent-batch path of `filterSOPCoherent` (its
`chunkFallback` flag is false), for every `N` (including `N` not a multiple of
`VSIZEX`), the filter returns after exactly
`ceil(N / (MAX_COHERENT_RAY_PACKETS*VSIZEX))` engine calls, all batched; the
lane counts passed sum to exactly `N` and the packet counts to
`ceil(N / VSIZEX)`; every packet, the final partial one included, is
converted to SOA exactly once and converted back exactly once, in stream
order, into and from the slot `q % MAX_COHERENT_RAY_PACKETS` of the local
array; call number `b` is made on the lanes of batch `b` through the pointers
to the slots `0, 1, ...` of the packets of that batch, so packet `q` is traced
exactly once, in call `q / MAX_COHERENT_RAY_PACKETS`; and for `N < 2^31`
(`VSIZEX` a divisor of `2^31`), in every gather and scatter the in-bounds mask
has lane `k < VSIZEX` set if and only if its ray index `offset/4 + k` is
`< N`. -/
theorem filterSOPCoherent_partial_flush {σ : Type} (T : Target) (scene : Scene)
    (rs : RayStreamSOP σ) (rayN : σ) (N : Nat) (context : IntersectContext)
    (intersect : Bool) (uninit : Nat → RayK) (fuel : Nat)
    (hW : 0 < T.VSIZEX) (hcap : T.VSIZEX ≤ MAX_RAYS_PER_OCTANT T) (hfuel : N ≤ fuel)
    (hpath : chunkFallbackSOP T scene rs rayN N fuel = some false) :
    ∃ st, filterSOPCoherent T scene rs rayN N context intersect uninit fuel = some st ∧
      st.calls.length = (N + MAX_COHERENT_RAY_PACKETS T * T.VSIZEX - 1)
        / (MAX_COHERENT_RAY_PACKETS T * T.VSIZEX) ∧
      (∀ c ∈ st.calls, c.isBatched = true) ∧
      (st.calls.map EngineCall.size).sum = N ∧
      (st.calls.map (fun c => c.packets.length)).sum = (N + T.VSIZEX - 1) / T.VSIZEX ∧
      st.gathers.map PacketAccess.offset
        = (List.range ((N + T.VSIZEX - 1) / T.VSIZEX)).map (fun q => 4 * (q * T.VSIZEX)) ∧
      st.scatters.map PacketAccess.offset
        = (List.range ((N + T.VSIZEX - 1) / T.VSIZEX)).map (fun q => 4 * (q * T.VSIZEX)) ∧
      (N < 2147483648 → T.VSIZEX ∣ 2147483648 →
        ∀ g ∈ st.gathers ++ st.scatters, ∀ k, k < T.VSIZEX →
          (g.valid k = true ↔ g.offset / 4 + k < N)) ∧
      st.gathers.map PacketAccess.packetID
        = (List.range ((N + T.VSIZEX - 1) / T.VSIZEX)).map
            (fun q => q % MAX_COHERENT_RAY_PACKETS T) ∧
      st.scatters = st.gathers ∧
      st.calls.map (fun c => (c.size, c.packets))
        = (List.range ((N + MAX_COHERENT_RAY_PACKETS T * T.VSIZEX - 1)
            / (MAX_COHERENT_RAY_PACKETS T * T.VSIZEX))).map (fun b =>
          (min (N - b * (MAX_COHERENT_RAY_PACKETS T * T.VSIZEX))
              (MAX_COHERENT_RAY_PACKETS T * T.VSIZEX),
            List.range ((min (N - b * (MAX_COHERENT_RAY_PACKETS T * T.VSIZEX))
              (MAX_COHERENT_RAY_PACKETS T * T.VSIZEX) + T.VSIZEX - 1) / T.VSIZEX))) ∧
      (∀ q, q < (N + T.VSIZEX - 1) / T.VSIZEX →
        ∃ g c, st.gathers[q]? = some g ∧ st.scatters[q]? = some g ∧
          g.offset = 4 * (q * T.VSIZEX) ∧ g.packetID = q % MAX_COHERENT_RAY_PACKETS T ∧
          st.calls[q / MAX_COHERENT_RAY_PACKETS T]? = some c ∧
          c.packets.Nodup ∧ g.packetID ∈ c.packets) := by
  have hM := MAX_COHERENT_RAY_PACKETS_pos T hW hcap
  obtain ⟨st, hrun, h1, h2, h3, h4, h4p, h5⟩ :=
    coherentPathSOP_spec T scene rs rayN N context intersect uninit fuel hW hM hfuel
  obtain ⟨st', hrun', hcalls'⟩ :=
    coherentPathSOP_calls T scene rs rayN N context intersect uninit fuel hW hM hfuel
  have hst : st' = st := Option.some.inj (hrun'.symm.trans hrun)
  rw [hst] at hcalls'
  have hrun1 : filterSOPCoherent T scene rs rayN N context intersect uninit fuel = some st := by
    unfold filterSOPCoherent
    rw [hpath]
    exact hrun
  refine ⟨st, hrun1, h3, fun c hc => (h5 c hc).1, h4, h4p, ?_, ?_, ?_, ?_, by rw [h2, h1],
    hcalls', ?_⟩
  · rw [h1, List.map_map]; rfl
  · rw [h2, List.map_map]; rfl
  · intro hN31 hpow g hg k hk
    have hq : ∃ q, q < (N + T.VSIZEX - 1) / T.VSIZEX ∧ g = accessSOP T N q := by
      rw [h1, h2, List.mem_append, or_self, List.mem_map] at hg
      obtain ⟨q, hq, rfl⟩ := hg
      exact ⟨q, List.mem_range.1 hq, rfl⟩
    obtain ⟨q, hq, rfl⟩ := hq
    have hlt := lt_of_lt_ceil q T.VSIZEX N hW hq
    obtain ⟨t, ht⟩ := hpow
    have hqt : q < t := by
      apply Nat.lt_of_mul_lt_mul_right (a := T.VSIZEX)
      rw [Nat.mul_comm t, ← ht]
      omega
    have hbound : q * T.VSIZEX + k < 2147483648 := by
      have h' : (q + 1) * T.VSIZEX ≤ t * T.VSIZEX := Nat.mul_le_mul_right _ hqt
      rw [Nat.add_mul, Nat.one_mul, Nat.mul_comm t, ← ht] at h'
      omega
    have hoff : 4 * (q * T.VSIZEX) / 4 = q * T.VSIZEX := by omega
    unfold accessSOP inBounds
    simp only [hoff, decide_eq_true_eq]
    rw [toInt32_small _ hbound, toInt32_small _ hN31]
    omega
  · rw [h1, List.map_map]; rfl
  · intro q hq
    obtain ⟨hb, hslot⟩ := packet_in_batch (MAX_COHERENT_RAY_PACKETS T) T.VSIZEX N q hW hM hq
    have hcall := congrArg (fun l => l[q / MAX_COHERENT_RAY_PACKETS T]?) hcalls'
    simp only [List.getElem?_map] at hcall
    rw [List.getElem?_range hb] at hcall
    cases hc : st.calls[q / MAX_COHERENT_RAY_PACKETS T]? with
    | none => rw [hc] at hcall; exact Option.noConfusion hcall
    | some c =>
      rw [hc] at hcall
      have hpk : c.packets = List.range ((min (N - q / MAX_COHERENT_RAY_PACKETS T
          * (MAX_COHERENT_RAY_PACKETS T * T.VSIZEX)) (MAX_COHERENT_RAY_PACKETS T * T.VSIZEX)
          + T.VSIZEX - 1) / T.VSIZEX) := congrArg Prod.snd (Option.some.inj hcall)
      refine ⟨accessSOP T N q, c, ?_, ?_, rfl, rfl, rfl, ?_, ?_⟩
      · rw [h1]; exact getElem?_map_range (accessSOP T N) _ q hq
      · rw [h2]; exact getElem?_map_range (accessSOP T N) _ q hq
      · rw [hpk]; exact List.nodup_range _
      · rw [hpk]; exact List.mem_range.2 hslot

/-- C10 (amended), instance: 70 rays on the AVX target: two batched calls
with 64 and 6 lanes; 70 is below `2^31` and 8 divides `2^31`. -/
theorem filterSOPCoherent_partial_flush_witness :
    (0 < avx64.VSIZEX ∧ avx64.VSIZEX ≤ MAX_RAYS_PER_OCTANT avx64 ∧ 70 ≤ 70 ∧
      chunkFallbackSOP avx64 (idleScene false true) blankSOP () 70 70 = some false ∧
      70 < 2147483648 ∧ avx64.VSIZEX ∣ 2147483648) ∧
    ∃ st, filterSOPCoherent avx64 (idleScene false true) blankSOP () 70 plainContext true
        (fun _ => junkPacket) 70 = some st ∧
      st.calls.length = (70 + MAX_COHERENT_RAY_PACKETS avx64 * avx64.VSIZEX - 1)
        / (MAX_COHERENT_RAY_PACKETS avx64 * avx64.VSIZEX) ∧
      (∀ c ∈ st.calls, c.isBatched = true) ∧
      (st.calls.map EngineCall.size).sum = 70 ∧
      (st.calls.map (fun c => c.packets.length)).sum
        = (70 + avx64.VSIZEX - 1) / avx64.VSIZEX ∧
      st.gathers.map PacketAccess.offset
        = (List.range ((70 + avx64.VSIZEX - 1) / avx64.VSIZEX)).map
            (fun q => 4 * (q * avx64.VSIZEX)) ∧
      st.scatters.map PacketAccess.offset
        = (List.range ((70 + avx64.VSIZEX - 1) / avx64.VSIZEX)).map
            (fun q => 4 * (q * avx64.VSIZEX)) ∧
      (70 < 2147483648 → avx64.VSIZEX ∣ 2147483648 →
        ∀ g ∈ st.gathers ++ st.scatters, ∀ k, k < avx64.VSIZEX →
          (g.valid k = true ↔ g.offset / 4 + k < 70)) ∧
      st.gathers.map PacketAccess.packetID
        = (List.range ((70 + avx64.VSIZEX - 1) / avx64.VSIZEX)).map
            (fun q => q % MAX_COHERENT_RAY_PACKETS avx64) ∧
      st.scatters = st.gathers ∧
      st.calls.map (fun c => (c.size, c.packets))
        = (List.range ((70 + MAX_COHERENT_RAY_PACKETS avx64 * avx64.VSIZEX - 1)
            / (MAX_COHERENT_RAY_PACKETS avx64 * avx64.VSIZEX))).map (fun b =>
          (min (70 - b * (MAX_COHERENT_RAY_PACKETS avx64 * avx64.VSIZEX))
              (MAX_COHERENT_RAY_PACKETS avx64 * avx64.VSIZEX),
            List.range ((min (70 - b * (MAX_COHERENT_RAY_PACKETS avx64 * avx64.VSIZEX))
              (MAX_COHERENT_RAY_PACKETS avx64 * avx64.VSIZEX) + avx64.VSIZEX - 1)
                / avx64.VSIZEX))) ∧
      (∀ q, q < (70 + avx64.VSIZEX - 1) / avx64.VSIZEX →
        ∃ g c, st.gathers[q]? = some g ∧ st.scatters[q]? = some g ∧
          g.offset = 4 * (q * avx64.VSIZEX) ∧
          g.packetID = q % MAX_COHERENT_RAY_PACKETS avx64 ∧
          st.calls[q / MAX_COHERENT_RAY_PACKETS avx64]? = some c ∧
          c.packets.Nodup ∧ g.packetID ∈ c.packets) :=
  ⟨⟨by decide, by decide, by decide,
      chunkFallbackSOP_blank avx64 70 70 (by decide) (by decide),
      by decide, ⟨268435456, by decide⟩⟩,
    filterSOPCoherent_partial_flush avx64 (idleScene false true) blankSOP () 70 plainContext
      true (fun _ => junkPacket) 70 (by decide) (by decide) (by decide)
      (chunkFallbackSOP_blank avx64 70 70 (by decide) (by decide))⟩


/-! ## Evaluations on small inputs -/

/-- Ten coherent packets on the AVX target: `filterSOACoherent` makes two
batched calls, over packets 0..7 (64 lanes) and 8..9 (16 lanes), and sets the
input layout. -/
theorem filterSOACoherent_ten_packets :
    (filterSOACoherent avx64 (idleScene false true) positivePackets 10 plainContext
        true).calls.map (fun c => (c.isBatched, c.packets, c.size))
      = [(true, [0, 1, 2, 3, 4, 5, 6, 7], 64), (true, [8, 9], 16)] ∧
    (filterSOACoherent avx64 (idleScene false true) positivePackets 10 plainContext
        true).writes = [0, 1, 2, 3, 4, 5, 6, 7, 0, 1] ∧
    (filterSOACoherent avx64 (idleScene false true) positivePackets 10 plainContext
        true).context = ⟨false, some 8⟩ := by
  decide

/-- Three rays, the middle one inactive, on the AVX target: `filterAOP` makes
one call with lanes 0 and 2 active, visits the records 0, 1, 2 and assigns
`geomID` of each. -/
theorem filterAOP_three_rays :
    (filterAOP avx64 (idleScene false true) threeRays 3 plainContext true
        (fun _ => junkPacket) 3).map
      (fun st => st.calls.map (fun c => c.single.map (fun p => (List.range 8).map p.1)))
      = some [some [true, false, true, false, false, false, false, false]] ∧
    (filterAOP avx64 (idleScene false true) threeRays 3 plainContext true
        (fun _ => junkPacket) 3).map (fun st => st.gathers) = some [0, 1, 2] ∧
    (filterAOP avx64 (idleScene false true) threeRays 3 plainContext true
        (fun _ => junkPacket) 3).map (fun st => st.scatters) = some [0, 1, 2] ∧
    (filterAOP avx64 (idleScene false true) threeRays 3 plainContext true
        (fun _ => junkPacket) 3).map (fun st => st.stores)
      = some [(0, ⟨RayField.geomID, 4294967295⟩), (1, ⟨RayField.geomID, 4294967295⟩),
           (2, ⟨RayField.geomID, 4294967295⟩)] :=
  ⟨by decide, by decide, by decide, by decide⟩

/-- Seventy rays on the AVX target: `filterSOPCoherent` takes the coherent
path, converts nine packets and makes two batched calls with 64 and 6 lanes;
the last packet has lanes 0..5 in bounds. -/
theorem filterSOPCoherent_seventy_rays :
    (filterSOPCoherent avx64 (idleScene false true) blankSOP () 70 plainContext true
        (fun _ => junkPacket) 70).map
      (fun st => st.gathers.map (fun g => (g.offset, g.packetID)))
      = some [(0, 0), (32, 1), (64, 2), (96, 3), (128, 4), (160, 5), (192, 6), (224, 7),
            (256, 0)] ∧
    (filterSOPCoherent avx64 (idleScene false true) blankSOP () 70 plainContext true
        (fun _ => junkPacket) 70).map
      (fun st => st.calls.map (fun c => (c.packets, c.size)))
      = some [([0, 1, 2, 3, 4, 5, 6, 7], 64), ([0], 6)] ∧
    (filterSOPCoherent avx64 (idleScene false true) blankSOP () 70 plainContext true
        (fun _ => junkPacket) 70).map
      (fun st => st.scatters.map (fun g => (g.offset, g.packetID)))
      = some [(0, 0), (32, 1), (64, 2), (96, 3), (128, 4), (160, 5), (192, 6), (224, 7),
            (256, 0)] ∧
    (filterSOPCoherent avx64 (idleScene false true) blankSOP () 70 plainContext true
        (fun _ => junkPacket) 70).map
      (fun st => st.gathers.getLast?.map (fun g => (List.range 8).map g.valid))
      = some (some [true, true, true, true, true, true, false, false]) :=
  ⟨by decide, by decide, by decide, by decide⟩

/-! ## C20: `parition` on more than `SERIAL_THRESHOLD` elements -/

theorem parallel_partition.checkLeft_true {p : parallel_partition} {b e : Nat} {pivot : Int}
    (h : p.checkLeft b e pivot = true) (i : Nat) (hb : b ≤ i) (he : i < e) :
    ∃ x, p.array[i]? = some x ∧ x < pivot := by
  unfold parallel_partition.checkLeft at h
  rw [List.all_eq_true] at h
  have hi := h (i - b) (List.mem_range.mpr (by omega))
  have e1 : b + (i - b) = i := by omega
  rw [e1] at hi
  cases hx : p.array[i]? with
  | none => rw [hx] at hi; simp at hi
  | some x => rw [hx] at hi; exact ⟨x, rfl, by simpa using hi⟩

theorem parallel_partition.checkRight_true {p : parallel_partition} {b e : Nat} {pivot : Int}
    (h : p.checkRight b e pivot = true) (i : Nat) (hb : b ≤ i) (he : i < e) :
    ∃ x, p.array[i]? = some x ∧ pivot ≤ x := by
  unfold parallel_partition.checkRight at h
  rw [List.all_eq_true] at h
  have hi := h (i - b) (List.mem_range.mpr (by omega))
  have e1 : b + (i - b) = i := by omega
  rw [e1] at hi
  cases hx : p.array[i]? with
  | none => rw [hx] at hi; simp at hi
  | some x => rw [hx] at hi; exact ⟨x, rfl, by simpa using hi⟩

theorem parallel_partition.blockPhase_tailInput :
    parallel_partition.blockPhase 4 (parallel_partition.create 4 tailInput 18) 10 40 =
      some (⟨8589934594, 18, 4, tailOutput,
              [0, 1, 12, 1, 12, 2, 3, 13, 14, 3, 14, 4, 5, 15, 5, 15, 14, 13, 12, 11, 10, 5, 10,
               6, 7, 9, 8, 7, 8]⟩,
            ⟨5, 8, 16, 16, 1, 0⟩, 8) := by
  decide

/-- C20 (code bug): on an array of 18 elements with blocks of 4 and pivot 10,
whatever value the uninitialised variable `mid` holds, `parition` returns,
leaves the two small elements of the tail behind the large ones, returns
`left_begin + mid` computed from that value, and its own checks `checkLeft`
and `checkRight` do not both pass; the array is not partitioned at the
returned index. -/
theorem parition_tail_not_partitioned (indeterminate : Nat) :
    ∃ r, parallel_partition.parition 4 (parallel_partition.create 4 tailInput 18) 10
        indeterminate 40 = some r ∧
      r.self.array = tailOutput ∧
      r.mid = (5 + indeterminate) % 18446744073709551616 ∧
      r.checked = false ∧
      ¬ (r.mid ≤ 18 ∧ (∀ i, i < r.mid → r.self.at_ i < 10) ∧
          (∀ i, r.mid ≤ i → i < 18 → 10 ≤ r.self.at_ i)) := by
  have hrun : parallel_partition.parition 4 (parallel_partition.create 4 tailInput 18) 10
      indeterminate 40 = some ⟨⟨8589934594, 18, 4, tailOutput,
              [0, 1, 12, 1, 12, 2, 3, 13, 14, 3, 14, 4, 5, 15, 5, 15, 14, 13, 12, 11, 10, 5, 10,
               6, 7, 9, 8, 7, 8]⟩, (5 + indeterminate) % 18446744073709551616,
          parallel_partition.checkLeft ⟨8589934594, 18, 4, tailOutput,
              [0, 1, 12, 1, 12, 2, 3, 13, 14, 3, 14, 4, 5, 15, 5, 15, 14, 13, 12, 11, 10, 5, 10,
               6, 7, 9, 8, 7, 8]⟩ 0 ((5 + indeterminate) % 18446744073709551616) 10 &&
          parallel_partition.checkRight ⟨8589934594, 18, 4, tailOutput,
              [0, 1, 12, 1, 12, 2, 3, 13, 14, 3, 14, 4, 5, 15, 5, 15, 14, 13, 12, 11, 10, 5, 10,
               6, 7, 9, 8, 7, 8]⟩ ((5 + indeterminate) % 18446744073709551616) 18 10⟩ := by
    unfold parallel_partition.parition
    rw [if_neg (by decide), parallel_partition.blockPhase_tailInput]
    rfl
  refine ⟨_, hrun, rfl, rfl, ?_, ?_⟩
  · cases hc : (parallel_partition.checkLeft ⟨8589934594, 18, 4, tailOutput,
              [0, 1, 12, 1, 12, 2, 3, 13, 14, 3, 14, 4, 5, 15, 5, 15, 14, 13, 12, 11, 10, 5, 10,
               6, 7, 9, 8, 7, 8]⟩ 0 ((5 + indeterminate) % 18446744073709551616) 10 &&
          parallel_partition.checkRight ⟨8589934594, 18, 4, tailOutput,
              [0, 1, 12, 1, 12, 2, 3, 13, 14, 3, 14, 4, 5, 15, 5, 15, 14, 13, 12, 11, 10, 5, 10,
               6, 7, 9, 8, 7, 8]⟩ ((5 + indeterminate) % 18446744073709551616) 18 10) with
    | false => rfl
    | true =>
      exfalso
      rw [Bool.and_eq_true] at hc
      by_cases hm : (5 + indeterminate) % 18446744073709551616 ≤ 17
      · obtain ⟨x, hx, hlt⟩ := parallel_partition.checkRight_true hc.2 17 hm (by decide)
        have h17 : tailOutput[17]? = some 0 := by decide
        have : x = 0 := by
          have := hx.symm.trans h17
          exact Option.some.inj this
        omega
      · obtain ⟨x, hx, hlt⟩ := parallel_partition.checkLeft_true hc.1 8 (by omega) (by omega)
        have h8 : tailOutput[8]? = some 23 := by decide
        have : x = 23 := by
          have := hx.symm.trans h8
          exact Option.some.inj this
        omega
  · rintro ⟨hle, hl, hr⟩
    by_cases hm : (5 + indeterminate) % 18446744073709551616 ≤ 17
    · have := hr 17 hm (by decide)
      have h17 : parallel_partition.at_ ⟨8589934594, 18, 4, tailOutput,
              [0, 1, 12, 1, 12, 2, 3, 13, 14, 3, 14, 4, 5, 15, 5, 15, 14, 13, 12, 11, 10, 5, 10,
               6, 7, 9, 8, 7, 8]⟩ 17 = 0 := by decide
      rw [h17] at this
      omega
    · have := hl 8 (by show 8 < (5 + indeterminate) % 18446744073709551616; omega)
      have h8 : parallel_partition.at_ ⟨8589934594, 18, 4, tailOutput,
              [0, 1, 12, 1, 12, 2, 3, 13, 14, 3, 14, 4, 5, 15, 5, 15, 14, 13, 12, 11, 10, 5, 10,
               6, 7, 9, 8, 7, 8]⟩ 8 = 23 := by decide
      rw [h8] at this
      omega

/-! ## Loops as folds, and the contexts of the engine calls -/

theorem strideFold_induct {σ : Type} (P : σ → Prop) (f : Nat → σ → σ) (step start n : Nat)
    (s : σ) (h0 : P s) (hstep : ∀ x s, P s → P (f x s)) : P (strideFold f step start n s) := by
  induction n with
  | zero => exact h0
  | succ n ih => rw [strideFold_succ]; exact hstep _ _ ih

theorem foldl_range_induct {σ : Type} (P : σ → Prop) (f : σ → Nat → σ) (n : Nat) (s : σ)
    (h0 : P s) (hstep : ∀ s x, P s → P (f s x)) : P ((List.range n).foldl f s) := by
  induction n with
  | zero => exact h0
  | succ n ih => rw [List.range_succ, List.foldl_append]; exact hstep _ _ ih

theorem forall_mem_snoc {α : Type} (P : α → Prop) (l : List α) (a : α)
    (hl : ∀ x ∈ l, P x) (ha : P a) : ∀ x ∈ l ++ [a], P x := by
  intro x hx
  rcases List.mem_append.1 hx with h | h
  · exact hl x h
  · rw [List.mem_singleton.1 h]; exact ha

theorem chunkPathSOP_eq {σ : Type} (T : Target) (scene : Scene) (rs : RayStreamSOP σ)
    (rayN : σ) (N : Nat) (context : IntersectContext) (intersect : Bool)
    (uninit : Nat → RayK) (fuel : Nat) (hW : 0 < T.VSIZEX) (hfuel : N ≤ fuel) :
    chunkPathSOP T scene rs rayN N context intersect uninit fuel
      = some (strideFold (chunkStepSOP scene rs context intersect N) T.VSIZEX 0
          ((N + T.VSIZEX - 1) / T.VSIZEX) ⟨rayN, uninit, fun _ => 0, [], [], [], context⟩) := by
  unfold chunkPathSOP
  rw [forStride_eq N T.VSIZEX _ (chunkStepSOP scene rs context intersect N) hW
    (fun _ _ _ => rfl) fuel 0 _ (by omega), Nat.sub_zero]

theorem coherentPathSOP_eq {σ : Type} (T : Target) (scene : Scene) (rs : RayStreamSOP σ)
    (rayN : σ) (N : Nat) (context : IntersectContext) (intersect : Bool)
    (uninit : Nat → RayK) (fuel : Nat)
    (hW : 0 < T.VSIZEX) (hM : 0 < MAX_COHERENT_RAY_PACKETS T) (hfuel : N ≤ fuel) :
    coherentPathSOP T scene rs rayN N context intersect uninit fuel
      = some (strideFold (batchFnSOP T scene rs (context.setInputSOA T.VSIZEX) intersect N)
          (MAX_COHERENT_RAY_PACKETS T * T.VSIZEX) 0
          ((N + MAX_COHERENT_RAY_PACKETS T * T.VSIZEX - 1)
            / (MAX_COHERENT_RAY_PACKETS T * T.VSIZEX))
          ⟨rayN, uninit, fun _ => 0, [], [], [], context.setInputSOA T.VSIZEX⟩) := by
  have hK : 0 < MAX_COHERENT_RAY_PACKETS T * T.VSIZEX := Nat.mul_pos hM hW
  have hrun := forStride_eq N (MAX_COHERENT_RAY_PACKETS T * T.VSIZEX)
    (batchSOP T scene rs (context.setInputSOA T.VSIZEX) intersect N fuel)
    (batchFnSOP T scene rs (context.setInputSOA T.VSIZEX) intersect N) hK
    (fun x s _ => batchSOP_eq T scene rs (context.setInputSOA T.VSIZEX) intersect N fuel x s
      hW hfuel)
    fuel 0 ⟨rayN, uninit, fun _ => 0, [], [], [], context.setInputSOA T.VSIZEX⟩ (by omega)
  rw [Nat.sub_zero] at hrun
  exact hrun

theorem chunkStepSOP_context {σ : Type} (scene : Scene) (rs : RayStreamSOP σ)
    (context : IntersectContext) (intersect : Bool) (N i : Nat) (st : SOPState σ)
    (h : ∀ c ∈ st.calls, c.context = context ∧ c.isBatched = false) :
    ∀ c ∈ (chunkStepSOP scene rs context intersect N i st).calls,
      c.context = context ∧ c.isBatched = false := by
  unfold chunkStepSOP
  cases intersect
  · exact forall_mem_snoc _ _ _ h ⟨rfl, rfl⟩
  · exact forall_mem_snoc _ _ _ h ⟨rfl, rfl⟩

theorem batchFnSOP_context {σ : Type} (T : Target) (scene : Scene) (rs : RayStreamSOP σ)
    (context : IntersectContext) (intersect : Bool) (N i : Nat) (st : SOPState σ)
    (hW : 0 < T.VSIZEX)
    (h : ∀ c ∈ st.calls, c.context = context ∧ c.isBatched = true) :
    ∀ c ∈ (batchFnSOP T scene rs context intersect N i st).calls,
      c.context = context ∧ c.isBatched = true := by
  unfold batchFnSOP
  rw [(scatterFold_logs T rs intersect N i _ _ hW).2.1]
  have hconv := (convertFold_spec T rs N i
    ((min (N - i) (MAX_COHERENT_RAY_PACKETS T * T.VSIZEX) - 0 + T.VSIZEX - 1) / T.VSIZEX)
    st hW).2.1
  generalize strideFold (convertSOP T rs N i) T.VSIZEX 0
    ((min (N - i) (MAX_COHERENT_RAY_PACKETS T * T.VSIZEX) - 0 + T.VSIZEX - 1) / T.VSIZEX) st
    = s1 at hconv
  rw [← hconv] at h
  unfold traceSOP
  cases intersect
  · exact forall_mem_snoc _ _ _ h ⟨rfl, rfl⟩
  · exact forall_mem_snoc _ _ _ h ⟨rfl, rfl⟩

theorem traceStream_context (T : Target) (scene : Scene) (context : IntersectContext)
    (intersect : Bool) (st : BatchState)
    (h : ∀ c ∈ st.calls, c.context = context ∧ c.isBatched = true) :
    ∀ c ∈ (traceStream T scene context intersect st).calls,
      c.context = context ∧ c.isBatched = true := by
  unfold traceStream
  cases intersect
  · exact forall_mem_snoc _ _ _ h ⟨rfl, rfl⟩
  · exact forall_mem_snoc _ _ _ h ⟨rfl, rfl⟩

theorem coherentPathSOA_context (T : Target) (scene : Scene) (rayData : Nat → RayK)
    (streams : Nat) (context : IntersectContext) (intersect : Bool) :
    (coherentPathSOA T scene rayData streams context intersect).context
      = context.setInputSOA T.VSIZEX ∧
    ∀ c ∈ (coherentPathSOA T scene rayData streams context intersect).calls,
      c.context = context.setInputSOA T.VSIZEX ∧ c.isBatched = true := by
  refine ⟨rfl, ?_⟩
  have hloop : ∀ c ∈ (coherentLoopSOA T scene (context.setInputSOA T.VSIZEX) intersect
      rayData streams).calls, c.context = context.setInputSOA T.VSIZEX ∧ c.isBatched = true := by
    unfold coherentLoopSOA
    apply foldl_range_induct
      (fun st : BatchState => ∀ c ∈ st.calls,
        c.context = context.setInputSOA T.VSIZEX ∧ c.isBatched = true)
    · intro c hc; exact absurd hc (List.not_mem_nil c)
    · intro st x hst
      unfold coherentStepSOA
      dsimp only
      split
      · exact traceStream_context T scene _ intersect _ hst
      · exact hst
  unfold coherentPathSOA
  dsimp only
  split
  · exact traceStream_context T scene _ intersect _ hloop
  · exact hloop

theorem chunkPathSOA_context (scene : Scene) (rayData : Nat → RayK) (streams : Nat)
    (context : IntersectContext) (intersect : Bool) :
    ∀ c ∈ (chunkPathSOA scene rayData streams context intersect).calls,
      c.context = context ∧ c.isBatched = false := by
  rw [(chunkPathSOA_spec scene rayData streams context intersect).2.2.2]
  intro c hc
  obtain ⟨s, _, rfl⟩ := List.mem_map.1 hc
  unfold callSOA
  cases intersect <;> exact ⟨rfl, rfl⟩

/-! ## C17: the input-layout hint -/

theorem strideFold_context {σ : Type} (f : Nat → SOPState σ → SOPState σ)
    (hf : ∀ x s, (f x s).context = s.context) (step start n : Nat) (s : SOPState σ) :
    (strideFold f step start n s).context = s.context :=
  strideFold_induct (fun t => t.context = s.context) f step start n s rfl
    (fun x t ht => (hf x t).trans ht)

theorem chunkStepSOP_keeps {σ : Type} (scene : Scene) (rs : RayStreamSOP σ)
    (context : IntersectContext) (intersect : Bool) (N i : Nat) (st : SOPState σ) :
    (chunkStepSOP scene rs context intersect N i st).context = st.context := by
  unfold chunkStepSOP
  cases intersect <;> rfl

theorem batchFnSOP_keeps {σ : Type} (T : Target) (scene : Scene) (rs : RayStreamSOP σ)
    (context : IntersectContext) (intersect : Bool) (N i : Nat) (st : SOPState σ) :
    (batchFnSOP T scene rs context intersect N i st).context = st.context := by
  unfold batchFnSOP
  rw [strideFold_context (scatterSOP T rs intersect N i) (fun _ _ => rfl)]
  have ht : ∀ size (s : SOPState σ),
      (traceSOP T scene context intersect size s).context = s.context := by
    intro size s
    unfold traceSOP
    cases intersect <;> rfl
  rw [ht, strideFold_context (convertSOP T rs N i) (fun _ _ => rfl)]

/-- What a context equal to the caller's (chunk path) or to the caller's after
`setInputSOA(VSIZEX)` (coherent-batch path) holds: the hint is in it if and
only if the coherent-batch path was taken or the caller had set it; on the
coherent-batch path it is in it, and the user's flag is as before. -/
theorem hint_of_path (context c : IntersectContext) (W : Nat) (chunkFallback : Bool)
    (h : c = if chunkFallback then context else context.setInputSOA W) :
    (c.inputSOA = some W ↔ (chunkFallback = false ∨ context.inputSOA = some W)) ∧
    (chunkFallback = false → c.inputSOA = some W) ∧
    (chunkFallback = true → c = context) ∧
    c.coherent = context.coherent := by
  cases chunkFallback
  · simp only [Bool.false_eq_true, if_false] at h
    rw [h]
    exact ⟨⟨fun _ => Or.inl rfl, fun _ => rfl⟩, fun _ => rfl, fun h' => absurd h' (by decide),
      rfl⟩
  · simp only [if_true] at h
    rw [h]
    exact ⟨⟨fun h' => Or.inr h', fun h' => h'.elim (fun e => absurd e (by decide)) id⟩,
      fun h' => absurd h' (by decide), fun _ => rfl, rfl⟩

/-- C17: `filterSOACoherent` and `filterSOPCoherent` leave the context with the
input layout set to SOA of width `VSIZEX` (`inputSOA = some VSIZEX`) exactly
when they take the coherent-batch path (or the caller had set that hint
already), and leave it as it was on the chunk path; on the coherent-batch path
every engine call is a batched call whose context already carries the hint
`some VSIZEX`, and there is such a call as soon as there is a packet, so the
hint is set before the first batched call; on the chunk path every engine call
is a single-packet call that carries the caller's context unchanged. -/
theorem context_hint {σ : Type} (T : Target) (scene : Scene) (rayData : Nat → RayK)
    (streams : Nat) (rs : RayStreamSOP σ) (rayN : σ) (N : Nat) (context : IntersectContext)
    (intersect : Bool) (uninit : Nat → RayK) (fuel : Nat)
    (hW : 0 < T.VSIZEX) (hcap : T.VSIZEX ≤ MAX_RAYS_PER_OCTANT T) (hfuel : N ≤ fuel) :
    ((filterSOACoherent T scene rayData streams context intersect).context
        = (if chunkFallbackSOA T scene rayData streams then context
           else context.setInputSOA T.VSIZEX) ∧
      (∀ c ∈ (filterSOACoherent T scene rayData streams context intersect).calls,
        c.context = (if chunkFallbackSOA T scene rayData streams then context
           else context.setInputSOA T.VSIZEX) ∧
        c.isBatched = !chunkFallbackSOA T scene rayData streams) ∧
      ((filterSOACoherent T scene rayData streams context intersect).context.inputSOA
          = some T.VSIZEX ↔
        (chunkFallbackSOA T scene rayData streams = false ∨
          context.inputSOA = some T.VSIZEX)) ∧
      (chunkFallbackSOA T scene rayData streams = false →
        (0 < streams →
          (filterSOACoherent T scene rayData streams context intersect).calls ≠ []) ∧
        ∀ c ∈ (filterSOACoherent T scene rayData streams context intersect).calls,
          c.isBatched = true ∧ c.context.inputSOA = some T.VSIZEX ∧
          c.context.coherent = context.coherent) ∧
      (chunkFallbackSOA T scene rayData streams = true →
        (filterSOACoherent T scene rayData streams context intersect).context = context ∧
        ∀ c ∈ (filterSOACoherent T scene rayData streams context intersect).calls,
          c.isBatched = false ∧ c.context = context)) ∧
    (∃ chunkFallback st, chunkFallbackSOP T scene rs rayN N fuel = some chunkFallback ∧
      filterSOPCoherent T scene rs rayN N context intersect uninit fuel = some st ∧
      st.context = (if chunkFallback then context else context.setInputSOA T.VSIZEX) ∧
      (∀ c ∈ st.calls,
        c.context = (if chunkFallback then context else context.setInputSOA T.VSIZEX) ∧
        c.isBatched = !chunkFallback) ∧
      (st.context.inputSOA = some T.VSIZEX ↔
        (chunkFallback = false ∨ context.inputSOA = some T.VSIZEX)) ∧
      (chunkFallback = false →
        (0 < N → st.calls ≠ []) ∧
        ∀ c ∈ st.calls, c.isBatched = true ∧ c.context.inputSOA = some T.VSIZEX ∧
          c.context.coherent = context.coherent) ∧
      (chunkFallback = true →
        st.context = context ∧
        ∀ c ∈ st.calls, c.isBatched = false ∧ c.context = context)) := by
  have hM := MAX_COHERENT_RAY_PACKETS_pos T hW hcap
  have hne : ∀ {α : Type} (l : List α), 0 < l.length → l ≠ [] := by
    intro α l hl h
    rw [h] at hl
    exact absurd hl (Nat.lt_irrefl 0)
  constructor
  · have hctx : (filterSOACoherent T scene rayData streams context intersect).context
        = (if chunkFallbackSOA T scene rayData streams then context
           else context.setInputSOA T.VSIZEX) ∧
      (∀ c ∈ (filterSOACoherent T scene rayData streams context intersect).calls,
        c.context = (if chunkFallbackSOA T scene rayData streams then context
           else context.setInputSOA T.VSIZEX) ∧
        c.isBatched = !chunkFallbackSOA T scene rayData streams) := by
      unfold filterSOACoherent
      cases hcf : chunkFallbackSOA T scene rayData streams
      · simp only [Bool.false_eq_true, if_false, Bool.not_false]
        exact coherentPathSOA_context T scene rayData streams context intersect
      · simp only [if_true, Bool.not_true]
        exact ⟨(chunkPathSOA_spec scene rayData streams context intersect).2.1,
          chunkPathSOA_context scene rayData streams context intersect⟩
    obtain ⟨h1, h2⟩ := hctx
    obtain ⟨p1, -, p3, -⟩ := hint_of_path context _ T.VSIZEX _ h1
    refine ⟨h1, h2, p1, fun hcf => ⟨fun hs => ?_, fun c hc => ?_⟩,
      fun hcf => ⟨p3 hcf, fun c hc => ?_⟩⟩
    · apply hne
      have hlen := (coherentPathSOA_calls T scene rayData streams context intersect hM).1
      have hpos := mul_lt_ceil 0 (MAX_COHERENT_RAY_PACKETS T) streams hM (by omega)
      unfold filterSOACoherent
      rw [hcf]
      simp only [Bool.false_eq_true, if_false]
      rw [hlen]
      exact hpos
    · obtain ⟨q1, q2⟩ := h2 c hc
      obtain ⟨-, r2, -, r4⟩ := hint_of_path context c.context T.VSIZEX _ q1
      rw [hcf] at q2
      exact ⟨q2, r2 hcf, r4⟩
    · obtain ⟨q1, q2⟩ := h2 c hc
      obtain ⟨-, -, r3, -⟩ := hint_of_path context c.context T.VSIZEX _ q1
      rw [hcf] at q2
      exact ⟨q2, r3 hcf⟩
  · obtain ⟨cf, hcf⟩ := chunkFallbackSOP_returns T scene rs rayN N fuel hW hfuel
    have hex : ∃ st, filterSOPCoherent T scene rs rayN N context intersect uninit fuel
        = some st ∧
        st.context = (if cf then context else context.setInputSOA T.VSIZEX) ∧
        (∀ c ∈ st.calls,
          c.context = (if cf then context else context.setInputSOA T.VSIZEX) ∧
          c.isBatched = !cf) ∧
        (cf = false → 0 < N → st.calls ≠ []) := by
      unfold filterSOPCoherent
      rw [hcf]
      cases cf
      · obtain ⟨st, hrun, -, -, hlen, -⟩ :=
          coherentPathSOP_spec T scene rs rayN N context intersect uninit fuel hW hM hfuel
        have heq := coherentPathSOP_eq T scene rs rayN N context intersect uninit fuel hW hM
          hfuel
        have hst := Option.some.inj (hrun.symm.trans heq)
        refine ⟨st, hrun, ?_, ?_, fun _ hN => ?_⟩
        · rw [hst]
          exact strideFold_context _
            (fun x s => batchFnSOP_keeps T scene rs _ intersect N x s) _ _ _ _
        · rw [hst]
          simp only [Bool.false_eq_true, if_false, Bool.not_false]
          apply strideFold_induct
            (fun st : SOPState σ => ∀ c ∈ st.calls,
              c.context = context.setInputSOA T.VSIZEX ∧ c.isBatched = true)
          · intro c hc; exact absurd hc (List.not_mem_nil c)
          · intro x s hs
            exact batchFnSOP_context T scene rs _ intersect N x s hW hs
        · apply hne
          rw [hlen]
          exact mul_lt_ceil 0 (MAX_COHERENT_RAY_PACKETS T * T.VSIZEX) N (Nat.mul_pos hM hW)
            (by omega)
      · refine ⟨_, chunkPathSOP_eq T scene rs rayN N context intersect uninit fuel hW hfuel,
          ?_, ?_, fun h => absurd h (by decide)⟩
        · exact strideFold_context _
            (fun x s => chunkStepSOP_keeps scene rs context intersect N x s) _ _ _ _
        · simp only [if_true, Bool.not_true]
          apply strideFold_induct
            (fun st : SOPState σ => ∀ c ∈ st.calls, c.context = context ∧ c.isBatched = false)
          · intro c hc; exact absurd hc (List.not_mem_nil c)
          · intro x s hs
            exact chunkStepSOP_context scene rs context intersect N x s hs
    obtain ⟨st, hrun, h1, h2, h3⟩ := hex
    obtain ⟨p1, -, p3, -⟩ := hint_of_path context _ T.VSIZEX _ h1
    refine ⟨cf, st, hcf, hrun, h1, h2, p1, fun hcf' => ⟨h3 hcf', fun c hc => ?_⟩,
      fun hcf' => ⟨p3 hcf', fun c hc => ?_⟩⟩
    · obtain ⟨q1, q2⟩ := h2 c hc
      obtain ⟨-, r2, -, r4⟩ := hint_of_path context c.context T.VSIZEX _ q1
      rw [hcf'] at q2
      exact ⟨q2, r2 hcf', r4⟩
    · obtain ⟨q1, q2⟩ := h2 c hc
      obtain ⟨-, -, r3, -⟩ := hint_of_path context c.context T.VSIZEX _ q1
      rw [hcf'] at q2
      exact ⟨q2, r3 hcf'⟩

theorem context_hint_witness :
    (0 < avx64.VSIZEX ∧ avx64.VSIZEX ≤ MAX_RAYS_PER_OCTANT avx64 ∧ 70 ≤ 70) ∧
    (((filterSOACoherent avx64 (idleScene false true) positivePackets 10 plainContext
          true).context
        = (if chunkFallbackSOA avx64 (idleScene false true) positivePackets 10 then plainContext
           else plainContext.setInputSOA avx64.VSIZEX) ∧
      (∀ c ∈ (filterSOACoherent avx64 (idleScene false true) positivePackets 10 plainContext
          true).calls,
        c.context = (if chunkFallbackSOA avx64 (idleScene false true) positivePackets 10
           then plainContext else plainContext.setInputSOA avx64.VSIZEX) ∧
        c.isBatched = !chunkFallbackSOA avx64 (idleScene false true) positivePackets 10) ∧
      ((filterSOACoherent avx64 (idleScene false true) positivePackets 10 plainContext
          true).context.inputSOA = some avx64.VSIZEX ↔
        (chunkFallbackSOA avx64 (idleScene false true) positivePackets 10 = false ∨
          plainContext.inputSOA = some avx64.VSIZEX)) ∧
      (chunkFallbackSOA avx64 (idleScene false true) positivePackets 10 = false →
        (0 < 10 →
          (filterSOACoherent avx64 (idleScene false true) positivePackets 10 plainContext
            true).calls ≠ []) ∧
        ∀ c ∈ (filterSOACoherent avx64 (idleScene false true) positivePackets 10 plainContext
            true).calls,
          c.isBatched = true ∧ c.context.inputSOA = some avx64.VSIZEX ∧
          c.context.coherent = plainContext.coherent) ∧
      (chunkFallbackSOA avx64 (idleScene false true) positivePackets 10 = true →
        (filterSOACoherent avx64 (idleScene false true) positivePackets 10 plainContext
          true).context = plainContext ∧
        ∀ c ∈ (filterSOACoherent avx64 (idleScene false true) positivePackets 10 plainContext
            true).calls,
          c.isBatched = false ∧ c.context = plainContext)) ∧
    (∃ chunkFallback st,
      chunkFallbackSOP avx64 (idleScene false true) blankSOP () 70 70 = some chunkFallback ∧
      filterSOPCoherent avx64 (idleScene false true) blankSOP () 70 plainContext true
        (fun _ => junkPacket) 70 = some st ∧
      st.context = (if chunkFallback then plainContext
          else plainContext.setInputSOA avx64.VSIZEX) ∧
      (∀ c ∈ st.calls,
        c.context = (if chunkFallback then plainContext
            else plainContext.setInputSOA avx64.VSIZEX) ∧
        c.isBatched = !chunkFallback) ∧
      (st.context.inputSOA = some avx64.VSIZEX ↔
        (chunkFallback = false ∨ plainContext.inputSOA = some avx64.VSIZEX)) ∧
      (chunkFallback = false →
        (0 < 70 → st.calls ≠ []) ∧
        ∀ c ∈ st.calls, c.isBatched = true ∧ c.context.inputSOA = some avx64.VSIZEX ∧
          c.context.coherent = plainContext.coherent) ∧
      (chunkFallback = true →
        st.context = plainContext ∧
        ∀ c ∈ st.calls, c.isBatched = false ∧ c.context = plainContext))) :=
  ⟨⟨by decide, by decide, by decide⟩,
    context_hint avx64 (idleScene false true) positivePackets 10 blankSOP () 70
      plainContext true (fun _ => junkPacket) 70 (by decide) (by decide) (by decide)⟩

/-! ## `filterSOA`: the fast loop and the slow path -/

theorem fastPathSOA_eq (scene : Scene) (rayData : Nat → RayK) (streams : Nat)
    (context : IntersectContext) (intersect : Bool) :
    fastPathSOA scene rayData streams context intersect
      = chunkPathSOA scene rayData streams context intersect := rfl

theorem slowStepSOA_calls (scene : Scene) (acc : RayPacketAOS) (N : Nat) (intersect : Bool)
    (s : Nat) (context : IntersectContext) (n : Nat) (st : SOAResult × RayK) (i : Nat)
    (h : st.1.context = context ∧ st.1.calls.length = n ∧
      ∀ c ∈ st.1.calls, c.isBatched = false ∧ c.context = context) :
    (slowStepSOA scene acc N intersect s st i).1.context = context ∧
    (slowStepSOA scene acc N intersect s st i).1.calls.length = n + 1 ∧
    ∀ c ∈ (slowStepSOA scene acc N intersect s st i).1.calls,
      c.isBatched = false ∧ c.context = context := by
  obtain ⟨h1, h2, h3⟩ := h
  unfold slowStepSOA
  cases intersect
  · refine ⟨h1, by simp [h2], ?_⟩
    exact forall_mem_snoc _ _ _ h3 ⟨rfl, h1⟩
  · refine ⟨h1, by simp [h2], ?_⟩
    exact forall_mem_snoc _ _ _ h3 ⟨rfl, h1⟩

theorem slowInner_calls (scene : Scene) (acc : RayPacketAOS) (N : Nat) (intersect : Bool)
    (s : Nat) (context : IntersectContext) (n0 : Nat) (st : SOAResult) (u : RayK)
    (h : st.context = context ∧ st.calls.length = n0 ∧
      ∀ c ∈ st.calls, c.isBatched = false ∧ c.context = context) (n : Nat) :
    ((List.range n).foldl (slowStepSOA scene acc N intersect s) (st, u)).1.context = context ∧
    ((List.range n).foldl (slowStepSOA scene acc N intersect s) (st, u)).1.calls.length
      = n0 + n ∧
    ∀ c ∈ ((List.range n).foldl (slowStepSOA scene acc N intersect s) (st, u)).1.calls,
      c.isBatched = false ∧ c.context = context := by
  induction n with
  | zero => exact h
  | succ n ih =>
    rw [List.range_succ, List.foldl_append]
    exact slowStepSOA_calls scene acc N intersect s context (n0 + n) _ n ih

/-- The slow path of `filterSOA` makes `streams * N` single-packet calls, all
with the caller's context. -/
theorem slowPathSOA_calls (scene : Scene) (acc : RayPacketAOS) (rayData : Nat → RayK)
    (N streams : Nat) (context : IntersectContext) (intersect : Bool) (uninit : Nat → RayK) :
    (slowPathSOA scene acc rayData N streams context intersect uninit).context = context ∧
    (slowPathSOA scene acc rayData N streams context intersect uninit).calls.length
      = streams * N ∧
    ∀ c ∈ (slowPathSOA scene acc rayData N streams context intersect uninit).calls,
      c.isBatched = false ∧ c.context = context := by
  unfold slowPathSOA
  induction streams with
  | zero => exact ⟨rfl, by simp, fun c hc => absurd hc (List.not_mem_nil c)⟩
  | succ n ih =>
    rw [List.range_succ, List.foldl_append]
    have := slowInner_calls scene acc N intersect n context (n * N) _ (uninit n) ih N
    rw [Nat.succ_mul]
    exact this

/-! ## C18: the chunk path of `filterSOACoherent` -/

/-- C18: when `filterSOACoherent` falls back to the chunk path it makes no
batched call and exactly `streams` single-packet calls, call number `s` being
made on packet `s` as the caller left it, with the mask `tnear <= tfar` and the
caller's context; the fast loop of `filterSOA` makes the same sequence of
calls, and so does `filterSOA` itself on an aligned stream of `VSIZEX`-wide
packets when it does not dispatch to the coherent variant. -/
theorem filterSOACoherent_chunk_calls (T : Target) (coherentStreamPath : Bool) (scene : Scene)
    (acc : RayPacketAOS) (address : Nat) (rayData : Nat → RayK) (streams stream_offset : Nat)
    (context : IntersectContext) (intersect : Bool) (uninit : Nat → RayK)
    (hpath : chunkFallbackSOA T scene rayData streams = true)
    (haddr : address % (T.VSIZEX * 4) = 0) (hoff : stream_offset % (T.VSIZEX * 4) = 0) :
    (filterSOACoherent T scene rayData streams context intersect).calls.length = streams ∧
    (∀ c ∈ (filterSOACoherent T scene rayData streams context intersect).calls,
      c.isBatched = false) ∧
    (∀ s, s < streams →
      (filterSOACoherent T scene rayData streams context intersect).calls[s]? =
        some (if intersect then
            EngineCall.intersect (vle (rayData s).tnear (rayData s).tfar) (rayData s) context
          else
            EngineCall.occluded (vle (rayData s).tnear (rayData s).tfar) (rayData s) context)) ∧
    (filterSOACoherent T scene rayData streams context intersect).calls
      = (fastPathSOA scene rayData streams context intersect).calls ∧
    ((coherentStreamPath && context.coherent) = false →
      (filterSOACoherent T scene rayData streams context intersect).calls
        = (filterSOA T coherentStreamPath scene acc address rayData T.VSIZEX streams
            stream_offset context intersect uninit).calls) := by
  have hf : filterSOACoherent T scene rayData streams context intersect
      = chunkPathSOA scene rayData streams context intersect := by
    unfold filterSOACoherent; rw [if_pos hpath]
  have hcalls := (chunkPathSOA_spec scene rayData streams context intersect).2.2.2
  rw [hf]
  refine ⟨by rw [hcalls]; simp, ?_, ?_, by rw [fastPathSOA_eq], ?_⟩
  · intro c hc
    exact (chunkPathSOA_context scene rayData streams context intersect c hc).2
  · intro s hs
    rw [hcalls, getElem?_map_range _ _ _ hs]
    rfl
  · intro hflag
    unfold filterSOA
    dsimp only
    rw [if_pos ⟨rfl, haddr, hoff⟩, hflag]
    simp only [Bool.false_eq_true, if_false]
    rw [fastPathSOA_eq]

/-- C18, instance: three packets on a robust scene, which always takes the
chunk path. -/
theorem filterSOACoherent_chunk_calls_witness :
    (chunkFallbackSOA avx64 (idleScene true true) positivePackets 3 = true ∧
      64 % (avx64.VSIZEX * 4) = 0 ∧ 96 % (avx64.VSIZEX * 4) = 0) ∧
    ((filterSOACoherent avx64 (idleScene true true) positivePackets 3 plainContext
        true).calls.length = 3 ∧
    (∀ c ∈ (filterSOACoherent avx64 (idleScene true true) positivePackets 3 plainContext
        true).calls, c.isBatched = false) ∧
    (∀ s, s < 3 →
      (filterSOACoherent avx64 (idleScene true true) positivePackets 3 plainContext
        true).calls[s]? =
        some (if true = true then
            EngineCall.intersect (vle (positivePackets s).tnear (positivePackets s).tfar)
              (positivePackets s) plainContext
          else
            EngineCall.occluded (vle (positivePackets s).tnear (positivePackets s).tfar)
              (positivePackets s) plainContext)) ∧
    (filterSOACoherent avx64 (idleScene true true) positivePackets 3 plainContext true).calls
      = (fastPathSOA (idleScene true true) positivePackets 3 plainContext true).calls ∧
    ((true && plainContext.coherent) = false →
      (filterSOACoherent avx64 (idleScene true true) positivePackets 3 plainContext true).calls
        = (filterSOA avx64 true (idleScene true true) blankPacketAOS 64 positivePackets
            avx64.VSIZEX 3 96 plainContext true (fun _ => junkPacket)).calls)) :=
  ⟨⟨by decide, by decide, by decide⟩,
    filterSOACoherent_chunk_calls avx64 true (idleScene true true) blankPacketAOS 64
      positivePackets 3 96 plainContext true (fun _ => junkPacket)
      (by decide) (by decide) (by decide)⟩

/-! ## C13: the paths of `filterSOA` -/

/-- C13: `filterSOA` takes its direct path exactly when `N == VSIZEX` and
both the address of `rayData` and `stream_offset` are multiples of
`VSIZEX*sizeof(float)`: then, unless it dispatches to the coherent variant, it
makes one single-packet call per stream on the caller's packets, `streams`
calls in all; it dispatches to `filterSOACoherent` only under these
conditions and with the coherent flag set (and the coherent stream path
compiled); in every other case it runs the lane-by-lane fallback, which makes
exactly `streams * N` single-packet calls and no batched call. -/
theorem filterSOA_paths (T : Target) (coherentStreamPath : Bool) (scene : Scene)
    (acc : RayPacketAOS) (address : Nat) (rayData : Nat → RayK) (N streams stream_offset : Nat)
    (context : IntersectContext) (intersect : Bool) (uninit : Nat → RayK) :
    ((N = T.VSIZEX ∧ address % (T.VSIZEX * 4) = 0 ∧ stream_offset % (T.VSIZEX * 4) = 0) →
      ((coherentStreamPath && context.coherent) = false →
        filterSOA T coherentStreamPath scene acc address rayData N streams stream_offset
          context intersect uninit = fastPathSOA scene rayData streams context intersect ∧
        (filterSOA T coherentStreamPath scene acc address rayData N streams stream_offset
          context intersect uninit).calls
            = (List.range streams).map (callSOA rayData context intersect) ∧
        (filterSOA T coherentStreamPath scene acc address rayData N streams stream_offset
          context intersect uninit).calls.length = streams) ∧
      ((coherentStreamPath && context.coherent) = true →
        filterSOA T coherentStreamPath scene acc address rayData N streams stream_offset
          context intersect uninit
            = filterSOACoherent T scene rayData streams context intersect)) ∧
    (¬ (N = T.VSIZEX ∧ address % (T.VSIZEX * 4) = 0 ∧ stream_offset % (T.VSIZEX * 4) = 0) →
      filterSOA T coherentStreamPath scene acc address rayData N streams stream_offset
        context intersect uninit
          = slowPathSOA scene acc rayData N streams context intersect uninit ∧
      (filterSOA T coherentStreamPath scene acc address rayData N streams stream_offset
        context intersect uninit).calls.length = streams * N ∧
      ∀ c ∈ (filterSOA T coherentStreamPath scene acc address rayData N streams stream_offset
        context intersect uninit).calls, c.isBatched = false ∧ c.context = context) := by
  constructor
  · intro hfast
    constructor
    · intro hflag
      have hf : filterSOA T coherentStreamPath scene acc address rayData N streams stream_offset
          context intersect uninit = fastPathSOA scene rayData streams context intersect := by
        unfold filterSOA
        dsimp only
        rw [if_pos hfast, hflag]
        simp only [Bool.false_eq_true, if_false]
      rw [hf, fastPathSOA_eq]
      have hcalls := (chunkPathSOA_spec scene rayData streams context intersect).2.2.2
      exact ⟨rfl, hcalls, by rw [hcalls]; simp⟩
    · intro hflag
      unfold filterSOA
      dsimp only
      rw [if_pos hfast, hflag]
      simp only [if_true]
  · intro hslow
    have hf : filterSOA T coherentStreamPath scene acc address rayData N streams stream_offset
        context intersect uninit
          = slowPathSOA scene acc rayData N streams context intersect uninit := by
      unfold filterSOA
      dsimp only
      rw [if_neg hslow]
    rw [hf]
    exact ⟨rfl, (slowPathSOA_calls scene acc rayData N streams context intersect uninit).2⟩

/-- C13, instances: three aligned streams of 8 rays without and with the
coherent flag, and three streams of 5 rays. -/
theorem filterSOA_paths_witness :
    (filterSOA avx64 true (idleScene false true) blankPacketAOS 64 positivePackets 8 3 96
        plainContext true (fun _ => junkPacket)).calls.length = 3 ∧
    filterSOA avx64 true (idleScene false true) blankPacketAOS 64 positivePackets 8 3 96
        coherentContext true (fun _ => junkPacket)
      = filterSOACoherent avx64 (idleScene false true) positivePackets 3 coherentContext true ∧
    (filterSOA avx64 true (idleScene false true) blankPacketAOS 64 positivePackets 5 3 96
        plainContext true (fun _ => junkPacket)).calls.length = 3 * 5 :=
  ⟨(((filterSOA_paths avx64 true (idleScene false true) blankPacketAOS 64 positivePackets 8 3 96
        plainContext true (fun _ => junkPacket)).1 (by decide)).1 (by decide)).2.2,
    ((filterSOA_paths avx64 true (idleScene false true) blankPacketAOS 64 positivePackets 8 3 96
        coherentContext true (fun _ => junkPacket)).1 (by decide)).2 (by decide),
    ((filterSOA_paths avx64 true (idleScene false true) blankPacketAOS 64 positivePackets 5 3 96
        plainContext true (fun _ => junkPacket)).2 (by decide)).2.1⟩

/-! ## C14: empty streams -/

theorem commonOctant_init (T : Target) : OctantBounds.init.commonOctant T = true := by
  have hlt : float.lt float.neg_inf float.zero = true := by decide
  have h : all T (vlt (vfloatx.broadcast float.neg_inf) (vfloatx.broadcast float.zero))
      = true := by
    rw [all_iff]; intro k _; exact hlt
  unfold OctantBounds.commonOctant OctantBounds.init
  dsimp only
  rw [h]
  rfl

theorem all_active_init (T : Target) : all T OctantBounds.init.all_active = true := by
  rw [all_iff]; intro k _; rfl

/-- C14: for an empty stream the classifiers of `filterSOACoherent` and
`filterSOPCoherent` end with `commonOctant` true (and all lanes active, so the
classification adds nothing to `chunkFallback`), and every filter entry point
returns without a single engine call. -/
theorem empty_stream {σ τ : Type} (T : Target) (coherentStreamPath : Bool) (scene : Scene)
    (acc : RayPacketAOS) (aos : RayStreamAOS τ) (rayAOS : τ) (rs : RayStreamSOP σ)
    (raySOP : σ) (rayAOP : Nat → Ray) (address : Nat) (rayData : Nat → RayK)
    (N streams stream_offset stride : Nat) (context : IntersectContext) (intersect : Bool)
    (uninit : Nat → RayK) (fuel : Nat) (hW : 0 < T.VSIZEX) :
    ((classifySOA rayData 0).commonOctant T = true ∧
      chunkFallbackSOA T scene rayData 0 = (scene.isRobust || !scene.validIsecN) ∧
      (filterSOACoherent T scene rayData 0 context intersect).calls = []) ∧
    (forStride 0 T.VSIZEX (fun i b => some (classifyStepSOP rs raySOP 0 i b)) fuel 0
        OctantBounds.init = some OctantBounds.init ∧
      OctantBounds.init.commonOctant T = true ∧
      chunkFallbackSOP T scene rs raySOP 0 fuel = some (scene.isRobust || !scene.validIsecN) ∧
      ∃ st, filterSOPCoherent T scene rs raySOP 0 context intersect uninit fuel = some st ∧
        st.calls = []) ∧
    (∃ st, filterAOS T scene aos rayAOS 0 stride context intersect fuel = some st ∧
      st.calls = []) ∧
    (∃ st, filterAOP T scene rayAOP 0 context intersect uninit fuel = some st ∧
      st.calls = []) ∧
    ((filterSOA T coherentStreamPath scene acc address rayData N 0 stream_offset context
        intersect uninit).calls = [] ∧
      (filterSOA T coherentStreamPath scene acc address rayData 0 streams stream_offset context
        intersect uninit).calls = []) ∧
    (∃ st, filterSOP T coherentStreamPath scene rs raySOP 0 context intersect uninit fuel
        = some st ∧ st.calls = []) := by
  have hloop : ∀ {α : Type} (step : Nat) (body : Nat → α → Option α) (s : α),
      forStride 0 step body fuel 0 s = some s := by
    intro α step body s
    cases fuel <;> rfl
  have hcfA : chunkFallbackSOA T scene rayData 0 = (scene.isRobust || !scene.validIsecN) := by
    unfold chunkFallbackSOA
    have h0 : classifySOA rayData 0 = OctantBounds.init := rfl
    rw [h0]
    dsimp only
    rw [commonOctant_init, all_active_init]
    cases scene.isRobust <;> cases scene.validIsecN <;> rfl
  have hcfP : chunkFallbackSOP T scene rs raySOP 0 fuel
      = some (scene.isRobust || !scene.validIsecN) := by
    unfold chunkFallbackSOP
    rw [hloop]
    simp only [Option.map_some', commonOctant_init, all_active_init]
    cases scene.isRobust <;> cases scene.validIsecN <;> rfl
  have hSOACoh : (filterSOACoherent T scene rayData 0 context intersect).calls = [] := by
    unfold filterSOACoherent
    split <;> rfl
  have hSOPCoh : ∃ st, filterSOPCoherent T scene rs raySOP 0 context intersect uninit fuel
      = some st ∧ st.calls = [] := by
    unfold filterSOPCoherent
    rw [hcfP]
    show ∃ st, (if (scene.isRobust || !scene.validIsecN) = true then _ else _) = some st ∧ _
    split
    · unfold chunkPathSOP; rw [hloop]; exact ⟨_, rfl, rfl⟩
    · unfold coherentPathSOP; rw [hloop]; exact ⟨_, rfl, rfl⟩
  refine ⟨⟨commonOctant_init T, hcfA, hSOACoh⟩,
    ⟨hloop _ _ _, commonOctant_init T, hcfP, hSOPCoh⟩, ?_, ?_, ⟨?_, ?_⟩, ?_⟩
  · unfold filterAOS
    cases fuel <;> exact ⟨_, rfl, rfl⟩
  · unfold filterAOP
    cases fuel <;> exact ⟨_, rfl, rfl⟩
  · unfold filterSOA
    dsimp only
    split
    · split
      · exact hSOACoh
      · rfl
    · rfl
  · have hslow : ¬ (0 = T.VSIZEX ∧ address % (T.VSIZEX * 4) = 0 ∧
        stream_offset % (T.VSIZEX * 4) = 0) := by
      intro h; omega
    unfold filterSOA
    dsimp only
    rw [if_neg hslow]
    have hlen := (slowPathSOA_calls scene acc rayData 0 streams context intersect uninit).2.1
    rw [Nat.mul_zero] at hlen
    exact List.length_eq_zero.1 hlen
  · unfold filterSOP
    split
    · exact hSOPCoh
    · rw [hloop]; exact ⟨_, rfl, rfl⟩

/-- C14, instance: the AVX target. -/
theorem empty_stream_witness :
    0 < avx64.VSIZEX ∧
    (((classifySOA positivePackets 0).commonOctant avx64 = true ∧
      chunkFallbackSOA avx64 (idleScene false true) positivePackets 0
        = ((idleScene false true).isRobust || !(idleScene false true).validIsecN) ∧
      (filterSOACoherent avx64 (idleScene false true) positivePackets 0 coherentContext
        true).calls = []) ∧
    (forStride 0 avx64.VSIZEX (fun i b => some (classifyStepSOP blankSOP () 0 i b)) 0 0
        OctantBounds.init = some OctantBounds.init ∧
      OctantBounds.init.commonOctant avx64 = true ∧
      chunkFallbackSOP avx64 (idleScene false true) blankSOP () 0 0
        = some ((idleScene false true).isRobust || !(idleScene false true).validIsecN) ∧
      ∃ st, filterSOPCoherent avx64 (idleScene false true) blankSOP () 0 coherentContext true
          (fun _ => junkPacket) 0 = some st ∧ st.calls = []) ∧
    (∃ st, filterAOS avx64 (idleScene false true) blankAOS () 0 96 coherentContext true 0
        = some st ∧ st.calls = []) ∧
    (∃ st, filterAOP avx64 (idleScene false true) threeRays 0 coherentContext true
        (fun _ => junkPacket) 0 = some st ∧ st.calls = []) ∧
    ((filterSOA avx64 true (idleScene false true) blankPacketAOS 64 positivePackets 8 0 96
        coherentContext true (fun _ => junkPacket)).calls = [] ∧
      (filterSOA avx64 true (idleScene false true) blankPacketAOS 64 positivePackets 0 3 96
        coherentContext true (fun _ => junkPacket)).calls = []) ∧
    (∃ st, filterSOP avx64 true (idleScene false true) blankSOP () 0 coherentContext true
        (fun _ => junkPacket) 0 = some st ∧ st.calls = [])) :=
  ⟨by decide,
    empty_stream avx64 true (idleScene false true) blankPacketAOS blankAOS () blankSOP ()
      threeRays 64 positivePackets 8 3 96 96 coherentContext true (fun _ => junkPacket) 0
      (by decide)⟩

/-! ## C16: a stream of 64 coherent rays -/

theorem float.ge_of_gt {a z : float} (h : float.gt a z = true) : float.ge a z = true := by
  unfold float.gt at h
  unfold float.ge
  simp only [Bool.and_eq_true, Bool.not_eq_true', decide_eq_true_eq] at h ⊢
  exact ⟨h.1, by omega⟩

theorem float.ge_min_of_ge {a b z : float} (ha : float.ge a z = true)
    (hb : float.ge b z = true) : float.ge (float.min a b) z = true := by
  unfold float.min
  split
  · exact ha
  · exact hb

/-- On a stream of active rays with positive directions the classifier of
`filterSOPCoherent` keeps every minimum non-negative and every lane active. -/
theorem classifyFold_positive {σ : Type} (T : Target) (rs : RayStreamSOP σ) (rayN : σ)
    (N : Nat) (hpos : positiveActiveSOP T rs rayN N) (n : Nat)
    (hn : ∀ q, q < n → q * T.VSIZEX < N) :
    ∀ k, k < T.VSIZEX →
      float.ge ((strideFold (classifyStepSOP rs rayN N) T.VSIZEX 0 n
        OctantBounds.init).min_x k) float.zero = true ∧
      float.ge ((strideFold (classifyStepSOP rs rayN N) T.VSIZEX 0 n
        OctantBounds.init).min_y k) float.zero = true ∧
      float.ge ((strideFold (classifyStepSOP rs rayN N) T.VSIZEX 0 n
        OctantBounds.init).min_z k) float.zero = true ∧
      (strideFold (classifyStepSOP rs rayN N) T.VSIZEX 0 n
        OctantBounds.init).all_active k = true := by
  induction n with
  | zero =>
    have hinf : float.ge float.pos_inf float.zero = true := by decide
    intro k _
    exact ⟨hinf, hinf, hinf, rfl⟩
  | succ n ih =>
    intro k hk
    obtain ⟨h1, h2, h3, h4⟩ := ih (fun q hq => hn q (Nat.lt_succ_of_lt hq)) k hk
    obtain ⟨p1, p2, p3, p4⟩ := hpos n (hn n (Nat.lt_succ_self n)) k hk
    rw [strideFold_succ, Nat.zero_add]
    generalize strideFold (classifyStepSOP rs rayN N) T.VSIZEX 0 n OctantBounds.init = b
      at h1 h2 h3 h4
    refine ⟨float.ge_min_of_ge h1 (float.ge_of_gt p2), float.ge_min_of_ge h2 (float.ge_of_gt p3),
      float.ge_min_of_ge h3 (float.ge_of_gt p4), ?_⟩
    show vselect _ (vand b.all_active _) b.all_active k = true
    unfold vselect vand
    rw [h4, p1]
    simp

theorem chunkFallbackSOP_positive {σ : Type} (T : Target) (scene : Scene)
    (rs : RayStreamSOP σ) (rayN : σ) (N fuel : Nat) (hW : 0 < T.VSIZEX)
    (hrobust : scene.isRobust = false) (hbatched : scene.validIsecN = true)
    (hpos : positiveActiveSOP T rs rayN N) (hfuel : N ≤ fuel) :
    chunkFallbackSOP T scene rs rayN N fuel = some false := by
  unfold chunkFallbackSOP
  dsimp only
  rw [hrobust, hbatched, if_pos (by rfl),
    forStride_eq N T.VSIZEX _ (classifyStepSOP rs rayN N) hW (fun _ _ _ => rfl) fuel 0 _
      (by omega)]
  have h := classifyFold_positive T rs rayN N hpos ((N - 0 + T.VSIZEX - 1) / T.VSIZEX)
    (fun q hq => lt_of_lt_ceil q T.VSIZEX N hW (by rw [Nat.sub_zero] at hq; exact hq))
  generalize strideFold (classifyStepSOP rs rayN N) T.VSIZEX 0
    ((N - 0 + T.VSIZEX - 1) / T.VSIZEX) OctantBounds.init = b at h
  have a1 : all T (vge b.min_x (vfloatx.broadcast float.zero)) = true :=
    (all_iff T _).2 (fun k hk => (h k hk).1)
  have a2 : all T (vge b.min_y (vfloatx.broadcast float.zero)) = true :=
    (all_iff T _).2 (fun k hk => (h k hk).2.1)
  have a3 : all T (vge b.min_z (vfloatx.broadcast float.zero)) = true :=
    (all_iff T _).2 (fun k hk => (h k hk).2.2.1)
  have a4 : all T b.all_active = true := (all_iff T _).2 (fun k hk => (h k hk).2.2.2)
  simp [OctantBounds.commonOctant, a1, a2, a3, a4]

/-- The coherent-batch path of `filterSOPCoherent` on a stream of active rays
with positive directions: `ceil(N / (MAX_COHERENT_RAY_PACKETS * VSIZEX))`
batched calls and no other call. -/
theorem filterSOPCoherent_positive {σ : Type} (T : Target) (scene : Scene)
    (rs : RayStreamSOP σ) (rayN : σ) (N : Nat) (context : IntersectContext) (intersect : Bool)
    (uninit : Nat → RayK) (fuel : Nat) (hW : 0 < T.VSIZEX)
    (hM : 0 < MAX_COHERENT_RAY_PACKETS T)
    (hrobust : scene.isRobust = false) (hbatched : scene.validIsecN = true)
    (hpos : positiveActiveSOP T rs rayN N) (hfuel : N ≤ fuel) :
    chunkFallbackSOP T scene rs rayN N fuel = some false ∧
    ∃ st, filterSOPCoherent T scene rs rayN N context intersect uninit fuel = some st ∧
      (∀ c ∈ st.calls, c.isBatched = true) ∧
      st.calls.length = (N + MAX_COHERENT_RAY_PACKETS T * T.VSIZEX - 1)
        / (MAX_COHERENT_RAY_PACKETS T * T.VSIZEX) := by
  have hcf := chunkFallbackSOP_positive T scene rs rayN N fuel hW hrobust hbatched hpos hfuel
  obtain ⟨st, hrun, -, -, hlen, -, -, hall⟩ :=
    coherentPathSOP_spec T scene rs rayN N context intersect uninit fuel hW hM hfuel
  refine ⟨hcf, st, ?_, fun c hc => (hall c hc).1, hlen⟩
  unfold filterSOPCoherent
  rw [hcf]
  exact hrun

theorem positiveActiveSOP_blank (T : Target) (N : Nat) : positiveActiveSOP T blankSOP () N := by
  intro q _ k _
  have h1 : float.le float.zero float.one = true := by decide
  have h2 : float.gt float.one float.zero = true := by decide
  have hv : vle junkPacket.tnear junkPacket.tfar k = true := h1
  have hx : float.gt (junkPacket.dir.x k) float.zero = true := h2
  have hy : float.gt (junkPacket.dir.y k) float.zero = true := h2
  have hz : float.gt (junkPacket.dir.z k) float.zero = true := h2
  exact ⟨hv, hx, hy, hz⟩

/-- C16, as stated: on the 64-bit AVX target (capacity 8*8 = 64 lanes) a stream
of 64 active rays with positive directions takes the coherent-batch path and
makes one batched call, not two. -/
theorem coherent_dispatch_64_counterexample :
    chunkFallbackSOP avx64 (idleScene false true) blankSOP () 64 64 = some false ∧
    ∃ st, filterSOPCoherent avx64 (idleScene false true) blankSOP () 64 plainContext true
        (fun _ => junkPacket) 64 = some st ∧
      (∀ c ∈ st.calls, c.isBatched = true) ∧ st.calls.length = 1 ∧ st.calls.length ≠ 2 := by
  obtain ⟨h1, st, h2, h3, h4⟩ := filterSOPCoherent_positive avx64 (idleScene false true)
    blankSOP () 64 plainContext true (fun _ => junkPacket) 64 (by decide) (by decide) rfl rfl
    (positiveActiveSOP_blank avx64 64) (by decide)
  have h5 : (64 + MAX_COHERENT_RAY_PACKETS avx64 * avx64.VSIZEX - 1)
      / (MAX_COHERENT_RAY_PACKETS avx64 * avx64.VSIZEX) = 1 := by decide
  rw [h5] at h4
  exact ⟨h1, st, h2, h3, h4, by rw [h4]; decide⟩

/-- C16, amended: for packet width 8, a stream of `N = 64` rays that are all
active with positive x, y and z direction components, on a non-robust engine
with batched support, takes the coherent-batch path of `filterSOPCoherent` and
makes only batched calls, `64 / MAX_RAYS_PER_OCTANT` of them: one where
`sizeof(size_t)` is 8 (a capacity of 64 lanes), two where it is 4 (32 lanes). -/
theorem coherent_dispatch_64 {σ : Type} (T : Target) (scene : Scene)
    (rs : RayStreamSOP σ) (rayN : σ) (context : IntersectContext) (intersect : Bool)
    (uninit : Nat → RayK) (fuel : Nat) (hW : T.VSIZEX = 8)
    (hsize : T.sizeof_size_t = 4 ∨ T.sizeof_size_t = 8)
    (hrobust : scene.isRobust = false) (hbatched : scene.validIsecN = true)
    (hpos : positiveActiveSOP T rs rayN 64) (hfuel : 64 ≤ fuel) :
    chunkFallbackSOP T scene rs rayN 64 fuel = some false ∧
    ∃ st, filterSOPCoherent T scene rs rayN 64 context intersect uninit fuel = some st ∧
      (∀ c ∈ st.calls, c.isBatched = true) ∧
      st.calls.length = 64 / MAX_RAYS_PER_OCTANT T ∧
      (T.sizeof_size_t = 8 → st.calls.length = 1) ∧
      (T.sizeof_size_t = 4 → st.calls.length = 2) := by
  have hM : MAX_COHERENT_RAY_PACKETS T = T.sizeof_size_t := by
    unfold MAX_COHERENT_RAY_PACKETS MAX_RAYS_PER_OCTANT
    rw [hW]; omega
  obtain ⟨h1, st, h2, h3, h4⟩ := filterSOPCoherent_positive T scene rs rayN 64 context
    intersect uninit fuel (by omega) (by rw [hM]; omega) hrobust hbatched hpos hfuel
  rw [hM, hW] at h4
  refine ⟨h1, st, h2, h3, ?_, ?_, ?_⟩
  · unfold MAX_RAYS_PER_OCTANT
    rw [h4]
    rcases hsize with h | h <;> rw [h]
  · intro h; rw [h4, h]
  · intro h; rw [h4, h]

/-- C16, instances: the 32-bit AVX target makes two batched calls. -/
theorem coherent_dispatch_64_witness :
    (avx32.VSIZEX = 8 ∧ (avx32.sizeof_size_t = 4 ∨ avx32.sizeof_size_t = 8) ∧
      (idleScene false true).isRobust = false ∧ (idleScene false true).validIsecN = true ∧
      positiveActiveSOP avx32 blankSOP () 64 ∧ 64 ≤ 64) ∧
    (chunkFallbackSOP avx32 (idleScene false true) blankSOP () 64 64 = some false ∧
    ∃ st, filterSOPCoherent avx32 (idleScene false true) blankSOP () 64 plainContext true
        (fun _ => junkPacket) 64 = some st ∧
      (∀ c ∈ st.calls, c.isBatched = true) ∧
      st.calls.length = 64 / MAX_RAYS_PER_OCTANT avx32 ∧
      (avx32.sizeof_size_t = 8 → st.calls.length = 1) ∧
      (avx32.sizeof_size_t = 4 → st.calls.length = 2)) :=
  ⟨⟨by decide, by decide, by decide, by decide, positiveActiveSOP_blank avx32 64, by decide⟩,
    coherent_dispatch_64 avx32 (idleScene false true) blankSOP () plainContext true
      (fun _ => junkPacket) 64 (by decide) (by decide) (by decide) (by decide)
      (positiveActiveSOP_blank avx32 64) (by decide)⟩

/-! ## Iteration counts, and the wrapping loop counter of `filterAOS` -/

theorem strideFold_count {σ : Type} (len : σ → Nat) (f : Nat → σ → σ) (step start n : Nat)
    (s : σ) (h : ∀ x s, len (f x s) = len s + 1) :
    len (strideFold f step start n s) = len s + n := by
  induction n with
  | zero => rfl
  | succ n ih => rw [strideFold_succ, h, ih]; omega

theorem foldl_range_count {σ : Type} (len : σ → Nat) (f : σ → Nat → σ) (n : Nat) (s : σ)
    (h : ∀ s x, len (f s x) = len s + 1) :
    len ((List.range n).foldl f s) = len s + n := by
  induction n with
  | zero => rfl
  | succ n ih => rw [List.range_succ, List.foldl_append, List.foldl_cons, List.foldl_nil, h, ih]; omega

/-- While the counter cannot pass `wrap` the wrapping loop is the plain one. -/
theorem forStrideSize_eq_forStride {σ : Type} (wrap stop step : Nat)
    (body : Nat → σ → Option σ) (h : stop + step ≤ wrap) :
    ∀ (fuel x : Nat) (s : σ),
      forStrideSize wrap stop step body fuel x s = forStride stop step body fuel x s := by
  intro fuel
  induction fuel with
  | zero => intro x s; rfl
  | succ fuel ih =>
    intro x s
    unfold forStrideSize forStride
    by_cases hx : x < stop
    · rw [if_pos hx, if_pos hx]
      have e : (x + step) % wrap = x + step := Nat.mod_eq_of_lt (by omega)
      rw [e]
      congr 1
      funext s1
      exact ih (x + step) s1
    · rw [if_neg hx, if_neg hx]

/-- With a step of 8, a `size_t` of 32 or 64 bits and a bound above
`wrap - 8`, the counter wraps before it reaches the bound: no number of
iterations ends the loop. -/
theorem forStrideSize_wraps {σ : Type} (wrap stop : Nat) (f : Nat → σ → σ)
    (hwrap : wrap = 4294967296 ∨ wrap = 18446744073709551616) (hstop : wrap - 8 < stop) :
    ∀ (fuel x : Nat) (s : σ), x % 8 = 0 → x < wrap →
      forStrideSize wrap stop 8 (fun i s => some (f i s)) fuel x s = none := by
  intro fuel
  induction fuel with
  | zero =>
    intro x s h8 hx
    unfold forStrideSize
    rw [if_pos (by rcases hwrap with h | h <;> subst h <;> omega)]
  | succ fuel ih =>
    intro x s h8 hx
    unfold forStrideSize
    rw [if_pos (by rcases hwrap with h | h <;> subst h <;> omega)]
    exact ih ((x + 8) % wrap) (f x s) (by rcases hwrap with h | h <;> subst h <;> omega)
      (by rcases hwrap with h | h <;> subst h <;> omega)

/-- The number of `size_t` values is `2^32` or `2^64`. -/
theorem Target.sizeModulus_cases (T : Target) :
    T.sizeModulus = 4294967296 ∨ T.sizeModulus = 18446744073709551616 := by
  unfold Target.sizeModulus
  split
  · exact Or.inl rfl
  · exact Or.inr rfl

theorem chunkStepAOS_logs {σ : Type} (scene : Scene) (rs : RayStreamAOS σ)
    (context : IntersectContext) (intersect : Bool) (N stride i : Nat) (st : AOSState σ) :
    (chunkStepAOS scene rs context intersect N stride i st).gathers.length
      = st.gathers.length + 1 ∧
    (chunkStepAOS scene rs context intersect N stride i st).calls.length
      = st.calls.length + 1 ∧
    (chunkStepAOS scene rs context intersect N stride i st).scatters.length
      = st.scatters.length + 1 := by
  unfold chunkStepAOS
  cases intersect <;> simp

theorem packetStepSOP_logs {σ : Type} (scene : Scene) (rs : RayStreamSOP σ)
    (context : IntersectContext) (intersect : Bool) (N i : Nat) (st : SOPState σ) :
    (packetStepSOP scene rs context intersect N i st).gathers.length
      = st.gathers.length + 1 ∧
    (packetStepSOP scene rs context intersect N i st).calls.length
      = st.calls.length + 1 ∧
    (packetStepSOP scene rs context intersect N i st).scatters.length
      = st.scatters.length + 1 := by
  unfold packetStepSOP
  cases intersect <;> simp

theorem chunkStepSOP_logs {σ : Type} (scene : Scene) (rs : RayStreamSOP σ)
    (context : IntersectContext) (intersect : Bool) (N i : Nat) (st : SOPState σ) :
    (chunkStepSOP scene rs context intersect N i st).gathers.length
      = st.gathers.length + 1 ∧
    (chunkStepSOP scene rs context intersect N i st).calls.length
      = st.calls.length + 1 ∧
    (chunkStepSOP scene rs context intersect N i st).scatters.length
      = st.scatters.length + 1 := by
  unfold chunkStepSOP
  cases intersect <;> simp

/-- Below `2^31` rays the counter of `filterAOS` cannot wrap, on either width
of `size_t`. -/
theorem sizeModulus_small (T : Target) (N : Nat) (hN : N < 2147483648)
    (hW : T.VSIZEX ≤ 2147483648) : N + T.VSIZEX ≤ T.sizeModulus := by
  rcases T.sizeModulus_cases with h | h <;> rw [h] <;> omega

/-- Without a wrap of the counter `filterAOS` is a fold over its
`ceil(N/VSIZEX)` packets. -/
theorem filterAOS_eq {σ : Type} (T : Target) (scene : Scene) (rs : RayStreamAOS σ) (rayN : σ)
    (N stride : Nat) (context : IntersectContext) (intersect : Bool) (fuel : Nat)
    (hW : 0 < T.VSIZEX) (hN : N + T.VSIZEX ≤ T.sizeModulus) (hfuel : N ≤ fuel) :
    filterAOS T scene rs rayN N stride context intersect fuel
      = some (strideFold (chunkStepAOS scene rs context intersect N stride) T.VSIZEX 0
          ((N + T.VSIZEX - 1) / T.VSIZEX) ⟨rayN, [], [], []⟩) := by
  unfold filterAOS
  rw [forStrideSize_eq_forStride T.sizeModulus N T.VSIZEX _ hN,
    forStride_eq N T.VSIZEX _ (chunkStepAOS scene rs context intersect N stride) hW
      (fun _ _ _ => rfl) fuel 0 _ (by omega), Nat.sub_zero]

/-- The packet loop of `filterSOP` (no dispatch to the coherent variant) is a
fold over its `ceil(N/VSIZEX)` packets. -/
theorem filterSOP_eq {σ : Type} (T : Target) (coherentStreamPath : Bool) (scene : Scene)
    (rs : RayStreamSOP σ) (rayN : σ) (N : Nat) (context : IntersectContext) (intersect : Bool)
    (uninit : Nat → RayK) (fuel : Nat) (hW : 0 < T.VSIZEX) (hfuel : N ≤ fuel)
    (hflag : (coherentStreamPath && context.coherent) = false) :
    filterSOP T coherentStreamPath scene rs rayN N context intersect uninit fuel
      = some (strideFold (packetStepSOP scene rs context intersect N) T.VSIZEX 0
          ((N + T.VSIZEX - 1) / T.VSIZEX) ⟨rayN, uninit, fun _ => 0, [], [], [], context⟩) := by
  unfold filterSOP
  rw [hflag]
  simp only [Bool.false_eq_true, if_false]
  rw [forStride_eq N T.VSIZEX _ (packetStepSOP scene rs context intersect N) hW
      (fun _ _ _ => rfl) fuel 0 _ (by omega), Nat.sub_zero]

/-- Both paths of `filterSOPCoherent` return and convert each of the
`ceil(N/VSIZEX)` packets once in each direction. -/
theorem filterSOPCoherent_returns {σ : Type} (T : Target) (scene : Scene)
    (rs : RayStreamSOP σ) (rayN : σ) (N : Nat) (context : IntersectContext) (intersect : Bool)
    (uninit : Nat → RayK) (fuel : Nat) (hW : 0 < T.VSIZEX)
    (hM : 0 < MAX_COHERENT_RAY_PACKETS T) (hfuel : N ≤ fuel) :
    ∃ chunkFallback st, chunkFallbackSOP T scene rs rayN N fuel = some chunkFallback ∧
      filterSOPCoherent T scene rs rayN N context intersect uninit fuel = some st ∧
      st.gathers.length = (N + T.VSIZEX - 1) / T.VSIZEX ∧
      st.scatters.length = (N + T.VSIZEX - 1) / T.VSIZEX ∧
      (chunkFallback = true → st.calls.length = (N + T.VSIZEX - 1) / T.VSIZEX ∧
        ∀ c ∈ st.calls, c.isBatched = false) ∧
      (chunkFallback = false →
        st.calls.length = (N + MAX_COHERENT_RAY_PACKETS T * T.VSIZEX - 1)
          / (MAX_COHERENT_RAY_PACKETS T * T.VSIZEX) ∧
        ∀ c ∈ st.calls, c.isBatched = true) := by
  obtain ⟨cf, hcf⟩ := chunkFallbackSOP_returns T scene rs rayN N fuel hW hfuel
  cases cf
  · obtain ⟨st, hrun, hg, hs, hlen, -, -, hall⟩ :=
      coherentPathSOP_spec T scene rs rayN N context intersect uninit fuel hW hM hfuel
    refine ⟨false, st, hcf, ?_, by rw [hg]; simp, by rw [hs]; simp,
      fun h => absurd h (by decide), fun _ => ⟨hlen, fun c hc => (hall c hc).1⟩⟩
    unfold filterSOPCoherent
    rw [hcf]
    exact hrun
  · have hrun := chunkPathSOP_eq T scene rs rayN N context intersect uninit fuel hW hfuel
    have hcount := fun (len : SOPState σ → Nat) h =>
      strideFold_count len (chunkStepSOP scene rs context intersect N) T.VSIZEX 0
        ((N + T.VSIZEX - 1) / T.VSIZEX) ⟨rayN, uninit, fun _ => 0, [], [], [], context⟩ h
    have hg := hcount (fun st => st.gathers.length)
      (fun x s => (chunkStepSOP_logs scene rs context intersect N x s).1)
    have hc := hcount (fun st => st.calls.length)
      (fun x s => (chunkStepSOP_logs scene rs context intersect N x s).2.1)
    have hs := hcount (fun st => st.scatters.length)
      (fun x s => (chunkStepSOP_logs scene rs context intersect N x s).2.2)
    have hnb := (chunkFold_logs T scene rs context intersect N
      ((N + T.VSIZEX - 1) / T.VSIZEX) ⟨rayN, uninit, fun _ => 0, [], [], [], context⟩
      (fun g h => absurd h (List.not_mem_nil g)) (fun g h => absurd h (List.not_mem_nil g))
      (fun c h => absurd h (List.not_mem_nil c))).2.2
    simp only [List.length_nil, Nat.zero_add] at hg hc hs
    refine ⟨true, _, hcf, ?_, hg, hs, fun _ => ⟨hc, hnb⟩, fun h => absurd h (by decide)⟩
    unfold filterSOPCoherent
    rw [hcf]
    exact hrun

theorem coherentPathSOA_iterations (T : Target) (scene : Scene) (rayData : Nat → RayK)
    (streams : Nat) (context : IntersectContext) (intersect : Bool) :
    (coherentPathSOA T scene rayData streams context intersect).writes.length = streams := by
  have h := foldl_range_count (fun st : BatchState => st.writes.length)
    (coherentStepSOA T scene (context.setInputSOA T.VSIZEX) intersect) streams
    ⟨rayData, fun _ => 0, 0, [], []⟩
    (by
      intro st x
      unfold coherentStepSOA
      dsimp only
      split
      · rw [traceStream_writes]; simp
      · simp)
  unfold coherentPathSOA
  dsimp only
  split
  · rw [traceStream_writes]; simpa [coherentLoopSOA] using h
  · simpa [coherentLoopSOA] using h

/-! ## C19: termination -/

/-- C19, as stated: `N = 2^64 - 1` is representable in a `size_t` of 8 bytes
and `N = 2^32 - 1` in one of 4 bytes, and with a stride of 0 a stream of that
many rays lies in memory; on it the counter of `filterAOS` (step 8) wraps from
`N - 7` to 0 without ever reaching `N`, so no number of iterations makes the
filter return. -/
theorem filterAOS_wrap_counterexample :
    (¬ ∃ fuel st, filterAOS avx64 (idleScene false true) blankAOS () 18446744073709551615 0
        plainContext true fuel = some st) ∧
    (¬ ∃ fuel st, filterAOS avx32 (idleScene false true) blankAOS () 4294967295 0
        plainContext true fuel = some st) := by
  constructor
  · rintro ⟨fuel, st, h⟩
    have hnone := forStrideSize_wraps avx64.sizeModulus 18446744073709551615
      (chunkStepAOS (idleScene false true) blankAOS plainContext true 18446744073709551615 0)
      (Or.inr rfl) (by decide) fuel 0 ⟨(), [], [], []⟩ (by decide) (by decide)
    have : some st = none := h.symm.trans hnone
    exact Option.noConfusion this
  · rintro ⟨fuel, st, h⟩
    have hnone := forStrideSize_wraps avx32.sizeModulus 4294967295
      (chunkStepAOS (idleScene false true) blankAOS plainContext true 4294967295 0)
      (Or.inl rfl) (by decide) fuel 0 ⟨(), [], [], []⟩ (by decide) (by decide)
    have : some st = none := h.symm.trans hnone
    exact Option.noConfusion this

/-- C19, amended: for every ray count `N` with `N + MAX_RAYS_PER_OCTANT` not
above the number of `size_t` values of the target (`2^32` or `2^64`), every
packet count `streams`, and an
engine whose calls return, each of `filterAOS`, `filterAOP`, `filterSOP`,
`filterSOPCoherent`, `filterSOA` and `filterSOACoherent` returns; the strided
filters convert each of the `ceil(N/VSIZEX)` packets once, `filterAOP` makes
`ceil(N/VSIZEX)` calls, and the SOA filters run one iteration per packet
(`streams` calls on the chunk path and on the fast path, `streams` pointer
writes on the coherent-batch path, `streams * N` calls on the slow path). -/
theorem dispatch_terminates {σ τ : Type} (T : Target) (coherentStreamPath : Bool)
    (scene : Scene) (acc : RayPacketAOS) (aos : RayStreamAOS τ) (rayAOS : τ)
    (rs : RayStreamSOP σ) (raySOP : σ) (rayAOP : Nat → Ray) (address : Nat)
    (rayData : Nat → RayK) (N streams stream_offset stride : Nat) (context : IntersectContext)
    (intersect : Bool) (uninit : Nat → RayK) (fuel : Nat)
    (hW : 0 < T.VSIZEX) (hcap : T.VSIZEX ≤ MAX_RAYS_PER_OCTANT T)
    (hN : N + MAX_RAYS_PER_OCTANT T ≤ T.sizeModulus) (hfuel : N ≤ fuel) :
    (∃ st, filterAOS T scene aos rayAOS N stride context intersect fuel = some st ∧
      st.gathers.length = (N + T.VSIZEX - 1) / T.VSIZEX ∧
      st.calls.length = (N + T.VSIZEX - 1) / T.VSIZEX ∧
      st.scatters.length = (N + T.VSIZEX - 1) / T.VSIZEX) ∧
    (∃ st, filterAOP T scene rayAOP N context intersect uninit fuel = some st ∧
      st.calls.length = (N + T.VSIZEX - 1) / T.VSIZEX) ∧
    (∃ st, filterSOP T coherentStreamPath scene rs raySOP N context intersect uninit fuel
        = some st ∧
      st.gathers.length = (N + T.VSIZEX - 1) / T.VSIZEX ∧
      st.scatters.length = (N + T.VSIZEX - 1) / T.VSIZEX) ∧
    (∃ st, filterSOPCoherent T scene rs raySOP N context intersect uninit fuel = some st ∧
      st.gathers.length = (N + T.VSIZEX - 1) / T.VSIZEX ∧
      st.scatters.length = (N + T.VSIZEX - 1) / T.VSIZEX) ∧
    ((filterSOACoherent T scene rayData streams context intersect).calls.length
        = (if chunkFallbackSOA T scene rayData streams then streams
           else (streams + MAX_COHERENT_RAY_PACKETS T - 1) / MAX_COHERENT_RAY_PACKETS T) ∧
      (filterSOACoherent T scene rayData streams context intersect).writes.length
        = (if chunkFallbackSOA T scene rayData streams then 0 else streams)) ∧
    (filterSOA T coherentStreamPath scene acc address rayData N streams stream_offset context
        intersect uninit).calls.length
      = (if N = T.VSIZEX ∧ address % (T.VSIZEX * 4) = 0 ∧ stream_offset % (T.VSIZEX * 4) = 0 then
          if coherentStreamPath && context.coherent then
            (filterSOACoherent T scene rayData streams context intersect).calls.length
          else streams
        else streams * N) := by
  have hM := MAX_COHERENT_RAY_PACKETS_pos T hW hcap
  have hSOPCoh : ∃ st, filterSOPCoherent T scene rs raySOP N context intersect uninit fuel
      = some st ∧ st.gathers.length = (N + T.VSIZEX - 1) / T.VSIZEX ∧
      st.scatters.length = (N + T.VSIZEX - 1) / T.VSIZEX := by
    obtain ⟨cf, st, -, hrun, hg, hs, -⟩ := filterSOPCoherent_returns T scene rs raySOP N
      context intersect uninit fuel hW hM hfuel
    exact ⟨st, hrun, hg, hs⟩
  have hchunk := (chunkPathSOA_spec scene rayData streams context intersect).2.2
  refine ⟨?_, ?_, ?_, hSOPCoh, ⟨?_, ?_⟩, ?_⟩
  · refine ⟨_, filterAOS_eq T scene aos rayAOS N stride context intersect fuel hW (by omega)
      hfuel, ?_, ?_, ?_⟩
    · rw [strideFold_count (fun st : AOSState τ => st.gathers.length) _ _ _ _ _
        (fun x s => (chunkStepAOS_logs scene aos context intersect N stride x s).1)]
      simp
    · rw [strideFold_count (fun st : AOSState τ => st.calls.length) _ _ _ _ _
        (fun x s => (chunkStepAOS_logs scene aos context intersect N stride x s).2.1)]
      simp
    · rw [strideFold_count (fun st : AOSState τ => st.scatters.length) _ _ _ _ _
        (fun x s => (chunkStepAOS_logs scene aos context intersect N stride x s).2.2)]
      simp
  · obtain ⟨st, hrun, -, -, hcalls, -⟩ :=
      filterAOP_spec T scene rayAOP N context intersect uninit fuel hW hfuel
    exact ⟨st, hrun, by rw [hcalls]; simp⟩
  · cases hflag : (coherentStreamPath && context.coherent)
    · refine ⟨_, filterSOP_eq T coherentStreamPath scene rs raySOP N context intersect uninit
        fuel hW hfuel hflag, ?_, ?_⟩
      · rw [strideFold_count (fun st : SOPState σ => st.gathers.length) _ _ _ _ _
          (fun x s => (packetStepSOP_logs scene rs context intersect N x s).1)]
        simp
      · rw [strideFold_count (fun st : SOPState σ => st.scatters.length) _ _ _ _ _
          (fun x s => (packetStepSOP_logs scene rs context intersect N x s).2.2)]
        simp
    · unfold filterSOP
      rw [hflag]
      simp only [if_true]
      exact hSOPCoh
  · unfold filterSOACoherent
    split
    · rw [hchunk.2]; simp
    · exact (coherentPathSOA_calls T scene rayData streams context intersect hM).1
  · unfold filterSOACoherent
    split
    · rw [hchunk.1]; rfl
    · exact coherentPathSOA_iterations T scene rayData streams context intersect
  · unfold filterSOA
    dsimp only
    split
    · split
      · rfl
      · rw [fastPathSOA_eq, hchunk.2]; simp
    · exact (slowPathSOA_calls scene acc rayData N streams context intersect uninit).2.1

/-- C19, instance: 70 rays, respectively 10 packets, on the AVX target. -/
theorem dispatch_terminates_witness :
    (0 < avx64.VSIZEX ∧ avx64.VSIZEX ≤ MAX_RAYS_PER_OCTANT avx64 ∧
      70 + MAX_RAYS_PER_OCTANT avx64 ≤ avx64.sizeModulus ∧ 70 ≤ 70) ∧
    ((∃ st, filterAOS avx64 (idleScene false true) blankAOS () 70 96 plainContext true 70
        = some st ∧
      st.gathers.length = (70 + avx64.VSIZEX - 1) / avx64.VSIZEX ∧
      st.calls.length = (70 + avx64.VSIZEX - 1) / avx64.VSIZEX ∧
      st.scatters.length = (70 + avx64.VSIZEX - 1) / avx64.VSIZEX) ∧
    (∃ st, filterAOP avx64 (idleScene false true) threeRays 70 plainContext true
        (fun _ => junkPacket) 70 = some st ∧
      st.calls.length = (70 + avx64.VSIZEX - 1) / avx64.VSIZEX) ∧
    (∃ st, filterSOP avx64 true (idleScene false true) blankSOP () 70 plainContext true
        (fun _ => junkPacket) 70 = some st ∧
      st.gathers.length = (70 + avx64.VSIZEX - 1) / avx64.VSIZEX ∧
      st.scatters.length = (70 + avx64.VSIZEX - 1) / avx64.VSIZEX) ∧
    (∃ st, filterSOPCoherent avx64 (idleScene false true) blankSOP () 70 plainContext true
        (fun _ => junkPacket) 70 = some st ∧
      st.gathers.length = (70 + avx64.VSIZEX - 1) / avx64.VSIZEX ∧
      st.scatters.length = (70 + avx64.VSIZEX - 1) / avx64.VSIZEX) ∧
    ((filterSOACoherent avx64 (idleScene false true) positivePackets 10 plainContext
          true).calls.length
        = (if chunkFallbackSOA avx64 (idleScene false true) positivePackets 10 then 10
           else (10 + MAX_COHERENT_RAY_PACKETS avx64 - 1) / MAX_COHERENT_RAY_PACKETS avx64) ∧
      (filterSOACoherent avx64 (idleScene false true) positivePackets 10 plainContext
          true).writes.length
        = (if chunkFallbackSOA avx64 (idleScene false true) positivePackets 10 then 0
           else 10)) ∧
    (filterSOA avx64 true (idleScene false true) blankPacketAOS 64 positivePackets 70 10 96
        plainContext true (fun _ => junkPacket)).calls.length
      = (if 70 = avx64.VSIZEX ∧ 64 % (avx64.VSIZEX * 4) = 0 ∧ 96 % (avx64.VSIZEX * 4) = 0 then
          if true && plainContext.coherent then
            (filterSOACoherent avx64 (idleScene false true) positivePackets 10 plainContext
              true).calls.length
          else 10
        else 10 * 70)) :=
  ⟨⟨by decide, by decide, by decide, by decide⟩,
    dispatch_terminates avx64 true (idleScene false true) blankPacketAOS blankAOS ()
      blankSOP () threeRays 64 positivePackets 70 10 96 96 plainContext true
      (fun _ => junkPacket) 70 (by decide) (by decide) (by decide) (by decide)⟩

/-! ## C15: streams without an active ray -/

theorem chunkFallbackSOA_inactive (T : Target) (scene : Scene) (rayData : Nat → RayK)
    (streams s k : Nat) (hs : s < streams) (hk : k < T.VSIZEX)
    (hin : float.le ((rayData s).tnear k) ((rayData s).tfar k) = false) :
    chunkFallbackSOA T scene rayData streams = true := by
  have hall : all T (classifySOA rayData streams).all_active = false := by
    cases h : all T (classifySOA rayData streams).all_active
    · rfl
    · have := (all_active_iff T rayData streams).1 h s hs k hk
      rw [hin] at this
      exact absurd this (by decide)
  unfold chunkFallbackSOA
  dsimp only
  rw [hall]
  cases scene.isRobust <;> cases scene.validIsecN <;> simp

/-- On packets without an active lane `filterSOACoherent` runs the chunk path:
one single-packet call per packet, each with an empty mask. -/
theorem filterSOACoherent_inactive (T : Target) (scene : Scene) (rayData : Nat → RayK)
    (streams : Nat) (context : IntersectContext) (intersect : Bool)
    (hW : 0 < T.VSIZEX) (hs : 0 < streams)
    (hin : ∀ s, s < streams → ∀ k, k < T.VSIZEX →
      float.le ((rayData s).tnear k) ((rayData s).tfar k) = false) :
    chunkFallbackSOA T scene rayData streams = true ∧
    (filterSOACoherent T scene rayData streams context intersect).calls.length = streams ∧
    ∀ c ∈ (filterSOACoherent T scene rayData streams context intersect).calls,
      c.isBatched = false ∧
      ∃ valid ray, c.single = some (valid, ray) ∧ ∀ k, k < T.VSIZEX → valid k = false := by
  have hcf := chunkFallbackSOA_inactive T scene rayData streams 0 0 hs hW (hin 0 hs 0 hW)
  have hf : filterSOACoherent T scene rayData streams context intersect
      = chunkPathSOA scene rayData streams context intersect := by
    unfold filterSOACoherent; rw [if_pos hcf]
  have hcalls := (chunkPathSOA_spec scene rayData streams context intersect).2.2.2
  rw [hf, hcalls]
  refine ⟨hcf, by simp, ?_⟩
  intro c hc
  obtain ⟨s, hs', rfl⟩ := List.mem_map.1 hc
  have hs'' := List.mem_range.1 hs'
  unfold callSOA
  cases intersect
  · exact ⟨rfl, _, _, rfl, fun k hk => hin s hs'' k hk⟩
  · exact ⟨rfl, _, _, rfl, fun k hk => hin s hs'' k hk⟩

/-- On records without an active ray `filterAOP` still makes its
`ceil(N/VSIZEX)` single-packet calls, each with an empty mask. -/
theorem filterAOP_inactive (T : Target) (scene : Scene) (rayN : Nat → Ray) (N : Nat)
    (context : IntersectContext) (intersect : Bool) (uninit : Nat → RayK) (fuel : Nat)
    (hW : 0 < T.VSIZEX) (hfuel : N ≤ fuel)
    (hin : ∀ idx, idx < N → float.le (rayN idx).tnear (rayN idx).tfar = false) :
    ∃ st, filterAOP T scene rayN N context intersect uninit fuel = some st ∧
      st.calls.length = (N + T.VSIZEX - 1) / T.VSIZEX ∧
      ∀ c ∈ st.calls, c.isBatched = false ∧
        ∃ valid ray, c.single = some (valid, ray) ∧ ∀ k, valid k = false := by
  obtain ⟨st, hrun, -, -, hcalls, -⟩ :=
    filterAOP_spec T scene rayN N context intersect uninit fuel hW hfuel
  refine ⟨st, hrun, by rw [hcalls]; simp, ?_⟩
  rw [hcalls]
  intro c hc
  obtain ⟨q, -, rfl⟩ := List.mem_map.1 hc
  have hmask : ∀ k, validAOP T rayN N (q * T.VSIZEX) (uninit (q * T.VSIZEX)) k = false := by
    intro k
    unfold validAOP vand vle stepMask
    by_cases hk : k < min (N - q * T.VSIZEX) T.VSIZEX
    · have hiv := gatherAOP_interval rayN (q * T.VSIZEX) _ (uninit (q * T.VSIZEX)) k hk
      have hidx : q * T.VSIZEX + k < N := by
        have := Nat.lt_of_lt_of_le hk (Nat.min_le_left _ _)
        omega
      have h1 : (packetAOP T rayN N (q * T.VSIZEX) (uninit (q * T.VSIZEX))).tnear k
          = (rayN (q * T.VSIZEX + k)).tnear := hiv.1
      have h2 : (packetAOP T rayN N (q * T.VSIZEX) (uninit (q * T.VSIZEX))).tfar k
          = (rayN (q * T.VSIZEX + k)).tfar := hiv.2
      rw [h1, h2, hin _ hidx]
      simp
    · simp [hk]
  unfold callAOP
  cases intersect
  · exact ⟨rfl, _, _, rfl, hmask⟩
  · exact ⟨rfl, _, _, rfl, hmask⟩

/-- When the first ray of an SOP stream is inactive, the classifier of
`filterSOPCoherent` selects the chunk path. -/
theorem chunkFallbackSOP_inactive {σ : Type} (T : Target) (scene : Scene)
    (rs : RayStreamSOP σ) (rayN : σ) (N fuel : Nat) (hW : 0 < T.VSIZEX)
    (hpos : 0 < N) (hsmall : N < 2147483648) (hfuel : N ≤ fuel)
    (hin : (rs.isValidByOffset rayN (inBounds 0 N) 0) 0 = false) :
    chunkFallbackSOP T scene rs rayN N fuel = some true := by
  have hc : 0 < (N + T.VSIZEX - 1) / T.VSIZEX := mul_lt_ceil 0 T.VSIZEX N hW (by omega)
  obtain ⟨n, hn⟩ : ∃ n, (N - 0 + T.VSIZEX - 1) / T.VSIZEX = n + 1 :=
    ⟨(N + T.VSIZEX - 1) / T.VSIZEX - 1, by rw [Nat.sub_zero]; omega⟩
  have hfold : ∀ m, (strideFold (classifyStepSOP rs rayN N) T.VSIZEX 0 (m + 1)
      OctantBounds.init).all_active 0 = false := by
    intro m
    induction m with
    | zero =>
      rw [strideFold_succ]
      show vselect (inBounds (0 + 0 * T.VSIZEX) N) (vand _ (rs.isValidByOffset rayN
        (inBounds (0 + 0 * T.VSIZEX) N) (4 * (0 + 0 * T.VSIZEX)))) _ 0 = false
      have e : 0 + 0 * T.VSIZEX = 0 := by omega
      rw [e]
      have hb : inBounds 0 N 0 = true := by
        unfold inBounds
        rw [toInt32_small _ (by omega), toInt32_small _ hsmall]
        simp
        omega
      unfold vselect vand
      rw [hb, hin]
      simp
    | succ m ih =>
      rw [strideFold_succ]
      generalize strideFold (classifyStepSOP rs rayN N) T.VSIZEX 0 (m + 1) OctantBounds.init
        = b at ih
      show vselect _ (vand b.all_active _) b.all_active 0 = false
      unfold vselect vand
      rw [ih]
      simp
  have hall : all T (strideFold (classifyStepSOP rs rayN N) T.VSIZEX 0 (n + 1)
      OctantBounds.init).all_active = false := by
    cases h : all T (strideFold (classifyStepSOP rs rayN N) T.VSIZEX 0 (n + 1)
      OctantBounds.init).all_active
    · rfl
    · have := (all_iff T _).1 h 0 hW
      rw [hfold n] at this
      exact absurd this (by decide)
  unfold chunkFallbackSOP
  dsimp only
  split
  · rw [forStride_eq N T.VSIZEX _ (classifyStepSOP rs rayN N) hW (fun _ _ _ => rfl) fuel 0 _
      (by omega), hn]
    simp only [Option.map_some', hall]
    simp
  · rename_i h
    simp only [Bool.not_eq_true', Bool.not_eq_false] at h
    rw [h]

theorem inactivePackets_inactive (s k : Nat) :
    float.le ((inactivePackets s).tnear k) ((inactivePackets s).tfar k) = false := by
  have h : float.le float.one float.zero = false := by decide
  exact h

theorem inactiveHit_inactive : float.le inactiveHit.tnear inactiveHit.tfar = false := by
  decide

/-- C15, as stated: one packet of eight inactive rays (`tnear` = 1 > `tfar` =
0) on the AVX target; `filterSOACoherent` does not skip the engine but makes
one single-packet call, with an empty mask. -/
theorem inactive_stream_counterexample :
    (∀ k, float.le ((inactivePackets 0).tnear k) ((inactivePackets 0).tfar k) = false) ∧
    (filterSOACoherent avx64 (idleScene false true) inactivePackets 1 plainContext
      true).calls.length = 1 ∧
    (filterSOACoherent avx64 (idleScene false true) inactivePackets 1 plainContext
      true).calls ≠ [] := by
  have h := (filterSOACoherent_inactive avx64 (idleScene false true) inactivePackets 1
    plainContext true (by decide) (by decide)
    (fun s _ k _ => inactivePackets_inactive s k)).2.1
  refine ⟨inactivePackets_inactive 0, h, ?_⟩
  intro h0
  rw [h0] at h
  exact absurd h (by decide)

/-- C15, amended: for a stream with `N > 0` rays (below `2^31`), respectively
`streams > 0` packets, of which none is active, no filter skips the engine and
none makes a batched call: `filterSOACoherent` and `filterSOPCoherent` take
the chunk path; `filterSOACoherent` makes one single-packet call per packet and
`filterAOP` one per chunk, each with an empty active mask; `filterSOPCoherent`,
`filterSOP` and `filterAOS` make `ceil(N/VSIZEX)` single-packet calls. -/
theorem inactive_stream {σ τ : Type} (T : Target) (coherentStreamPath : Bool)
    (scene : Scene) (aos : RayStreamAOS τ) (rayAOS : τ)
    (rs : RayStreamSOP σ) (raySOP : σ) (rayAOP : Nat → Ray)
    (rayData : Nat → RayK) (N streams stride : Nat) (context : IntersectContext)
    (intersect : Bool) (uninit : Nat → RayK) (fuel : Nat)
    (hW : 0 < T.VSIZEX) (hcap : T.VSIZEX ≤ MAX_RAYS_PER_OCTANT T)
    (hwrap : N + T.VSIZEX ≤ 18446744073709551616)
    (hs : 0 < streams) (hpos : 0 < N) (hsmall : N < 2147483648) (hfuel : N ≤ fuel)
    (hSOA : ∀ s, s < streams → ∀ k, k < T.VSIZEX →
      float.le ((rayData s).tnear k) ((rayData s).tfar k) = false)
    (hAOP : ∀ idx, idx < N → float.le (rayAOP idx).tnear (rayAOP idx).tfar = false)
    (hSOP : (rs.isValidByOffset raySOP (inBounds 0 N) 0) 0 = false) :
    0 < (N + T.VSIZEX - 1) / T.VSIZEX ∧
    (chunkFallbackSOA T scene rayData streams = true ∧
      (filterSOACoherent T scene rayData streams context intersect).calls.length = streams ∧
      ∀ c ∈ (filterSOACoherent T scene rayData streams context intersect).calls,
        c.isBatched = false ∧
        ∃ valid ray, c.single = some (valid, ray) ∧ ∀ k, k < T.VSIZEX → valid k = false) ∧
    (∃ st, filterAOP T scene rayAOP N context intersect uninit fuel = some st ∧
      st.calls.length = (N + T.VSIZEX - 1) / T.VSIZEX ∧
      ∀ c ∈ st.calls, c.isBatched = false ∧
        ∃ valid ray, c.single = some (valid, ray) ∧ ∀ k, valid k = false) ∧
    (chunkFallbackSOP T scene rs raySOP N fuel = some true ∧
      ∃ st, filterSOPCoherent T scene rs raySOP N context intersect uninit fuel = some st ∧
        st.calls.length = (N + T.VSIZEX - 1) / T.VSIZEX ∧
        ∀ c ∈ st.calls, c.isBatched = false) ∧
    (∃ st, filterSOP T coherentStreamPath scene rs raySOP N context intersect uninit fuel
        = some st ∧
      st.calls.length = (N + T.VSIZEX - 1) / T.VSIZEX ∧
      ∀ c ∈ st.calls, c.isBatched = false) ∧
    (∃ st, filterAOS T scene aos rayAOS N stride context intersect fuel = some st ∧
      st.calls.length = (N + T.VSIZEX - 1) / T.VSIZEX ∧
      ∀ c ∈ st.calls, c.isBatched = false) := by
  have hM := MAX_COHERENT_RAY_PACKETS_pos T hW hcap
  have hcf := chunkFallbackSOP_inactive T scene rs raySOP N fuel hW hpos hsmall hfuel hSOP
  have hSOPCoh : ∃ st, filterSOPCoherent T scene rs raySOP N context intersect uninit fuel
      = some st ∧ st.calls.length = (N + T.VSIZEX - 1) / T.VSIZEX ∧
      ∀ c ∈ st.calls, c.isBatched = false := by
    obtain ⟨cf, st, hcf', hrun, -, -, hchunk, -⟩ := filterSOPCoherent_returns T scene rs raySOP
      N context intersect uninit fuel hW hM hfuel
    rw [hcf] at hcf'
    have hcf'' : cf = true := (Option.some.inj hcf').symm
    exact ⟨st, hrun, hchunk hcf''⟩
  refine ⟨mul_lt_ceil 0 T.VSIZEX N hW (by omega),
    filterSOACoherent_inactive T scene rayData streams context intersect hW hs hSOA,
    filterAOP_inactive T scene rayAOP N context intersect uninit fuel hW hfuel hAOP,
    ⟨hcf, hSOPCoh⟩, ?_, ?_⟩
  · cases hflag : (coherentStreamPath && context.coherent)
    · refine ⟨_, filterSOP_eq T coherentStreamPath scene rs raySOP N context intersect uninit
        fuel hW hfuel hflag, ?_, ?_⟩
      · rw [strideFold_count (fun st : SOPState σ => st.calls.length) _ _ _ _ _
          (fun x s => (packetStepSOP_logs scene rs context intersect N x s).2.1)]
        simp
      · apply strideFold_induct (fun st : SOPState σ => ∀ c ∈ st.calls, c.isBatched = false)
        · intro c hc; exact absurd hc (List.not_mem_nil c)
        · intro x s hs'
          unfold packetStepSOP
          cases intersect
          · exact forall_mem_snoc _ _ _ hs' rfl
          · exact forall_mem_snoc _ _ _ hs' rfl
    · unfold filterSOP
      rw [hflag]
      simp only [if_true]
      exact hSOPCoh
  · have hmod : N + T.VSIZEX ≤ T.sizeModulus := by
      unfold Target.sizeModulus
      split
      · rename_i h4
        have h32 : T.VSIZEX ≤ 8 * T.sizeof_size_t := hcap
        rw [h4] at h32
        omega
      · exact hwrap
    refine ⟨_, filterAOS_eq T scene aos rayAOS N stride context intersect fuel hW hmod
      hfuel, ?_, ?_⟩
    · rw [strideFold_count (fun st : AOSState τ => st.calls.length) _ _ _ _ _
        (fun x s => (chunkStepAOS_logs scene aos context intersect N stride x s).2.1)]
      simp
    · apply strideFold_induct (fun st : AOSState τ => ∀ c ∈ st.calls, c.isBatched = false)
      · intro c hc; exact absurd hc (List.not_mem_nil c)
      · intro x s hs'
        unfold chunkStepAOS
        cases intersect
        · exact forall_mem_snoc _ _ _ hs' rfl
        · exact forall_mem_snoc _ _ _ hs' rfl

/-- C15, instance: three inactive rays, respectively two packets of inactive
rays, on the AVX target. -/
theorem inactive_stream_witness :
    (0 < avx64.VSIZEX ∧ avx64.VSIZEX ≤ MAX_RAYS_PER_OCTANT avx64 ∧
      3 + avx64.VSIZEX ≤ 18446744073709551616 ∧ 0 < 2 ∧ 0 < 3 ∧ 3 < 2147483648 ∧ 3 ≤ 3 ∧
      (∀ s, s < 2 → ∀ k, k < avx64.VSIZEX →
        float.le ((inactivePackets s).tnear k) ((inactivePackets s).tfar k) = false) ∧
      (∀ idx, idx < 3 → float.le inactiveHit.tnear inactiveHit.tfar = false) ∧
      (inactiveSOP.isValidByOffset () (inBounds 0 3) 0) 0 = false) ∧
    (0 < (3 + avx64.VSIZEX - 1) / avx64.VSIZEX ∧
    (chunkFallbackSOA avx64 (idleScene false true) inactivePackets 2 = true ∧
      (filterSOACoherent avx64 (idleScene false true) inactivePackets 2 plainContext
        true).calls.length = 2 ∧
      ∀ c ∈ (filterSOACoherent avx64 (idleScene false true) inactivePackets 2 plainContext
          true).calls,
        c.isBatched = false ∧
        ∃ valid ray, c.single = some (valid, ray) ∧
          ∀ k, k < avx64.VSIZEX → valid k = false) ∧
    (∃ st, filterAOP avx64 (idleScene false true) (fun _ => inactiveHit) 3 plainContext true
        (fun _ => junkPacket) 3 = some st ∧
      st.calls.length = (3 + avx64.VSIZEX - 1) / avx64.VSIZEX ∧
      ∀ c ∈ st.calls, c.isBatched = false ∧
        ∃ valid ray, c.single = some (valid, ray) ∧ ∀ k, valid k = false) ∧
    (chunkFallbackSOP avx64 (idleScene false true) inactiveSOP () 3 3 = some true ∧
      ∃ st, filterSOPCoherent avx64 (idleScene false true) inactiveSOP () 3 plainContext true
          (fun _ => junkPacket) 3 = some st ∧
        st.calls.length = (3 + avx64.VSIZEX - 1) / avx64.VSIZEX ∧
        ∀ c ∈ st.calls, c.isBatched = false) ∧
    (∃ st, filterSOP avx64 true (idleScene false true) inactiveSOP () 3 plainContext true
        (fun _ => junkPacket) 3 = some st ∧
      st.calls.length = (3 + avx64.VSIZEX - 1) / avx64.VSIZEX ∧
      ∀ c ∈ st.calls, c.isBatched = false) ∧
    (∃ st, filterAOS avx64 (idleScene false true) blankAOS () 3 96 plainContext true 3
        = some st ∧
      st.calls.length = (3 + avx64.VSIZEX - 1) / avx64.VSIZEX ∧
      ∀ c ∈ st.calls, c.isBatched = false)) :=
  ⟨⟨by decide, by decide, by decide, by decide, by decide, by decide, by decide,
      fun s _ k _ => inactivePackets_inactive s k, fun _ _ => by decide,
      inactivePackets_inactive 0 0⟩,
    inactive_stream avx64 true (idleScene false true) blankAOS () inactiveSOP ()
      (fun _ => inactiveHit) inactivePackets 3 2 96 plainContext true (fun _ => junkPacket) 3
      (by decide) (by decide) (by decide) (by decide) (by decide) (by decide) (by decide)
      (fun s _ k _ => inactivePackets_inactive s k) (fun _ _ => inactiveHit_inactive)
      (inactivePackets_inactive 0 0)⟩

/-! ## C11: conversions back use the offsets and masks of the conversions -/

theorem getElem?_snoc_lt {α : Type} (l : List α) (a : α) (j : Nat) (h : j < l.length) :
    (l ++ [a])[j]? = l[j]? := by
  rw [List.getElem?_append_left h]

theorem getElem?_snoc_eq {α : Type} (l : List α) (a : α) (j : Nat) (h : j = l.length) :
    (l ++ [a])[j]? = some a := by
  subst h
  simp

theorem packetStepSOP_eq {σ : Type} (scene : Scene) (rs : RayStreamSOP σ)
    (context : IntersectContext) (intersect : Bool) (N : Nat) :
    packetStepSOP scene rs context intersect N = chunkStepSOP scene rs context intersect N :=
  rfl

theorem chunkStepSOP_access {σ : Type} (scene : Scene) (rs : RayStreamSOP σ)
    (context : IntersectContext) (intersect : Bool) (N i : Nat) (st : SOPState σ) :
    ∃ valid ray,
      (chunkStepSOP scene rs context intersect N i st).gathers
        = st.gathers ++ [⟨inBounds i N, 4 * i, 0⟩] ∧
      ∃ c, (chunkStepSOP scene rs context intersect N i st).calls = st.calls ++ [c] ∧
        c.single = some (valid, ray) ∧
        (chunkStepSOP scene rs context intersect N i st).scatters
          = st.scatters ++ [⟨valid, 4 * i, 0⟩] ∧
        valid = vand (inBounds i N) (vle ray.tnear ray.tfar) := by
  unfold chunkStepSOP
  cases intersect
  · exact ⟨_, _, rfl, _, rfl, rfl, rfl, rfl⟩
  · exact ⟨_, _, rfl, _, rfl, rfl, rfl, rfl⟩

theorem chunkStepAOS_access {σ : Type} (scene : Scene) (rs : RayStreamAOS σ)
    (context : IntersectContext) (intersect : Bool) (N stride i : Nat) (st : AOSState σ) :
    ∃ valid ray,
      (chunkStepAOS scene rs context intersect N stride i st).gathers
        = st.gathers ++ [⟨inBounds i N, offsetAOS stride i⟩] ∧
      ∃ c, (chunkStepAOS scene rs context intersect N stride i st).calls = st.calls ++ [c] ∧
        c.single = some (valid, ray) ∧
        (chunkStepAOS scene rs context intersect N stride i st).scatters
          = st.scatters ++ [⟨valid, offsetAOS stride i⟩] ∧
        valid = vand (inBounds i N) (vle ray.tnear ray.tfar) := by
  unfold chunkStepAOS
  cases intersect
  · exact ⟨_, _, rfl, _, rfl, rfl, rfl, rfl⟩
  · exact ⟨_, _, rfl, _, rfl, rfl, rfl, rfl⟩

/-- The logs of the packet loop of the SOP filters after `n` packets: packet
`j` is read with the in-bounds mask of its first ray `j*VSIZEX` at byte offset
`4*j*VSIZEX`, traced with that mask restricted to the lanes with
`tnear <= tfar`, and written back with the traced mask at the same offset. -/
theorem chunkFold_access {σ : Type} (T : Target) (scene : Scene) (rs : RayStreamSOP σ)
    (context : IntersectContext) (intersect : Bool) (N n : Nat) (rayN : σ)
    (uninit : Nat → RayK) :
    (strideFold (chunkStepSOP scene rs context intersect N) T.VSIZEX 0 n
      ⟨rayN, uninit, fun _ => 0, [], [], [], context⟩).gathers.length = n ∧
    (strideFold (chunkStepSOP scene rs context intersect N) T.VSIZEX 0 n
      ⟨rayN, uninit, fun _ => 0, [], [], [], context⟩).calls.length = n ∧
    (strideFold (chunkStepSOP scene rs context intersect N) T.VSIZEX 0 n
      ⟨rayN, uninit, fun _ => 0, [], [], [], context⟩).scatters.length = n ∧
    ∀ j, j < n → ∃ valid ray,
      (strideFold (chunkStepSOP scene rs context intersect N) T.VSIZEX 0 n
        ⟨rayN, uninit, fun _ => 0, [], [], [], context⟩).gathers[j]?
        = some ⟨inBounds (j * T.VSIZEX) N, 4 * (j * T.VSIZEX), 0⟩ ∧
      ((strideFold (chunkStepSOP scene rs context intersect N) T.VSIZEX 0 n
        ⟨rayN, uninit, fun _ => 0, [], [], [], context⟩).calls[j]?).bind EngineCall.single
        = some (valid, ray) ∧
      (strideFold (chunkStepSOP scene rs context intersect N) T.VSIZEX 0 n
        ⟨rayN, uninit, fun _ => 0, [], [], [], context⟩).scatters[j]?
        = some ⟨valid, 4 * (j * T.VSIZEX), 0⟩ ∧
      valid = vand (inBounds (j * T.VSIZEX) N) (vle ray.tnear ray.tfar) := by
  induction n with
  | zero =>
    refine ⟨rfl, rfl, rfl, ?_⟩
    intro j hj; omega
  | succ n ih =>
    obtain ⟨h1, h2, h3, h4⟩ := ih
    rw [strideFold_succ, Nat.zero_add]
    generalize strideFold (chunkStepSOP scene rs context intersect N) T.VSIZEX 0 n
      ⟨rayN, uninit, fun _ => 0, [], [], [], context⟩ = st at h1 h2 h3 h4
    obtain ⟨valid0, ray0, e1, c0, e2, e3, e4, e5⟩ :=
      chunkStepSOP_access scene rs context intersect N (n * T.VSIZEX) st
    rw [e1, e2, e4]
    refine ⟨by simp [h1], by simp [h2], by simp [h3], ?_⟩
    intro j hj
    by_cases hjn : j < n
    · obtain ⟨valid, ray, g1, g2, g3, g4⟩ := h4 j hjn
      refine ⟨valid, ray, ?_, ?_, ?_, g4⟩
      · rw [getElem?_snoc_lt _ _ _ (by omega)]; exact g1
      · rw [getElem?_snoc_lt _ _ _ (by omega)]; exact g2
      · rw [getElem?_snoc_lt _ _ _ (by omega)]; exact g3
    · have hj' : j = n := by omega
      subst hj'
      refine ⟨valid0, ray0, ?_, ?_, ?_, e5⟩
      · rw [getElem?_snoc_eq _ _ _ h1.symm]
      · rw [getElem?_snoc_eq _ _ _ h2.symm]; exact e3
      · rw [getElem?_snoc_eq _ _ _ h3.symm]

/-- The logs of `filterAOS` after `n` packets: packet `j` is read with the
in-bounds mask of its first ray `j*VSIZEX` and the offsets `vi * int(stride)`,
traced with that mask restricted to the lanes with `tnear <= tfar`, and written
back with the traced mask and the same offsets. -/
theorem chunkFoldAOS_access {σ : Type} (T : Target) (scene : Scene) (rs : RayStreamAOS σ)
    (context : IntersectContext) (intersect : Bool) (N stride n : Nat) (rayN : σ) :
    (strideFold (chunkStepAOS scene rs context intersect N stride) T.VSIZEX 0 n
      ⟨rayN, [], [], []⟩).gathers.length = n ∧
    (strideFold (chunkStepAOS scene rs context intersect N stride) T.VSIZEX 0 n
      ⟨rayN, [], [], []⟩).calls.length = n ∧
    (strideFold (chunkStepAOS scene rs context intersect N stride) T.VSIZEX 0 n
      ⟨rayN, [], [], []⟩).scatters.length = n ∧
    ∀ j, j < n → ∃ valid ray,
      (strideFold (chunkStepAOS scene rs context intersect N stride) T.VSIZEX 0 n
        ⟨rayN, [], [], []⟩).gathers[j]?
        = some ⟨inBounds (j * T.VSIZEX) N, offsetAOS stride (j * T.VSIZEX)⟩ ∧
      ((strideFold (chunkStepAOS scene rs context intersect N stride) T.VSIZEX 0 n
        ⟨rayN, [], [], []⟩).calls[j]?).bind EngineCall.single = some (valid, ray) ∧
      (strideFold (chunkStepAOS scene rs context intersect N stride) T.VSIZEX 0 n
        ⟨rayN, [], [], []⟩).scatters[j]?
        = some ⟨valid, offsetAOS stride (j * T.VSIZEX)⟩ ∧
      valid = vand (inBounds (j * T.VSIZEX) N) (vle ray.tnear ray.tfar) := by
  induction n with
  | zero =>
    refine ⟨rfl, rfl, rfl, ?_⟩
    intro j hj; omega
  | succ n ih =>
    obtain ⟨h1, h2, h3, h4⟩ := ih
    rw [strideFold_succ, Nat.zero_add]
    generalize strideFold (chunkStepAOS scene rs context intersect N stride) T.VSIZEX 0 n
      ⟨rayN, [], [], []⟩ = st at h1 h2 h3 h4
    obtain ⟨valid0, ray0, e1, c0, e2, e3, e4, e5⟩ :=
      chunkStepAOS_access scene rs context intersect N stride (n * T.VSIZEX) st
    rw [e1, e2, e4]
    refine ⟨by simp [h1], by simp [h2], by simp [h3], ?_⟩
    intro j hj
    by_cases hjn : j < n
    · obtain ⟨valid, ray, g1, g2, g3, g4⟩ := h4 j hjn
      refine ⟨valid, ray, ?_, ?_, ?_, g4⟩
      · rw [getElem?_snoc_lt _ _ _ (by omega)]; exact g1
      · rw [getElem?_snoc_lt _ _ _ (by omega)]; exact g2
      · rw [getElem?_snoc_lt _ _ _ (by omega)]; exact g3
    · have hj' : j = n := by omega
      subst hj'
      refine ⟨valid0, ray0, ?_, ?_, ?_, e5⟩
      · rw [getElem?_snoc_eq _ _ _ h1.symm]
      · rw [getElem?_snoc_eq _ _ _ h2.symm]; exact e3
      · rw [getElem?_snoc_eq _ _ _ h3.symm]

theorem vand_left {a b : vboolx} {k : Nat} (h : vand a b k = true) : a k = true := by
  unfold vand at h
  rw [Bool.and_eq_true] at h
  exact h.1

theorem sameSlotSOP_chunk {σ : Type} (T : Target) (scene : Scene) (rs : RayStreamSOP σ)
    (context : IntersectContext) (intersect : Bool) (N : Nat) (rayN : σ)
    (uninit : Nat → RayK) :
    sameSlotSOP T N (strideFold (chunkStepSOP scene rs context intersect N) T.VSIZEX 0
      ((N + T.VSIZEX - 1) / T.VSIZEX) ⟨rayN, uninit, fun _ => 0, [], [], [], context⟩) := by
  obtain ⟨h1, h2, h3, h4⟩ := chunkFold_access T scene rs context intersect N
    ((N + T.VSIZEX - 1) / T.VSIZEX) rayN uninit
  refine ⟨h1, h2, h3, fun j hj => ?_⟩
  obtain ⟨valid, ray, g1, g2, g3, g4⟩ := h4 j hj
  exact ⟨valid, ray, g1, g2, g3, g4, fun k hk => vand_left (g4 ▸ hk)⟩

theorem sameSlotAOS_chunk {σ : Type} (T : Target) (scene : Scene) (rs : RayStreamAOS σ)
    (context : IntersectContext) (intersect : Bool) (N stride : Nat) (rayN : σ) :
    sameSlotAOS T N stride (strideFold (chunkStepAOS scene rs context intersect N stride)
      T.VSIZEX 0 ((N + T.VSIZEX - 1) / T.VSIZEX) ⟨rayN, [], [], []⟩) := by
  obtain ⟨h1, h2, h3, h4⟩ := chunkFoldAOS_access T scene rs context intersect N stride
    ((N + T.VSIZEX - 1) / T.VSIZEX) rayN
  refine ⟨h1, h2, h3, fun j hj => ?_⟩
  obtain ⟨valid, ray, g1, g2, g3, g4⟩ := h4 j hj
  exact ⟨valid, ray, g1, g2, g3, g4, fun k hk => vand_left (g4 ▸ hk)⟩

/-- A property that every iteration preserves holds of whatever the wrapping
loop returns. -/
theorem forStrideSize_induct {σ : Type} (P : σ → Prop) (wrap stop step : Nat)
    (f : Nat → σ → σ) (hstep : ∀ x s, P s → P (f x s)) :
    ∀ (fuel x : Nat) (s r : σ), P s →
      forStrideSize wrap stop step (fun i s => some (f i s)) fuel x s = some r → P r := by
  intro fuel
  induction fuel with
  | zero =>
    intro x s r hs h
    unfold forStrideSize at h
    by_cases hx : x < stop
    · rw [if_pos hx] at h
      exact Option.noConfusion h
    · rw [if_neg hx] at h
      rw [← Option.some.inj h]
      exact hs
  | succ fuel ih =>
    intro x s r hs h
    unfold forStrideSize at h
    by_cases hx : x < stop
    · rw [if_pos hx] at h
      exact ih ((x + step) % wrap) (f x s) r (hstep x s hs) h
    · rw [if_neg hx] at h
      rw [← Option.some.inj h]
      exact hs

/-- One iteration of the loop of `filterAOS` keeps the logs paired, at whatever
ray index `i` it runs. -/
theorem chunkStepAOS_paired {σ : Type} (scene : Scene) (rs : RayStreamAOS σ)
    (context : IntersectContext) (intersect : Bool) (N stride i : Nat) (st : AOSState σ)
    (h : pairedAOS N stride st) :
    pairedAOS N stride (chunkStepAOS scene rs context intersect N stride i st) := by
  obtain ⟨h1, h2, h3⟩ := h
  obtain ⟨valid, ray, hg, c, hc, hsingle, hs, hv⟩ :=
    chunkStepAOS_access scene rs context intersect N stride i st
  rw [pairedAOS, hg, hc, hs]
  refine ⟨by simp [h1], by simp [h2], fun j hj => ?_⟩
  rw [List.length_append, List.length_singleton] at hj
  rcases Nat.lt_succ_iff_lt_or_eq.1 hj with hlt | heq
  · obtain ⟨i0, v0, r0, g1, g2, g3, g4, g5⟩ := h3 j hlt
    refine ⟨i0, v0, r0, ?_, ?_, ?_, g4, g5⟩
    · rw [getElem?_snoc_lt _ _ _ hlt]; exact g1
    · rw [getElem?_snoc_lt _ _ _ (by omega)]; exact g2
    · rw [getElem?_snoc_lt _ _ _ (by omega)]; exact g3
  · refine ⟨i, valid, ray, ?_, ?_, ?_, hv, fun k hk => vand_left (hv ▸ hk)⟩
    · rw [getElem?_snoc_eq _ _ _ heq]
    · rw [getElem?_snoc_eq _ _ _ (by omega)]; exact hsingle
    · rw [getElem?_snoc_eq _ _ _ (by omega)]

/-- Whatever `filterAOS` returns, on either width of `size_t` and for every
`N`, its logs are paired. -/
theorem filterAOS_paired {σ : Type} (T : Target) (scene : Scene) (rs : RayStreamAOS σ)
    (rayN : σ) (N stride : Nat) (context : IntersectContext) (intersect : Bool) (fuel : Nat)
    (st : AOSState σ)
    (h : filterAOS T scene rs rayN N stride context intersect fuel = some st) :
    pairedAOS N stride st := by
  unfold filterAOS at h
  exact forStrideSize_induct (pairedAOS N stride) T.sizeModulus N T.VSIZEX
    (chunkStepAOS scene rs context intersect N stride)
    (fun x s hs => chunkStepAOS_paired scene rs context intersect N stride x s hs)
    fuel 0 ⟨rayN, [], [], []⟩ st
    ⟨rfl, rfl, fun j hj => absurd hj (Nat.not_lt_zero j)⟩ h

/-- C11, as stated: one inactive ray on a robust scene, which takes the chunk
path of `filterSOPCoherent`; the packet is read with lane 0 in the mask and
written back, at the same offset, with lane 0 out of the mask. -/
theorem scatter_mask_counterexample :
    ∃ st g sc, filterSOPCoherent avx64 (idleScene true true) inactiveSOP () 1 plainContext true
        (fun _ => junkPacket) 1 = some st ∧
      st.gathers = [g] ∧ st.scatters = [sc] ∧ sc.offset = g.offset ∧
      g.valid 0 = true ∧ sc.valid 0 = false :=
  ⟨_, ⟨inBounds 0 1, 0, 0⟩,
    ⟨vand (inBounds 0 1) (vle (inactivePackets 0).tnear (inactivePackets 0).tfar), 0, 0⟩,
    rfl, rfl, rfl, rfl, by decide, by decide⟩

/-- C11, amended: on the coherent-batch path of `filterSOPCoherent` every
packet is converted back with exactly the byte offset, in-bounds mask and slot
with which it was converted; in its chunk path, in `filterSOP` and in
`filterAOS` every packet is written back with the byte offset(s) with which it
was read and with the mask with which it was traced, which is the in-bounds
mask of the read restricted to the lanes with `tnear <= tfar`; so a lane is
written only where it was read. For `filterAOS` this holds of whatever a run
returns, for every `N` and either width of `size_t`; where the loop counter
cannot wrap, the run returns and packet `j` is the one read at ray `j*VSIZEX`. -/
theorem scatter_matches_gather {σ τ : Type} (T : Target) (coherentStreamPath : Bool)
    (scene : Scene) (aos : RayStreamAOS τ) (rayAOS : τ) (rs : RayStreamSOP σ) (raySOP : σ)
    (N stride : Nat) (context : IntersectContext) (intersect : Bool) (uninit : Nat → RayK)
    (fuel : Nat) (hW : 0 < T.VSIZEX) (hcap : T.VSIZEX ≤ MAX_RAYS_PER_OCTANT T)
    (hfuel : N ≤ fuel) :
    (∃ chunkFallback st, chunkFallbackSOP T scene rs raySOP N fuel = some chunkFallback ∧
      filterSOPCoherent T scene rs raySOP N context intersect uninit fuel = some st ∧
      (chunkFallback = false → st.scatters = st.gathers ∧
        st.gathers = (List.range ((N + T.VSIZEX - 1) / T.VSIZEX)).map (accessSOP T N)) ∧
      (chunkFallback = true → sameSlotSOP T N st)) ∧
    ((coherentStreamPath && context.coherent) = false →
      ∃ st, filterSOP T coherentStreamPath scene rs raySOP N context intersect uninit fuel
          = some st ∧ sameSlotSOP T N st) ∧
    (∀ fuel1 st, filterAOS T scene aos rayAOS N stride context intersect fuel1 = some st →
      pairedAOS N stride st) ∧
    (N + T.VSIZEX ≤ T.sizeModulus →
      ∃ st, filterAOS T scene aos rayAOS N stride context intersect fuel = some st ∧
        sameSlotAOS T N stride st) := by
  have hM := MAX_COHERENT_RAY_PACKETS_pos T hW hcap
  refine ⟨?_, ?_, ?_, ?_⟩
  · obtain ⟨cf, hcf⟩ := chunkFallbackSOP_returns T scene rs raySOP N fuel hW hfuel
    cases cf
    · obtain ⟨st, hrun, hg, hs, -⟩ :=
        coherentPathSOP_spec T scene rs raySOP N context intersect uninit fuel hW hM hfuel
      refine ⟨false, st, hcf, ?_, fun _ => ⟨by rw [hs, hg], hg⟩, fun h => absurd h (by decide)⟩
      unfold filterSOPCoherent
      rw [hcf]
      exact hrun
    · refine ⟨true, _, hcf, ?_, fun h => absurd h (by decide),
        fun _ => sameSlotSOP_chunk T scene rs context intersect N raySOP uninit⟩
      unfold filterSOPCoherent
      rw [hcf]
      exact chunkPathSOP_eq T scene rs raySOP N context intersect uninit fuel hW hfuel
  · intro hflag
    refine ⟨_, filterSOP_eq T coherentStreamPath scene rs raySOP N context intersect uninit
      fuel hW hfuel hflag, ?_⟩
    rw [packetStepSOP_eq]
    exact sameSlotSOP_chunk T scene rs context intersect N raySOP uninit
  · intro fuel1 st h
    exact filterAOS_paired T scene aos rayAOS N stride context intersect fuel1 st h
  · intro hwrap
    exact ⟨_, filterAOS_eq T scene aos rayAOS N stride context intersect fuel hW hwrap hfuel,
      sameSlotAOS_chunk T scene aos context intersect N stride rayAOS⟩

/-- C11, instance: three inactive rays on the AVX target. -/
theorem scatter_matches_gather_witness :
    (0 < avx64.VSIZEX ∧ avx64.VSIZEX ≤ MAX_RAYS_PER_OCTANT avx64 ∧ 3 ≤ 3) ∧
    ((∃ chunkFallback st,
      chunkFallbackSOP avx64 (idleScene false true) inactiveSOP () 3 3 = some chunkFallback ∧
      filterSOPCoherent avx64 (idleScene false true) inactiveSOP () 3 plainContext true
        (fun _ => junkPacket) 3 = some st ∧
      (chunkFallback = false → st.scatters = st.gathers ∧
        st.gathers = (List.range ((3 + avx64.VSIZEX - 1) / avx64.VSIZEX)).map
          (accessSOP avx64 3)) ∧
      (chunkFallback = true → sameSlotSOP avx64 3 st)) ∧
    ((true && plainContext.coherent) = false →
      ∃ st, filterSOP avx64 true (idleScene false true) inactiveSOP () 3 plainContext true
          (fun _ => junkPacket) 3 = some st ∧ sameSlotSOP avx64 3 st) ∧
    (∀ fuel1 st, filterAOS avx64 (idleScene false true) blankAOS () 3 96 plainContext true
        fuel1 = some st → pairedAOS 3 96 st) ∧
    (3 + avx64.VSIZEX ≤ avx64.sizeModulus →
      ∃ st, filterAOS avx64 (idleScene false true) blankAOS () 3 96 plainContext true 3
        = some st ∧ sameSlotAOS avx64 3 96 st)) :=
  ⟨⟨by decide, by decide, by decide⟩,
    scatter_matches_gather avx64 true (idleScene false true) blankAOS () inactiveSOP () 3 96
      plainContext true (fun _ => junkPacket) 3 (by decide) (by decide) (by decide)⟩

/-! ## C12: the two paths of `filterSOACoherent` on an all-active batch -/

/-- What the chunk path leaves in each packet: the result of the single-packet
call on the packet as the caller left it. -/
theorem chunkPathSOA_data (scene : Scene) (rayData : Nat → RayK) (n : Nat)
    (context : IntersectContext) (intersect : Bool) (s : Nat) (hs : s < n) :
    (chunkPathSOA scene rayData n context intersect).rayData s
      = scene.trace intersect (vle (rayData s).tnear (rayData s).tfar) (rayData s) context := by
  induction n with
  | zero => omega
  | succ n ih =>
    obtain ⟨h1, h2, -, -⟩ := chunkPathSOA_spec scene rayData n context intersect
    rw [chunkPathSOA_succ]
    generalize chunkPathSOA scene rayData n context intersect = st at h1 h2 ih
    have hn := h1 n (Nat.le_refl n)
    unfold chunkStepSOA Scene.trace
    by_cases hsn : s = n
    · subst hsn
      cases intersect
      · simp only [Bool.false_eq_true, if_false, setLane, if_true]
        rw [hn, h2]
      · simp only [if_true, setLane]
        rw [hn, h2]
    · have ih' := ih (by omega)
      unfold Scene.trace at ih'
      cases intersect
      · simp only [Bool.false_eq_true, if_false, setLane, hsn] at ih' ⊢
        exact ih'
      · simp only [if_true, setLane, hsn, if_false] at ih' ⊢
        exact ih'

theorem storePackets_map (h : Nat → RayK) (ptrs : List Nat) :
    ∀ (rayData : Nat → RayK) (t : Nat),
      storePackets rayData ptrs (ptrs.map h) t = if t ∈ ptrs then h t else rayData t := by
  induction ptrs with
  | nil => intro rayData t; simp [storePackets]
  | cons p ps ih =>
    intro rayData t
    rw [List.map_cons]
    unfold storePackets
    rw [ih]
    by_cases ht : t ∈ ps
    · simp [ht]
    · by_cases htp : t = p
      · subst htp; simp [ht, setLane]
      · simp [ht, htp, setLane]

/-- The effect of one flush on the packets, for an engine whose batched call
acts as its single-packet calls: the packets behind the pointers
`first, ..., first + numStreams - 1` are traced with an all-active mask. -/
theorem traceStream_data (T : Target) (scene : Scene) (context : IntersectContext)
    (intersect : Bool) (st : BatchState) (rayData : Nat → RayK) (first : Nat)
    (hbatch : scene.batchedAsSingle)
    (hptr : ∀ j, j < st.numStreams → st.rays_ptr j = first + j)
    (hdata : ∀ t, first ≤ t → st.rayData t = rayData t) (t : Nat) :
    (traceStream T scene context intersect st).rayData t
      = if first ≤ t ∧ t < first + st.numStreams then
          scene.trace intersect (fun _ => true) (rayData t) context
        else st.rayData t := by
  have hptrs : (List.range st.numStreams).map st.rays_ptr
      = (List.range st.numStreams).map (fun j => first + j) :=
    List.map_congr_left (fun j hj => hptr j (List.mem_range.1 hj))
  have hmem : ∀ p, (p ∈ (List.range st.numStreams).map (fun j => first + j))
      ↔ (first ≤ p ∧ p < first + st.numStreams) := by
    intro p
    rw [List.mem_map]
    constructor
    · rintro ⟨j, hj, rfl⟩
      have := List.mem_range.1 hj
      omega
    · rintro ⟨h1, h2⟩
      exact ⟨p - first, List.mem_range.2 (by omega), by omega⟩
  have hres : ∀ (E : RayK → RayK),
      (((List.range st.numStreams).map (fun j => first + j)).map st.rayData).map E
        = ((List.range st.numStreams).map (fun j => first + j)).map
            (fun p => E (rayData p)) := by
    intro E
    rw [List.map_map]
    apply List.map_congr_left
    intro p hp
    show E (st.rayData p) = _
    rw [hdata p ((hmem p).1 hp).1]
  unfold traceStream
  dsimp only
  rw [hptrs]
  unfold Scene.trace
  cases intersect
  · simp only [Bool.false_eq_true, if_false]
    rw [(hbatch _ _ _).2, hres, storePackets_map]
    by_cases h : first ≤ t ∧ t < first + st.numStreams
    · rw [if_pos h, if_pos ((hmem t).2 h)]
    · rw [if_neg h, if_neg (fun hm => h ((hmem t).1 hm))]
  · simp only [if_true]
    rw [(hbatch _ _ _).1, hres, storePackets_map]
    by_cases h : first ≤ t ∧ t < first + st.numStreams
    · rw [if_pos h, if_pos ((hmem t).2 h)]
    · rw [if_neg h, if_neg (fun hm => h ((hmem t).1 hm))]

/-- The packets during the accumulation loop, for an engine whose batched call
acts as its single-packet calls: the packets already flushed have been traced
with an all-active mask, the others are as the caller left them, and the
pointers gathered since the last flush are those of the latest packets. -/
theorem coherentLoopSOA_data (T : Target) (scene : Scene) (context : IntersectContext)
    (intersect : Bool) (rayData : Nat → RayK) (s : Nat) (hbatch : scene.batchedAsSingle) :
    (coherentLoopSOA T scene context intersect rayData s).numStreams ≤ s ∧
    (∀ j, j < (coherentLoopSOA T scene context intersect rayData s).numStreams →
      (coherentLoopSOA T scene context intersect rayData s).rays_ptr j
        = s - (coherentLoopSOA T scene context intersect rayData s).numStreams + j) ∧
    (∀ t, (coherentLoopSOA T scene context intersect rayData s).rayData t
      = if t < s - (coherentLoopSOA T scene context intersect rayData s).numStreams then
          scene.trace intersect (fun _ => true) (rayData t) context
        else rayData t) := by
  induction s with
  | zero => exact ⟨Nat.le_refl 0, fun j hj => absurd hj (Nat.not_lt_zero j), fun t => rfl⟩
  | succ s ih =>
    obtain ⟨h1, h2, h3⟩ := ih
    rw [coherentLoopSOA_succ]
    generalize coherentLoopSOA T scene context intersect rayData s = st at h1 h2 h3
    have hptr : ∀ j, j < st.numStreams + 1 →
        setLane st.rays_ptr st.numStreams s j = (s - st.numStreams) + j := by
      intro j hj
      unfold setLane
      by_cases hjn : j = st.numStreams
      · rw [if_pos hjn]; omega
      · rw [if_neg hjn]; rw [h2 j (by omega)]
    unfold coherentStepSOA
    dsimp only
    by_cases hfull : st.numStreams + 1 = MAX_COHERENT_RAY_PACKETS T
    · rw [if_pos hfull]
      dsimp only
      refine ⟨Nat.zero_le _, fun j hj => absurd hj (Nat.not_lt_zero j), fun t => ?_⟩
      rw [traceStream_data T scene context intersect _ rayData (s - st.numStreams) hbatch
        hptr (fun t ht => by
          show st.rayData t = rayData t
          rw [h3 t, if_neg (by omega)])]
      dsimp only
      rw [h3 t]
      by_cases ht : t < s - st.numStreams
      · rw [if_neg (by omega), if_pos ht, if_pos (by omega)]
      · by_cases ht2 : t < s + 1
        · rw [if_pos ⟨by omega, by omega⟩, if_pos (by omega)]
        · rw [if_neg (by omega), if_neg ht, if_neg (by omega)]
    · rw [if_neg hfull]
      dsimp only
      refine ⟨by omega, fun j hj => ?_, fun t => ?_⟩
      · rw [hptr j hj]; omega
      · rw [h3 t]
        have e : s + 1 - (st.numStreams + 1) = s - st.numStreams := by omega
        rw [e]

/-- What the coherent-batch path leaves in each packet, for an engine whose
batched call acts as its single-packet calls. -/
theorem coherentPathSOA_data (T : Target) (scene : Scene) (rayData : Nat → RayK)
    (streams : Nat) (context : IntersectContext) (intersect : Bool)
    (hbatch : scene.batchedAsSingle) (t : Nat) :
    (coherentPathSOA T scene rayData streams context intersect).rayData t
      = if t < streams then
          scene.trace intersect (fun _ => true) (rayData t) (context.setInputSOA T.VSIZEX)
        else rayData t := by
  obtain ⟨h1, h2, h3⟩ := coherentLoopSOA_data T scene (context.setInputSOA T.VSIZEX) intersect
    rayData streams hbatch
  unfold coherentPathSOA
  dsimp only
  generalize coherentLoopSOA T scene (context.setInputSOA T.VSIZEX) intersect rayData streams
    = st at h1 h2 h3
  by_cases hns : st.numStreams ≠ 0
  · rw [if_pos hns]
    rw [traceStream_data T scene _ intersect st rayData (streams - st.numStreams) hbatch h2
      (fun t ht => by rw [h3 t, if_neg (by omega)])]
    rw [h3 t]
    by_cases ht : t < streams - st.numStreams
    · rw [if_neg (by omega), if_pos ht, if_pos (by omega)]
    · by_cases ht2 : t < streams
      · rw [if_pos ⟨by omega, by omega⟩, if_pos ht2]
      · rw [if_neg (by omega), if_neg ht, if_neg ht2]
  · rw [if_neg hns, h3 t]
    have e : st.numStreams = 0 := by omega
    rw [e, Nat.sub_zero]

theorem hitScene_batchedAsSingle (T : Target) : (hitScene T).batchedAsSingle :=
  fun _ _ _ => ⟨rfl, rfl⟩

theorem hitScene_ignoresLayoutHint (T : Target) : (hitScene T).ignoresLayoutHint :=
  fun _ _ _ _ => ⟨rfl, rfl⟩

theorem hitScene_readsMaskLanes (T : Target) : (hitScene T).readsMaskLanes T := by
  intro valid valid' ray context h
  have e : (fun k => if k < T.VSIZEX ∧ valid k = true then 0 else ray.geomID k)
      = (fun k => if k < T.VSIZEX ∧ valid' k = true then 0 else ray.geomID k) := by
    funext k
    by_cases hk : k < T.VSIZEX
    · rw [h k hk]
    · simp [hk]
  constructor
  · show ({ ray with geomID := _ } : RayK) = { ray with geomID := _ }
    rw [e]
  · show ({ ray with geomID := _ } : RayK) = { ray with geomID := _ }
    rw [e]

theorem positivePackets_active (s k : Nat) :
    float.le ((positivePackets s).tnear k) ((positivePackets s).tfar k) = true := by
  have h : float.le float.zero float.one = true := by decide
  exact h

/-- C12: for an engine whose batched call on a list of packets acts on each
packet as its single-packet call with an all-active mask, whose result does
not depend on the input-layout hint (and which reads only the `VSIZEX` lanes
of a mask), and for packets whose every lane is active, the coherent-batch
path and the chunk path of `filterSOACoherent` leave every packet identical,
hit fields included; in both, packet `s` ends as the single-packet call on the
caller's packet leaves it. -/
theorem fallback_equivalence (T : Target) (scene : Scene) (rayData : Nat → RayK)
    (streams : Nat) (context : IntersectContext) (intersect : Bool)
    (hbatch : scene.batchedAsSingle) (hhint : scene.ignoresLayoutHint)
    (hlanes : scene.readsMaskLanes T)
    (hactive : ∀ s, s < streams → ∀ k, k < T.VSIZEX →
      float.le ((rayData s).tnear k) ((rayData s).tfar k) = true) :
    ∀ s,
      (coherentPathSOA T scene rayData streams context intersect).rayData s
        = (chunkPathSOA scene rayData streams context intersect).rayData s ∧
      (chunkPathSOA scene rayData streams context intersect).rayData s
        = if s < streams then
            scene.trace intersect (vle (rayData s).tnear (rayData s).tfar) (rayData s) context
          else rayData s := by
  intro s
  rw [coherentPathSOA_data T scene rayData streams context intersect hbatch s]
  by_cases hs : s < streams
  · rw [if_pos hs, if_pos hs, chunkPathSOA_data scene rayData streams context intersect s hs]
    refine ⟨?_, rfl⟩
    have h1 := hhint (fun _ => true) (rayData s) context T.VSIZEX
    have h2 := hlanes (fun _ => true) (vle (rayData s).tnear (rayData s).tfar) (rayData s)
      context (fun k hk => (hactive s hs k hk).symm)
    unfold Scene.trace
    cases intersect
    · simp only [Bool.false_eq_true, if_false]
      rw [h1.2, h2.2]
    · simp only [if_true]
      rw [h1.1, h2.1]
  · rw [if_neg hs, if_neg hs]
    exact ⟨((chunkPathSOA_spec scene rayData streams context intersect).1 s (by omega)).symm,
      (chunkPathSOA_spec scene rayData streams context intersect).1 s (by omega)⟩

/-- C12, instance: ten all-active packets (more than one batch) and an engine
that reports a hit on every active lane. -/
theorem fallback_equivalence_witness :
    ((hitScene avx64).batchedAsSingle ∧ (hitScene avx64).ignoresLayoutHint ∧
      (hitScene avx64).readsMaskLanes avx64 ∧
      (∀ s, s < 10 → ∀ k, k < avx64.VSIZEX →
        float.le ((positivePackets s).tnear k) ((positivePackets s).tfar k) = true)) ∧
    (∀ s,
      (coherentPathSOA avx64 (hitScene avx64) positivePackets 10 plainContext true).rayData s
        = (chunkPathSOA (hitScene avx64) positivePackets 10 plainContext true).rayData s ∧
      (chunkPathSOA (hitScene avx64) positivePackets 10 plainContext true).rayData s
        = if s < 10 then
            (hitScene avx64).trace true
              (vle (positivePackets s).tnear (positivePackets s).tfar) (positivePackets s)
              plainContext
          else positivePackets s) :=
  ⟨⟨hitScene_batchedAsSingle avx64, hitScene_ignoresLayoutHint avx64,
      hitScene_readsMaskLanes avx64, fun s _ k _ => positivePackets_active s k⟩,
    fallback_equivalence avx64 (hitScene avx64) positivePackets 10 plainContext true
      (hitScene_batchedAsSingle avx64) (hitScene_ignoresLayoutHint avx64)
      (hitScene_readsMaskLanes avx64) (fun s _ k _ => positivePackets_active s k)⟩

/-! ## C26: block ids of `parallel_partition` -/

/-- C26: for an array of `N` elements (`N` a `size_t`) and every packed id
that `validBlockID` accepts, with `l = id & 0xffffffff` and `r = id >> 32`:
`blocks-1-r` does not underflow, the left range is
`[l*BLOCK_SIZE, (l+1)*BLOCK_SIZE)`, the right range is
`[(blocks-1-r)*BLOCK_SIZE, (blocks-r)*BLOCK_SIZE)` (no product wraps),
`left_end <= right_begin` and `right_end <= N`. -/
theorem valid_block_ranges (BLOCK_SIZE : Nat) (array : List Int) (N id : Nat)
    (hN : N < 18446744073709551616)
    (hvalid : (parallel_partition.create BLOCK_SIZE array N).validBlockID id = true) :
    parallel_partition.getRightBlockIndex id + 1
      ≤ (parallel_partition.create BLOCK_SIZE array N).blocks ∧
    parallel_partition.getLeftArrayIndex BLOCK_SIZE (parallel_partition.getLeftBlockIndex id)
      = (parallel_partition.getLeftBlockIndex id * BLOCK_SIZE,
         (parallel_partition.getLeftBlockIndex id + 1) * BLOCK_SIZE) ∧
    parallel_partition.getRightArrayIndex BLOCK_SIZE
        (parallel_partition.create BLOCK_SIZE array N) (parallel_partition.getRightBlockIndex id)
      = ((N / BLOCK_SIZE - 1 - parallel_partition.getRightBlockIndex id) * BLOCK_SIZE,
         (N / BLOCK_SIZE - parallel_partition.getRightBlockIndex id) * BLOCK_SIZE) ∧
    (parallel_partition.getLeftArrayIndex BLOCK_SIZE
        (parallel_partition.getLeftBlockIndex id)).2
      ≤ (parallel_partition.getRightArrayIndex BLOCK_SIZE
          (parallel_partition.create BLOCK_SIZE array N)
          (parallel_partition.getRightBlockIndex id)).1 ∧
    (parallel_partition.getRightArrayIndex BLOCK_SIZE
        (parallel_partition.create BLOCK_SIZE array N)
        (parallel_partition.getRightBlockIndex id)).2 ≤ N := by
  generalize hl : parallel_partition.getLeftBlockIndex id = l
  generalize hr : parallel_partition.getRightBlockIndex id = r
  have hv : l + 1 + (r + 1) ≤ N / BLOCK_SIZE := by
    unfold parallel_partition.validBlockID parallel_partition.create at hvalid
    simp only [decide_eq_true_eq] at hvalid
    rw [hl, hr] at hvalid
    exact hvalid
  have hbN : N / BLOCK_SIZE * BLOCK_SIZE ≤ N := Nat.div_mul_le_self N BLOCK_SIZE
  have h1 : (l + 1) * BLOCK_SIZE ≤ (N / BLOCK_SIZE - 1 - r) * BLOCK_SIZE :=
    Nat.mul_le_mul_right _ (by omega)
  have h2 : (N / BLOCK_SIZE - 1 - r) * BLOCK_SIZE ≤ (N / BLOCK_SIZE - r) * BLOCK_SIZE :=
    Nat.mul_le_mul_right _ (by omega)
  have h3 : (N / BLOCK_SIZE - r) * BLOCK_SIZE ≤ N / BLOCK_SIZE * BLOCK_SIZE :=
    Nat.mul_le_mul_right _ (by omega)
  have h4 : l * BLOCK_SIZE ≤ (l + 1) * BLOCK_SIZE := Nat.mul_le_mul_right _ (by omega)
  have e1 : (N / BLOCK_SIZE - 1 - r) * BLOCK_SIZE + BLOCK_SIZE
      = (N / BLOCK_SIZE - r) * BLOCK_SIZE := by
    have : N / BLOCK_SIZE - r = (N / BLOCK_SIZE - 1 - r) + 1 := by omega
    rw [this, Nat.add_mul, Nat.one_mul]
  have e2 : l * BLOCK_SIZE + BLOCK_SIZE = (l + 1) * BLOCK_SIZE := by
    rw [Nat.add_mul, Nat.one_mul]
  have eL : parallel_partition.getLeftArrayIndex BLOCK_SIZE l
      = (l * BLOCK_SIZE, (l + 1) * BLOCK_SIZE) := by
    unfold parallel_partition.getLeftArrayIndex
    dsimp only
    rw [Nat.mod_eq_of_lt (by omega), e2, Nat.mod_eq_of_lt (by omega)]
  have eR : parallel_partition.getRightArrayIndex BLOCK_SIZE
      (parallel_partition.create BLOCK_SIZE array N) r
      = ((N / BLOCK_SIZE - 1 - r) * BLOCK_SIZE, (N / BLOCK_SIZE - r) * BLOCK_SIZE) := by
    unfold parallel_partition.getRightArrayIndex parallel_partition.create
    dsimp only
    have hdiv := Nat.div_le_self N BLOCK_SIZE
    have e3 : (N / BLOCK_SIZE + 18446744073709551616 - 1 - r) % 18446744073709551616
        = N / BLOCK_SIZE - 1 - r := by
      generalize N / BLOCK_SIZE = B at hv hdiv
      have e4 : B + 18446744073709551616 - 1 - r = (B - 1 - r) + 18446744073709551616 := by
        omega
      rw [e4, Nat.add_mod_right]
      exact Nat.mod_eq_of_lt (by omega)
    rw [e3, Nat.mod_eq_of_lt (by omega), e1, Nat.mod_eq_of_lt (by omega)]
  refine ⟨by show r + 1 ≤ N / BLOCK_SIZE; omega, eL, eR, ?_, ?_⟩
  · rw [eL, eR]; exact h1
  · rw [eR]; exact Nat.le_trans h3 hbN

/-- C26, instance: 18 elements in blocks of 4, the id with left index 1 and
right index 1. -/
theorem valid_block_ranges_witness :
    (18 < 18446744073709551616 ∧
      (parallel_partition.create 4 tailInput 18).validBlockID 4294967297 = true) ∧
    (parallel_partition.getRightBlockIndex 4294967297 + 1
      ≤ (parallel_partition.create 4 tailInput 18).blocks ∧
    parallel_partition.getLeftArrayIndex 4 (parallel_partition.getLeftBlockIndex 4294967297)
      = (parallel_partition.getLeftBlockIndex 4294967297 * 4,
         (parallel_partition.getLeftBlockIndex 4294967297 + 1) * 4) ∧
    parallel_partition.getRightArrayIndex 4
        (parallel_partition.create 4 tailInput 18)
        (parallel_partition.getRightBlockIndex 4294967297)
      = ((18 / 4 - 1 - parallel_partition.getRightBlockIndex 4294967297) * 4,
         (18 / 4 - parallel_partition.getRightBlockIndex 4294967297) * 4) ∧
    (parallel_partition.getLeftArrayIndex 4
        (parallel_partition.getLeftBlockIndex 4294967297)).2
      ≤ (parallel_partition.getRightArrayIndex 4
          (parallel_partition.create 4 tailInput 18)
          (parallel_partition.getRightBlockIndex 4294967297)).1 ∧
    (parallel_partition.getRightArrayIndex 4
        (parallel_partition.create 4 tailInput 18)
        (parallel_partition.getRightBlockIndex 4294967297)).2 ≤ 18) :=
  ⟨⟨by decide, by decide⟩,
    valid_block_ranges 4 tailInput 18 4294967297 (by decide) (by decide)⟩

/-! ## C27: half-edges of a quad -/

/-- C27: when the half-edges at the indices `s, ..., s+3` carry
`start_halfedge_id = s` and `local_halfedge_id = 0, ..., 3`, then for each of
them `next` and `prev` point into `[s, s+3]`, `prev` of `next` and `next` of
`prev` point back at it, four applications of `next` return to it, and
`getEndVertexIndex` is the `vtx_index` of the half-edge `next` points to. -/
theorem halfedge_quad (halfEdges : Nat → HalfEdge) (s k : Nat) (hk : k < 4)
    (hquad : ∀ j, j < 4 → (halfEdges (s + j)).start_halfedge_id = s ∧
      (halfEdges (s + j)).local_halfedge_id = j) :
    (s ≤ (halfEdges (s + k)).next ∧ (halfEdges (s + k)).next ≤ s + 3) ∧
    (s ≤ (halfEdges (s + k)).prev ∧ (halfEdges (s + k)).prev ≤ s + 3) ∧
    (halfEdges (halfEdges (s + k)).next).prev = s + k ∧
    (halfEdges (halfEdges (s + k)).prev).next = s + k ∧
    (halfEdges (halfEdges (halfEdges (halfEdges (s + k)).next).next).next).next = s + k ∧
    (halfEdges (s + k)).getEndVertexIndex halfEdges
      = (halfEdges (s + (k + 1) % 4)).vtx_index := by
  have hnext : ∀ j, j < 4 → (halfEdges (s + j)).next = s + (j + 1) % 4 := by
    intro j hj
    unfold HalfEdge.next
    rw [(hquad j hj).1, (hquad j hj).2]
  have hprev : ∀ j, j < 4 → (halfEdges (s + j)).prev = s + (j + 3) % 4 := by
    intro j hj
    unfold HalfEdge.prev
    rw [(hquad j hj).1, (hquad j hj).2]
  have hm1 : (k + 1) % 4 < 4 := Nat.mod_lt _ (by decide)
  have hm3 : (k + 3) % 4 < 4 := Nat.mod_lt _ (by decide)
  have hm11 : ((k + 1) % 4 + 1) % 4 < 4 := Nat.mod_lt _ (by decide)
  have hm111 : (((k + 1) % 4 + 1) % 4 + 1) % 4 < 4 := Nat.mod_lt _ (by decide)
  refine ⟨⟨?_, ?_⟩, ⟨?_, ?_⟩, ?_, ?_, ?_, ?_⟩
  · rw [hnext k hk]; omega
  · rw [hnext k hk]; omega
  · rw [hprev k hk]; omega
  · rw [hprev k hk]; omega
  · rw [hnext k hk, hprev _ hm1]; omega
  · rw [hprev k hk, hnext _ hm3]; omega
  · rw [hnext k hk, hnext _ hm1, hnext _ hm11, hnext _ hm111]; omega
  · unfold HalfEdge.getEndVertexIndex
    rw [hnext k hk]

theorem quadEdges_quad (j : Nat) (hj : j < 4) :
    (quadEdges (4 + j)).start_halfedge_id = 4 ∧ (quadEdges (4 + j)).local_halfedge_id = j := by
  unfold quadEdges
  dsimp only
  constructor <;> omega

/-- C27, instance: the last half-edge of the second quad of `quadEdges`. -/
theorem halfedge_quad_witness :
    (3 < 4 ∧ ∀ j, j < 4 → (quadEdges (4 + j)).start_halfedge_id = 4 ∧
      (quadEdges (4 + j)).local_halfedge_id = j) ∧
    ((4 ≤ (quadEdges (4 + 3)).next ∧ (quadEdges (4 + 3)).next ≤ 4 + 3) ∧
    (4 ≤ (quadEdges (4 + 3)).prev ∧ (quadEdges (4 + 3)).prev ≤ 4 + 3) ∧
    (quadEdges (quadEdges (4 + 3)).next).prev = 4 + 3 ∧
    (quadEdges (quadEdges (4 + 3)).prev).next = 4 + 3 ∧
    (quadEdges (quadEdges (quadEdges (quadEdges (4 + 3)).next).next).next).next = 4 + 3 ∧
    (quadEdges (4 + 3)).getEndVertexIndex quadEdges
      = (quadEdges (4 + (3 + 1) % 4)).vtx_index) :=
  ⟨⟨by decide, quadEdges_quad⟩, halfedge_quad quadEdges 4 3 (by decide) quadEdges_quad⟩

/-! ## C28: the transposes of `vfloat8` -/

theorem transpose_lanes (r0 r1 r2 r3 : vfloatx) (h : Nat) (hh : h = 0 ∨ h = 4) :
    ((transpose r0 r1 r2 r3).1 (h + 0) = r0 (h + 0) ∧
      (transpose r0 r1 r2 r3).1 (h + 1) = r1 (h + 0) ∧
      (transpose r0 r1 r2 r3).1 (h + 2) = r2 (h + 0) ∧
      (transpose r0 r1 r2 r3).1 (h + 3) = r3 (h + 0)) ∧
    ((transpose r0 r1 r2 r3).2.1 (h + 0) = r0 (h + 1) ∧
      (transpose r0 r1 r2 r3).2.1 (h + 1) = r1 (h + 1) ∧
      (transpose r0 r1 r2 r3).2.1 (h + 2) = r2 (h + 1) ∧
      (transpose r0 r1 r2 r3).2.1 (h + 3) = r3 (h + 1)) ∧
    ((transpose r0 r1 r2 r3).2.2.1 (h + 0) = r0 (h + 2) ∧
      (transpose r0 r1 r2 r3).2.2.1 (h + 1) = r1 (h + 2) ∧
      (transpose r0 r1 r2 r3).2.2.1 (h + 2) = r2 (h + 2) ∧
      (transpose r0 r1 r2 r3).2.2.1 (h + 3) = r3 (h + 2)) ∧
    ((transpose r0 r1 r2 r3).2.2.2 (h + 0) = r0 (h + 3) ∧
      (transpose r0 r1 r2 r3).2.2.2 (h + 1) = r1 (h + 3) ∧
      (transpose r0 r1 r2 r3).2.2.2 (h + 2) = r2 (h + 3) ∧
      (transpose r0 r1 r2 r3).2.2.2 (h + 3) = r3 (h + 3)) := by
  rcases hh with rfl | rfl <;>
    exact ⟨⟨rfl, rfl, rfl, rfl⟩, ⟨rfl, rfl, rfl, rfl⟩, ⟨rfl, rfl, rfl, rfl⟩, ⟨rfl, rfl, rfl, rfl⟩⟩

/-- The columns of the four-row transposes: column `i`, lane `j` of either
128-bit half `h` is lane `i` of that half of row `j`. -/
theorem transpose_spec (r : Nat → vfloatx) (h i j : Nat) (hh : h = 0 ∨ h = 4)
    (hi : i < 4) (hj : j < 4) :
    ([(transpose (r 0) (r 1) (r 2) (r 3)).1, (transpose (r 0) (r 1) (r 2) (r 3)).2.1,
      (transpose (r 0) (r 1) (r 2) (r 3)).2.2.1,
      (transpose (r 0) (r 1) (r 2) (r 3)).2.2.2].getD i (r 0)) (h + j) = r j (h + i) := by
  obtain ⟨⟨a0, a1, a2, a3⟩, ⟨b0, b1, b2, b3⟩, ⟨c0, c1, c2, c3⟩, ⟨d0, d1, d2, d3⟩⟩ :=
    transpose_lanes (r 0) (r 1) (r 2) (r 3) h hh
  interval_cases i <;> interval_cases j <;> assumption

theorem transpose3_eq (r0 r1 r2 r3 : vfloatx) :
    transpose3 r0 r1 r2 r3 = ((transpose r0 r1 r2 r3).1, (transpose r0 r1 r2 r3).2.1,
      (transpose r0 r1 r2 r3).2.2.1) := rfl

/-- The columns of the 8x8 transpose. -/
theorem transpose8_spec (r : Nat → vfloatx) (i j : Nat) (hi : i < 8) (hj : j < 8) :
    ((transpose8 (r 0) (r 1) (r 2) (r 3) (r 4) (r 5) (r 6) (r 7)).getD i (r 0)) j = r j i := by
  have lo := transpose_lanes (r 0) (r 1) (r 2) (r 3)
  have hi4 := transpose_lanes (r 4) (r 5) (r 6) (r 7)
  obtain ⟨⟨a0, a1, a2, a3⟩, ⟨b0, b1, b2, b3⟩, ⟨c0, c1, c2, c3⟩, ⟨d0, d1, d2, d3⟩⟩ :=
    lo 0 (Or.inl rfl)
  obtain ⟨⟨a4, a5, a6, a7⟩, ⟨b4, b5, b6, b7⟩, ⟨c4, c5, c6, c7⟩, ⟨d4, d5, d6, d7⟩⟩ :=
    lo 4 (Or.inr rfl)
  obtain ⟨⟨e0, e1, e2, e3⟩, ⟨f0, f1, f2, f3⟩, ⟨g0, g1, g2, g3⟩, ⟨k0, k1, k2, k3⟩⟩ :=
    hi4 0 (Or.inl rfl)
  obtain ⟨⟨e4, e5, e6, e7⟩, ⟨f4, f5, f6, f7⟩, ⟨g4, g5, g6, g7⟩, ⟨k4, k5, k6, k7⟩⟩ :=
    hi4 4 (Or.inr rfl)
  interval_cases i <;> interval_cases j <;>
    first
      | exact a0 | exact a1 | exact a2 | exact a3 | exact a4 | exact a5 | exact a6 | exact a7
      | exact b0 | exact b1 | exact b2 | exact b3 | exact b4 | exact b5 | exact b6 | exact b7
      | exact c0 | exact c1 | exact c2 | exact c3 | exact c4 | exact c5 | exact c6 | exact c7
      | exact d0 | exact d1 | exact d2 | exact d3 | exact d4 | exact d5 | exact d6 | exact d7
      | exact e0 | exact e1 | exact e2 | exact e3 | exact e4 | exact e5 | exact e6 | exact e7
      | exact f0 | exact f1 | exact f2 | exact f3 | exact f4 | exact f5 | exact f6 | exact f7
      | exact g0 | exact g1 | exact g2 | exact g3 | exact g4 | exact g5 | exact g6 | exact g7
      | exact k0 | exact k1 | exact k2 | exact k3 | exact k4 | exact k5 | exact k6 | exact k7

/-- C28: the 8x8 `transpose` is a matrix transpose: lane `j` of column `c_i`
is lane `i` of row `r_j`, so transposing the columns again gives back the
rows; for the four-row variants (with four and with three columns) lane `j`
of `c_i` is lane `i` of `r_j` and lane `4+j` of `c_i` is lane `4+i` of `r_j`. -/
theorem transpose_is_transpose (r : Nat → vfloatx) (i j : Nat) (hi : i < 8) (hj : j < 8) :
    ((transpose8 (r 0) (r 1) (r 2) (r 3) (r 4) (r 5) (r 6) (r 7)).getD i (r 0)) j = r j i ∧
    ((transpose8
        ((transpose8 (r 0) (r 1) (r 2) (r 3) (r 4) (r 5) (r 6) (r 7)).getD 0 (r 0))
        ((transpose8 (r 0) (r 1) (r 2) (r 3) (r 4) (r 5) (r 6) (r 7)).getD 1 (r 0))
        ((transpose8 (r 0) (r 1) (r 2) (r 3) (r 4) (r 5) (r 6) (r 7)).getD 2 (r 0))
        ((transpose8 (r 0) (r 1) (r 2) (r 3) (r 4) (r 5) (r 6) (r 7)).getD 3 (r 0))
        ((transpose8 (r 0) (r 1) (r 2) (r 3) (r 4) (r 5) (r 6) (r 7)).getD 4 (r 0))
        ((transpose8 (r 0) (r 1) (r 2) (r 3) (r 4) (r 5) (r 6) (r 7)).getD 5 (r 0))
        ((transpose8 (r 0) (r 1) (r 2) (r 3) (r 4) (r 5) (r 6) (r 7)).getD 6 (r 0))
        ((transpose8 (r 0) (r 1) (r 2) (r 3) (r 4) (r 5) (r 6) (r 7)).getD 7 (r 0))).getD i
          ((transpose8 (r 0) (r 1) (r 2) (r 3) (r 4) (r 5) (r 6) (r 7)).getD 0 (r 0))) j
      = r i j ∧
    (i < 4 → j < 4 →
      ([(transpose (r 0) (r 1) (r 2) (r 3)).1, (transpose (r 0) (r 1) (r 2) (r 3)).2.1,
        (transpose (r 0) (r 1) (r 2) (r 3)).2.2.1,
        (transpose (r 0) (r 1) (r 2) (r 3)).2.2.2].getD i (r 0)) j = r j i ∧
      ([(transpose (r 0) (r 1) (r 2) (r 3)).1, (transpose (r 0) (r 1) (r 2) (r 3)).2.1,
        (transpose (r 0) (r 1) (r 2) (r 3)).2.2.1,
        (transpose (r 0) (r 1) (r 2) (r 3)).2.2.2].getD i (r 0)) (4 + j) = r j (4 + i)) ∧
    (i < 3 → j < 4 →
      ([(transpose3 (r 0) (r 1) (r 2) (r 3)).1, (transpose3 (r 0) (r 1) (r 2) (r 3)).2.1,
        (transpose3 (r 0) (r 1) (r 2) (r 3)).2.2].getD i (r 0)) j = r j i ∧
      ([(transpose3 (r 0) (r 1) (r 2) (r 3)).1, (transpose3 (r 0) (r 1) (r 2) (r 3)).2.1,
        (transpose3 (r 0) (r 1) (r 2) (r 3)).2.2].getD i (r 0)) (4 + j) = r j (4 + i)) := by
  refine ⟨transpose8_spec r i j hi hj, ?_, ?_, ?_⟩
  · have h1 := transpose8_spec
      (fun q => (transpose8 (r 0) (r 1) (r 2) (r 3) (r 4) (r 5) (r 6) (r 7)).getD q (r 0))
      i j hi hj
    rw [h1]
    exact transpose8_spec r j i hj hi
  · intro hi4 hj4
    have h0 := transpose_spec r 0 i j (Or.inl rfl) hi4 hj4
    have h4 := transpose_spec r 4 i j (Or.inr rfl) hi4 hj4
    rw [Nat.zero_add, Nat.zero_add] at h0
    exact ⟨h0, h4⟩
  · intro hi3 hj4
    have h0 := transpose_spec r 0 i j (Or.inl rfl) (by omega) hj4
    have h4 := transpose_spec r 4 i j (Or.inr rfl) (by omega) hj4
    rw [Nat.zero_add, Nat.zero_add] at h0
    rw [transpose3_eq]
    interval_cases i
    · exact ⟨h0, h4⟩
    · exact ⟨h0, h4⟩
    · exact ⟨h0, h4⟩

/-- C28, instance: entry (2, 3) of the matrix `gridRows`. -/
theorem transpose_is_transpose_witness :
    (2 < 8 ∧ 3 < 8) ∧
    (((transpose8 (gridRows 0) (gridRows 1) (gridRows 2) (gridRows 3) (gridRows 4)
        (gridRows 5) (gridRows 6) (gridRows 7)).getD 2 (gridRows 0)) 3 = gridRows 3 2 ∧
    ((transpose8
        ((transpose8 (gridRows 0) (gridRows 1) (gridRows 2) (gridRows 3) (gridRows 4)
          (gridRows 5) (gridRows 6) (gridRows 7)).getD 0 (gridRows 0))
        ((transpose8 (gridRows 0) (gridRows 1) (gridRows 2) (gridRows 3) (gridRows 4)
          (gridRows 5) (gridRows 6) (gridRows 7)).getD 1 (gridRows 0))
        ((transpose8 (gridRows 0) (gridRows 1) (gridRows 2) (gridRows 3) (gridRows 4)
          (gridRows 5) (gridRows 6) (gridRows 7)).getD 2 (gridRows 0))
        ((transpose8 (gridRows 0) (gridRows 1) (gridRows 2) (gridRows 3) (gridRows 4)
          (gridRows 5) (gridRows 6) (gridRows 7)).getD 3 (gridRows 0))
        ((transpose8 (gridRows 0) (gridRows 1) (gridRows 2) (gridRows 3) (gridRows 4)
          (gridRows 5) (gridRows 6) (gridRows 7)).getD 4 (gridRows 0))
        ((transpose8 (gridRows 0) (gridRows 1) (gridRows 2) (gridRows 3) (gridRows 4)
          (gridRows 5) (gridRows 6) (gridRows 7)).getD 5 (gridRows 0))
        ((transpose8 (gridRows 0) (gridRows 1) (gridRows 2) (gridRows 3) (gridRows 4)
          (gridRows 5) (gridRows 6) (gridRows 7)).getD 6 (gridRows 0))
        ((transpose8 (gridRows 0) (gridRows 1) (gridRows 2) (gridRows 3) (gridRows 4)
          (gridRows 5) (gridRows 6) (gridRows 7)).getD 7 (gridRows 0))).getD 2
          ((transpose8 (gridRows 0) (gridRows 1) (gridRows 2) (gridRows 3) (gridRows 4)
            (gridRows 5) (gridRows 6) (gridRows 7)).getD 0 (gridRows 0))) 3
      = gridRows 2 3 ∧
    (2 < 4 → 3 < 4 →
      ([(transpose (gridRows 0) (gridRows 1) (gridRows 2) (gridRows 3)).1,
        (transpose (gridRows 0) (gridRows 1) (gridRows 2) (gridRows 3)).2.1,
        (transpose (gridRows 0) (gridRows 1) (gridRows 2) (gridRows 3)).2.2.1,
        (transpose (gridRows 0) (gridRows 1) (gridRows 2) (gridRows 3)).2.2.2].getD 2
          (gridRows 0)) 3 = gridRows 3 2 ∧
      ([(transpose (gridRows 0) (gridRows 1) (gridRows 2) (gridRows 3)).1,
        (transpose (gridRows 0) (gridRows 1) (gridRows 2) (gridRows 3)).2.1,
        (transpose (gridRows 0) (gridRows 1) (gridRows 2) (gridRows 3)).2.2.1,
        (transpose (gridRows 0) (gridRows 1) (gridRows 2) (gridRows 3)).2.2.2].getD 2
          (gridRows 0)) (4 + 3) = gridRows 3 (4 + 2)) ∧
    (2 < 3 → 3 < 4 →
      ([(transpose3 (gridRows 0) (gridRows 1) (gridRows 2) (gridRows 3)).1,
        (transpose3 (gridRows 0) (gridRows 1) (gridRows 2) (gridRows 3)).2.1,
        (transpose3 (gridRows 0) (gridRows 1) (gridRows 2) (gridRows 3)).2.2].getD 2
          (gridRows 0)) 3 = gridRows 3 2 ∧
      ([(transpose3 (gridRows 0) (gridRows 1) (gridRows 2) (gridRows 3)).1,
        (transpose3 (gridRows 0) (gridRows 1) (gridRows 2) (gridRows 3)).2.1,
        (transpose3 (gridRows 0) (gridRows 1) (gridRows 2) (gridRows 3)).2.2].getD 2
          (gridRows 0)) (4 + 3) = gridRows 3 (4 + 2))) :=
  ⟨⟨by decide, by decide⟩, transpose_is_transpose gridRows 2 3 (by decide) (by decide)⟩

/-! ## C29: reductions and `select_min` / `select_max` of `vfloat8` -/

theorem float.le_trans {a b c : float} (h1 : float.le a b = true) (h2 : float.le b c = true) :
    float.le a c = true := by
  unfold float.le at h1 h2 ⊢
  simp only [Bool.and_eq_true, Bool.not_eq_true', decide_eq_true_eq] at h1 h2 ⊢
  exact ⟨⟨h1.1.1, h2.1.2⟩, by omega⟩

theorem float.le_refl {a : float} (h : a.isNaN = false) : float.le a a = true := by
  unfold float.le
  simp [h]

theorem float.le_of_not_lt {a b : float} (ha : a.isNaN = false) (hb : b.isNaN = false)
    (h : float.lt a b = false) : float.le b a = true := by
  unfold float.lt at h
  unfold float.le
  simp only [ha, hb, Bool.not_false, Bool.true_and, decide_eq_false_iff_not,
    decide_eq_true_eq] at h ⊢
  omega

theorem float.le_of_lt {a b : float} (h : float.lt a b = true) : float.le a b = true := by
  unfold float.lt at h
  unfold float.le
  simp only [Bool.and_eq_true, Bool.not_eq_true', decide_eq_true_eq] at h ⊢
  exact ⟨h.1, by omega⟩

theorem float.notNaN_of_le {a b : float} (h : float.le a b = true) :
    a.isNaN = false ∧ b.isNaN = false := by
  unfold float.le at h
  simp only [Bool.and_eq_true, Bool.not_eq_true', decide_eq_true_eq] at h
  exact h.1

theorem float.ge_iff_le (a b : float) : float.ge a b = float.le b a := by
  unfold float.ge float.le
  cases a.isNaN <;> cases b.isNaN <;> simp

theorem float.gt_iff_lt (a b : float) : float.gt a b = float.lt b a := by
  unfold float.gt float.lt
  cases a.isNaN <;> cases b.isNaN <;> simp

theorem lowerIn_single (v : vfloatx) (k : Nat) (h : (v k).isNaN = false) :
    lowerIn v [k] (v k) :=
  ⟨⟨k, List.mem_singleton.2 rfl, rfl⟩,
    fun j hj => by rw [List.mem_singleton.1 hj]; exact float.le_refl h⟩

theorem lowerIn_min (v : vfloatx) (J K : List Nat) (x y : float)
    (hx : lowerIn v J x) (hy : lowerIn v K y) : lowerIn v (J ++ K) (float.min x y) := by
  obtain ⟨⟨jx, hjx, ex⟩, lx⟩ := hx
  obtain ⟨⟨jy, hjy, ey⟩, ly⟩ := hy
  have nx := (float.notNaN_of_le (lx jx hjx)).1
  have ny := (float.notNaN_of_le (ly jy hjy)).1
  unfold float.min
  cases hlt : float.lt x y
  · have hle := float.le_of_not_lt nx ny hlt
    simp only [Bool.false_eq_true, if_false]
    refine ⟨⟨jy, List.mem_append.2 (Or.inr hjy), ey⟩, fun j hj => ?_⟩
    rcases List.mem_append.1 hj with h | h
    · exact float.le_trans hle (lx j h)
    · exact ly j h
  · have hle := float.le_of_lt hlt
    simp only [if_true]
    refine ⟨⟨jx, List.mem_append.2 (Or.inl hjx), ex⟩, fun j hj => ?_⟩
    rcases List.mem_append.1 hj with h | h
    · exact lx j h
    · exact float.le_trans hle (ly j h)

theorem upperIn_single (v : vfloatx) (k : Nat) (h : (v k).isNaN = false) :
    upperIn v [k] (v k) :=
  ⟨⟨k, List.mem_singleton.2 rfl, rfl⟩,
    fun j hj => by
      rw [List.mem_singleton.1 hj, float.ge_iff_le]; exact float.le_refl h⟩

theorem upperIn_max (v : vfloatx) (J K : List Nat) (x y : float)
    (hx : upperIn v J x) (hy : upperIn v K y) : upperIn v (J ++ K) (float.max x y) := by
  obtain ⟨⟨jx, hjx, ex⟩, lx⟩ := hx
  obtain ⟨⟨jy, hjy, ey⟩, ly⟩ := hy
  have nx : x.isNaN = false := by
    have := lx jx hjx; rw [float.ge_iff_le] at this; exact (float.notNaN_of_le this).2
  have ny : y.isNaN = false := by
    have := ly jy hjy; rw [float.ge_iff_le] at this; exact (float.notNaN_of_le this).2
  unfold float.max
  cases hgt : float.gt x y
  · rw [float.gt_iff_lt] at hgt
    have hle := float.le_of_not_lt ny nx hgt
    simp only [Bool.false_eq_true, if_false]
    refine ⟨⟨jy, List.mem_append.2 (Or.inr hjy), ey⟩, fun j hj => ?_⟩
    rcases List.mem_append.1 hj with h | h
    · have := lx j h
      rw [float.ge_iff_le] at this ⊢
      exact float.le_trans this hle
    · exact ly j h
  · rw [float.gt_iff_lt] at hgt
    have hle := float.le_of_lt hgt
    simp only [if_true]
    refine ⟨⟨jx, List.mem_append.2 (Or.inl hjx), ex⟩, fun j hj => ?_⟩
    rcases List.mem_append.1 hj with h | h
    · exact lx j h
    · have := ly j h
      rw [float.ge_iff_le] at this ⊢
      exact float.le_trans this hle

/-- Every lane of `vreduce_min(v)` is a lane of `v` that is not above any of
the eight lanes. -/
theorem vreduce_min_spec (v : vfloatx) (hv : ∀ j, j < 8 → (v j).isNaN = false)
    (k : Nat) (hk : k < 8) : lowerIn v (List.range 8) (vreduce_min v k) := by
  have h2 : ∀ q, q < 8 → lowerIn v [q, q / 4 * 4 +
      (if q % 4 = 0 then 1 else if q % 4 = 1 then 0 else if q % 4 = 2 then 3 else 2)]
      (vreduce_min2 v q) := by
    intro q hq
    exact lowerIn_min v [q] [_] _ _ (lowerIn_single v q (hv q hq))
      (lowerIn_single v _ (hv _ (by interval_cases q <;> decide)))
  have h4 : ∀ q, q < 8 → lowerIn v [q / 4 * 4, q / 4 * 4 + 1, q / 4 * 4 + 2, q / 4 * 4 + 3]
      (vreduce_min4 v q) := by
    intro q hq
    have a := h2 q hq
    have b := h2 (q / 4 * 4 +
      (if q % 4 = 0 then 2 else if q % 4 = 1 then 3 else if q % 4 = 2 then 0 else 1))
      (by interval_cases q <;> decide)
    have c := lowerIn_min v _ _ _ _ a b
    refine ⟨?_, fun j hj => c.2 j ?_⟩
    · obtain ⟨j, hj, e⟩ := c.1
      refine ⟨j, ?_, e⟩
      interval_cases q <;> simp at hj ⊢ <;> omega
    · interval_cases q <;> simp at hj ⊢ <;> omega
  have a := h4 k hk
  have b := h4 (if k < 4 then 4 + k else 4 + (k - 4) - 4 + 0) (by interval_cases k <;> decide)
  have hshape : vreduce_min v k = float.min (vreduce_min4 v k)
      (vreduce_min4 v (if k < 4 then 4 + k else 4 + (k - 4) - 4 + 0)) := by
    interval_cases k <;> rfl
  rw [hshape]
  have c := lowerIn_min v _ _ _ _ a b
  refine ⟨?_, fun j hj => c.2 j ?_⟩
  · obtain ⟨j, hj, e⟩ := c.1
    refine ⟨j, ?_, e⟩
    interval_cases k <;> simp at hj ⊢ <;> omega
  · have hj8 := List.mem_range.1 hj
    interval_cases k <;> simp <;> omega

/-- Every lane of `vreduce_max(v)` is a lane of `v` that is not below any of
the eight lanes. -/
theorem vreduce_max_spec (v : vfloatx) (hv : ∀ j, j < 8 → (v j).isNaN = false)
    (k : Nat) (hk : k < 8) : upperIn v (List.range 8) (vreduce_max v k) := by
  have h2 : ∀ q, q < 8 → upperIn v [q, q / 4 * 4 +
      (if q % 4 = 0 then 1 else if q % 4 = 1 then 0 else if q % 4 = 2 then 3 else 2)]
      (vreduce_max2 v q) := by
    intro q hq
    exact upperIn_max v [q] [_] _ _ (upperIn_single v q (hv q hq))
      (upperIn_single v _ (hv _ (by interval_cases q <;> decide)))
  have h4 : ∀ q, q < 8 → upperIn v [q / 4 * 4, q / 4 * 4 + 1, q / 4 * 4 + 2, q / 4 * 4 + 3]
      (vreduce_max4 v q) := by
    intro q hq
    have a := h2 q hq
    have b := h2 (q / 4 * 4 +
      (if q % 4 = 0 then 2 else if q % 4 = 1 then 3 else if q % 4 = 2 then 0 else 1))
      (by interval_cases q <;> decide)
    have c := upperIn_max v _ _ _ _ a b
    refine ⟨?_, fun j hj => c.2 j ?_⟩
    · obtain ⟨j, hj, e⟩ := c.1
      refine ⟨j, ?_, e⟩
      interval_cases q <;> simp at hj ⊢ <;> omega
    · interval_cases q <;> simp at hj ⊢ <;> omega
  have a := h4 k hk
  have b := h4 (if k < 4 then 4 + k else 4 + (k - 4) - 4 + 0) (by interval_cases k <;> decide)
  have hshape : vreduce_max v k = float.max (vreduce_max4 v k)
      (vreduce_max4 v (if k < 4 then 4 + k else 4 + (k - 4) - 4 + 0)) := by
    interval_cases k <;> rfl
  rw [hshape]
  have c := upperIn_max v _ _ _ _ a b
  refine ⟨?_, fun j hj => c.2 j ?_⟩
  · obtain ⟨j, hj, e⟩ := c.1
    refine ⟨j, ?_, e⟩
    interval_cases k <;> simp at hj ⊢ <;> omega
  · have hj8 := List.mem_range.1 hj
    interval_cases k <;> simp <;> omega

theorem float.le_pos_inf {a : float} (h : a.isNaN = false) :
    float.le a float.pos_inf = true := by
  have hinf : float.pos_inf.isNaN = false := by decide
  have hk : float.pos_inf.key = 2139095040 := by decide
  unfold float.le
  rw [h, hinf, hk]
  unfold float.isNaN at h
  simp only [decide_eq_false_iff_not, Nat.not_lt] at h
  unfold float.key
  split <;> simp <;> omega

theorem float.neg_inf_le {a : float} (h : a.isNaN = false) :
    float.le float.neg_inf a = true := by
  have hinf : float.neg_inf.isNaN = false := by decide
  have hk : float.neg_inf.key = -2139095040 := by decide
  unfold float.le
  rw [h, hinf, hk]
  unfold float.isNaN at h
  simp only [decide_eq_false_iff_not, Nat.not_lt] at h
  unfold float.key
  split <;> simp <;> omega

theorem float.eq_iff_le_le (a b : float) :
    float.eq a b = true ↔ float.le a b = true ∧ float.le b a = true := by
  unfold float.eq float.le
  cases a.isNaN <;> cases b.isNaN <;> simp
  omega

/-- The lowest set bit of the movemask of a non-empty 8-lane mask is the first
lane of the mask. -/
theorem bsf_movemask_bits : ∀ b0 b1 b2 b3 b4 b5 b6 b7 : Bool,
    (b0 || b1 || b2 || b3 || b4 || b5 || b6 || b7) = true →
    bsf (movemask (maskOfBits b0 b1 b2 b3 b4 b5 b6 b7)) < 8 ∧
    maskOfBits b0 b1 b2 b3 b4 b5 b6 b7
      (bsf (movemask (maskOfBits b0 b1 b2 b3 b4 b5 b6 b7))) = true ∧
    ∀ i, i < bsf (movemask (maskOfBits b0 b1 b2 b3 b4 b5 b6 b7)) →
      maskOfBits b0 b1 b2 b3 b4 b5 b6 b7 i = false := by
  decide

theorem movemask_congr (m m' : vboolx) (h : ∀ k, k < 8 → m k = m' k) :
    movemask m = movemask m' := by
  have hr : List.range 8 = [0, 1, 2, 3, 4, 5, 6, 7] := by decide
  unfold movemask
  rw [hr]
  simp only [List.foldl]
  rw [h 0 (by decide), h 1 (by decide), h 2 (by decide), h 3 (by decide), h 4 (by decide),
    h 5 (by decide), h 6 (by decide), h 7 (by decide)]

/-- The call `__bsf(movemask(m))` on a mask with a lane set among the eight:
the index of its first lane. -/
theorem bsf_movemask (m : vboolx) (i0 : Nat) (hi0 : i0 < 8) (hm : m i0 = true) :
    bsf (movemask m) < 8 ∧ m (bsf (movemask m)) = true ∧
    ∀ i, i < bsf (movemask m) → m i = false := by
  have hc : movemask m = movemask (maskOfBits (m 0) (m 1) (m 2) (m 3) (m 4) (m 5) (m 6) (m 7)) :=
    movemask_congr _ _ (fun k hk => by interval_cases k <;> rfl)
  have hne : (m 0 || m 1 || m 2 || m 3 || m 4 || m 5 || m 6 || m 7) = true := by
    interval_cases i0 <;> simp [hm]
  obtain ⟨h1, h2, h3⟩ := bsf_movemask_bits (m 0) (m 1) (m 2) (m 3) (m 4) (m 5) (m 6) (m 7) hne
  rw [← hc] at h1 h2 h3
  have hlane : ∀ k, k < 8 →
      maskOfBits (m 0) (m 1) (m 2) (m 3) (m 4) (m 5) (m 6) (m 7) k = m k := by
    intro k hk
    interval_cases k <;> rfl
  refine ⟨h1, by rw [← hlane _ h1]; exact h2, fun i hi => ?_⟩
  rw [← hlane i (by omega)]
  exact h3 i hi

/-- The lanes of the mask `valid & (a == vreduce_min(a))` of `select_min`:
the valid lanes that are not above any valid lane. -/
theorem select_min_mask (valid : vboolx) (v : vfloatx)
    (hv : ∀ j, j < 8 → (v j).isNaN = false) (k : Nat) (hk : k < 8) :
    vand valid (veq (vselectf valid v (vfloatx.broadcast float.pos_inf))
        (vreduce_min (vselectf valid v (vfloatx.broadcast float.pos_inf)))) k = true ↔
      (valid k = true ∧ ∀ j, j < 8 → valid j = true → float.le (v k) (v j) = true) := by
  have hinf : float.pos_inf.isNaN = false := by decide
  have ha : ∀ j, j < 8 →
      (vselectf valid v (vfloatx.broadcast float.pos_inf) j).isNaN = false := by
    intro j hj
    unfold vselectf vfloatx.broadcast
    split
    · exact hv j hj
    · exact hinf
  obtain ⟨⟨j0, hj0, e⟩, hle⟩ :=
    vreduce_min_spec (vselectf valid v (vfloatx.broadcast float.pos_inf)) ha k hk
  have hj0' := List.mem_range.1 hj0
  have hsel : ∀ j, valid j = true →
      vselectf valid v (vfloatx.broadcast float.pos_inf) j = v j := by
    intro j hj; unfold vselectf; rw [if_pos hj]
  unfold vand veq
  rw [Bool.and_eq_true, float.eq_iff_le_le]
  constructor
  · rintro ⟨hvk, h1, -⟩
    refine ⟨hvk, fun j hj hvj => ?_⟩
    rw [hsel k hvk] at h1
    have := hle j (List.mem_range.2 hj)
    rw [hsel j hvj] at this
    exact float.le_trans h1 this
  · rintro ⟨hvk, hmin⟩
    refine ⟨hvk, ?_, ?_⟩
    · rw [hsel k hvk, e]
      by_cases hvj0 : valid j0 = true
      · rw [hsel j0 hvj0]; exact hmin j0 hj0' hvj0
      · have : vselectf valid v (vfloatx.broadcast float.pos_inf) j0 = float.pos_inf := by
          unfold vselectf vfloatx.broadcast; rw [if_neg hvj0]
        rw [this]
        exact float.le_pos_inf (hv k hk)
    · exact hle k (List.mem_range.2 hk)

/-- The lanes of the mask `valid & (a == vreduce_max(a))` of `select_max`:
the valid lanes that are not below any valid lane. -/
theorem select_max_mask (valid : vboolx) (v : vfloatx)
    (hv : ∀ j, j < 8 → (v j).isNaN = false) (k : Nat) (hk : k < 8) :
    vand valid (veq (vselectf valid v (vfloatx.broadcast float.neg_inf))
        (vreduce_max (vselectf valid v (vfloatx.broadcast float.neg_inf)))) k = true ↔
      (valid k = true ∧ ∀ j, j < 8 → valid j = true → float.ge (v k) (v j) = true) := by
  have hinf : float.neg_inf.isNaN = false := by decide
  have ha : ∀ j, j < 8 →
      (vselectf valid v (vfloatx.broadcast float.neg_inf) j).isNaN = false := by
    intro j hj
    unfold vselectf vfloatx.broadcast
    split
    · exact hv j hj
    · exact hinf
  obtain ⟨⟨j0, hj0, e⟩, hle⟩ :=
    vreduce_max_spec (vselectf valid v (vfloatx.broadcast float.neg_inf)) ha k hk
  have hj0' := List.mem_range.1 hj0
  have hsel : ∀ j, valid j = true →
      vselectf valid v (vfloatx.broadcast float.neg_inf) j = v j := by
    intro j hj; unfold vselectf; rw [if_pos hj]
  unfold vand veq
  rw [Bool.and_eq_true, float.eq_iff_le_le]
  constructor
  · rintro ⟨hvk, -, h1⟩
    refine ⟨hvk, fun j hj hvj => ?_⟩
    rw [hsel k hvk] at h1
    have := hle j (List.mem_range.2 hj)
    rw [hsel j hvj, float.ge_iff_le] at this
    rw [float.ge_iff_le]
    exact float.le_trans this h1
  · rintro ⟨hvk, hmax⟩
    refine ⟨hvk, ?_, ?_⟩
    · have := hle k (List.mem_range.2 hk)
      rw [float.ge_iff_le] at this
      exact this
    · rw [hsel k hvk, e]
      by_cases hvj0 : valid j0 = true
      · rw [hsel j0 hvj0]
        have := hmax j0 hj0' hvj0
        rw [float.ge_iff_le] at this
        exact this
      · have : vselectf valid v (vfloatx.broadcast float.neg_inf) j0 = float.neg_inf := by
          unfold vselectf vfloatx.broadcast; rw [if_neg hvj0]
        rw [this]
        exact float.neg_inf_le (hv k hk)

/-- A non-empty mask has a valid lane that is not above any valid lane. -/
theorem exists_min_lane (valid : vboolx) (v : vfloatx)
    (hv : ∀ j, j < 8 → (v j).isNaN = false) (n : Nat) (hn : n ≤ 8) :
    (∃ i, i < n ∧ valid i = true) →
    ∃ k, k < n ∧ valid k = true ∧
      ∀ j, j < n → valid j = true → float.le (v k) (v j) = true := by
  induction n with
  | zero => rintro ⟨i, hi, -⟩; omega
  | succ n ih =>
    rintro ⟨i, hi, hvi⟩
    by_cases hrest : ∃ i, i < n ∧ valid i = true
    · obtain ⟨k, hk, hvk, hmin⟩ := ih (by omega) hrest
      by_cases hvn : valid n = true
      · cases hlt : float.lt (v n) (v k)
        · have hle := float.le_of_not_lt (hv n (by omega)) (hv k (by omega)) hlt
          refine ⟨k, by omega, hvk, fun j hj hvj => ?_⟩
          by_cases hjn : j = n
          · subst hjn; exact hle
          · exact hmin j (by omega) hvj
        · have hle := float.le_of_lt hlt
          refine ⟨n, by omega, hvn, fun j hj hvj => ?_⟩
          by_cases hjn : j = n
          · subst hjn; exact float.le_refl (hv j (by omega))
          · exact float.le_trans hle (hmin j (by omega) hvj)
      · refine ⟨k, by omega, hvk, fun j hj hvj => ?_⟩
        by_cases hjn : j = n
        · subst hjn; exact absurd hvj hvn
        · exact hmin j (by omega) hvj
    · have hin : i = n := by
        by_cases h : i < n
        · exact absurd ⟨i, h, hvi⟩ hrest
        · omega
      subst hin
      refine ⟨i, by omega, hvi, fun j hj hvj => ?_⟩
      by_cases hjn : j = i
      · subst hjn; exact float.le_refl (hv j (by omega))
      · exact absurd ⟨j, by omega, hvj⟩ hrest

/-- A non-empty mask has a valid lane that is not below any valid lane. -/
theorem exists_max_lane (valid : vboolx) (v : vfloatx)
    (hv : ∀ j, j < 8 → (v j).isNaN = false) (n : Nat) (hn : n ≤ 8) :
    (∃ i, i < n ∧ valid i = true) →
    ∃ k, k < n ∧ valid k = true ∧
      ∀ j, j < n → valid j = true → float.ge (v k) (v j) = true := by
  induction n with
  | zero => rintro ⟨i, hi, -⟩; omega
  | succ n ih =>
    rintro ⟨i, hi, hvi⟩
    by_cases hrest : ∃ i, i < n ∧ valid i = true
    · obtain ⟨k, hk, hvk, hmax⟩ := ih (by omega) hrest
      by_cases hvn : valid n = true
      · cases hlt : float.lt (v k) (v n)
        · have hle := float.le_of_not_lt (hv k (by omega)) (hv n (by omega)) hlt
          refine ⟨k, by omega, hvk, fun j hj hvj => ?_⟩
          by_cases hjn : j = n
          · subst hjn; rw [float.ge_iff_le]; exact hle
          · exact hmax j (by omega) hvj
        · have hle := float.le_of_lt hlt
          refine ⟨n, by omega, hvn, fun j hj hvj => ?_⟩
          rw [float.ge_iff_le]
          by_cases hjn : j = n
          · subst hjn; exact float.le_refl (hv j (by omega))
          · have := hmax j (by omega) hvj
            rw [float.ge_iff_le] at this
            exact float.le_trans this hle
      · refine ⟨k, by omega, hvk, fun j hj hvj => ?_⟩
        by_cases hjn : j = n
        · subst hjn; exact absurd hvj hvn
        · exact hmax j (by omega) hvj
    · have hin : i = n := by
        by_cases h : i < n
        · exact absurd ⟨i, h, hvi⟩ hrest
        · omega
      subst hin
      refine ⟨i, by omega, hvi, fun j hj hvj => ?_⟩
      by_cases hjn : j = i
      · subst hjn; rw [float.ge_iff_le]; exact float.le_refl (hv j (by omega))
      · exact absurd ⟨j, by omega, hvj⟩ hrest

/-- C29: for a mask with a lane set among the eight and a vector without NaN
in its eight lanes, `select_min(valid, v)` is the smallest index `i` of a
valid lane with `v[i] <= v[j]` for every valid lane `j`, and every lane of
`vreduce_min(v)` is a lane of `v` that is `<=` each of the eight lanes
(so the eight lanes compare equal); `select_max` and `vreduce_max` are the
same with `>=`. -/
theorem select_min_max_spec (valid : vboolx) (v : vfloatx)
    (hv : ∀ j, j < 8 → (v j).isNaN = false) (hvalid : ∃ i, i < 8 ∧ valid i = true) :
    (select_min valid v < 8 ∧ valid (select_min valid v) = true ∧
      (∀ j, j < 8 → valid j = true → float.le (v (select_min valid v)) (v j) = true) ∧
      (∀ i, i < select_min valid v →
        ¬ (valid i = true ∧ ∀ j, j < 8 → valid j = true → float.le (v i) (v j) = true))) ∧
    (∀ k, k < 8 → (∃ j, j < 8 ∧ vreduce_min v k = v j) ∧
      (∀ j, j < 8 → float.le (vreduce_min v k) (v j) = true) ∧
      (∀ k', k' < 8 → float.eq (vreduce_min v k) (vreduce_min v k') = true)) ∧
    (select_max valid v < 8 ∧ valid (select_max valid v) = true ∧
      (∀ j, j < 8 → valid j = true → float.ge (v (select_max valid v)) (v j) = true) ∧
      (∀ i, i < select_max valid v →
        ¬ (valid i = true ∧ ∀ j, j < 8 → valid j = true → float.ge (v i) (v j) = true))) ∧
    (∀ k, k < 8 → (∃ j, j < 8 ∧ vreduce_max v k = v j) ∧
      (∀ j, j < 8 → float.ge (vreduce_max v k) (v j) = true) ∧
      (∀ k', k' < 8 → float.eq (vreduce_max v k) (vreduce_max v k') = true)) := by
  refine ⟨?_, ?_, ?_, ?_⟩
  · obtain ⟨k0, hk0, hvk0, hmin0⟩ := exists_min_lane valid v hv 8 (Nat.le_refl 8) hvalid
    have hm0 := (select_min_mask valid v hv k0 hk0).2 ⟨hvk0, hmin0⟩
    obtain ⟨h1, h2, h3⟩ := bsf_movemask _ k0 hk0 hm0
    have h2' := (select_min_mask valid v hv _ h1).1 h2
    refine ⟨h1, h2'.1, h2'.2, fun i hi hcon => ?_⟩
    have hi8 : i < 8 := Nat.lt_trans hi h1
    have := (select_min_mask valid v hv i hi8).2 hcon
    rw [h3 i hi] at this
    exact absurd this (by decide)
  · intro k hk
    obtain ⟨⟨j0, hj0, e⟩, hle⟩ := vreduce_min_spec v hv k hk
    refine ⟨⟨j0, List.mem_range.1 hj0, e⟩, fun j hj => hle j (List.mem_range.2 hj),
      fun k' hk' => ?_⟩
    obtain ⟨⟨j1, hj1, e1⟩, hle1⟩ := vreduce_min_spec v hv k' hk'
    rw [float.eq_iff_le_le]
    constructor
    · rw [e1]; exact hle j1 hj1
    · rw [e]; exact hle1 j0 hj0
  · obtain ⟨k0, hk0, hvk0, hmax0⟩ := exists_max_lane valid v hv 8 (Nat.le_refl 8) hvalid
    have hm0 := (select_max_mask valid v hv k0 hk0).2 ⟨hvk0, hmax0⟩
    obtain ⟨h1, h2, h3⟩ := bsf_movemask _ k0 hk0 hm0
    have h2' := (select_max_mask valid v hv _ h1).1 h2
    refine ⟨h1, h2'.1, h2'.2, fun i hi hcon => ?_⟩
    have hi8 : i < 8 := Nat.lt_trans hi h1
    have := (select_max_mask valid v hv i hi8).2 hcon
    rw [h3 i hi] at this
    exact absurd this (by decide)
  · intro k hk
    obtain ⟨⟨j0, hj0, e⟩, hle⟩ := vreduce_max_spec v hv k hk
    refine ⟨⟨j0, List.mem_range.1 hj0, e⟩, fun j hj => hle j (List.mem_range.2 hj),
      fun k' hk' => ?_⟩
    obtain ⟨⟨j1, hj1, e1⟩, hle1⟩ := vreduce_max_spec v hv k' hk'
    rw [float.eq_iff_le_le]
    constructor
    · have := hle1 j0 hj0
      rw [float.ge_iff_le, ← e] at this
      exact this
    · have := hle j1 hj1
      rw [float.ge_iff_le, ← e1] at this
      exact this

theorem sampleLanes_notNaN : ∀ j, j < 8 → (sampleLanes j).isNaN = false := by
  decide

theorem sampleMask_nonempty : ∃ i, i < 8 ∧ sampleMask i = true := ⟨0, by decide, by decide⟩

/-- C29, instance: the lanes 5, 3, 9, 4, 7, 4, 2, 6 with lanes 1 and 6 masked
out. -/
theorem select_min_max_spec_witness :
    ((∀ j, j < 8 → (sampleLanes j).isNaN = false) ∧ (∃ i, i < 8 ∧ sampleMask i = true)) ∧
    ((select_min sampleMask sampleLanes < 8 ∧
      sampleMask (select_min sampleMask sampleLanes) = true ∧
      (∀ j, j < 8 → sampleMask j = true →
        float.le (sampleLanes (select_min sampleMask sampleLanes)) (sampleLanes j) = true) ∧
      (∀ i, i < select_min sampleMask sampleLanes →
        ¬ (sampleMask i = true ∧ ∀ j, j < 8 → sampleMask j = true →
          float.le (sampleLanes i) (sampleLanes j) = true))) ∧
    (∀ k, k < 8 → (∃ j, j < 8 ∧ vreduce_min sampleLanes k = sampleLanes j) ∧
      (∀ j, j < 8 → float.le (vreduce_min sampleLanes k) (sampleLanes j) = true) ∧
      (∀ k', k' < 8 →
        float.eq (vreduce_min sampleLanes k) (vreduce_min sampleLanes k') = true)) ∧
    (select_max sampleMask sampleLanes < 8 ∧
      sampleMask (select_max sampleMask sampleLanes) = true ∧
      (∀ j, j < 8 → sampleMask j = true →
        float.ge (sampleLanes (select_max sampleMask sampleLanes)) (sampleLanes j) = true) ∧
      (∀ i, i < select_max sampleMask sampleLanes →
        ¬ (sampleMask i = true ∧ ∀ j, j < 8 → sampleMask j = true →
          float.ge (sampleLanes i) (sampleLanes j) = true))) ∧
    (∀ k, k < 8 → (∃ j, j < 8 ∧ vreduce_max sampleLanes k = sampleLanes j) ∧
      (∀ j, j < 8 → float.ge (vreduce_max sampleLanes k) (sampleLanes j) = true) ∧
      (∀ k', k' < 8 →
        float.eq (vreduce_max sampleLanes k) (vreduce_max sampleLanes k') = true))) :=
  ⟨⟨sampleLanes_notNaN, sampleMask_nonempty⟩,
    select_min_max_spec sampleMask sampleLanes sampleLanes_notNaN sampleMask_nonempty⟩

/-- The values of `select_min` and `select_max` on the sample: lane 3 holds
the first 4, lane 2 the 9. -/
theorem select_min_max_sample :
    select_min sampleMask sampleLanes = 3 ∧ select_max sampleMask sampleLanes = 2 := by
  decide

/-! ## C21: addressing in `filterAOS` -/

/-- Below `2^31` the 32-bit in-bounds test of a packet is the test on ray
indices. -/
theorem inBounds_iff (W N q k : Nat) (hN : N < 2147483648) (hdvd : W ∣ 2147483648)
    (hq : q * W < N) (hk : k < W) : inBounds (q * W) N k = true ↔ q * W + k < N := by
  obtain ⟨t, ht⟩ := hdvd
  have hqt : q < t := by
    apply Nat.lt_of_mul_lt_mul_right (a := W)
    rw [Nat.mul_comm t, ← ht]
    omega
  have hbound : q * W + k < 2147483648 := by
    have h' : (q + 1) * W ≤ t * W := Nat.mul_le_mul_right _ hqt
    rw [Nat.add_mul, Nat.one_mul, Nat.mul_comm t, ← ht] at h'
    omega
  unfold inBounds
  simp only [decide_eq_true_eq]
  rw [toInt32_small _ hbound, toInt32_small _ hN]
  omega

theorem offsetAOS_lane (stride i k : Nat) :
    offsetAOS stride i k = ((i + k) * stride) % 4294967296 := by
  unfold offsetAOS
  rw [← Nat.mul_mod]

/-- With 32-bit lanes the first packet of `filterAOS` reads through the mask
`inBounds 0 N` at the offsets `offsetAOS stride 0`. -/
theorem filterAOS_first {σ : Type} (T : Target) (scene : Scene) (rs : RayStreamAOS σ)
    (rayN : σ) (N stride : Nat) (context : IntersectContext) (intersect : Bool) (fuel : Nat)
    (hW : 0 < T.VSIZEX) (hN : 0 < N) (hbig : N + T.VSIZEX ≤ T.sizeModulus) (hfuel : N ≤ fuel) :
    ∃ st, filterAOS T scene rs rayN N stride context intersect fuel = some st ∧
      st.gathers[0]? = some ⟨inBounds 0 N, offsetAOS stride 0⟩ := by
  refine ⟨_, filterAOS_eq T scene rs rayN N stride context intersect fuel hW hbig hfuel, ?_⟩
  obtain ⟨-, -, -, h4⟩ := sameSlotAOS_chunk T scene rs context intersect N stride rayN
  have h0 : 0 < (N + T.VSIZEX - 1) / T.VSIZEX := by
    apply (Nat.le_div_iff_mul_le hW).2
    omega
  obtain ⟨valid, ray, g1, -⟩ := h4 0 h0
  rw [Nat.zero_mul] at g1
  exact g1

/-- C21, counterexample: the claim for all `size_t` values fails. With two rays
and a stride of `2^32` bytes, ray 1 is read at byte offset `0`, not at
`1 * 2^32`; with `2^31` rays, ray 0 is not in bounds, so it is neither read nor
written. -/
theorem filterAOS_addressing_counterexample :
    (∃ st, filterAOS avx64 (idleScene false true) blankAOS () 2 4294967296 plainContext true 2
        = some st ∧
      ∃ g, st.gathers[0]? = some g ∧ g.valid 1 = true ∧ g.offset 1 = 0 ∧
        g.offset 1 ≠ 1 * 4294967296) ∧
    (∃ st, filterAOS avx64 (idleScene false true) blankAOS () 2147483648 16 plainContext true
        2147483648 = some st ∧
      ∃ g, st.gathers[0]? = some g ∧ g.valid 0 = false) := by
  constructor
  · obtain ⟨st, h, hg⟩ := filterAOS_first avx64 (idleScene false true) blankAOS () 2 4294967296
      plainContext true 2 (by decide) (by decide) (by decide) (by decide)
    exact ⟨st, h, _, hg, by decide, by decide, by decide⟩
  · obtain ⟨st, h, hg⟩ := filterAOS_first avx64 (idleScene false true) blankAOS () 2147483648 16
      plainContext true 2147483648 (by decide) (by decide) (by decide) (Nat.le_refl _)
    exact ⟨st, h, _, hg, by decide⟩

/-- C21 (amended): for every ray count `N < 2^31`, byte stride and ray index
`r < N`, `filterAOS` returns, ray `r` is in bounds (lane `r % VSIZEX` of packet
`r / VSIZEX` is in the mask of the read), the offset of that lane is the 32-bit
product `(r * stride) mod 2^32`, which is the byte offset `r * stride` whenever
`r * stride < 2^31`, and the write of the packet uses the same offsets; no
lane of a ray index from `N` on is in the mask of a read or of a write. -/
theorem filterAOS_addressing {σ : Type} (T : Target) (scene : Scene) (rs : RayStreamAOS σ)
    (rayN : σ) (N stride : Nat) (context : IntersectContext) (intersect : Bool) (fuel : Nat)
    (hW : 0 < T.VSIZEX) (hdvd : T.VSIZEX ∣ 2147483648) (hN : N < 2147483648)
    (hfuel : N ≤ fuel) :
    ∃ st, filterAOS T scene rs rayN N stride context intersect fuel = some st ∧
      (∀ r, r < N → ∃ g sc, st.gathers[r / T.VSIZEX]? = some g ∧
        st.scatters[r / T.VSIZEX]? = some sc ∧
        g.valid (r % T.VSIZEX) = true ∧
        g.offset (r % T.VSIZEX) = (r * stride) % 4294967296 ∧
        (r * stride < 2147483648 → toInt32 (g.offset (r % T.VSIZEX)) = (r * stride : Nat)) ∧
        sc.offset = g.offset) ∧
      (∀ q k g, k < T.VSIZEX → N ≤ q * T.VSIZEX + k →
        (st.gathers[q]? = some g ∨ st.scatters[q]? = some g) → g.valid k = false) := by
  have hWle : T.VSIZEX ≤ 2147483648 := Nat.le_of_dvd (by decide) hdvd
  refine ⟨_, filterAOS_eq T scene rs rayN N stride context intersect fuel hW
    (sizeModulus_small T N hN hWle) hfuel, ?_, ?_⟩
  · intro r hr
    obtain ⟨-, -, -, h4⟩ := sameSlotAOS_chunk T scene rs context intersect N stride rayN
    obtain ⟨valid, ray, g1, -, g3, -, -⟩ := h4 (r / T.VSIZEX) (chunk_lt_ceil N T.VSIZEX r hW hr)
    have hdm : r / T.VSIZEX * T.VSIZEX + r % T.VSIZEX = r := by
      rw [Nat.mul_comm]; exact Nat.div_add_mod r T.VSIZEX
    have hmod : r % T.VSIZEX < T.VSIZEX := Nat.mod_lt r hW
    have hoff : offsetAOS stride (r / T.VSIZEX * T.VSIZEX) (r % T.VSIZEX)
        = (r * stride) % 4294967296 := by
      rw [offsetAOS_lane, hdm]
    refine ⟨_, _, g1, g3, ?_, hoff, ?_, rfl⟩
    · exact (inBounds_iff T.VSIZEX N (r / T.VSIZEX) (r % T.VSIZEX) hN hdvd (by omega) hmod).2
        (by omega)
    · intro hsmall
      show toInt32 (offsetAOS stride (r / T.VSIZEX * T.VSIZEX) (r % T.VSIZEX)) = _
      rw [hoff, Nat.mod_eq_of_lt (by omega)]
      exact toInt32_small _ hsmall
  · intro q k g hk hge hg
    obtain ⟨h1, -, h3, h4⟩ := sameSlotAOS_chunk T scene rs context intersect N stride rayN
    have hq : q < (N + T.VSIZEX - 1) / T.VSIZEX := by
      rcases hg with hg | hg
      · have := (List.getElem?_eq_some_iff.1 hg).1
        omega
      · have := (List.getElem?_eq_some_iff.1 hg).1
        omega
    obtain ⟨valid, ray, g1, -, g3, g4, g5⟩ := h4 q hq
    have hqN := lt_of_lt_ceil q T.VSIZEX N hW hq
    have hfalse : inBounds (q * T.VSIZEX) N k = false := by
      cases hb : inBounds (q * T.VSIZEX) N k
      · rfl
      · have := (inBounds_iff T.VSIZEX N q k hN hdvd hqN hk).1 hb
        omega
    rcases hg with hg | hg
    · rw [g1] at hg
      rw [← Option.some.inj hg]
      exact hfalse
    · rw [g3] at hg
      rw [← Option.some.inj hg]
      show valid k = false
      cases hv : valid k
      · rfl
      · have := g5 k hv
        rw [hfalse] at this
        exact absurd this (by decide)

theorem filterAOS_addressing_witness :
    ∃ st, filterAOS avx64 (idleScene false true) blankAOS () 11 48 plainContext true 11
        = some st ∧
      (∀ r, r < 11 → ∃ g sc, st.gathers[r / avx64.VSIZEX]? = some g ∧
        st.scatters[r / avx64.VSIZEX]? = some sc ∧
        g.valid (r % avx64.VSIZEX) = true ∧
        g.offset (r % avx64.VSIZEX) = (r * 48) % 4294967296 ∧
        (r * 48 < 2147483648 → toInt32 (g.offset (r % avx64.VSIZEX)) = (r * 48 : Nat)) ∧
        sc.offset = g.offset) ∧
      (∀ q k g, k < avx64.VSIZEX → 11 ≤ q * avx64.VSIZEX + k →
        (st.gathers[q]? = some g ∨ st.scatters[q]? = some g) → g.valid k = false) :=
  filterAOS_addressing avx64 (idleScene false true) blankAOS () 11 48 plainContext true 11
    (by decide) (by decide) (by decide) (by decide)

/-! ## C22: partial packets in the classifier of `filterSOPCoherent` -/

theorem float.min_cases (a b : float) : float.min a b = a ∨ float.min a b = b := by
  unfold float.min
  split
  · exact Or.inl rfl
  · exact Or.inr rfl

theorem float.max_cases (a b : float) : float.max a b = a ∨ float.max a b = b := by
  unfold float.max
  split
  · exact Or.inl rfl
  · exact Or.inr rfl

/-- The bounds after `n` packets of the classification loop: a property of
floats that holds of the initial value and of lane `k` of every direction
register read holds of lane `k` of the bound. -/
theorem classifyFold_bounds {σ : Type} (T : Target) (rs : RayStreamSOP σ) (rayN : σ)
    (N n k : Nat) (LoX HiX LoY HiY LoZ HiZ : float → Prop)
    (iLoX : LoX float.pos_inf) (iHiX : HiX float.neg_inf)
    (iLoY : LoY float.pos_inf) (iHiY : HiY float.neg_inf)
    (iLoZ : LoZ float.pos_inf) (iHiZ : HiZ float.neg_inf)
    (hd : ∀ q, q < n →
      LoX ((rs.getDirByOffset rayN (inBounds (q * T.VSIZEX) N) (4 * (q * T.VSIZEX))).x k) ∧
      HiX ((rs.getDirByOffset rayN (inBounds (q * T.VSIZEX) N) (4 * (q * T.VSIZEX))).x k) ∧
      LoY ((rs.getDirByOffset rayN (inBounds (q * T.VSIZEX) N) (4 * (q * T.VSIZEX))).y k) ∧
      HiY ((rs.getDirByOffset rayN (inBounds (q * T.VSIZEX) N) (4 * (q * T.VSIZEX))).y k) ∧
      LoZ ((rs.getDirByOffset rayN (inBounds (q * T.VSIZEX) N) (4 * (q * T.VSIZEX))).z k) ∧
      HiZ ((rs.getDirByOffset rayN (inBounds (q * T.VSIZEX) N) (4 * (q * T.VSIZEX))).z k)) :
    LoX ((strideFold (classifyStepSOP rs rayN N) T.VSIZEX 0 n OctantBounds.init).min_x k) ∧
    HiX ((strideFold (classifyStepSOP rs rayN N) T.VSIZEX 0 n OctantBounds.init).max_x k) ∧
    LoY ((strideFold (classifyStepSOP rs rayN N) T.VSIZEX 0 n OctantBounds.init).min_y k) ∧
    HiY ((strideFold (classifyStepSOP rs rayN N) T.VSIZEX 0 n OctantBounds.init).max_y k) ∧
    LoZ ((strideFold (classifyStepSOP rs rayN N) T.VSIZEX 0 n OctantBounds.init).min_z k) ∧
    HiZ ((strideFold (classifyStepSOP rs rayN N) T.VSIZEX 0 n OctantBounds.init).max_z k) := by
  induction n with
  | zero => exact ⟨iLoX, iHiX, iLoY, iHiY, iLoZ, iHiZ⟩
  | succ n ih =>
    obtain ⟨h1, h2, h3, h4, h5, h6⟩ := ih (fun q hq => hd q (Nat.lt_succ_of_lt hq))
    obtain ⟨d1, d2, d3, d4, d5, d6⟩ := hd n (Nat.lt_succ_self n)
    rw [strideFold_succ, Nat.zero_add]
    generalize strideFold (classifyStepSOP rs rayN N) T.VSIZEX 0 n OctantBounds.init = b
      at h1 h2 h3 h4 h5 h6
    refine ⟨?_, ?_, ?_, ?_, ?_, ?_⟩
    · show LoX (float.min (b.min_x k) _)
      rcases float.min_cases (b.min_x k)
        ((rs.getDirByOffset rayN (inBounds (n * T.VSIZEX) N) (4 * (n * T.VSIZEX))).x k) with e | e
      · rw [e]; exact h1
      · rw [e]; exact d1
    · show HiX (float.max (b.max_x k) _)
      rcases float.max_cases (b.max_x k)
        ((rs.getDirByOffset rayN (inBounds (n * T.VSIZEX) N) (4 * (n * T.VSIZEX))).x k) with e | e
      · rw [e]; exact h2
      · rw [e]; exact d2
    · show LoY (float.min (b.min_y k) _)
      rcases float.min_cases (b.min_y k)
        ((rs.getDirByOffset rayN (inBounds (n * T.VSIZEX) N) (4 * (n * T.VSIZEX))).y k) with e | e
      · rw [e]; exact h3
      · rw [e]; exact d3
    · show HiY (float.max (b.max_y k) _)
      rcases float.max_cases (b.max_y k)
        ((rs.getDirByOffset rayN (inBounds (n * T.VSIZEX) N) (4 * (n * T.VSIZEX))).y k) with e | e
      · rw [e]; exact h4
      · rw [e]; exact d4
    · show LoZ (float.min (b.min_z k) _)
      rcases float.min_cases (b.min_z k)
        ((rs.getDirByOffset rayN (inBounds (n * T.VSIZEX) N) (4 * (n * T.VSIZEX))).z k) with e | e
      · rw [e]; exact h5
      · rw [e]; exact d5
    · show HiZ (float.max (b.max_z k) _)
      rcases float.max_cases (b.max_z k)
        ((rs.getDirByOffset rayN (inBounds (n * T.VSIZEX) N) (4 * (n * T.VSIZEX))).z k) with e | e
      · rw [e]; exact h6
      · rw [e]; exact d6

/-- The flag `all_active` after `n` packets of the classification loop: lane
`k` is set when the lanes `k` of ray indices below `N` are reported valid. -/
theorem classifyFold_active {σ : Type} (T : Target) (rs : RayStreamSOP σ) (rayN : σ)
    (N n k : Nat) (hN : N < 2147483648) (hdvd : T.VSIZEX ∣ 2147483648) (hk : k < T.VSIZEX)
    (hn : ∀ q, q < n → q * T.VSIZEX < N) (hact : allActiveSOP T rs rayN N) :
    (strideFold (classifyStepSOP rs rayN N) T.VSIZEX 0 n OctantBounds.init).all_active k
      = true := by
  induction n with
  | zero => rfl
  | succ n ih =>
    have h := ih (fun q hq => hn q (Nat.lt_succ_of_lt hq))
    have hq := hn n (Nat.lt_succ_self n)
    rw [strideFold_succ, Nat.zero_add]
    generalize strideFold (classifyStepSOP rs rayN N) T.VSIZEX 0 n OctantBounds.init = b at h
    show vselect (inBounds (n * T.VSIZEX) N) (vand b.all_active _) b.all_active k = true
    unfold vselect vand
    cases hb : inBounds (n * T.VSIZEX) N k
    · simpa using h
    · have hlt := (inBounds_iff T.VSIZEX N n k hN hdvd hq hk).1 hb
      rw [h, hact n hq k hk hlt]
      rfl

/-- One axis of the common-octant test passes when all lanes read agree in
sign. -/
theorem classifyFold_axis {σ : Type} (T : Target) (rs : RayStreamSOP σ) (rayN : σ)
    (N n : Nat) (hn : ∀ q, q < n → q * T.VSIZEX < N) :
    (sameSignSOP T rs rayN N Vec3vfx.x →
      (all T (vlt (strideFold (classifyStepSOP rs rayN N) T.VSIZEX 0 n OctantBounds.init).max_x
          (vfloatx.broadcast float.zero)) ||
        all T (vge (strideFold (classifyStepSOP rs rayN N) T.VSIZEX 0 n OctantBounds.init).min_x
          (vfloatx.broadcast float.zero))) = true) ∧
    (sameSignSOP T rs rayN N Vec3vfx.y →
      (all T (vlt (strideFold (classifyStepSOP rs rayN N) T.VSIZEX 0 n OctantBounds.init).max_y
          (vfloatx.broadcast float.zero)) ||
        all T (vge (strideFold (classifyStepSOP rs rayN N) T.VSIZEX 0 n OctantBounds.init).min_y
          (vfloatx.broadcast float.zero))) = true) ∧
    (sameSignSOP T rs rayN N Vec3vfx.z →
      (all T (vlt (strideFold (classifyStepSOP rs rayN N) T.VSIZEX 0 n OctantBounds.init).max_z
          (vfloatx.broadcast float.zero)) ||
        all T (vge (strideFold (classifyStepSOP rs rayN N) T.VSIZEX 0 n OctantBounds.init).min_z
          (vfloatx.broadcast float.zero))) = true) := by
  have hlo : float.ge float.pos_inf float.zero = true := by decide
  have hhi : float.lt float.neg_inf float.zero = true := by decide
  refine ⟨?_, ?_, ?_⟩
  · rintro (h | h)
    · rw [Bool.or_eq_true]
      refine Or.inl ((all_iff T _).2 fun k hk => ?_)
      exact (classifyFold_bounds T rs rayN N n k (fun _ => True)
        (fun a => float.lt a float.zero = true) (fun _ => True) (fun _ => True) (fun _ => True)
        (fun _ => True) trivial hhi trivial trivial trivial trivial
        (fun q hq => ⟨trivial, h q (hn q hq) k hk, trivial, trivial, trivial, trivial⟩)).2.1
    · rw [Bool.or_eq_true]
      refine Or.inr ((all_iff T _).2 fun k hk => ?_)
      exact (classifyFold_bounds T rs rayN N n k (fun a => float.ge a float.zero = true)
        (fun _ => True) (fun _ => True) (fun _ => True) (fun _ => True)
        (fun _ => True) hlo trivial trivial trivial trivial trivial
        (fun q hq => ⟨h q (hn q hq) k hk, trivial, trivial, trivial, trivial, trivial⟩)).1
  · rintro (h | h)
    · rw [Bool.or_eq_true]
      refine Or.inl ((all_iff T _).2 fun k hk => ?_)
      exact (classifyFold_bounds T rs rayN N n k (fun _ => True) (fun _ => True)
        (fun _ => True) (fun a => float.lt a float.zero = true) (fun _ => True)
        (fun _ => True) trivial trivial trivial hhi trivial trivial
        (fun q hq => ⟨trivial, trivial, trivial, h q (hn q hq) k hk, trivial, trivial⟩)).2.2.2.1
    · rw [Bool.or_eq_true]
      refine Or.inr ((all_iff T _).2 fun k hk => ?_)
      exact (classifyFold_bounds T rs rayN N n k (fun _ => True) (fun _ => True)
        (fun a => float.ge a float.zero = true) (fun _ => True) (fun _ => True)
        (fun _ => True) trivial trivial hlo trivial trivial trivial
        (fun q hq => ⟨trivial, trivial, h q (hn q hq) k hk, trivial, trivial, trivial⟩)).2.2.1
  · rintro (h | h)
    · rw [Bool.or_eq_true]
      refine Or.inl ((all_iff T _).2 fun k hk => ?_)
      exact (classifyFold_bounds T rs rayN N n k (fun _ => True) (fun _ => True)
        (fun _ => True) (fun _ => True) (fun _ => True)
        (fun a => float.lt a float.zero = true) trivial trivial trivial trivial trivial hhi
        (fun q hq => ⟨trivial, trivial, trivial, trivial, trivial, h q (hn q hq) k hk⟩)).2.2.2.2.2
    · rw [Bool.or_eq_true]
      refine Or.inr ((all_iff T _).2 fun k hk => ?_)
      exact (classifyFold_bounds T rs rayN N n k (fun _ => True) (fun _ => True)
        (fun _ => True) (fun _ => True) (fun a => float.ge a float.zero = true)
        (fun _ => True) trivial trivial trivial trivial hlo trivial
        (fun q hq => ⟨trivial, trivial, trivial, trivial, h q (hn q hq) k hk, trivial⟩)).2.2.2.2.1

/-- The classifier of `filterSOPCoherent` selects the coherent-batch path when
the rays are all active and every lane of the directions read agrees in sign
per axis. -/
theorem chunkFallbackSOP_sameSign {σ : Type} (T : Target) (scene : Scene)
    (rs : RayStreamSOP σ) (rayN : σ) (N fuel : Nat) (hW : 0 < T.VSIZEX)
    (hdvd : T.VSIZEX ∣ 2147483648) (hN : N < 2147483648)
    (hrobust : scene.isRobust = false) (hbatched : scene.validIsecN = true)
    (hact : allActiveSOP T rs rayN N)
    (hx : sameSignSOP T rs rayN N Vec3vfx.x) (hy : sameSignSOP T rs rayN N Vec3vfx.y)
    (hz : sameSignSOP T rs rayN N Vec3vfx.z) (hfuel : N ≤ fuel) :
    chunkFallbackSOP T scene rs rayN N fuel = some false := by
  unfold chunkFallbackSOP
  dsimp only
  rw [hrobust, hbatched, if_pos (by rfl),
    forStride_eq N T.VSIZEX _ (classifyStepSOP rs rayN N) hW (fun _ _ _ => rfl) fuel 0 _
      (by omega)]
  have hn : ∀ q, q < (N - 0 + T.VSIZEX - 1) / T.VSIZEX → q * T.VSIZEX < N :=
    fun q hq => lt_of_lt_ceil q T.VSIZEX N hW (by rw [Nat.sub_zero] at hq; exact hq)
  obtain ⟨a1, a2, a3⟩ := classifyFold_axis T rs rayN N _ hn
  have a4 : all T (strideFold (classifyStepSOP rs rayN N) T.VSIZEX 0
      ((N - 0 + T.VSIZEX - 1) / T.VSIZEX) OctantBounds.init).all_active = true :=
    (all_iff T _).2 fun k hk => classifyFold_active T rs rayN N _ k hN hdvd hk hn hact
  have b1 := a1 hx
  have b2 := a2 hy
  have b3 := a3 hz
  generalize strideFold (classifyStepSOP rs rayN N) T.VSIZEX 0
    ((N - 0 + T.VSIZEX - 1) / T.VSIZEX) OctantBounds.init = b at a4 b1 b2 b3
  have hc : b.commonOctant T = true := by
    unfold OctantBounds.commonOctant
    rw [b1, b2, b3]
    rfl
  simp [hc, a4]

theorem negativeRays_sign :
    ∀ i, i < 3 → float.le (negativeRays i).tnear (negativeRays i).tfar = true ∧
      float.lt (negativeRays i).dir.x float.zero = true ∧
      float.lt (negativeRays i).dir.y float.zero = true ∧
      float.lt (negativeRays i).dir.z float.zero = true := by
  decide

/-- C22, counterexample: three active rays, all pointing along (-1,-1,-1), on
the 8-lane target with an engine that supports batching. When the reads leave
zero in the five lanes outside the in-bounds mask, the classifier selects the
per-packet path and not the coherent-batch path; when those lanes read as the
rays do, it selects the coherent-batch path. So the lanes of indices from `N`
on do enter the sign test. -/
theorem partial_packet_counterexample :
    (∀ i, i < 3 → float.le (negativeRays i).tnear (negativeRays i).tfar = true ∧
      float.lt (negativeRays i).dir.x float.zero = true ∧
      float.lt (negativeRays i).dir.y float.zero = true ∧
      float.lt (negativeRays i).dir.z float.zero = true) ∧
    (idleScene false true).isRobust = false ∧ (idleScene false true).validIsecN = true ∧
    chunkFallbackSOP avx64 (idleScene false true) (maskedSOP zeroRay) negativeRays 3 3
      = some true ∧
    filterSOPCoherent avx64 (idleScene false true) (maskedSOP zeroRay) negativeRays 3
        plainContext true (fun _ => junkPacket) 3
      = chunkPathSOP avx64 (idleScene false true) (maskedSOP zeroRay) negativeRays 3
        plainContext true (fun _ => junkPacket) 3 ∧
    chunkFallbackSOP avx64 (idleScene false true) (maskedSOP (negativeRays 0)) negativeRays 3 3
      = some false := by
  have h1 : chunkFallbackSOP avx64 (idleScene false true) (maskedSOP zeroRay) negativeRays 3 3
      = some true := by decide
  refine ⟨negativeRays_sign, rfl, rfl, h1, ?_, by decide⟩
  unfold filterSOPCoherent
  rw [h1]
  rfl

/-- C22 (amended): for every `N < 2^31`, a multiple of `VSIZEX` or not, if all
`N` rays are active, the engine is not robust and supports batching, and on
each axis all lanes of the direction registers the reads return, those of
indices from `N` on included, agree in sign (all negative or all
non-negative), then the classifier selects the coherent-batch path. Lanes of
indices from `N` on do not enter the all-active test; they do enter the sign
test. -/
theorem partial_packet_coherence {σ : Type} (T : Target) (scene : Scene)
    (rs : RayStreamSOP σ) (rayN : σ) (N : Nat) (context : IntersectContext) (intersect : Bool)
    (uninit : Nat → RayK) (fuel : Nat) (hW : 0 < T.VSIZEX)
    (hdvd : T.VSIZEX ∣ 2147483648) (hN : N < 2147483648)
    (hrobust : scene.isRobust = false) (hbatched : scene.validIsecN = true)
    (hact : allActiveSOP T rs rayN N)
    (hx : sameSignSOP T rs rayN N Vec3vfx.x) (hy : sameSignSOP T rs rayN N Vec3vfx.y)
    (hz : sameSignSOP T rs rayN N Vec3vfx.z) (hfuel : N ≤ fuel) :
    chunkFallbackSOP T scene rs rayN N fuel = some false ∧
    filterSOPCoherent T scene rs rayN N context intersect uninit fuel
      = coherentPathSOP T scene rs rayN N context intersect uninit fuel := by
  have h := chunkFallbackSOP_sameSign T scene rs rayN N fuel hW hdvd hN hrobust hbatched hact
    hx hy hz hfuel
  refine ⟨h, ?_⟩
  unfold filterSOPCoherent
  rw [h]
  rfl

theorem positiveRays_active : allActiveSOP avx64 (maskedSOP zeroRay) positiveRays 3 := by
  intro q hq
  have h0 : q = 0 := by
    have : q * 8 < 3 := hq
    omega
  subst h0
  decide

theorem positiveRays_sign (sel : Vec3vfx → vfloatx)
    (hsel : sel = Vec3vfx.x ∨ sel = Vec3vfx.y ∨ sel = Vec3vfx.z) :
    sameSignSOP avx64 (maskedSOP zeroRay) positiveRays 3 sel := by
  refine Or.inr fun q hq => ?_
  have h0 : q = 0 := by
    have : q * 8 < 3 := hq
    omega
  subst h0
  rcases hsel with h | h | h <;> subst h <;> decide

theorem partial_packet_coherence_witness :
    chunkFallbackSOP avx64 (idleScene false true) (maskedSOP zeroRay) positiveRays 3 3
      = some false ∧
    filterSOPCoherent avx64 (idleScene false true) (maskedSOP zeroRay) positiveRays 3
        plainContext true (fun _ => junkPacket) 3
      = coherentPathSOP avx64 (idleScene false true) (maskedSOP zeroRay) positiveRays 3
        plainContext true (fun _ => junkPacket) 3 :=
  partial_packet_coherence avx64 (idleScene false true) (maskedSOP zeroRay) positiveRays 3
    plainContext true (fun _ => junkPacket) 3 (by decide) (by decide) (by decide) rfl rfl
    positiveRays_active (positiveRays_sign _ (Or.inl rfl)) (positiveRays_sign _ (Or.inr (Or.inl rfl)))
    (positiveRays_sign _ (Or.inr (Or.inr rfl))) (by decide)

/-! ## C23: the slow path of `filterSOA` -/

theorem RayK.setLaneRay_lane_eq (r : RayK) (k : Nat) (a : Ray) :
    (r.setLaneRay k a).lane k = a := by
  simp [RayK.setLaneRay, RayK.lane, setLane]

theorem RayK.setLaneRay_lane_ne (r : RayK) (k j : Nat) (a : Ray) (h : j ≠ k) :
    (r.setLaneRay k a).lane j = r.lane j := by
  simp [RayK.setLaneRay, RayK.lane, setLane, h]

theorem slowStepSOA_eq (scene : Scene) (acc : RayPacketAOS) (N : Nat) (intersect : Bool)
    (s : Nat) (st : SOAResult) (u : RayK) (i : Nat) :
    (slowStepSOA scene acc N intersect s (st, u) i).1 =
      { st with
        rayData := setLane st.rayData s (acc.setHitByIndex (st.rayData s) N i
          (if intersect then
            scene.intersect (vle (slowRay acc (st.rayData s) N u i).tnear
              (slowRay acc (st.rayData s) N u i).tfar) (slowRay acc (st.rayData s) N u i)
              st.context
          else
            scene.occluded (vle (slowRay acc (st.rayData s) N u i).tnear
              (slowRay acc (st.rayData s) N u i).tfar) (slowRay acc (st.rayData s) N u i)
              st.context) 0 intersect)
        calls := st.calls ++ [
          if intersect then
            EngineCall.intersect (vle (slowRay acc (st.rayData s) N u i).tnear
              (slowRay acc (st.rayData s) N u i).tfar) (slowRay acc (st.rayData s) N u i)
              st.context
          else
            EngineCall.occluded (vle (slowRay acc (st.rayData s) N u i).tnear
              (slowRay acc (st.rayData s) N u i).tfar) (slowRay acc (st.rayData s) N u i)
              st.context] } := by
  cases intersect <;> rfl

theorem slowRay_lanes (block : RayK) (N : Nat) (u : RayK) (i : Nat) :
    (∀ k, k ≠ 0 → (slowRay packetAOS block N u i).tnear k = float.zero ∧
      (slowRay packetAOS block N u i).tfar k = float.neg_inf ∧
      vle (slowRay packetAOS block N u i).tnear (slowRay packetAOS block N u i).tfar k
        = false) ∧
    (slowRay packetAOS block N u i).lane 0 = block.lane i ∧
    vle (slowRay packetAOS block N u i).tnear (slowRay packetAOS block N u i).tfar 0
      = float.le (block.tnear i) (block.tfar i) := by
  have hzero : float.le float.zero float.neg_inf = false := by decide
  refine ⟨fun k hk => ?_, RayK.setLaneRay_lane_eq _ _ _, ?_⟩
  · have t1 : (slowRay packetAOS block N u i).tnear k = float.zero := by
      simp [slowRay, packetAOS, RayK.setLaneRay, setLane, hk, vfloatx.broadcast]
    have t2 : (slowRay packetAOS block N u i).tfar k = float.neg_inf := by
      simp [slowRay, packetAOS, RayK.setLaneRay, setLane, hk, vfloatx.broadcast]
    refine ⟨t1, t2, ?_⟩
    show float.le _ _ = false
    rw [t1, t2]
    exact hzero
  · simp [slowRay, packetAOS, RayK.setLaneRay, setLane, vle, RayK.lane]

theorem slowStepSOA_inv (scene : Scene) (context : IntersectContext) (intersect : Bool)
    (N s : Nat) (rayData0 : Nat → RayK) (calls0 : List EngineCall) (n : Nat)
    (st : SOAResult) (u : RayK)
    (h : slowInv scene context intersect s rayData0 calls0 n st) :
    slowInv scene context intersect s rayData0 calls0 (n + 1)
      (slowStepSOA scene packetAOS N intersect s (st, u) n).1 := by
  obtain ⟨h1, h2, h3, h4, h5, h6⟩ := h
  have hlane := h5 n (Nat.le_refl n)
  obtain ⟨r1, r2, r3⟩ := slowRay_lanes (st.rayData s) N u n
  rw [slowStepSOA_eq]
  refine ⟨h1, by simp [h2]; omega, ?_, ?_, ?_, ?_⟩
  · intro j hj
    rw [← h3 j hj]
    exact getElem?_snoc_lt st.calls _ j (by omega)
  · intro t ht
    rw [← h4 t ht]
    simp [setLane, ht]
  · intro j hj
    rw [← h5 j (by omega)]
    simp only [setLane, if_pos]
    exact RayK.setLaneRay_lane_ne _ _ _ _ (by omega)
  · intro i hi
    rcases Nat.lt_succ_iff_lt_or_eq.1 hi with hlt | heq
    · obtain ⟨c, hc, hs⟩ := h6 i hlt
      refine ⟨c, ?_, ?_⟩
      · rw [← hc]
        exact getElem?_snoc_lt st.calls _ _ (by omega)
      · simp only [setLane, if_pos]
        rw [show (packetAOS.setHitByIndex (st.rayData s) N n _ 0 intersect).lane i
          = (st.rayData s).lane i from RayK.setLaneRay_lane_ne _ _ _ _ (by omega)]
        exact hs
    · subst heq
      refine ⟨_, getElem?_snoc_eq st.calls _ _ (by omega), _, _, ?_, r1, ?_, ?_, ?_⟩
      · rw [h1]
      · rw [← hlane]
        exact r2
      · have e1 : (st.rayData s).tnear i = (rayData0 s).tnear i := congrArg Ray.tnear hlane
        have e2 : (st.rayData s).tfar i = (rayData0 s).tfar i := congrArg Ray.tfar hlane
        rw [← e1, ← e2]
        exact r3
      · rw [← hlane, h1]
        simp only [setLane, if_pos]
        exact RayK.setLaneRay_lane_eq _ _ _

theorem slowInner_inv (scene : Scene) (context : IntersectContext) (intersect : Bool)
    (N s : Nat) (st0 : SOAResult) (u : RayK) (hctx : st0.context = context) (n : Nat) :
    slowInv scene context intersect s st0.rayData st0.calls n
      ((List.range n).foldl (slowStepSOA scene packetAOS N intersect s) (st0, u)).1 := by
  induction n with
  | zero =>
    exact ⟨hctx, rfl, fun _ _ => rfl, fun _ _ => rfl, fun _ _ => rfl,
      fun i hi => absurd hi (Nat.not_lt_zero i)⟩
  | succ n ih =>
    rw [List.range_succ, List.foldl_append]
    exact slowStepSOA_inv scene context intersect N s st0.rayData st0.calls n _ _ ih

/-- The slow path of `filterSOA` with the accessors `packetAOS`, call by call:
call number `s*N + i` is the single-ray call for ray `i` of stream `s` as the
caller left it, the ray is afterwards that ray with the hit of lane 0 written
back, and no other ray is changed. -/
theorem slowPathSOA_rays (scene : Scene) (rayData : Nat → RayK) (N streams : Nat)
    (context : IntersectContext) (intersect : Bool) (uninit : Nat → RayK) :
    (slowPathSOA scene packetAOS rayData N streams context intersect uninit).context
      = context ∧
    (slowPathSOA scene packetAOS rayData N streams context intersect uninit).calls.length
      = streams * N ∧
    (∀ s i, s < streams → i < N → ∃ c,
      (slowPathSOA scene packetAOS rayData N streams context intersect uninit).calls[s * N + i]?
        = some c ∧
      singleRayCall scene context intersect (rayData s) i c
        (((slowPathSOA scene packetAOS rayData N streams context intersect uninit).rayData
          s).lane i)) ∧
    (∀ s j, ¬ (s < streams ∧ j < N) →
      ((slowPathSOA scene packetAOS rayData N streams context intersect uninit).rayData s).lane j
        = (rayData s).lane j) := by
  unfold slowPathSOA
  induction streams with
  | zero =>
    exact ⟨rfl, by simp, fun s i hs => absurd hs (Nat.not_lt_zero s), fun _ _ _ => rfl⟩
  | succ n ih =>
    obtain ⟨c1, c2, c3, c4⟩ := ih
    rw [List.range_succ, List.foldl_append]
    generalize (List.range n).foldl
      (fun st s => ((List.range N).foldl (slowStepSOA scene packetAOS N intersect s)
        (st, uninit s)).1) ⟨rayData, context, [], []⟩ = st0 at c1 c2 c3 c4
    obtain ⟨h1, h2, h3, h4, h5, h6⟩ :=
      slowInner_inv scene context intersect N n st0 (uninit n) c1 N
    simp only [List.foldl_cons, List.foldl_nil]
    generalize ((List.range N).foldl (slowStepSOA scene packetAOS N intersect n)
      (st0, uninit n)).1 = st1 at h1 h2 h3 h4 h5 h6
    have hblock : ∀ j, (st0.rayData n).lane j = (rayData n).lane j :=
      fun j => c4 n j (fun h => absurd h.1 (Nat.lt_irrefl n))
    refine ⟨h1, by rw [h2, c2, Nat.succ_mul], ?_, ?_⟩
    · intro s i hs hi
      rcases Nat.lt_succ_iff_lt_or_eq.1 hs with hlt | heq
      · obtain ⟨c, hc, hsr⟩ := c3 s i hlt hi
        have hidx : s * N + i < st0.calls.length := by
          have := Nat.mul_le_mul_right N (Nat.succ_le_of_lt hlt)
          rw [Nat.succ_mul] at this
          omega
        refine ⟨c, ?_, ?_⟩
        · rw [h3 _ hidx]
          exact hc
        · rw [h4 s (by omega)]
          exact hsr
      · subst heq
        obtain ⟨c, hc, hsr⟩ := h6 i hi
        refine ⟨c, ?_, ?_⟩
        · rw [← c2]
          exact hc
        · obtain ⟨valid, ray, e1, e2, e3, e4, e5⟩ := hsr
          have t1 : (st0.rayData s).tnear i = (rayData s).tnear i :=
            congrArg Ray.tnear (hblock i)
          have t2 : (st0.rayData s).tfar i = (rayData s).tfar i :=
            congrArg Ray.tfar (hblock i)
          refine ⟨valid, ray, e1, e2, ?_, ?_, ?_⟩
          · rw [← hblock i]
            exact e3
          · rw [← t1, ← t2]
            exact e4
          · rw [← hblock i]
            exact e5
    · intro s j hsj
      by_cases hs : s = n
      · subst hs
        have hj : N ≤ j := by
          by_contra hlt
          exact hsj ⟨Nat.lt_succ_self s, by omega⟩
        rw [h5 j hj]
        exact hblock j
      · rw [h4 s hs]
        exact c4 s j (fun h => hsj ⟨Nat.lt_succ_of_lt h.1, h.2⟩)

/-- C23: on the slow fallback path of `filterSOA` (the stream is not an aligned
stream of `VSIZEX`-wide packets), with the accessors of `RayPacketAOS` as the
specification describes them, every engine call processes exactly one ray:
there are `streams * N` calls, and call number `s*N + i` is a single-packet
call whose lanes other than 0 are invalidated (`tnear` = 0, `tfar` = -inf) and
clear in the active mask, whose lane 0 holds ray `i` of stream `s` and is set
in the mask iff that ray has `tnear <= tfar`; the hit of lane 0 is written back
to ray `i` of stream `s`, and no ray outside the `streams` blocks of `N` rays
is changed. -/
theorem filterSOA_slow_path (T : Target) (coherentStreamPath : Bool) (scene : Scene)
    (address : Nat) (rayData : Nat → RayK) (N streams stream_offset : Nat)
    (context : IntersectContext) (intersect : Bool) (uninit : Nat → RayK)
    (hslow : ¬ (N = T.VSIZEX ∧ address % (T.VSIZEX * 4) = 0 ∧
      stream_offset % (T.VSIZEX * 4) = 0)) :
    (filterSOA T coherentStreamPath scene packetAOS address rayData N streams stream_offset
      context intersect uninit).calls.length = streams * N ∧
    (∀ s i, s < streams → i < N → ∃ c,
      (filterSOA T coherentStreamPath scene packetAOS address rayData N streams stream_offset
        context intersect uninit).calls[s * N + i]? = some c ∧
      singleRayCall scene context intersect (rayData s) i c
        (((filterSOA T coherentStreamPath scene packetAOS address rayData N streams
          stream_offset context intersect uninit).rayData s).lane i)) ∧
    (∀ s j, ¬ (s < streams ∧ j < N) →
      ((filterSOA T coherentStreamPath scene packetAOS address rayData N streams stream_offset
        context intersect uninit).rayData s).lane j = (rayData s).lane j) := by
  have e : filterSOA T coherentStreamPath scene packetAOS address rayData N streams
      stream_offset context intersect uninit
      = slowPathSOA scene packetAOS rayData N streams context intersect uninit := by
    unfold filterSOA
    exact if_neg hslow
  rw [e]
  exact (slowPathSOA_rays scene rayData N streams context intersect uninit).2

theorem filterSOA_slow_path_witness :
    (filterSOA avx64 true (hitScene avx64) packetAOS 0 (fun _ => RayK.ofLanes threeRays) 3 2 0
      plainContext true (fun _ => junkPacket)).calls.length = 2 * 3 ∧
    (∀ s i, s < 2 → i < 3 → ∃ c,
      (filterSOA avx64 true (hitScene avx64) packetAOS 0 (fun _ => RayK.ofLanes threeRays) 3 2 0
        plainContext true (fun _ => junkPacket)).calls[s * 3 + i]? = some c ∧
      singleRayCall (hitScene avx64) plainContext true
        ((fun _ => RayK.ofLanes threeRays) s) i c
        (((filterSOA avx64 true (hitScene avx64) packetAOS 0 (fun _ => RayK.ofLanes threeRays)
          3 2 0 plainContext true (fun _ => junkPacket)).rayData s).lane i)) ∧
    (∀ s j, ¬ (s < 2 ∧ j < 3) →
      ((filterSOA avx64 true (hitScene avx64) packetAOS 0 (fun _ => RayK.ofLanes threeRays) 3 2 0
        plainContext true (fun _ => junkPacket)).rayData s).lane j
        = ((fun _ => RayK.ofLanes threeRays) s).lane j) :=
  filterSOA_slow_path avx64 true (hitScene avx64) 0 (fun _ => RayK.ofLanes threeRays) 3 2 0
    plainContext true (fun _ => junkPacket) (by decide)

/-! ## C24: `serialPartitioning` -/

theorem getD_swap (a : List Int) (i j k : Nat) (hi : i < a.length) (hj : j < a.length) :
    ((a.set i (a.getD j 0)).set j (a.getD i 0)).getD k 0
      = if k = j then a.getD i 0 else if k = i then a.getD j 0 else a.getD k 0 := by
  simp only [List.getD_eq_getElem?_getD, List.getElem?_set, List.length_set]
  by_cases h1 : j = k
  · subst h1; simp [hj]
  · by_cases h2 : i = k
    · subst h2; simp [h1, hi, Ne.symm h1]
    · simp [h1, h2, Ne.symm h1, Ne.symm h2]

theorem perm_swap (a : List Int) (i j : Nat) (hi : i < a.length) (hj : j < a.length) :
    List.Perm ((a.set i (a.getD j 0)).set j (a.getD i 0)) a := by
  rw [List.perm_iff_count]
  intro x
  have e1 : a.getD i 0 = a[i] := by simp [List.getD_eq_getElem?_getD, hi]
  have e2 : a.getD j 0 = a[j] := by simp [List.getD_eq_getElem?_getD, hj]
  rw [e1, e2]
  rw [List.count_set _ _ _ _ (by simpa using hj), List.count_set _ _ _ _ hi]
  have p1 : a[i] = x → 0 < List.count x a := fun h =>
    List.count_pos_iff.2 (h ▸ List.getElem_mem hi)
  have p2 : a[j] = x → 0 < List.count x a := fun h =>
    List.count_pos_iff.2 (h ▸ List.getElem_mem hj)
  by_cases hij : i = j
  · subst hij
    simp only [List.getElem_set_self, beq_iff_eq]
    split <;> omega
  · simp only [List.getElem_set_ne hij, beq_iff_eq]
    by_cases h1 : a[i] = x <;> by_cases h2 : a[j] = x <;> simp [h1, h2] <;> omega

namespace parallel_partition

/-- The loop `while (l <= r && *l < pivot) ++l` returns when the fuel exceeds
`r + 1 - l`: the array is as before, the elements passed are below the pivot,
and the element at the final `l`, if `l <= r`, is not. -/
theorem scanLeft_spec (pivot : Int) (r : Int) (fuel : Nat) :
    ∀ (p : parallel_partition) (l : Nat), (l : Int) ≤ r + 1 → r + 1 - l < fuel →
      ∃ q l', scanLeft pivot r fuel p l = some (q, l') ∧
        q.array = p.array ∧ q.N = p.N ∧ l ≤ l' ∧ (l' : Int) ≤ r + 1 ∧
        (∀ j, l ≤ j → j < l' → p.at_ j < pivot) ∧
        ((l' : Int) ≤ r → pivot ≤ p.at_ l') := by
  induction fuel with
  | zero => intro p l h1 h2; omega
  | succ fuel ih =>
    intro p l h1 h2
    unfold scanLeft
    by_cases hlr : (l : Int) ≤ r
    · rw [if_pos hlr]
      by_cases hlt : p.at_ l < pivot
      · rw [if_pos hlt]
        obtain ⟨q, l', e, a1, a2, a3, a4, a5, a6⟩ := ih (p.access l) (l + 1) (by omega) (by omega)
        refine ⟨q, l', e, a1, a2, by omega, a4, ?_, a6⟩
        intro j hj1 hj2
        by_cases hj : j = l
        · rw [hj]; exact hlt
        · exact a5 j (by omega) hj2
      · rw [if_neg hlt]
        exact ⟨_, _, rfl, rfl, rfl, Nat.le_refl l, h1, fun j _ _ => by omega,
          fun _ => Int.not_lt.1 hlt⟩
    · rw [if_neg hlr]
      exact ⟨_, _, rfl, rfl, rfl, Nat.le_refl l, h1, fun j _ _ => by omega,
        fun h => absurd h hlr⟩

/-- The loop `while (l <= r && *r >= pivot) --r` returns when the fuel exceeds
`r + 1 - l`: the array is as before, the elements passed are at least the
pivot, and the element at the final `r`, if `l <= r`, is below it. -/
theorem scanRight_spec (pivot : Int) (l : Nat) (fuel : Nat) :
    ∀ (p : parallel_partition) (r : Int), (l : Int) ≤ r + 1 → r + 1 - l < fuel →
      ∃ q r', scanRight pivot l fuel p r = some (q, r') ∧
        q.array = p.array ∧ q.N = p.N ∧ r' ≤ r ∧ (l : Int) ≤ r' + 1 ∧
        (∀ j : Nat, r' < j → (j : Int) ≤ r → pivot ≤ p.at_ j) ∧
        ((l : Int) ≤ r' → p.at_ r'.toNat < pivot) := by
  induction fuel with
  | zero => intro p r h1 h2; omega
  | succ fuel ih =>
    intro p r h1 h2
    unfold scanRight
    by_cases hlr : (l : Int) ≤ r
    · rw [if_pos hlr]
      by_cases hge : pivot ≤ p.at_ r.toNat
      · rw [if_pos hge]
        obtain ⟨q, r', e, a1, a2, a3, a4, a5, a6⟩ :=
          ih (p.access r.toNat) (r - 1) (by omega) (by omega)
        refine ⟨q, r', e, a1, a2, by omega, a4, ?_, a6⟩
        intro j hj1 hj2
        by_cases hj : (j : Int) = r
        · have : j = r.toNat := by omega
          rw [this]; exact hge
        · exact a5 j hj1 (by omega)
      · rw [if_neg hge]
        exact ⟨_, _, rfl, rfl, rfl, Int.le_refl r, h1, fun j _ _ => by omega,
          fun _ => Int.not_le.1 hge⟩
    · rw [if_neg hlr]
      exact ⟨_, _, rfl, rfl, rfl, Int.le_refl r, h1, fun j _ _ => by omega,
        fun h => absurd h hlr⟩

end parallel_partition

namespace parallel_partition

theorem swap_at (p : parallel_partition) (i j k : Nat) (hi : i < p.array.length)
    (hj : j < p.array.length) :
    (p.swap i j).at_ k = if k = j then p.at_ i else if k = i then p.at_ j else p.at_ k :=
  getD_swap p.array i j k hi hj

theorem swap_perm (p : parallel_partition) (i j : Nat) (hi : i < p.array.length)
    (hj : j < p.array.length) : List.Perm (p.swap i j).array p.array :=
  perm_swap p.array i j hi hj

/-- The loop `while(1)` of `serialPartitioning` from a state in which the
elements of `[begin, l)` are below the pivot and those of `(r, end)` are not:
with enough fuel it returns `mid` in `[begin, end]`, the array partitioned at
`mid`, a permutation of the original, unchanged outside `[begin, end)`. -/
theorem serialLoop_spec (pivot : Int) (inner : Nat) (a0 : List Int) (begin_ end_ : Nat)
    (hend : end_ ≤ a0.length) (hinner : end_ - begin_ < inner) (fuel : Nat) :
    ∀ (p : parallel_partition) (l : Nat) (r : Int), begin_ ≤ l → (l : Int) ≤ r + 1 →
      r + 1 ≤ end_ → r + 1 - l < fuel → List.Perm p.array a0 →
      (∀ j, j < begin_ ∨ end_ ≤ j → p.at_ j = a0.getD j 0) →
      (∀ j, begin_ ≤ j → j < l → p.at_ j < pivot) →
      (∀ j : Nat, r < j → j < end_ → pivot ≤ p.at_ j) →
      ∃ q mid, serialLoop pivot inner fuel p l r = some (q, mid) ∧ q.N = p.N ∧
        begin_ ≤ mid ∧ mid ≤ end_ ∧ List.Perm q.array a0 ∧
        (∀ j, j < begin_ ∨ end_ ≤ j → q.at_ j = a0.getD j 0) ∧
        (∀ j, begin_ ≤ j → j < mid → q.at_ j < pivot) ∧
        (∀ j, mid ≤ j → j < end_ → pivot ≤ q.at_ j) := by
  induction fuel with
  | zero => intro p l r _ h2 _ h4; omega
  | succ fuel ih =>
    intro p l r h1 h2 h3 h4 hperm hout hleft hright
    unfold serialLoop
    obtain ⟨q1, l', e1, a1, a2, a3, a4, a5, a6⟩ :=
      scanLeft_spec pivot r inner p l h2 (by omega)
    rw [e1]
    obtain ⟨q2, r', e2, b1, b2, b3, b4, b5, b6⟩ :=
      scanRight_spec pivot l' inner q1 r a4 (by omega)
    simp only [Option.bind]
    rw [e2]
    simp only []
    have hat1 : ∀ j, q1.at_ j = p.at_ j := fun j => by unfold at_; rw [a1]
    have hat2 : ∀ j, q2.at_ j = p.at_ j := fun j => by unfold at_; rw [b1, a1]
    have hlen : p.array.length = a0.length := hperm.length_eq
    by_cases hbreak : r' < (l' : Int)
    · rw [if_pos hbreak]
      refine ⟨q2, l', rfl, by rw [b2, a2], by omega, by omega, by rw [b1, a1]; exact hperm,
        fun j hj => by rw [hat2]; exact hout j hj, ?_, ?_⟩
      · intro j hj1 hj2
        rw [hat2]
        by_cases hj : j < l
        · exact hleft j hj1 hj
        · exact a5 j (by omega) hj2
      · intro j hj1 hj2
        rw [hat2]
        by_cases hj : (j : Int) ≤ r
        · rw [← hat1]
          exact b5 j (by omega) hj
        · exact hright j (by omega) hj2
    · rw [if_neg hbreak]
      have hlr : (l' : Int) ≤ r' := by omega
      have c1 : pivot ≤ p.at_ l' := a6 (by omega)
      have c2 : p.at_ r'.toNat < pivot := by rw [← hat1]; exact b6 hlr
      have hne : l' ≠ r'.toNat := fun h => by rw [← h] at c2; omega
      have hi : l' < q2.array.length := by rw [b1, a1, hlen]; omega
      have hj : r'.toNat < q2.array.length := by rw [b1, a1, hlen]; omega
      have hsw : ∀ k, (q2.swap l' r'.toNat).at_ k
          = if k = r'.toNat then p.at_ l' else if k = l' then p.at_ r'.toNat else p.at_ k := by
        intro k
        rw [swap_at q2 l' r'.toNat k hi hj, hat2, hat2, hat2]
      obtain ⟨q, mid, e, d1, d2, d3, d4, d5, d6, d7⟩ :=
        ih (q2.swap l' r'.toNat) (l' + 1) (r' - 1) (by omega) (by omega) (by omega) (by omega)
          ((swap_perm q2 l' r'.toNat hi hj).trans (by rw [b1, a1]; exact hperm))
          (fun j hj => by
            rw [hsw, if_neg (by omega), if_neg (by omega)]
            exact hout j hj)
          (fun j hj1 hj2 => by
            rw [hsw, if_neg (by omega)]
            by_cases hjl : j = l'
            · rw [if_pos hjl]; exact c2
            · rw [if_neg hjl]
              by_cases hj : j < l
              · exact hleft j hj1 hj
              · exact a5 j (by omega) (by omega))
          (fun j hj1 hj2 => by
            rw [hsw]
            by_cases hjr : j = r'.toNat
            · rw [if_pos hjr]; exact c1
            · rw [if_neg hjr, if_neg (by omega)]
              by_cases hj : (j : Int) ≤ r
              · rw [← hat1]
                exact b5 j (by omega) hj
              · exact hright j (by omega) hj2)
      exact ⟨q, mid, e, by rw [d1]; show q2.N = p.N; rw [b2, a2], d2, d3, d4, d5, d6, d7⟩

end parallel_partition

namespace parallel_partition

theorem checkLeft_of (p : parallel_partition) (b e : Nat) (pivot : Int)
    (hlen : e ≤ p.array.length) (h : ∀ i, b ≤ i → i < e → p.at_ i < pivot) :
    p.checkLeft b e pivot = true := by
  unfold checkLeft
  rw [List.all_eq_true]
  intro j hj
  have hj' := List.mem_range.1 hj
  have hi : b + j < p.array.length := by omega
  have := h (b + j) (by omega) (by omega)
  unfold at_ at this
  rw [List.getD_eq_getElem?_getD, List.getElem?_eq_getElem hi] at this
  rw [List.getElem?_eq_getElem hi]
  simpa using this

theorem checkRight_of (p : parallel_partition) (b e : Nat) (pivot : Int)
    (hlen : e ≤ p.array.length) (h : ∀ i, b ≤ i → i < e → pivot ≤ p.at_ i) :
    p.checkRight b e pivot = true := by
  unfold checkRight
  rw [List.all_eq_true]
  intro j hj
  have hj' := List.mem_range.1 hj
  have hi : b + j < p.array.length := by omega
  have := h (b + j) (by omega) (by omega)
  unfold at_ at this
  rw [List.getD_eq_getElem?_getD, List.getElem?_eq_getElem hi] at this
  rw [List.getElem?_eq_getElem hi]
  simpa using this

/-- What `serialPartitioning(begin, end, pivot)` does on an array that holds
the range: with fuel above `end - begin` it returns `mid` in `[begin, end]`
with the range partitioned at `mid`, the array a permutation of the original
and unchanged outside the range. -/
theorem serialPartitioning_returns (p : parallel_partition) (begin_ end_ : Nat) (pivot : Int)
    (fuel : Nat) (hbe : begin_ ≤ end_) (hend : end_ ≤ p.array.length)
    (hfuel : end_ - begin_ < fuel) :
    ∃ q mid, p.serialPartitioning begin_ end_ pivot fuel = some (q, mid) ∧ q.N = p.N ∧
      begin_ ≤ mid ∧ mid ≤ end_ ∧ List.Perm q.array p.array ∧
      (∀ j, j < begin_ ∨ end_ ≤ j → q.at_ j = p.at_ j) ∧
      (∀ j, begin_ ≤ j → j < mid → q.at_ j < pivot) ∧
      (∀ j, mid ≤ j → j < end_ → pivot ≤ q.at_ j) := by
  unfold serialPartitioning
  exact serialLoop_spec pivot fuel p.array begin_ end_ hend hfuel fuel p begin_ (end_ - 1)
    (Nat.le_refl _) (by omega) (by omega) (by omega) (List.Perm.refl _) (fun _ _ => rfl)
    (fun j h1 h2 => by omega) (fun j h1 h2 => by omega)

end parallel_partition

/-- C24: on an array of `N` elements and for every `begin <= end <= N`,
`serialPartitioning(begin, end, pivot)` returns (fuel above `end - begin`) an
index `mid` with `begin <= mid <= end` such that all elements in
`[begin, mid)` are below the pivot and all elements in `[mid, end)` are at
least the pivot; the array afterwards is a permutation of the original and is
unchanged outside `[begin, end)`. Consequently `parition(pivot)` with
`N <= SERIAL_THRESHOLD` returns that `mid`, and `checkLeft(0,mid)` and
`checkRight(mid,N)` run through without reaching `FATAL`. -/
theorem serialPartitioning_correct (BLOCK_SIZE : Nat) (p : parallel_partition)
    (begin_ end_ : Nat) (pivot : Int) (indeterminate fuel : Nat)
    (hN : p.N = p.array.length) (hbe : begin_ ≤ end_) (hend : end_ ≤ p.N)
    (hfuel : end_ - begin_ < fuel) :
    (∃ q mid, p.serialPartitioning begin_ end_ pivot fuel = some (q, mid) ∧
      begin_ ≤ mid ∧ mid ≤ end_ ∧
      (∀ j, begin_ ≤ j → j < mid → q.at_ j < pivot) ∧
      (∀ j, mid ≤ j → j < end_ → pivot ≤ q.at_ j) ∧
      List.Perm q.array p.array ∧
      (∀ j, j < begin_ ∨ end_ ≤ j → q.at_ j = p.at_ j)) ∧
    (p.N ≤ parallel_partition.SERIAL_THRESHOLD → p.N < fuel →
      ∃ q mid, p.serialPartitioning 0 p.N pivot fuel = some (q, mid) ∧
        parallel_partition.parition BLOCK_SIZE p pivot indeterminate fuel
          = some ⟨q, mid, true⟩ ∧
        q.checkLeft 0 mid pivot = true ∧ q.checkRight mid q.N pivot = true) := by
  constructor
  · obtain ⟨q, mid, e, -, a1, a2, a3, a4, a5, a6⟩ :=
      parallel_partition.serialPartitioning_returns p begin_ end_ pivot fuel hbe
        (by omega) hfuel
    exact ⟨q, mid, e, a1, a2, a5, a6, a3, a4⟩
  · intro hsmall hf
    obtain ⟨q, mid, e, a0, a1, a2, a3, a4, a5, a6⟩ :=
      parallel_partition.serialPartitioning_returns p 0 p.N pivot fuel (Nat.zero_le _)
        (by omega) (by omega)
    have hlen : q.array.length = p.array.length := a3.length_eq
    have c1 : q.checkLeft 0 mid pivot = true :=
      parallel_partition.checkLeft_of q 0 mid pivot (by omega) a5
    have c2 : q.checkRight mid q.N pivot = true :=
      parallel_partition.checkRight_of q mid q.N pivot (by omega)
        (fun i h1 h2 => a6 i h1 (by omega))
    refine ⟨q, mid, e, ?_, c1, c2⟩
    unfold parallel_partition.parition
    rw [if_pos hsmall, e]
    show some (parallel_partition.Outcome.mk q mid
      (q.checkLeft 0 mid pivot && q.checkRight mid q.N pivot)) = _
    rw [c1, c2]
    rfl

theorem serialPartitioning_correct_witness :
    (∃ q mid, (parallel_partition.create 4 [5, 1, 9, 3, 7, 2, 8] 7).serialPartitioning 1 6 5 8
        = some (q, mid) ∧
      1 ≤ mid ∧ mid ≤ 6 ∧
      (∀ j, 1 ≤ j → j < mid → q.at_ j < 5) ∧
      (∀ j, mid ≤ j → j < 6 → 5 ≤ q.at_ j) ∧
      List.Perm q.array (parallel_partition.create 4 [5, 1, 9, 3, 7, 2, 8] 7).array ∧
      (∀ j, j < 1 ∨ 6 ≤ j →
        q.at_ j = (parallel_partition.create 4 [5, 1, 9, 3, 7, 2, 8] 7).at_ j)) ∧
    ((parallel_partition.create 4 [5, 1, 9, 3, 7, 2, 8] 7).N
        ≤ parallel_partition.SERIAL_THRESHOLD →
      (parallel_partition.create 4 [5, 1, 9, 3, 7, 2, 8] 7).N < 8 →
      ∃ q mid, (parallel_partition.create 4 [5, 1, 9, 3, 7, 2, 8] 7).serialPartitioning 0
          (parallel_partition.create 4 [5, 1, 9, 3, 7, 2, 8] 7).N 5 8 = some (q, mid) ∧
        parallel_partition.parition 4 (parallel_partition.create 4 [5, 1, 9, 3, 7, 2, 8] 7) 5 0 8
          = some ⟨q, mid, true⟩ ∧
        q.checkLeft 0 mid 5 = true ∧ q.checkRight mid q.N 5 = true) :=
  serialPartitioning_correct 4 (parallel_partition.create 4 [5, 1, 9, 3, 7, 2, 8] 7) 1 6 5 0 8
    rfl (by decide) (by decide) (by decide)

/-! ## C25: `neutralizeBlocks` -/

namespace parallel_partition

theorem accessesWithin_refl (p : parallel_partition) (P : Nat → Prop) :
    accessesWithin p p P :=
  ⟨[], by simp, fun i hi => absurd hi (List.not_mem_nil i)⟩

theorem accessesWithin_trans {p q r : parallel_partition} {P : Nat → Prop}
    (h1 : accessesWithin p q P) (h2 : accessesWithin q r P) : accessesWithin p r P := by
  obtain ⟨a, ha, pa⟩ := h1
  obtain ⟨b, hb, pb⟩ := h2
  refine ⟨a ++ b, by rw [hb, ha, List.append_assoc], fun i hi => ?_⟩
  rcases List.mem_append.1 hi with h | h
  · exact pa i h
  · exact pb i h

theorem accessesWithin_mono {p q : parallel_partition} {P Q : Nat → Prop}
    (h : accessesWithin p q P) (hPQ : ∀ i, P i → Q i) : accessesWithin p q Q := by
  obtain ⟨a, ha, pa⟩ := h
  exact ⟨a, ha, fun i hi => hPQ i (pa i hi)⟩

theorem accessesWithin_access (p : parallel_partition) (i : Nat) (P : Nat → Prop) (h : P i) :
    accessesWithin p (p.access i) P :=
  ⟨[i], rfl, fun j hj => by rw [List.mem_singleton.1 hj]; exact h⟩

theorem accessesWithin_swap (p : parallel_partition) (i j : Nat) (P : Nat → Prop) (hi : P i)
    (hj : P j) : accessesWithin p (p.swap i j) P :=
  ⟨[i, j], rfl, fun k hk => by
    rcases List.mem_cons.1 hk with h | h
    · rw [h]; exact hi
    · rw [List.mem_singleton.1 h]; exact hj⟩

/-- The first inner loop of `neutralizeBlocks`, entered with
`left_begin < left_end`: with fuel `left_end - left_begin` it returns, having
read only inside `[left_begin, left_end)`; the elements passed are below the
pivot and the element at the final `left_begin`, if inside, is not. -/
theorem skipLess_spec (pivot : Int) (left_end : Nat) (fuel : Nat) :
    ∀ (p : parallel_partition) (l : Nat), l < left_end → left_end - l ≤ fuel →
      ∃ q l', skipLess pivot left_end fuel p l = some (q, l') ∧
        q.array = p.array ∧ l ≤ l' ∧ l' ≤ left_end ∧
        (∀ j, l ≤ j → j < l' → p.at_ j < pivot) ∧
        (l' < left_end → pivot ≤ p.at_ l') ∧
        accessesWithin p q (fun i => l ≤ i ∧ i < left_end) := by
  induction fuel with
  | zero => intro p l h1 h2; omega
  | succ fuel ih =>
    intro p l h1 h2
    unfold skipLess
    by_cases hlt : p.at_ l < pivot
    · rw [if_pos hlt]
      by_cases hend : l + 1 ≥ left_end
      · rw [if_pos hend]
        refine ⟨_, _, rfl, rfl, by omega, by omega, fun j hj1 hj2 => ?_, fun h => by omega,
          accessesWithin_access p l _ ⟨Nat.le_refl l, h1⟩⟩
        have : j = l := by omega
        rw [this]; exact hlt
      · rw [if_neg hend]
        obtain ⟨q, l', e, a1, a2, a3, a4, a5, a6⟩ :=
          ih (p.access l) (l + 1) (by omega) (by omega)
        refine ⟨q, l', e, a1, by omega, a3, fun j hj1 hj2 => ?_, a5, ?_⟩
        · by_cases hj : j = l
          · rw [hj]; exact hlt
          · exact a4 j (by omega) hj2
        · exact accessesWithin_trans (accessesWithin_access p l _ ⟨Nat.le_refl l, h1⟩)
            (accessesWithin_mono a6 (fun i hi => ⟨by omega, hi.2⟩))
    · rw [if_neg hlt]
      exact ⟨_, _, rfl, rfl, Nat.le_refl l, by omega, fun j _ _ => by omega,
        fun _ => Int.not_lt.1 hlt, accessesWithin_access p l _ ⟨Nat.le_refl l, h1⟩⟩

/-- The second inner loop of `neutralizeBlocks`, entered with
`right_begin < right_end`. -/
theorem skipGreaterEq_spec (pivot : Int) (right_end : Nat) (fuel : Nat) :
    ∀ (p : parallel_partition) (r : Nat), r < right_end → right_end - r ≤ fuel →
      ∃ q r', skipGreaterEq pivot right_end fuel p r = some (q, r') ∧
        q.array = p.array ∧ r ≤ r' ∧ r' ≤ right_end ∧
        (∀ j, r ≤ j → j < r' → pivot ≤ p.at_ j) ∧
        (r' < right_end → p.at_ r' < pivot) ∧
        accessesWithin p q (fun i => r ≤ i ∧ i < right_end) := by
  induction fuel with
  | zero => intro p r h1 h2; omega
  | succ fuel ih =>
    intro p r h1 h2
    unfold skipGreaterEq
    by_cases hge : pivot ≤ p.at_ r
    · rw [if_pos hge]
      by_cases hend : r + 1 ≥ right_end
      · rw [if_pos hend]
        refine ⟨_, _, rfl, rfl, by omega, by omega, fun j hj1 hj2 => ?_, fun h => by omega,
          accessesWithin_access p r _ ⟨Nat.le_refl r, h1⟩⟩
        have : j = r := by omega
        rw [this]; exact hge
      · rw [if_neg hend]
        obtain ⟨q, r', e, a1, a2, a3, a4, a5, a6⟩ :=
          ih (p.access r) (r + 1) (by omega) (by omega)
        refine ⟨q, r', e, a1, by omega, a3, fun j hj1 hj2 => ?_, a5, ?_⟩
        · by_cases hj : j = r
          · rw [hj]; exact hge
          · exact a4 j (by omega) hj2
        · exact accessesWithin_trans (accessesWithin_access p r _ ⟨Nat.le_refl r, h1⟩)
            (accessesWithin_mono a6 (fun i hi => ⟨by omega, hi.2⟩))
    · rw [if_neg hge]
      exact ⟨_, _, rfl, rfl, Nat.le_refl r, by omega, fun j _ _ => by omega,
        fun _ => Int.not_le.1 hge, accessesWithin_access p r _ ⟨Nat.le_refl r, h1⟩⟩

end parallel_partition

namespace parallel_partition

/-- The outer loop of `neutralizeBlocks` from a state in which the elements of
the left range before `left_begin` are below the pivot and those of the right
range before `right_begin` are not: with enough fuel it returns with one of
the ranges used up, having accessed the array only inside the two ranges. -/
theorem neutralizeLoop_spec (pivot : Int) (a0 : List Int) (lb0 le rb0 re inner : Nat)
    (hdisj : ∀ i, lb0 ≤ i → i < le → rb0 ≤ i → i < re → False)
    (hlen : le ≤ a0.length) (hrlen : re ≤ a0.length)
    (hinner : (le - lb0) + (re - rb0) ≤ inner) (fuel : Nat) :
    ∀ (p : parallel_partition) (lb rb : Nat), lb0 ≤ lb → lb ≤ le → rb0 ≤ rb → rb ≤ re →
      (le - lb) + (re - rb) < fuel → List.Perm p.array a0 →
      (∀ j, lb0 ≤ j → j < lb → p.at_ j < pivot) →
      (∀ j, rb0 ≤ j → j < rb → pivot ≤ p.at_ j) →
      ∃ q lb' rb', neutralizeLoop pivot le re inner fuel p lb rb = some (q, lb', rb') ∧
        lb ≤ lb' ∧ lb' ≤ le ∧ rb ≤ rb' ∧ rb' ≤ re ∧ (lb' = le ∨ rb' = re) ∧
        List.Perm q.array a0 ∧
        (∀ j, lb0 ≤ j → j < lb' → q.at_ j < pivot) ∧
        (∀ j, rb0 ≤ j → j < rb' → pivot ≤ q.at_ j) ∧
        accessesWithin p q (fun i => (lb0 ≤ i ∧ i < le) ∨ (rb0 ≤ i ∧ i < re)) := by
  induction fuel with
  | zero => intro p lb rb _ _ _ _ h; omega
  | succ fuel ih =>
    intro p lb rb h1 h2 h3 h4 hfuel hperm hleft hright
    unfold neutralizeLoop
    by_cases hc : lb < le ∧ rb < re
    · rw [if_pos hc]
      obtain ⟨q1, l', e1, a1, a2, a3, a4, a5, a6⟩ :=
        skipLess_spec pivot le inner p lb hc.1 (by omega)
      rw [e1]
      obtain ⟨q2, r', e2, b1, b2, b3, b4, b5, b6⟩ :=
        skipGreaterEq_spec pivot re inner q1 rb hc.2 (by omega)
      simp only [Option.bind]
      rw [e2]
      simp only []
      have hat1 : ∀ j, q1.at_ j = p.at_ j := fun j => by unfold at_; rw [a1]
      have hat2 : ∀ j, q2.at_ j = p.at_ j := fun j => by unfold at_; rw [b1, a1]
      have hlen0 : p.array.length = a0.length := hperm.length_eq
      have hacc : accessesWithin p q2 (fun i => (lb0 ≤ i ∧ i < le) ∨ (rb0 ≤ i ∧ i < re)) :=
        accessesWithin_trans
          (accessesWithin_mono a6 (fun i hi => Or.inl ⟨by omega, hi.2⟩))
          (accessesWithin_mono b6 (fun i hi => Or.inr ⟨by omega, hi.2⟩))
      have hl : ∀ j, lb0 ≤ j → j < l' → p.at_ j < pivot := fun j hj1 hj2 => by
        by_cases hj : j < lb
        · exact hleft j hj1 hj
        · exact a4 j (by omega) hj2
      have hr : ∀ j, rb0 ≤ j → j < r' → pivot ≤ p.at_ j := fun j hj1 hj2 => by
        by_cases hj : j < rb
        · exact hright j hj1 hj
        · rw [← hat1]
          exact b4 j (by omega) hj2
      by_cases hb : l' = le ∨ r' = re
      · rw [if_pos hb]
        exact ⟨q2, l', r', rfl, a2, a3, b2, b3, hb, by rw [b1, a1]; exact hperm,
          fun j hj1 hj2 => by rw [hat2]; exact hl j hj1 hj2,
          fun j hj1 hj2 => by rw [hat2]; exact hr j hj1 hj2, hacc⟩
      · rw [if_neg hb]
        have hl' : l' < le := by omega
        have hr' : r' < re := by omega
        have c1 : pivot ≤ p.at_ l' := a5 hl'
        have c2 : p.at_ r' < pivot := by rw [← hat1]; exact b5 hr'
        have hi : l' < q2.array.length := by rw [b1, a1, hlen0]; omega
        have hj : r' < q2.array.length := by rw [b1, a1, hlen0]; omega
        have hsw : ∀ k, (q2.swap l' r').at_ k
            = if k = r' then p.at_ l' else if k = l' then p.at_ r' else p.at_ k := by
          intro k
          rw [swap_at q2 l' r' k hi hj, hat2, hat2, hat2]
        obtain ⟨q, lb', rb', e, d1, d2, d3, d4, d5, d6, d7, d8, d9⟩ :=
          ih (q2.swap l' r') (l' + 1) (r' + 1) (by omega) (by omega) (by omega) (by omega)
            (by omega)
            ((swap_perm q2 l' r' hi hj).trans (by rw [b1, a1]; exact hperm))
            (fun j hj1 hj2 => by
              have hne : j ≠ r' := fun h => hdisj j hj1 (by omega) (by omega) (by omega)
              rw [hsw, if_neg hne]
              by_cases hjl : j = l'
              · rw [if_pos hjl]; exact c2
              · rw [if_neg hjl]; exact hl j hj1 (by omega))
            (fun j hj1 hj2 => by
              have hne : j ≠ l' := fun h => hdisj j (by omega) (by omega) hj1 (by omega)
              rw [hsw]
              by_cases hjr : j = r'
              · rw [if_pos hjr]; exact c1
              · rw [if_neg hjr, if_neg hne]; exact hr j hj1 (by omega))
        exact ⟨q, lb', rb', e, by omega, d2, by omega, d4, d5, d6, d7, d8,
          accessesWithin_trans hacc (accessesWithin_trans
            (accessesWithin_swap q2 l' r' _ (Or.inl ⟨by omega, hl'⟩) (Or.inr ⟨by omega, hr'⟩))
            d9)⟩
    · rw [if_neg hc]
      exact ⟨p, lb, rb, rfl, Nat.le_refl _, h2, Nat.le_refl _, h4, by omega, hperm, hleft,
        hright, accessesWithin_refl p _⟩

end parallel_partition

/-- C25: `neutralizeBlocks`, called with `left_begin <= left_end` and
`right_begin <= right_end`, the two ranges disjoint and inside the array,
terminates (fuel above the total length of the ranges) with every array access
inside the two ranges and returns a mode different from 0: the
`NEED_LEFT_BLOCK` bit is set iff `left_begin == left_end` on exit and the
`NEED_RIGHT_BLOCK` bit iff `right_begin == right_end`; on exit every element
of the left range before the final `left_begin` is below the pivot, every
element of the right range before the final `right_begin` is at least the
pivot, and the array is a permutation of its original contents. -/
theorem neutralizeBlocks_correct (p : parallel_partition)
    (left_begin left_end right_begin right_end : Nat) (pivot : Int) (fuel : Nat)
    (hl : left_begin ≤ left_end) (hr : right_begin ≤ right_end)
    (hdisj : ∀ i, left_begin ≤ i → i < left_end → right_begin ≤ i → i < right_end → False)
    (hlen : left_end ≤ p.array.length) (hrlen : right_end ≤ p.array.length)
    (hfuel : (left_end - left_begin) + (right_end - right_begin) < fuel) :
    ∃ q lb rb mode,
      p.neutralizeBlocks left_begin left_end right_begin right_end pivot fuel
        = some (q, lb, rb, mode) ∧
      parallel_partition.accessesWithin p q
        (fun i => (left_begin ≤ i ∧ i < left_end) ∨ (right_begin ≤ i ∧ i < right_end)) ∧
      mode ≠ 0 ∧
      (parallel_partition.needLeftBlock mode = true ↔ lb = left_end) ∧
      (parallel_partition.needRightBlock mode = true ↔ rb = right_end) ∧
      left_begin ≤ lb ∧ lb ≤ left_end ∧ right_begin ≤ rb ∧ rb ≤ right_end ∧
      (∀ j, left_begin ≤ j → j < lb → q.at_ j < pivot) ∧
      (∀ j, right_begin ≤ j → j < rb → pivot ≤ q.at_ j) ∧
      List.Perm q.array p.array := by
  obtain ⟨q, lb, rb, e, a1, a2, a3, a4, a5, a6, a7, a8, a9⟩ :=
    parallel_partition.neutralizeLoop_spec pivot p.array left_begin left_end right_begin
      right_end fuel hdisj hlen hrlen (by omega) fuel p left_begin right_begin (Nat.le_refl _)
      hl (Nat.le_refl _) hr hfuel (List.Perm.refl _) (fun j _ _ => by omega)
      (fun j _ _ => by omega)
  refine ⟨q, lb, rb, (if lb = left_end then parallel_partition.NEED_LEFT_BLOCK else 0)
    + (if rb = right_end then parallel_partition.NEED_RIGHT_BLOCK else 0),
    ?_, a9, ?_, ?_, ?_, a1, a2, a3, a4, a7, a8, a6⟩
  · unfold parallel_partition.neutralizeBlocks
    rw [e]
    rfl
  · by_cases c1 : lb = left_end <;> by_cases c2 : rb = right_end <;>
      simp [c1, c2, parallel_partition.NEED_LEFT_BLOCK, parallel_partition.NEED_RIGHT_BLOCK]
    omega
  · by_cases c1 : lb = left_end <;> by_cases c2 : rb = right_end <;>
      simp [c1, c2, parallel_partition.NEED_LEFT_BLOCK, parallel_partition.NEED_RIGHT_BLOCK,
        parallel_partition.needLeftBlock]
  · by_cases c1 : lb = left_end <;> by_cases c2 : rb = right_end <;>
      simp [c1, c2, parallel_partition.NEED_LEFT_BLOCK, parallel_partition.NEED_RIGHT_BLOCK,
        parallel_partition.needRightBlock]

theorem neutralizeBlocks_correct_witness :
    ∃ q lb rb mode,
      (parallel_partition.create 4 [1, 20, 2, 21, 22, 3, 23, 4] 8).neutralizeBlocks 0 4 4 8 10 9
        = some (q, lb, rb, mode) ∧
      parallel_partition.accessesWithin (parallel_partition.create 4 [1, 20, 2, 21, 22, 3, 23, 4] 8)
        q (fun i => (0 ≤ i ∧ i < 4) ∨ (4 ≤ i ∧ i < 8)) ∧
      mode ≠ 0 ∧
      (parallel_partition.needLeftBlock mode = true ↔ lb = 4) ∧
      (parallel_partition.needRightBlock mode = true ↔ rb = 8) ∧
      0 ≤ lb ∧ lb ≤ 4 ∧ 4 ≤ rb ∧ rb ≤ 8 ∧
      (∀ j, 0 ≤ j → j < lb → q.at_ j < 10) ∧
      (∀ j, 4 ≤ j → j < rb → 10 ≤ q.at_ j) ∧
      List.Perm q.array (parallel_partition.create 4 [1, 20, 2, 21, 22, 3, 23, 4] 8).array :=
  neutralizeBlocks_correct (parallel_partition.create 4 [1, 20, 2, 21, 22, 3, 23, 4] 8) 0 4 4 8 10 9
    (by decide) (by decide) (fun i _ h2 h3 _ => absurd h3 (Nat.not_le_of_lt h2))
    (by decide) (by decide) (by decide)

end Embree
